import Mathlib

/-!
# Avian bytecode interpreter: tagged stack buffer, frame machine, exception unwinding

A shallow embedding of `src/interpret.cpp` (and the parts of `src/machine.h` it relies on).

Conventions of the embedding

* `unsigned` / `uint32_t` values are natural numbers reduced modulo `U32 = 2^32` at every
  arithmetic step the C++ code performs on them; `int` values are integers, converted with
  `toUnsigned` / `toInt` where the C++ code converts implicitly.
* `object` references are natural numbers, `0` being the null reference.
* `t->stack` is a map from word index to word; slot `i` is the word pair `(2i, 2i+1)`.  The
  C++ array ends at `StackSizeInWords`; the map does not, so statements about slots of the
  real stack carry the bound that keeps them inside the array.
* `assert(t, c)` is the checking build (`NDEBUG` not defined, see `machine.h`): a failed
  assertion aborts.  An aborted run is reported as `Outcome.aborted` together with the thread
  state at the moment of the abort.
* `float` and `double` values are represented by their IEEE bit patterns, so `floatToBits`
  and `doubleToBits` are the identity.
* An arm of the dispatch `switch` ends in a `Step`.  Signed arithmetic wraps around; a C++
  expression on which the language defines no result and the processors disagree (a division
  by zero, the quotient `INT32_MIN / -1`, a shift count outside `0..31`) ends the arm in
  `Step.undefined`.
* Loops are bounded by a `fuel` argument; their results are proved for every sufficient bound.
-/

namespace Avian

/-- The modulus of `unsigned` arithmetic. -/
def U32 : Nat := 4294967296

/-- Reduction of an arithmetic result to `unsigned`. -/
def u32 (n : Nat) : Nat := n % U32

/-- Conversion `int → unsigned`. -/
def toUnsigned (i : Int) : Nat := (i % 4294967296).toNat

/-- Conversion `unsigned → int` (two's complement). -/
def toInt (n : Nat) : Int :=
  if n % U32 < 2147483648 then ((n % U32 : Nat) : Int) else ((n % U32 : Nat) : Int) - 4294967296

/-- Values of `enum StackTag` in `machine.h`. -/
def IntTag : Nat := 0

/-- Second value of `enum StackTag`. -/
def ObjectTag : Nat := 1

def FrameBaseOffset : Nat := 0
def FrameNextOffset : Nat := 1
def FrameMethodOffset : Nat := 2
def FrameIpOffset : Nat := 3
def FrameFootprint : Nat := 4

/-- Method access flags of the class-file format (`constants.h`). -/
def ACC_STATIC : Nat := 8

/-- Class-file flag `ACC_SYNCHRONIZED`. -/
def ACC_SYNCHRONIZED : Nat := 32

/-- Class-file flag `ACC_NATIVE`. -/
def ACC_NATIVE : Nat := 256

/-- The flag `ClassInitFlag = 1 << 0` of `machine.h`. -/
def ClassInitFlag : Nat := 1

/-- An entry of a code object's exception handler table. -/
structure ExceptionHandler where
  start : Nat
  end_ : Nat
  ip : Nat
  catchType : Nat
deriving DecidableEq, Repr

/-- Result of `findExceptionHandler`: null, or a pointer to the entry at position `index` of
the handler table, whose contents are `handler`. -/
inductive HandlerRef where
  | null
  | entry (index : Nat) (handler : ExceptionHandler)
deriving DecidableEq, Repr

/-- An entry of a constant pool, as far as class resolution is concerned: either a symbolic
reference (an object of type `Machine::ReferenceType`, carrying the class name) or any other
object (in particular an already resolved class). -/
inductive PoolEntry where
  | reference (name : Nat)
  | resolved (o : Nat)
deriving DecidableEq, Repr

/-- Calls into the runtime that the interpreter makes and whose effect lies outside the
interpreter state: monitor operations and the post-initialisation hook. -/
inductive Event where
  | acquire (o : Nat)
  | release (o : Nat)
  | postInitClass (c : Nat)
deriving DecidableEq, Repr

/-- The interpreter's `Thread` (with `vm::Thread::exception`), the constant pools it resolves
into, and the trace of runtime calls made so far (most recent first). -/
structure Thread where
  ip : Nat
  sp : Nat
  frame : Int
  code : Nat
  exception : Nat
  classInitList : List Nat
  stack : Nat → Nat
  pool : Nat → Nat → PoolEntry
  trace : List Event

/-- Result of `resolveClass`: the class found, or the error it leaves in `t->exception`
(returning null). -/
inductive Resolution where
  | found (class_ : Nat)
  | failed (error : Nat)
deriving DecidableEq, Repr

/-- Build constants and the heap accessors and runtime collaborators that are declared
outside the two source files. -/
structure Machine where
  BytesPerWord : Nat
  methodParameterFootprint : Nat → Nat
  methodFlags : Nat → Nat
  methodVmFlags : Nat → Nat
  methodCode : Nat → Nat
  methodClass : Nat → Nat
  codeMaxLocals : Nat → Nat
  codeMaxStack : Nat → Nat
  codePool : Nat → Nat
  codeExceptionHandlerTable : Nat → Option (List ExceptionHandler)
  classLoader : Nat → Nat
  resolveClass : Nat → Nat → Resolution
  instanceOf : Nat → Nat → Bool
  codeBody : Nat → Nat → Nat
  traceArray : Thread → Nat
  makeStackOverflowError : Nat → Nat → Nat → Nat
  makeNullPointerException : Nat → Nat → Nat → Nat

/-- How a call that may hit a failed assertion ends. -/
inductive Outcome (α : Type) where
  | done (val : α) (t : Thread)
  | aborted (t : Thread)

/-- The thread state in which a call ended. -/
def Outcome.thread {α : Type} : Outcome α → Thread
  | .done _ t => t
  | .aborted t => t

/-- Whether the call ran to completion. -/
def Outcome.isDone {α : Type} : Outcome α → Bool
  | .done _ _ => true
  | .aborted _ => false

/-- The constant `Thread::StackSizeInBytes`. -/
def StackSizeInBytes : Nat := 64 * 1024

/-- The constant `Thread::StackSizeInWords`. -/
def StackSizeInWords (m : Machine) : Nat := StackSizeInBytes / m.BytesPerWord

/-- Assignment `stack[i] = v`. -/
def setWord (s : Nat → Nat) (i v : Nat) : Nat → Nat :=
  fun j => if j = i then v else s j

/-- Tag word of slot `i`. -/
def Thread.tag (t : Thread) (i : Nat) : Nat := t.stack (2 * i)

/-- Value word of slot `i`. -/
def Thread.value (t : Thread) (i : Nat) : Nat := t.stack (2 * i + 1)

def pushObject (m : Machine) (t : Thread) (o : Nat) : Outcome Unit :=
  if u32 (t.sp + 1) < StackSizeInWords m / 2 then
    .done () { t with
      stack := setWord (setWord t.stack (u32 (t.sp * 2)) ObjectTag) (u32 (u32 (t.sp * 2) + 1)) o
      sp := u32 (t.sp + 1) }
  else .aborted t

def pushInt (m : Machine) (t : Thread) (v : Nat) : Outcome Unit :=
  if u32 (t.sp + 1) < StackSizeInWords m / 2 then
    .done () { t with
      stack := setWord (setWord t.stack (u32 (t.sp * 2)) IntTag) (u32 (u32 (t.sp * 2) + 1))
        (u32 v)
      sp := u32 (t.sp + 1) }
  else .aborted t

def pushFloat (m : Machine) (t : Thread) (bits : Nat) : Outcome Unit :=
  pushInt m t bits

def pushLong (m : Machine) (t : Thread) (v : Nat) : Outcome Unit :=
  match pushInt m t (v >>> 32) with
  | .done _ t1 => pushInt m t1 (v &&& 0xFFFFFFFF)
  | .aborted t1 => .aborted t1

def pushDouble (m : Machine) (t : Thread) (bits : Nat) : Outcome Unit :=
  pushLong m t bits

def popObject (t : Thread) : Outcome Nat :=
  if t.stack (u32 (u32 (t.sp + U32 - 1) * 2)) = ObjectTag then
    .done (t.stack (u32 (u32 (u32 (t.sp + U32 - 1) * 2) + 1))) { t with sp := u32 (t.sp + U32 - 1) }
  else .aborted t

def popInt (t : Thread) : Outcome Nat :=
  if t.stack (u32 (u32 (t.sp + U32 - 1) * 2)) = IntTag then
    .done (u32 (t.stack (u32 (u32 (u32 (t.sp + U32 - 1) * 2) + 1))))
      { t with sp := u32 (t.sp + U32 - 1) }
  else .aborted t

def popLong (t : Thread) : Outcome Nat :=
  match popInt t with
  | .done a t1 =>
    match popInt t1 with
    | .done b t2 => .done ((b <<< 32) ||| a) t2
    | .aborted t2 => .aborted t2
  | .aborted t1 => .aborted t1

def peekObject (m : Machine) (t : Thread) (index : Nat) : Outcome Nat :=
  if index < StackSizeInWords m / 2 then
    if t.stack (u32 (index * 2)) = ObjectTag then .done (t.stack (u32 (index * 2) + 1)) t
    else .aborted t
  else .aborted t

def peekInt (m : Machine) (t : Thread) (index : Nat) : Outcome Nat :=
  if index < StackSizeInWords m / 2 then
    if t.stack (u32 (index * 2)) = IntTag then
      .done (u32 (t.stack (u32 (u32 (index * 2) + 1)))) t
    else .aborted t
  else .aborted t

def peekLong (m : Machine) (t : Thread) (index : Nat) : Outcome Nat :=
  match peekInt m t index with
  | .done hi t1 =>
    match peekInt m t1 (u32 (index + 1)) with
    | .done lo t2 => .done ((hi <<< 32) ||| lo) t2
    | .aborted t2 => .aborted t2
  | .aborted t1 => .aborted t1

def pokeObject (t : Thread) (index value : Nat) : Thread :=
  { t with
    stack := setWord (setWord t.stack (u32 (index * 2)) ObjectTag)
      (u32 (u32 (index * 2) + 1)) value }

def pokeInt (t : Thread) (index value : Nat) : Thread :=
  { t with
    stack := setWord (setWord t.stack (u32 (index * 2)) IntTag)
      (u32 (u32 (index * 2) + 1)) (u32 value) }

def pokeLong (t : Thread) (index value : Nat) : Thread :=
  pokeInt (pokeInt t index (value >>> 32)) (u32 (index + 1)) (value &&& 0xFFFFFFFF)

/-! ## Frame machine -/

def frameNext (m : Machine) (t : Thread) (frame : Int) : Outcome Int :=
  match peekInt m t (u32 (toUnsigned frame + FrameNextOffset)) with
  | .done v t1 => .done (toInt v) t1
  | .aborted t1 => .aborted t1

def frameMethod (m : Machine) (t : Thread) (frame : Int) : Outcome Nat :=
  peekObject m t (u32 (toUnsigned frame + FrameMethodOffset))

def frameIp (m : Machine) (t : Thread) (frame : Int) : Outcome Nat :=
  peekInt m t (u32 (toUnsigned frame + FrameIpOffset))

def frameBase (m : Machine) (t : Thread) (frame : Int) : Outcome Nat :=
  peekInt m t (u32 (toUnsigned frame + FrameBaseOffset))

/-- The call `memset(stack + start, 0, bytes)`: the words wholly covered by the `bytes` bytes
from word `start` on become zero (`bytes` is a multiple of the word size whenever the word
size is a power of two). -/
def memsetZero (m : Machine) (s : Nat → Nat) (start bytes : Nat) : Nat → Nat :=
  fun j => if start ≤ j ∧ j < start + bytes / m.BytesPerWord then 0 else s j

/-- The monitor operation `acquire(t, o)`, recorded in the trace. -/
def acquire (t : Thread) (o : Nat) : Thread :=
  { t with trace := Event.acquire o :: t.trace }

/-- The monitor operation `release(t, o)`, recorded in the trace. -/
def release (t : Thread) (o : Nat) : Thread :=
  { t with trace := Event.release o :: t.trace }

/-- The runtime hook `postInitClass(t, c)`, recorded in the trace. -/
def postInitClass (t : Thread) (c : Nat) : Thread :=
  { t with trace := Event.postInitClass c :: t.trace }

/-- The part of `pushFrame` that precedes the monitor acquisition: the caller's `ip` is saved,
the locals are cleared and the four frame slots are written. -/
def pushFrameLayout (m : Machine) (t : Thread) (method : Nat) : Thread :=
  let t1 := if t.frame ≥ 0 then pokeInt t (u32 (toUnsigned t.frame + FrameIpOffset)) t.ip else t
  let t2 := { t1 with ip := 0 }
  let parameterFootprint := u32 (m.methodParameterFootprint method)
  let base := u32 (t2.sp + U32 - parameterFootprint)
  let native := m.methodFlags method &&& ACC_NATIVE
  let locals :=
    if native = 0 then u32 (m.codeMaxLocals (m.methodCode method)) else parameterFootprint
  let t3 :=
    if native = 0 then
      { t2 with
        code := m.methodCode method
        stack := memsetZero m t2.stack (u32 (u32 (base + parameterFootprint) * 2))
          (u32 (u32 (u32 (locals + U32 - parameterFootprint) * m.BytesPerWord) * 2)) }
    else t2
  let frame := u32 (base + locals)
  let t4 := pokeInt t3 (u32 (frame + FrameNextOffset)) (toUnsigned t3.frame)
  let t5 := { t4 with frame := toInt frame }
  let t6 := { t5 with sp := u32 (frame + FrameFootprint) }
  let t7 := pokeInt t6 (u32 (frame + FrameBaseOffset)) base
  let t8 := pokeObject t7 (u32 (frame + FrameMethodOffset)) method
  pokeInt t8 (u32 (toUnsigned t8.frame + FrameIpOffset)) 0

def pushFrame (m : Machine) (t : Thread) (method : Nat) : Outcome Unit :=
  let t9 := pushFrameLayout m t method
  let base := u32 (t.sp + U32 - u32 (m.methodParameterFootprint method))
  if m.methodFlags method &&& ACC_SYNCHRONIZED ≠ 0 then
    if m.methodFlags method &&& ACC_STATIC ≠ 0 then
      .done () (acquire t9 (m.methodClass method))
    else
      match peekObject m t9 base with
      | .done o t10 => .done () (acquire t10 o)
      | .aborted t10 => .aborted t10
  else .done () t9

/-- The monitor release at the head of `popFrame`. -/
def popFrameRelease (m : Machine) (t : Thread) (method : Nat) : Outcome Unit :=
  if m.methodFlags method &&& ACC_SYNCHRONIZED ≠ 0 then
    if m.methodFlags method &&& ACC_STATIC ≠ 0 then
      .done () (release t (m.methodClass method))
    else
      match frameBase m t t.frame with
      | .done b t1 =>
        match peekObject m t1 b with
        | .done o t2 => .done () (release t2 o)
        | .aborted t2 => .aborted t2
      | .aborted t1 => .aborted t1
  else .done () t

/-- The class-initialisation bookkeeping of `popFrame`. -/
def popFrameClassInit (m : Machine) (t : Thread) (method : Nat) : Outcome Unit :=
  if m.methodVmFlags method &&& ClassInitFlag ≠ 0 then
    match t.classInitList with
    | [] => .done () t
    | c :: rest =>
      if c = m.methodClass method then
        .done () (postInitClass { t with classInitList := rest } (m.methodClass method))
      else .aborted t
  else .done () t

/-- The tail of `popFrame`: restore `sp`, `frame`, `code` and `ip`. -/
def popFrameRestore (m : Machine) (t : Thread) : Outcome Unit :=
  match frameBase m t t.frame with
  | .aborted t1 => .aborted t1
  | .done b t1 =>
    let t2 := { t1 with sp := b }
    match frameNext m t2 t2.frame with
    | .aborted t3 => .aborted t3
    | .done n t3 =>
      let t4 := { t3 with frame := n }
      if t4.frame ≥ 0 then
        match frameMethod m t4 t4.frame with
        | .aborted t5 => .aborted t5
        | .done method t5 =>
          let t6 := { t5 with code := m.methodCode method }
          match frameIp m t6 t6.frame with
          | .aborted t7 => .aborted t7
          | .done i t7 => .done () { t7 with ip := i }
      else .done () { t4 with code := 0, ip := 0 }

def popFrame (m : Machine) (t : Thread) : Outcome Unit :=
  match frameMethod m t t.frame with
  | .aborted t1 => .aborted t1
  | .done method t1 =>
    match popFrameRelease m t1 method with
    | .aborted t2 => .aborted t2
    | .done _ t2 =>
      match popFrameClassInit m t2 method with
      | .aborted t3 => .aborted t3
      | .done _ t3 => popFrameRestore m t3

/-- The method `MyProcessor::walkStack` as far as it changes the thread: the live `ip` is
flushed to the save slot of the current frame; the walk itself only reads frames. -/
def walkStack (t : Thread) : Thread :=
  if t.frame ≥ 0 then pokeInt t (u32 (toUnsigned t.frame + FrameIpOffset)) t.ip else t

/-- Modelled from the spec: `makeTrace(t, target)` is declared in `machine.h` and defined
outside the two source files.  Constructing an exception "attaches a current stack trace
(snapshot of method/IP per frame)"; the frames of a thread are reached through
`Processor::walkStack`, the only source of a `StackWalker`, which flushes the live `ip` to the
current frame's save slot before iterating the frames.  The trace array itself is a heap
object supplied by the runtime. -/
def makeTrace (m : Machine) (t : Thread) : Nat × Thread :=
  (m.traceArray (walkStack t), walkStack t)

/-- The inline `makeStackOverflowError(t)` of `machine.h`. -/
def makeStackOverflowError (m : Machine) (t : Thread) : Nat × Thread :=
  (m.makeStackOverflowError 0 (makeTrace m t).1 0, (makeTrace m t).2)

/-- The inline `makeNullPointerException(t)` of `machine.h`. -/
def makeNullPointerException (m : Machine) (t : Thread) : Nat × Thread :=
  (m.makeNullPointerException 0 (makeTrace m t).1 0, (makeTrace m t).2)

def checkStack (m : Machine) (t : Thread) (method : Nat) : Thread :=
  if u32 (u32 (u32 (u32 (t.sp + m.methodParameterFootprint method)
      + m.codeMaxLocals (m.methodCode method)) + FrameFootprint)
      + m.codeMaxStack (m.methodCode method)) > StackSizeInWords m / 2 then
    { (makeStackOverflowError m t).2 with exception := (makeStackOverflowError m t).1 }
  else t

/-! ## Exception handler lookup -/

/-- Assignment of a constant-pool entry:
`set(t, pool, SingletonBody + index * BytesPerWord, o)`. -/
def setPool (p : Nat → Nat → PoolEntry) (pool index : Nat) (e : PoolEntry) :
    Nat → Nat → PoolEntry :=
  fun q i => if q = pool ∧ i = index then e else p q i

/-- The four-argument `resolveClassInPool(t, loader, method, index)`. -/
def resolveClassInPoolWith (m : Machine) (t : Thread) (loader method index : Nat) :
    Nat × Thread :=
  match t.pool (m.codePool (m.methodCode method)) index with
  | .reference name =>
    match m.resolveClass loader name with
    | .found c =>
      if t.exception ≠ 0 then (0, t)
      else (c, { t with
        pool := setPool t.pool (m.codePool (m.methodCode method)) index (.resolved c) })
    | .failed x =>
      if x ≠ 0 then (0, { t with exception := x })
      else (0, { t with
        exception := x
        pool := setPool t.pool (m.codePool (m.methodCode method)) index (.resolved 0) })
  | .resolved o => (o, t)

def resolveClassInPool (m : Machine) (t : Thread) (method index : Nat) : Nat × Thread :=
  resolveClassInPoolWith m t (m.classLoader (m.methodClass method)) method index

/-- The loop of `findExceptionHandler(t, method, ip)` from table position `i` on, `table`
being the entries at positions `i, i + 1, ...`. -/
def findExceptionHandlerLoop (m : Machine) (method ip : Nat) :
    List ExceptionHandler → Nat → Thread → HandlerRef × Thread
  | [], _, t => (.null, t)
  | eh :: rest, i, t =>
    if u32 (ip + U32 - 1) ≥ eh.start ∧ u32 (ip + U32 - 1) < eh.end_ then
      if eh.catchType ≠ 0 then
        let e := t.exception
        let r := resolveClassInPool m { t with exception := 0 } method (u32 (eh.catchType - 1))
        if r.1 ≠ 0 then
          let t3 := { r.2 with exception := e }
          if m.instanceOf r.1 t3.exception then (.entry i eh, t3)
          else findExceptionHandlerLoop m method ip rest (i + 1) t3
        else findExceptionHandlerLoop m method ip rest (i + 1) r.2
      else (.entry i eh, t)
    else findExceptionHandlerLoop m method ip rest (i + 1) t

def findExceptionHandler (m : Machine) (t : Thread) (method ip : Nat) : HandlerRef × Thread :=
  match m.codeExceptionHandlerTable (m.methodCode method) with
  | some eht => findExceptionHandlerLoop m method ip eht 0 t
  | none => (.null, t)

/-- The overload `findExceptionHandler(t, frame)`. -/
def findExceptionHandlerInFrame (m : Machine) (t : Thread) (frame : Int) :
    Outcome HandlerRef :=
  match frameMethod m t frame with
  | .aborted t1 => .aborted t1
  | .done method t1 =>
    match frameIp m t1 frame with
    | .aborted t2 => .aborted t2
    | .done ip t2 => .done (findExceptionHandler m t2 method ip).1
        (findExceptionHandler m t2 method ip).2

/-! ## The exception path of `interpret` -/

/-- How the code at label `throw_` ends. -/
inductive ThrowResult where
  | resume (t : Thread)
  | returnNull (t : Thread)
  | aborted (t : Thread)
  | outOfFuel (t : Thread)

/-- The `for (; frame >= base; popFrame(t))` loop at label `throw_`; `fuel` bounds the number
of iterations. -/
def throwLoop (m : Machine) (base : Int) : Nat → Thread → ThrowResult
  | 0, t => .outOfFuel t
  | fuel + 1, t =>
    if t.frame ≥ base then
      match findExceptionHandlerInFrame m t t.frame with
      | .aborted t1 => .aborted t1
      | .done (.entry _ eh) t1 =>
        let t2 := { t1 with sp := u32 (toUnsigned t1.frame + FrameFootprint) }
        let t3 := { t2 with ip := eh.ip }
        match pushObject m t3 t3.exception with
        | .aborted t4 => .aborted t4
        | .done _ t4 => .resume { t4 with exception := 0 }
      | .done .null t1 =>
        match popFrame m t1 with
        | .aborted t2 => .aborted t2
        | .done _ t2 => throwLoop m base fuel t2
    else .returnNull t

/-- The code at label `throw_` of `interpret`, `base` being the frame on entry. -/
def throw_ (m : Machine) (base : Int) (fuel : Nat) (t : Thread) : ThrowResult :=
  throwLoop m base fuel (pokeInt t (u32 (toUnsigned t.frame + FrameIpOffset)) t.ip)

/-- Instruction fetch `instruction = codeBody(t, code, ip++)`. -/
def fetch (m : Machine) (t : Thread) : Nat × Thread :=
  (m.codeBody t.code t.ip, { t with ip := u32 (t.ip + 1) })

/-- The arm `case athrow` of `interpret`, followed by the code at `throw_`. -/
def athrow (m : Machine) (base : Int) (fuel : Nat) (t : Thread) : ThrowResult :=
  match popObject t with
  | .aborted t1 => .aborted t1
  | .done e t1 =>
    let t2 := { t1 with exception := e }
    let t3 :=
      if t2.exception = 0 then
        { (makeNullPointerException m t2).2 with exception := (makeNullPointerException m t2).1 }
      else t2
    throw_ m base fuel t3

/-- The thread state with which the code at `throw_` ended. -/
def ThrowResult.thread : ThrowResult → Thread
  | .resume t => t
  | .returnNull t => t
  | .aborted t => t
  | .outOfFuel t => t

/-- Whether the code at `throw_` resumed the dispatch loop (`goto loop`). -/
def ThrowResult.isResume : ThrowResult → Bool
  | .resume _ => true
  | _ => false

/-- Whether the code at `throw_` left `interpret` with `return 0`. -/
def ThrowResult.isReturnNull : ThrowResult → Bool
  | .returnNull _ => true
  | _ => false

/-! ## Bytecode operands and machine integers -/

/-- Conversion of an `int` result to `int32_t`; signed arithmetic wraps around (two's
complement), as it does on every processor the interpreter is built for. -/
def wrap32 (i : Int) : Int := toInt (toUnsigned i)

/-- Conversion to `int8_t` (two's complement). -/
def toInt8 (n : Nat) : Int :=
  if n % 256 < 128 then ((n % 256 : Nat) : Int) else ((n % 256 : Nat) : Int) - 256

/-- Conversion to `int16_t` (two's complement). -/
def toInt16 (n : Nat) : Int :=
  if n % 65536 < 32768 then ((n % 65536 : Nat) : Int) else ((n % 65536 : Nat) : Int) - 65536

/-- Conversion `uint64_t → int64_t` (two's complement). -/
def toInt64 (n : Nat) : Int :=
  if n % 18446744073709551616 < 9223372036854775808 then ((n % 18446744073709551616 : Nat) : Int)
  else ((n % 18446744073709551616 : Nat) : Int) - 18446744073709551616

/-- Conversion `int64_t → uint64_t`. -/
def toUnsigned64 (i : Int) : Nat := (i % 18446744073709551616).toNat

/-- The byte `codeBody(t, code, ip)`; the body of a code object is an array of `uint8_t`. -/
def codeByte (m : Machine) (code ip : Nat) : Nat := m.codeBody code ip % 256

/-- Modelled from the spec: `codeReadInt16(t, code, ip)` is defined in `process.h`, outside the
two source files.  "16- and 32-bit operands are big-endian and do not require alignment": the
two bytes at `ip` are read high byte first and `ip` advances by two.  The result is the
16-bit pattern read, paired with the advanced `ip`; the variable that receives it (`int16_t` for
a branch offset, `uint16_t` for an index or a count) decides how the pattern is interpreted, and
a pattern passed on directly as a local index is the "16-bit local index" of the spec. -/
def codeReadInt16 (m : Machine) (code ip : Nat) : Nat × Nat :=
  (codeByte m code ip * 256 + codeByte m code (u32 (ip + 1)), u32 (ip + 2))

/-- Modelled from the spec: `codeReadInt32(t, code, ip)` is defined in `process.h`, outside the
two source files.  "16- and 32-bit operands are big-endian and do not require alignment": the
four bytes at `ip` are read high byte first and `ip` advances by four.  The result is the
32-bit pattern read, paired with the advanced `ip`; every use in `interpret` stores it in an
`int32_t`. -/
def codeReadInt32 (m : Machine) (code ip : Nat) : Nat × Nat :=
  (codeByte m code ip * 16777216 + codeByte m code (u32 (ip + 1)) * 65536
      + codeByte m code (u32 (ip + 2)) * 256 + codeByte m code (u32 (ip + 3)),
    u32 (ip + 4))

/-! ## Arms of the dispatch `switch` -/

/-- How one arm of the `switch` in `interpret` ends: with `goto loop`, with `goto throw_`, in
a failed assertion or `abort(t)`, or by evaluating a C++ expression that has no defined
result; `outOfFuel` reports that a loop of the arm was cut off by the model's iteration
bound. -/
inductive Step where
  | loop (t : Thread)
  | throw_ (t : Thread)
  | aborted (t : Thread)
  | undefined (t : Thread)
  | outOfFuel (t : Thread)

/-- The thread state in which the arm ended. -/
def Step.thread : Step → Thread
  | .loop t => t
  | .throw_ t => t
  | .aborted t => t
  | .undefined t => t
  | .outOfFuel t => t

/-- Whether the arm ended with `goto loop`. -/
def Step.isLoop : Step → Bool
  | .loop _ => true
  | _ => false

/-- Whether the arm ended with `goto throw_`. -/
def Step.isThrow : Step → Bool
  | .throw_ _ => true
  | _ => false

/-- Whether the arm ended in a failed assertion or `abort(t)`. -/
def Step.isAborted : Step → Bool
  | .aborted _ => true
  | _ => false

/-- Whether the arm evaluated a C++ expression that has no defined result. -/
def Step.isUndefined : Step → Bool
  | .undefined _ => true
  | _ => false

/-- The arm `case goto_`, entered with `ip` one past the opcode byte. -/
def goto_ (m : Machine) (t : Thread) : Step :=
  let offset := toInt16 (codeReadInt16 m t.code t.ip).1
  let t1 := { t with ip := (codeReadInt16 m t.code t.ip).2 }
  .loop { t1 with ip := u32 (u32 (t1.ip + U32 - 3) + toUnsigned offset) }

/-- The arm `case goto_w`. -/
def goto_w (m : Machine) (t : Thread) : Step :=
  let offset := toInt (codeReadInt32 m t.code t.ip).1
  let t1 := { t with ip := (codeReadInt32 m t.code t.ip).2 }
  .loop { t1 with ip := u32 (u32 (t1.ip + U32 - 5) + toUnsigned offset) }

/-- The statements `ip += 3; ip -= (ip % 4);` that open both switch arms. -/
def alignIp (ip : Nat) : Nat :=
  u32 (u32 (ip + 3) + U32 - u32 (ip + 3) % 4)

/-- The arm `case tableswitch`.  The `int` results `base + offset` are converted to `unsigned`
on assignment to `ip`, and `(key - bottom) * 4` on addition to `ip`, so their wrap-around is
the reduction modulo `2^32` of `toUnsigned`. -/
def tableswitch (m : Machine) (t : Thread) : Step :=
  let base := toInt (u32 (t.ip + U32 - 1))
  let ip0 := alignIp t.ip
  let default_ := toInt (codeReadInt32 m t.code ip0).1
  let ip1 := (codeReadInt32 m t.code ip0).2
  let bottom := toInt (codeReadInt32 m t.code ip1).1
  let ip2 := (codeReadInt32 m t.code ip1).2
  let top := toInt (codeReadInt32 m t.code ip2).1
  let ip3 := (codeReadInt32 m t.code ip2).2
  match popInt { t with ip := ip3 } with
  | .aborted t1 => .aborted t1
  | .done k t1 =>
    let key := toInt k
    if key ≥ bottom ∧ key ≤ top then
      let index := u32 (t1.ip + toUnsigned ((key - bottom) * 4))
      .loop { t1 with ip := toUnsigned (base + toInt (codeReadInt32 m t1.code index).1) }
    else .loop { t1 with ip := toUnsigned (base + default_) }

/-- Result of the binary search of `lookupswitch`: the jump offset read from the matching pair,
or no pair matches and the loop is left. -/
inductive Lookup where
  | jump (offset : Int)
  | fallThrough
  | outOfFuel
deriving DecidableEq, Repr

/-- The loop `for (int32_t span = top - bottom; span; span = top - bottom)` of `lookupswitch`,
`ip` being the address of the first pair; `fuel` bounds the number of iterations. -/
def lookupswitchLoop (m : Machine) (code ip : Nat) (key : Int) : Nat → Int → Int → Lookup
  | 0, _, _ => .outOfFuel
  | fuel + 1, bottom, top =>
    let span := wrap32 (top - bottom)
    if span ≠ 0 then
      let middle := wrap32 (bottom + Int.tdiv span 2)
      let index := u32 (ip + toUnsigned (middle * 8))
      let k := toInt (codeReadInt32 m code index).1
      let index1 := (codeReadInt32 m code index).2
      if key < k then lookupswitchLoop m code ip key fuel bottom middle
      else if key > k then lookupswitchLoop m code ip key fuel (wrap32 (middle + 1)) top
      else .jump (toInt (codeReadInt32 m code index1).1)
    else .fallThrough

/-- The arm `case lookupswitch`. -/
def lookupswitch (m : Machine) (fuel : Nat) (t : Thread) : Step :=
  let base := toInt (u32 (t.ip + U32 - 1))
  let ip0 := alignIp t.ip
  let default_ := toInt (codeReadInt32 m t.code ip0).1
  let ip1 := (codeReadInt32 m t.code ip0).2
  let pairCount := toInt (codeReadInt32 m t.code ip1).1
  let ip2 := (codeReadInt32 m t.code ip1).2
  match popInt { t with ip := ip2 } with
  | .aborted t1 => .aborted t1
  | .done k t1 =>
    match lookupswitchLoop m t1.code t1.ip (toInt k) fuel 0 pairCount with
    | .jump offset => .loop { t1 with ip := toUnsigned (base + offset) }
    | .fallThrough => .loop { t1 with ip := toUnsigned (base + default_) }
    | .outOfFuel => .outOfFuel t1

/-- The arm's ending after a call that may hit a failed assertion. -/
def Step.ofOutcome : Outcome Unit → Step
  | .done _ t => .loop t
  | .aborted t => .aborted t

/-- The C++ expression `a / b` on `int32_t` operands.  It has no defined result when the
divisor is zero or when the quotient is not representable (`INT32_MIN / -1`); the processors
disagree there (x86 traps, others deliver a value). -/
def divInt32 (a b : Int) : Option Int :=
  if b = 0 ∨ (a = -2147483648 ∧ b = -1) then none else some (Int.tdiv a b)

/-- The C++ expression `a % b` on `int32_t` operands, undefined where `a / b` is. -/
def remInt32 (a b : Int) : Option Int :=
  if b = 0 ∨ (a = -2147483648 ∧ b = -1) then none else some (Int.tmod a b)

/-- The C++ expression `a / b` on `int64_t` operands. -/
def divInt64 (a b : Int) : Option Int :=
  if b = 0 ∨ (a = -9223372036854775808 ∧ b = -1) then none else some (Int.tdiv a b)

/-- The C++ expression `a % b` on `int64_t` operands. -/
def remInt64 (a b : Int) : Option Int :=
  if b = 0 ∨ (a = -9223372036854775808 ∧ b = -1) then none else some (Int.tmod a b)

/-- The C++ expression `a << b` on `int32_t` operands.  It has no defined result when the count
is negative or not less than the width, and the processors disagree there (x86 uses the low
five bits of the count, others shift everything out); within the width the result is the
two's complement one. -/
def shlInt32 (a b : Int) : Option Int :=
  if 0 ≤ b ∧ b < 32 then some (wrap32 (a * 2 ^ b.toNat)) else none

/-- The C++ expression `a >> b` on `int32_t` operands (sign-propagating within the width). -/
def shrInt32 (a b : Int) : Option Int :=
  if 0 ≤ b ∧ b < 32 then some (a / 2 ^ b.toNat) else none

/-- The C++ expression `a >> b` with `uint32_t a` and `int32_t b`. -/
def ushrInt32 (a : Nat) (b : Int) : Option Nat :=
  if 0 ≤ b ∧ b < 32 then some (a / 2 ^ b.toNat) else none

/-- The arm `case idiv`. -/
def idiv (m : Machine) (t : Thread) : Step :=
  match popInt t with
  | .aborted t1 => .aborted t1
  | .done b t1 =>
    match popInt t1 with
    | .aborted t2 => .aborted t2
    | .done a t2 =>
      match divInt32 (toInt a) (toInt b) with
      | none => .undefined t2
      | some q => Step.ofOutcome (pushInt m t2 (toUnsigned q))

/-- The arm `case irem`. -/
def irem (m : Machine) (t : Thread) : Step :=
  match popInt t with
  | .aborted t1 => .aborted t1
  | .done b t1 =>
    match popInt t1 with
    | .aborted t2 => .aborted t2
    | .done a t2 =>
      match remInt32 (toInt a) (toInt b) with
      | none => .undefined t2
      | some r => Step.ofOutcome (pushInt m t2 (toUnsigned r))

/-- The arm `case ldiv_`. -/
def ldiv_ (m : Machine) (t : Thread) : Step :=
  match popLong t with
  | .aborted t1 => .aborted t1
  | .done b t1 =>
    match popLong t1 with
    | .aborted t2 => .aborted t2
    | .done a t2 =>
      match divInt64 (toInt64 a) (toInt64 b) with
      | none => .undefined t2
      | some q => Step.ofOutcome (pushLong m t2 (toUnsigned64 q))

/-- The arm `case lrem`. -/
def lrem (m : Machine) (t : Thread) : Step :=
  match popLong t with
  | .aborted t1 => .aborted t1
  | .done b t1 =>
    match popLong t1 with
    | .aborted t2 => .aborted t2
    | .done a t2 =>
      match remInt64 (toInt64 a) (toInt64 b) with
      | none => .undefined t2
      | some r => Step.ofOutcome (pushLong m t2 (toUnsigned64 r))

/-- The arm `case ishl`. -/
def ishl (m : Machine) (t : Thread) : Step :=
  match popInt t with
  | .aborted t1 => .aborted t1
  | .done b t1 =>
    match popInt t1 with
    | .aborted t2 => .aborted t2
    | .done a t2 =>
      match shlInt32 (toInt a) (toInt b) with
      | none => .undefined t2
      | some v => Step.ofOutcome (pushInt m t2 (toUnsigned v))

/-- The arm `case ishr`. -/
def ishr (m : Machine) (t : Thread) : Step :=
  match popInt t with
  | .aborted t1 => .aborted t1
  | .done b t1 =>
    match popInt t1 with
    | .aborted t2 => .aborted t2
    | .done a t2 =>
      match shrInt32 (toInt a) (toInt b) with
      | none => .undefined t2
      | some v => Step.ofOutcome (pushInt m t2 (toUnsigned v))

/-- The arm `case iushr`. -/
def iushr (m : Machine) (t : Thread) : Step :=
  match popInt t with
  | .aborted t1 => .aborted t1
  | .done b t1 =>
    match popInt t1 with
    | .aborted t2 => .aborted t2
    | .done a t2 =>
      match ushrInt32 a (toInt b) with
      | none => .undefined t2
      | some v => Step.ofOutcome (pushInt m t2 v)

/-! ## Local variables -/

def localObject (m : Machine) (t : Thread) (index : Nat) : Outcome Nat :=
  match frameBase m t t.frame with
  | .aborted t1 => .aborted t1
  | .done b t1 => peekObject m t1 (u32 (b + index))

def localInt (m : Machine) (t : Thread) (index : Nat) : Outcome Nat :=
  match frameBase m t t.frame with
  | .aborted t1 => .aborted t1
  | .done b t1 => peekInt m t1 (u32 (b + index))

def localLong (m : Machine) (t : Thread) (index : Nat) : Outcome Nat :=
  match frameBase m t t.frame with
  | .aborted t1 => .aborted t1
  | .done b t1 => peekLong m t1 (u32 (b + index))

def setLocalObject (m : Machine) (t : Thread) (index value : Nat) : Outcome Unit :=
  match frameBase m t t.frame with
  | .aborted t1 => .aborted t1
  | .done b t1 => .done () (pokeObject t1 (u32 (b + index)) value)

def setLocalInt (m : Machine) (t : Thread) (index value : Nat) : Outcome Unit :=
  match frameBase m t t.frame with
  | .aborted t1 => .aborted t1
  | .done b t1 => .done () (pokeInt t1 (u32 (b + index)) value)

def setLocalLong (m : Machine) (t : Thread) (index value : Nat) : Outcome Unit :=
  match frameBase m t t.frame with
  | .aborted t1 => .aborted t1
  | .done b t1 => .done () (pokeLong t1 (u32 (b + index)) value)

/-- The function `store(t, index)`: the top slot, tag and value, is copied into the local and
popped. -/
def store (m : Machine) (t : Thread) (index : Nat) : Outcome Unit :=
  match frameBase m t t.frame with
  | .aborted t1 => .aborted t1
  | .done b t1 =>
    let dst := u32 (u32 (b + index) * 2)
    let t2 := { t1 with sp := u32 (t1.sp + U32 - 1) }
    let src := u32 (t2.sp * 2)
    .done () { t2 with
      stack := setWord (setWord t2.stack dst (t2.stack src)) (dst + 1) (t2.stack (src + 1)) }

/-! ## Loads, stores and `iinc`, plain and behind `wide` -/

/-- Values of `enum OpCode` (`constants.h`), which are the opcode numbers of the class-file
format. -/
def op_iload : Nat := 0x15
def op_lload : Nat := 0x16
def op_fload : Nat := 0x17
def op_dload : Nat := 0x18
def op_aload : Nat := 0x19
def op_istore : Nat := 0x36
def op_lstore : Nat := 0x37
def op_fstore : Nat := 0x38
def op_dstore : Nat := 0x39
def op_astore : Nat := 0x3a
def op_iinc : Nat := 0x84
def op_ret : Nat := 0xa9
def op_wide : Nat := 0xc4

/-- The arm `case aload`. -/
def aload (m : Machine) (t : Thread) : Step :=
  let index := codeByte m t.code t.ip
  match localObject m { t with ip := u32 (t.ip + 1) } index with
  | .aborted t1 => .aborted t1
  | .done o t1 => Step.ofOutcome (pushObject m t1 o)

/-- The arm `case astore`. -/
def astore (m : Machine) (t : Thread) : Step :=
  let index := codeByte m t.code t.ip
  Step.ofOutcome (store m { t with ip := u32 (t.ip + 1) } index)

/-- The arm `case iload: case fload:`. -/
def iload (m : Machine) (t : Thread) : Step :=
  let index := codeByte m t.code t.ip
  match localInt m { t with ip := u32 (t.ip + 1) } index with
  | .aborted t1 => .aborted t1
  | .done v t1 => Step.ofOutcome (pushInt m t1 v)

/-- The arm `case istore: case fstore:`. -/
def istore (m : Machine) (t : Thread) : Step :=
  let index := codeByte m t.code t.ip
  match popInt { t with ip := u32 (t.ip + 1) } with
  | .aborted t1 => .aborted t1
  | .done v t1 => Step.ofOutcome (setLocalInt m t1 index v)

/-- The arm `case lload: case dload:`. -/
def lload (m : Machine) (t : Thread) : Step :=
  let index := codeByte m t.code t.ip
  match localLong m { t with ip := u32 (t.ip + 1) } index with
  | .aborted t1 => .aborted t1
  | .done v t1 => Step.ofOutcome (pushLong m t1 v)

/-- The arm `case lstore: case dstore:`. -/
def lstore (m : Machine) (t : Thread) : Step :=
  let index := codeByte m t.code t.ip
  match popLong { t with ip := u32 (t.ip + 1) } with
  | .aborted t1 => .aborted t1
  | .done v t1 => Step.ofOutcome (setLocalLong m t1 index v)

/-- The arm `case iinc`: `uint8_t index`, `int8_t c`. -/
def iinc (m : Machine) (t : Thread) : Step :=
  let index := codeByte m t.code t.ip
  let c := toInt8 (codeByte m t.code (u32 (t.ip + 1)))
  match localInt m { t with ip := u32 (u32 (t.ip + 1) + 1) } index with
  | .aborted t1 => .aborted t1
  | .done v t1 => Step.ofOutcome (setLocalInt m t1 index (u32 (v + toUnsigned c)))

/-- The `switch` at label `wide`, entered with `ip` one past the `wide` byte.  The operand
read `codeReadInt16(t, code, ip)` with which every arm begins is written once, ahead of the
arms; the `default` arm aborts without reading. -/
def wide (m : Machine) (t : Thread) : Step :=
  let instruction := codeByte m t.code t.ip
  let t0 := { t with ip := u32 (t.ip + 1) }
  let index := (codeReadInt16 m t0.code t0.ip).1
  let t1 := { t0 with ip := (codeReadInt16 m t0.code t0.ip).2 }
  if instruction = op_aload then
    match localObject m t1 index with
    | .aborted t2 => .aborted t2
    | .done o t2 => Step.ofOutcome (pushObject m t2 o)
  else if instruction = op_astore then
    match popObject t1 with
    | .aborted t2 => .aborted t2
    | .done o t2 => Step.ofOutcome (setLocalObject m t2 index o)
  else if instruction = op_iinc then
    let count := (codeReadInt16 m t1.code t1.ip).1 % 65536
    let t2 := { t1 with ip := (codeReadInt16 m t1.code t1.ip).2 }
    match localInt m t2 (index % 65536) with
    | .aborted t3 => .aborted t3
    | .done v t3 => Step.ofOutcome (setLocalInt m t3 (index % 65536) (u32 (v + count)))
  else if instruction = op_iload then
    match localInt m t1 index with
    | .aborted t2 => .aborted t2
    | .done v t2 => Step.ofOutcome (pushInt m t2 v)
  else if instruction = op_istore then
    match popInt t1 with
    | .aborted t2 => .aborted t2
    | .done v t2 => Step.ofOutcome (setLocalInt m t2 index v)
  else if instruction = op_lload then
    match localLong m t1 index with
    | .aborted t2 => .aborted t2
    | .done v t2 => Step.ofOutcome (pushLong m t2 v)
  else if instruction = op_lstore then
    match popLong t1 with
    | .aborted t2 => .aborted t2
    | .done v t2 => Step.ofOutcome (setLocalLong m t2 index v)
  else if instruction = op_ret then
    match localInt m t1 index with
    | .aborted t2 => .aborted t2
    | .done v t2 => .loop { t2 with ip := v }
  else .aborted t0

/-! ## Heap and runtime collaborators of the dispatch arms -/

/-- The array types whose elements the array-load arms read. -/
inductive ArrayKind where
  | object
  | boolean
  | byte
  | char
  | double
  | float
  | int
  | long
  | short
deriving DecidableEq, Repr

/-- Heap accessors and runtime calls that the arms below use and that are declared outside the
two source files: the typed array accessors `<kind>ArrayLength` and `<kind>ArrayBody` (an
element is given as the integer the accessor yields, floats and doubles by their bit
patterns), `objectClass`, the class of boolean arrays, `classVmFlags`, `classInitializer`,
`makeInt`, the two messages built with `makeString` and the exception constructors.
`preInitClass pending c` gives the result of `preInitClass(t, c)` together with the pending
exception it leaves behind, `pending` being the exception pending before the call. -/
structure Runtime where
  arrayLength : ArrayKind → Nat → Nat
  arrayBody : ArrayKind → Nat → Nat → Int
  objectClass : Nat → Nat
  booleanArrayType : Nat
  classVmFlags : Nat → Nat
  classInitializer : Nat → Nat
  preInitClass : Nat → Nat → Bool × Nat
  makeIndexMessage : Int → Nat → Nat
  makeCastMessage : Nat → Nat → Nat
  makeInt : Int → Nat
  makeArrayIndexOutOfBoundsException : Nat → Nat → Nat → Nat
  makeClassCastException : Nat → Nat → Nat → Nat

/-- The flag `NeedInitFlag = 1 << 2` of `machine.h`. -/
def NeedInitFlag : Nat := 4

/-- The inline `makeArrayIndexOutOfBoundsException(t, message)` of `machine.h`. -/
def makeArrayIndexOutOfBoundsException (r : Runtime) (m : Machine) (t : Thread)
    (message : Nat) : Nat × Thread :=
  (r.makeArrayIndexOutOfBoundsException message (makeTrace m t).1 0, (makeTrace m t).2)

/-- The inline `makeClassCastException(t, message)` of `machine.h`. -/
def makeClassCastException (r : Runtime) (m : Machine) (t : Thread) (message : Nat) :
    Nat × Thread :=
  (r.makeClassCastException message (makeTrace m t).1 0, (makeTrace m t).2)

/-! ## Subroutines -/

/-- The arm `case jsr`: `uint16_t offset`, cast to `int16_t` for the branch. -/
def jsr (m : Machine) (t : Thread) : Step :=
  let offset := (codeReadInt16 m t.code t.ip).1 % 65536
  let t1 := { t with ip := (codeReadInt16 m t.code t.ip).2 }
  match pushInt m t1 t1.ip with
  | .aborted t2 => .aborted t2
  | .done _ t2 =>
    .loop { t2 with ip := u32 (u32 (t2.ip + U32 - 3) + toUnsigned (toInt16 offset)) }

/-- The arm `case jsr_w`: `uint32_t offset`, cast to `int32_t` for the branch. -/
def jsr_w (m : Machine) (t : Thread) : Step :=
  let offset := (codeReadInt32 m t.code t.ip).1 % 4294967296
  let t1 := { t with ip := (codeReadInt32 m t.code t.ip).2 }
  match pushInt m t1 t1.ip with
  | .aborted t2 => .aborted t2
  | .done _ t2 =>
    .loop { t2 with ip := u32 (u32 (t2.ip + U32 - 5) + toUnsigned (toInt offset)) }

/-- The arm `case ret` of the main `switch`; the operand byte is read without advancing
`ip`. -/
def ret (m : Machine) (t : Thread) : Step :=
  match localInt m t (codeByte m t.code t.ip) with
  | .aborted t1 => .aborted t1
  | .done v t1 => .loop { t1 with ip := v }

/-! ## Array loads -/

/-- The push with which an array-load arm ends: `pushObject` for `aaload`, `pushLong` for
`daload` and `laload`, `pushInt` for the others; the element is converted to the unsigned
parameter type of the push. -/
def pushElement (m : Machine) (t : Thread) (kind : ArrayKind) (v : Int) : Outcome Unit :=
  match kind with
  | .object => pushObject m t v.toNat
  | .double => pushLong m t (toUnsigned64 v)
  | .long => pushLong m t (toUnsigned64 v)
  | _ => pushInt m t (toUnsigned v)

/-- The common body of the arms `aaload`, `baload`, `caload`, `daload`, `faload`, `iaload`,
`laload` and `saload`, which differ in the array type `kindOf array` whose accessors they
use and in the push. -/
def arrayLoad (r : Runtime) (m : Machine) (t : Thread) (kindOf : Nat → ArrayKind) : Step :=
  match popInt t with
  | .aborted t1 => .aborted t1
  | .done i t1 =>
    let index := toInt i
    match popObject t1 with
    | .aborted t2 => .aborted t2
    | .done array t2 =>
      if array ≠ 0 then
        if index ≥ 0 ∧ index.toNat < r.arrayLength (kindOf array) array then
          Step.ofOutcome
            (pushElement m t2 (kindOf array) (r.arrayBody (kindOf array) array index.toNat))
        else
          let message := r.makeIndexMessage index (r.arrayLength (kindOf array) array)
          .throw_ { (makeArrayIndexOutOfBoundsException r m t2 message).2 with
            exception := (makeArrayIndexOutOfBoundsException r m t2 message).1 }
      else
        .throw_ { (makeNullPointerException m t2).2 with
          exception := (makeNullPointerException m t2).1 }

/-- The arm `case aaload`. -/
def aaload (r : Runtime) (m : Machine) (t : Thread) : Step :=
  arrayLoad r m t (fun _ => .object)

/-- The arm `case baload`, which reads a boolean array or a byte array according to the class
of the array. -/
def baload (r : Runtime) (m : Machine) (t : Thread) : Step :=
  arrayLoad r m t (fun array =>
    if r.objectClass array = r.booleanArrayType then .boolean else .byte)

/-- The arm `case caload`. -/
def caload (r : Runtime) (m : Machine) (t : Thread) : Step :=
  arrayLoad r m t (fun _ => .char)

/-- The arm `case daload`. -/
def daload (r : Runtime) (m : Machine) (t : Thread) : Step :=
  arrayLoad r m t (fun _ => .double)

/-- The arm `case faload`. -/
def faload (r : Runtime) (m : Machine) (t : Thread) : Step :=
  arrayLoad r m t (fun _ => .float)

/-- The arm `case iaload`. -/
def iaload (r : Runtime) (m : Machine) (t : Thread) : Step :=
  arrayLoad r m t (fun _ => .int)

/-- The arm `case laload`. -/
def laload (r : Runtime) (m : Machine) (t : Thread) : Step :=
  arrayLoad r m t (fun _ => .long)

/-- The arm `case saload`. -/
def saload (r : Runtime) (m : Machine) (t : Thread) : Step :=
  arrayLoad r m t (fun _ => .short)

/-! ## Type checks -/

/-- The arm `case checkcast`. -/
def checkcast (r : Runtime) (m : Machine) (t : Thread) : Step :=
  let index := (codeReadInt16 m t.code t.ip).1 % 65536
  let t1 := { t with ip := (codeReadInt16 m t.code t.ip).2 }
  match peekObject m t1 (u32 (t1.sp + U32 - 1)) with
  | .aborted t2 => .aborted t2
  | .done o t2 =>
    if o ≠ 0 then
      match frameMethod m t2 t2.frame with
      | .aborted t3 => .aborted t3
      | .done method t3 =>
        let resolved := resolveClassInPool m t3 method (u32 (index + U32 - 1))
        if resolved.2.exception ≠ 0 then .throw_ resolved.2
        else
          match peekObject m resolved.2 (u32 (resolved.2.sp + U32 - 1)) with
          | .aborted t4 => .aborted t4
          | .done o1 t4 =>
            if m.instanceOf resolved.1 o1 then .loop t4
            else
              let message := r.makeCastMessage (r.objectClass o1) resolved.1
              .throw_ { (makeClassCastException r m t4 message).2 with
                exception := (makeClassCastException r m t4 message).1 }
    else .loop t2

/-- The arm `case instanceof`. -/
def instanceof (m : Machine) (t : Thread) : Step :=
  let index := (codeReadInt16 m t.code t.ip).1 % 65536
  let t1 := { t with ip := (codeReadInt16 m t.code t.ip).2 }
  match peekObject m t1 (u32 (t1.sp + U32 - 1)) with
  | .aborted t2 => .aborted t2
  | .done o t2 =>
    if o ≠ 0 then
      match frameMethod m t2 t2.frame with
      | .aborted t3 => .aborted t3
      | .done method t3 =>
        let resolved := resolveClassInPool m t3 method (u32 (index + U32 - 1))
        if resolved.2.exception ≠ 0 then .throw_ resolved.2
        else
          match popObject resolved.2 with
          | .aborted t4 => .aborted t4
          | .done o1 t4 =>
            if m.instanceOf resolved.1 o1 then Step.ofOutcome (pushInt m t4 1)
            else Step.ofOutcome (pushInt m t4 0)
    else
      match popObject t2 with
      | .aborted t3 => .aborted t3
      | .done _ t3 => Step.ofOutcome (pushInt m t3 0)

/-! ## Returning a value -/

/-- How a return arm ends: with `goto loop` in the caller, by leaving `interpret` with a
result, or in a failed assertion. -/
inductive Exit where
  | loop (t : Thread)
  | returned (result : Nat) (t : Thread)
  | aborted (t : Thread)

/-- The thread state in which the return arm ended. -/
def Exit.thread : Exit → Thread
  | .loop t => t
  | .returned _ t => t
  | .aborted t => t

/-- Whether the return arm went on in the caller. -/
def Exit.isLoop : Exit → Bool
  | .loop _ => true
  | _ => false

/-- The object with which the return arm left `interpret`, null if it did not. -/
def Exit.result : Exit → Nat
  | .returned o _ => o
  | _ => 0

/-- Whether the return arm left `interpret`. -/
def Exit.isReturned : Exit → Bool
  | .returned _ _ => true
  | _ => false

/-- The arm `case ireturn: case freturn:`, `base` being the frame on entry to `interpret`. -/
def ireturn (r : Runtime) (m : Machine) (base : Int) (t : Thread) : Exit :=
  match popInt t with
  | .aborted t1 => .aborted t1
  | .done v t1 =>
    let result := toInt v
    if t1.frame > base then
      match popFrame m t1 with
      | .aborted t2 => .aborted t2
      | .done _ t2 =>
        match pushInt m t2 (toUnsigned result) with
        | .aborted t3 => .aborted t3
        | .done _ t3 => .loop t3
    else .returned (r.makeInt result) t1

/-! ## Class initialisation -/

/-- The function `classInit2(t, class_, ipOffset)`. -/
def classInit2 (r : Runtime) (t : Thread) (class_ ipOffset : Nat) : Bool × Thread :=
  let t1 := { t with exception := (r.preInitClass t.exception class_).2 }
  if (r.preInitClass t.exception class_).1 then
    let t2 := { t1 with classInitList := class_ :: t1.classInitList }
    let t3 := { t2 with code := r.classInitializer class_ }
    (true, { t3 with ip := u32 (t3.ip + U32 - u32 ipOffset) })
  else (false, t1)

/-- The function `classInit(t, class_, ipOffset)`. -/
def classInit (r : Runtime) (t : Thread) (class_ ipOffset : Nat) : Bool × Thread :=
  if r.classVmFlags class_ &&& NeedInitFlag ≠ 0 then classInit2 r t class_ ipOffset
  else (false, t)

/-! ## Stack reshuffles -/

/-- The call `memcpy(stack + dst, stack + src, BytesPerWord * n)` on disjoint ranges of `n`
words. -/
def copyWords (s : Nat → Nat) (dst src n : Nat) : Nat → Nat :=
  fun j => if dst ≤ j ∧ j < dst + n then s (src + (j - dst)) else s j

/-- The arm `case dup`. -/
def dup (t : Thread) : Step :=
  .loop { t with
    stack := copyWords t.stack (u32 (t.sp * 2)) (u32 (u32 (t.sp + U32 - 1) * 2)) 2
    sp := u32 (t.sp + 1) }

/-- The arm `case dup_x1`. -/
def dup_x1 (t : Thread) : Step :=
  let s1 := copyWords t.stack (u32 (t.sp * 2)) (u32 (u32 (t.sp + U32 - 1) * 2)) 2
  let s2 := copyWords s1 (u32 (u32 (t.sp + U32 - 1) * 2)) (u32 (u32 (t.sp + U32 - 2) * 2)) 2
  let s3 := copyWords s2 (u32 (u32 (t.sp + U32 - 2) * 2)) (u32 (t.sp * 2)) 2
  .loop { t with stack := s3, sp := u32 (t.sp + 1) }

/-- The arm `case dup_x2`. -/
def dup_x2 (t : Thread) : Step :=
  let s1 := copyWords t.stack (u32 (t.sp * 2)) (u32 (u32 (t.sp + U32 - 1) * 2)) 2
  let s2 := copyWords s1 (u32 (u32 (t.sp + U32 - 1) * 2)) (u32 (u32 (t.sp + U32 - 2) * 2)) 2
  let s3 := copyWords s2 (u32 (u32 (t.sp + U32 - 2) * 2)) (u32 (u32 (t.sp + U32 - 3) * 2)) 2
  let s4 := copyWords s3 (u32 (u32 (t.sp + U32 - 3) * 2)) (u32 (t.sp * 2)) 2
  .loop { t with stack := s4, sp := u32 (t.sp + 1) }

/-- The arm `case dup2`. -/
def dup2 (t : Thread) : Step :=
  .loop { t with
    stack := copyWords t.stack (u32 (t.sp * 2)) (u32 (u32 (t.sp + U32 - 2) * 2)) 4
    sp := u32 (t.sp + 2) }

/-- The arm `case dup2_x1`. -/
def dup2_x1 (t : Thread) : Step :=
  let s1 := copyWords t.stack (u32 (u32 (t.sp + 1) * 2)) (u32 (u32 (t.sp + U32 - 1) * 2)) 2
  let s2 := copyWords s1 (u32 (t.sp * 2)) (u32 (u32 (t.sp + U32 - 2) * 2)) 2
  let s3 := copyWords s2 (u32 (u32 (t.sp + U32 - 1) * 2)) (u32 (u32 (t.sp + U32 - 3) * 2)) 2
  let s4 := copyWords s3 (u32 (u32 (t.sp + U32 - 3) * 2)) (u32 (t.sp * 2)) 4
  .loop { t with stack := s4, sp := u32 (t.sp + 2) }

/-- The arm `case dup2_x2`. -/
def dup2_x2 (t : Thread) : Step :=
  let s1 := copyWords t.stack (u32 (u32 (t.sp + 1) * 2)) (u32 (u32 (t.sp + U32 - 1) * 2)) 2
  let s2 := copyWords s1 (u32 (t.sp * 2)) (u32 (u32 (t.sp + U32 - 2) * 2)) 2
  let s3 := copyWords s2 (u32 (u32 (t.sp + U32 - 1) * 2)) (u32 (u32 (t.sp + U32 - 3) * 2)) 2
  let s4 := copyWords s3 (u32 (u32 (t.sp + U32 - 2) * 2)) (u32 (u32 (t.sp + U32 - 4) * 2)) 2
  let s5 := copyWords s4 (u32 (u32 (t.sp + U32 - 4) * 2)) (u32 (t.sp * 2)) 4
  .loop { t with stack := s5, sp := u32 (t.sp + 2) }

/-- The arm `case swap`; `tmp` is the two-word buffer of the arm. -/
def swap (t : Thread) : Step :=
  let tmp0 := t.stack (u32 (u32 (t.sp + U32 - 1) * 2))
  let tmp1 := t.stack (u32 (u32 (t.sp + U32 - 1) * 2) + 1)
  let s1 := copyWords t.stack (u32 (u32 (t.sp + U32 - 1) * 2))
    (u32 (u32 (t.sp + U32 - 2) * 2)) 2
  let s2 := setWord (setWord s1 (u32 (u32 (t.sp + U32 - 2) * 2)) tmp0)
    (u32 (u32 (t.sp + U32 - 2) * 2) + 1) tmp1
  .loop { t with stack := s2 }

/-! ## Stack walking and root enumeration -/

/-- The loop of `MyStackWalker::count` from `frame` on with `count` frames counted so far;
`fuel` bounds the number of iterations, and `none` reports that the bound was reached. -/
def countLoop (m : Machine) (t : Thread) : Nat → Int → Nat → Option (Outcome Nat)
  | 0, _, _ => none
  | fuel + 1, frame, count =>
    if frame ≥ 0 then
      match frameNext m t frame with
      | .aborted t1 => some (.aborted t1)
      | .done next _ => countLoop m t fuel next (u32 (count + 1))
    else some (.done count t)

/-- The method `MyStackWalker::count` of a walker positioned at `frame`. -/
def stackWalkerCount (m : Machine) (t : Thread) (frame : Int) (fuel : Nat) :
    Option (Outcome Nat) :=
  countLoop m t fuel frame 0

/-- A location handed to the heap visitor by `visitObjects`: the `code` register, the word of
the stack with the given index, or the `class_` field of the class-init list entry at the
given position from the head. -/
inductive Root where
  | code
  | stackWord (index : Nat)
  | classInit (position : Nat)
deriving DecidableEq, Repr

/-- The visits made by the first `n` iterations of the loop
`for (unsigned i = 0; i < t->sp; ++i)` of `visitObjects`. -/
def visitStack (t : Thread) : Nat → List Root
  | 0 => []
  | i + 1 =>
    visitStack t i ++
      (if t.stack (u32 (i * 2)) = ObjectTag then [Root.stackWord (u32 (i * 2) + 1)] else [])

/-- The visits made by the loop over the class-init list, `position` being the position of
the head of `list`. -/
def visitClassInitList : List Nat → Nat → List Root
  | [], _ => []
  | _ :: rest, position => Root.classInit position :: visitClassInitList rest (position + 1)

/-- The method `MyProcessor::visitObjects`: the locations visited, in the order of the
visits. -/
def visitObjects (t : Thread) : List Root :=
  Root.code :: (visitStack t t.sp ++ visitClassInitList t.classInitList 0)

/-! ## Frame chains -/

/-- The frame at slot `f` is well formed in the sense of the frame-linkage invariant: its
base and next slots hold ints, `next < base ≤ f`, and its four slots lie below `sp`. -/
def frameWellFormed (t : Thread) (f : Nat) : Prop :=
  t.tag (f + FrameBaseOffset) = IntTag ∧ t.tag (f + FrameNextOffset) = IntTag ∧
  t.value (f + FrameBaseOffset) < 4294967296 ∧ t.value (f + FrameNextOffset) < 4294967296 ∧
  toInt (t.value (f + FrameNextOffset)) < (t.value (f + FrameBaseOffset) : Int) ∧
  t.value (f + FrameBaseOffset) ≤ f ∧ f + FrameFootprint ≤ t.sp

instance frameWellFormedDecidable (t : Thread) (f : Nat) : Decidable (frameWellFormed t f) :=
  inferInstanceAs (Decidable (
    t.tag (f + FrameBaseOffset) = IntTag ∧ t.tag (f + FrameNextOffset) = IntTag ∧
    t.value (f + FrameBaseOffset) < 4294967296 ∧ t.value (f + FrameNextOffset) < 4294967296 ∧
    toInt (t.value (f + FrameNextOffset)) < (t.value (f + FrameBaseOffset) : Int) ∧
    t.value (f + FrameBaseOffset) ≤ f ∧ f + FrameFootprint ≤ t.sp))

/-- The chain of `n` well-formed frames that starts at `frame` and ends at `-1`. -/
def frameChain (t : Thread) : Nat → Int → Prop
  | 0, frame => frame = -1
  | n + 1, frame =>
    0 ≤ frame ∧ frameWellFormed t frame.toNat ∧
      frameChain t n (toInt (t.value (frame.toNat + FrameNextOffset)))

instance frameChainDecidable (t : Thread) : (n : Nat) → (frame : Int) →
    Decidable (frameChain t n frame)
  | 0, frame => inferInstanceAs (Decidable (frame = -1))
  | n + 1, frame =>
    have := frameChainDecidable t n (toInt (t.value (frame.toNat + FrameNextOffset)))
    inferInstanceAs (Decidable (0 ≤ frame ∧ frameWellFormed t frame.toNat ∧
      frameChain t n (toInt (t.value (frame.toNat + FrameNextOffset)))))

/-- Every slot below `sp` carries one of the two tags. -/
def validTags (t : Thread) : Prop :=
  ∀ i : Nat, i < t.sp → t.tag i = IntTag ∨ t.tag i = ObjectTag

instance validTagsDecidable (t : Thread) : Decidable (validTags t) :=
  inferInstanceAs (Decidable (∀ i : Nat, i < t.sp → t.tag i = IntTag ∨ t.tag i = ObjectTag))

/-! ## Field codes, local references and native results -/

/-- Values of `enum FieldCode` (`machine.h`). -/
def VoidField : Nat := 0
def ByteField : Nat := 1
def CharField : Nat := 2
def DoubleField : Nat := 3
def FloatField : Nat := 4
def IntField : Nat := 5
def LongField : Nat := 6
def ShortField : Nat := 7
def BooleanField : Nat := 8
def ObjectField : Nat := 9

/-- The function `pushReference(t, o)`.  The pointer it returns is given by the index of the
stack word it points to, `none` being the null sentinel; `expect` is an assertion that is
checked in every build. -/
def pushReference (m : Machine) (t : Thread) (o : Nat) : Outcome (Option Nat) :=
  if o ≠ 0 then
    if u32 (t.sp + 1) < StackSizeInWords m / 2 then
      match pushObject m t o with
      | .aborted t1 => .aborted t1
      | .done _ t1 => .done (some (u32 (u32 (t1.sp + U32 - 1) * 2) + 1)) t1
    else .aborted t
  else .done none t

/-- Conversion `uint64_t → uintptr_t`, a word of `BytesPerWord` bytes. -/
def toWord (m : Machine) (v : Nat) : Nat := v % 2 ^ (8 * m.BytesPerWord)

/-- The function `pushResult(t, returnCode, result, indirect)`; `load p` is the object read
through the handle `p`, `*reinterpret_cast<object*>(p)`. -/
def pushResult (m : Machine) (load : Nat → Nat) (t : Thread) (returnCode result : Nat)
    (indirect : Bool) : Outcome Unit :=
  if returnCode = ByteField ∨ returnCode = BooleanField then
    pushInt m t (toUnsigned (toInt8 result))
  else if returnCode = CharField then pushInt m t (result % 65536)
  else if returnCode = ShortField then pushInt m t (toUnsigned (toInt16 result))
  else if returnCode = FloatField ∨ returnCode = IntField then pushInt m t result
  else if returnCode = DoubleField ∨ returnCode = LongField then pushLong m t result
  else if returnCode = ObjectField then
    if indirect then pushObject m t (if toWord m result = 0 then 0 else load (toWord m result))
    else pushObject m t (toWord m result)
  else if returnCode = VoidField then .done () t
  else .aborted t

/-! ## Native method data -/

/-- The type tags and size functions that `makeNativeMethodData` uses and that are declared
outside the two source files: the tag `POINTER_TYPE`, `fieldCode` (the field code of a
descriptor character), `fieldType` (the type tag of a field code), `primitiveSize` and
`pad`. -/
structure NativeTypes where
  POINTER_TYPE : Nat
  fieldCode : Nat → Nat
  fieldType : Nat → Nat
  primitiveSize : Nat → Nat
  pad : Nat → Nat

/-- How the scan of a method spec by `makeNativeMethodData` ends: with the parameter-type tags
written, in the order of the writes, and the argument-table size; by moving the pointer past
the terminating NUL of the spec, after which it reads outside the byte array; or with the
iteration bound of the model reached. -/
inductive Scan where
  | done (types : List Nat) (argumentTableSize : Nat)
  | undefined
  | outOfFuel
deriving DecidableEq, Repr

/-- The loop `while (*s and *s != ';') ++ s`; the pointer `s` is given by the characters from
`s` on, the empty list standing for the terminating NUL. -/
def skipToSemicolon : List Nat → List Nat
  | [] => []
  | c :: rest => if c ≠ 0 ∧ c ≠ 0x3b then skipToSemicolon rest else c :: rest

/-- The loop `while (*s == '[') ++ s`. -/
def skipBrackets : List Nat → List Nat
  | [] => []
  | c :: rest => if c = 0x5b then skipBrackets rest else c :: rest

/-- The loop `while (*s and *s != ')')` of `makeNativeMethodData`, entered with the tags
`types` written and the size `size` accumulated so far; `fuel` bounds the number of
iterations. -/
def scanParameters (a : NativeTypes) (bytesPerWord : Nat) :
    Nat → List Nat → List Nat → Nat → Scan
  | 0, _, _, _ => .outOfFuel
  | _ + 1, [], types, size => .done types size
  | fuel + 1, c :: rest, types, size =>
    if c ≠ 0 ∧ c ≠ 0x29 then
      if c = 0x4c then
        match skipToSemicolon (c :: rest) with
        | [] => .undefined
        | _ :: s1 =>
          scanParameters a bytesPerWord fuel s1 (types ++ [a.fieldType (a.fieldCode c)])
            (u32 (size + bytesPerWord))
      else if c = 0x5b then
        match skipBrackets (c :: rest) with
        | [] => .undefined
        | e :: s1 =>
          if e = 0x4c then
            match skipToSemicolon (e :: s1) with
            | [] => .undefined
            | _ :: s2 =>
              scanParameters a bytesPerWord fuel s2 (types ++ [a.fieldType (a.fieldCode c)])
                (u32 (size + bytesPerWord))
          else
            scanParameters a bytesPerWord fuel s1 (types ++ [a.fieldType (a.fieldCode c)])
              (u32 (size + bytesPerWord))
      else
        scanParameters a bytesPerWord fuel rest (types ++ [a.fieldType (a.fieldCode c)])
          (u32 (size + a.pad (a.primitiveSize (a.fieldCode c))))
    else .done types size

/-- The function `makeNativeMethodData(t, method, function)` as far as it fills in the native
method data: the parameter-type tags and the argument-table size, computed from the method's
spec. -/
def makeNativeMethodData (a : NativeTypes) (m : Machine) (fuel : Nat) (spec : List Nat) :
    Scan :=
  match spec with
  | [] => .undefined
  | _ :: s =>
    scanParameters a m.BytesPerWord fuel s [a.POINTER_TYPE, a.POINTER_TYPE]
      (u32 (m.BytesPerWord * 2))

/-- The element type of a parameter in a method descriptor of the class-file format: a
primitive type, written as one character, or a class, written `L<name>;`. -/
inductive BaseType where
  | primitive (c : Nat)
  | object (name : List Nat)
deriving DecidableEq, Repr

/-- A parameter type of a method descriptor: `dims` array dimensions (`[`) in front of an
element type. -/
structure ParameterType where
  dims : Nat
  base : BaseType
deriving DecidableEq, Repr

/-- The characters of an element type. -/
def BaseType.chars : BaseType → List Nat
  | .primitive c => [c]
  | .object name => 0x4c :: (name ++ [0x3b])

/-- The characters of a parameter type. -/
def ParameterType.chars (p : ParameterType) : List Nat :=
  List.replicate p.dims 0x5b ++ p.base.chars

/-- The characters of a list of parameter types, in declaration order. -/
def parameterChars : List ParameterType → List Nat
  | [] => []
  | p :: ps => p.chars ++ parameterChars ps

/-- The method descriptor `(<parameters>)<return>`. -/
def descriptor (ps : List ParameterType) (ret : List Nat) : List Nat :=
  0x28 :: (parameterChars ps ++ 0x29 :: ret)

/-- A well-formed element type: one of the primitive type characters `B C D F I J S Z`, or a
class name without `;` and NUL. -/
def BaseType.wellFormed : BaseType → Prop
  | .primitive c => c ∈ [0x42, 0x43, 0x44, 0x46, 0x49, 0x4a, 0x53, 0x5a]
  | .object name => ∀ x, x ∈ name → x ≠ 0 ∧ x ≠ 0x3b

instance BaseType.wellFormedDecidable : (b : BaseType) → Decidable b.wellFormed
  | .primitive c =>
    inferInstanceAs (Decidable (c ∈ [0x42, 0x43, 0x44, 0x46, 0x49, 0x4a, 0x53, 0x5a]))
  | .object name => inferInstanceAs (Decidable (∀ x, x ∈ name → x ≠ 0 ∧ x ≠ 0x3b))

/-- Whether a parameter is an object or an array, hence passed as a pointer. -/
def ParameterType.isReference (p : ParameterType) : Bool :=
  match p.dims, p.base with
  | 0, .primitive _ => false
  | _, _ => true

/-- The first character of a parameter type, from which its tag is computed. -/
def ParameterType.firstChar (p : ParameterType) : Nat :=
  match p.dims, p.base with
  | 0, .primitive c => c
  | 0, .object _ => 0x4c
  | _ + 1, _ => 0x5b

/-- The argument-table size that the spec words give for the parameters `ps`, in addition to
`size`: `BytesPerWord` for each object or array parameter and `pad(primitiveSize)` for each
primitive parameter. -/
def argumentTableSize (a : NativeTypes) (bytesPerWord : Nat) : List ParameterType → Nat → Nat
  | [], size => size
  | p :: ps, size =>
    argumentTableSize a bytesPerWord ps
      (size + (if p.isReference then bytesPerWord
        else a.pad (a.primitiveSize (a.fieldCode p.firstChar))))

/-! ## The monitor wait list -/

/-- The fields that the wait-list functions of `machine.h` use: the monitor's owner, `waitHead`
and `waitTail`, and the `waitNext` and `waiting` fields of the threads.  A thread is given by
a non-zero number, zero being the null pointer. -/
structure WaitList where
  owner : Nat
  waitHead : Nat
  waitTail : Nat
  waitNext : Nat → Nat
  waiting : Nat → Bool

/-- How a wait-list function ends: normally, in a failed `assert` or `expect` or in
`abort(t)`, or with the iteration bound of the model reached. -/
inductive Checked (α : Type) where
  | done (a : α) (s : WaitList)
  | aborted
  | outOfFuel

/-- Assignment to the `waitNext` field of thread `x`. -/
def setWaitNext (f : Nat → Nat) (x v : Nat) : Nat → Nat :=
  fun y => if y = x then v else f y

/-- Assignment to the `waiting` field of thread `x`. -/
def setWaiting (f : Nat → Bool) (x : Nat) (v : Bool) : Nat → Bool :=
  fun y => if y = x then v else f y

/-- The function `monitorAppendWait(t, monitor)`. -/
def monitorAppendWait (s : WaitList) (t : Nat) : Checked Unit :=
  if s.owner ≠ t then .aborted
  else if s.waiting t then .aborted
  else if s.waitNext t ≠ 0 then .aborted
  else
    let s1 := { s with waiting := setWaiting s.waiting t true }
    let s2 :=
      if s1.waitTail ≠ 0 then { s1 with waitNext := setWaitNext s1.waitNext s1.waitTail t }
      else { s1 with waitHead := t }
    .done () { s2 with waitTail := t }

/-- The loop of `monitorRemoveWait(t, monitor)` with the given values of `previous` and
`current`; `fuel` bounds the number of iterations. -/
def monitorRemoveWaitLoop (t : Nat) : Nat → WaitList → Nat → Nat → Checked Unit
  | 0, _, _, _ => .outOfFuel
  | fuel + 1, s, previous, current =>
    if current ≠ 0 then
      if t = current then
        let s1 :=
          if t = s.waitHead then { s with waitHead := s.waitNext t }
          else { s with waitNext := setWaitNext s.waitNext previous (s.waitNext t) }
        if t = s1.waitTail then
          if s1.waitNext t ≠ 0 then .aborted
          else
            let s2 := { s1 with waitTail := previous }
            let s3 := { s2 with waitNext := setWaitNext s2.waitNext t 0 }
            .done () { s3 with waiting := setWaiting s3.waiting t false }
        else
          let s3 := { s1 with waitNext := setWaitNext s1.waitNext t 0 }
          .done () { s3 with waiting := setWaiting s3.waiting t false }
      else monitorRemoveWaitLoop t fuel s current (s.waitNext current)
    else .aborted

/-- The function `monitorRemoveWait(t, monitor)`. -/
def monitorRemoveWait (fuel : Nat) (s : WaitList) (t : Nat) : Checked Unit :=
  if s.owner ≠ t then .aborted
  else monitorRemoveWaitLoop t fuel s 0 s.waitHead

/-- The function `monitorPollWait(t, monitor)`. -/
def monitorPollWait (s : WaitList) (t : Nat) : Checked Nat :=
  if s.owner ≠ t then .aborted
  else if s.waitHead ≠ 0 then
    let next := s.waitHead
    let s1 := { s with waitHead := s.waitNext next }
    let s2 := { s1 with waiting := setWaiting s1.waiting next false }
    let s3 := { s2 with waitNext := setWaitNext s2.waitNext next 0 }
    if next = s3.waitTail then .done next { s3 with waitTail := 0 }
    else .done next s3
  else if s.waitTail ≠ 0 then .aborted
  else .done 0 s

/-- The sequence of threads reachable from `head` through `waitNext`. -/
def waitSeq (next : Nat → Nat) : Nat → List Nat → Prop
  | head, [] => head = 0
  | head, x :: rest => head = x ∧ x ≠ 0 ∧ waitSeq next (next x) rest

instance waitSeqDecidable (next : Nat → Nat) : (head : Nat) → (l : List Nat) →
    Decidable (waitSeq next head l)
  | head, [] => inferInstanceAs (Decidable (head = 0))
  | head, x :: rest =>
    have := waitSeqDecidable next (next x) rest
    inferInstanceAs (Decidable (head = x ∧ x ≠ 0 ∧ waitSeq next (next x) rest))

/-- The wait list `s` holds the queue `l`: `l` is the sequence reachable from `waitHead`, no
thread occurs in it twice, `waitTail` is its last element (null if it is empty), and a thread
has its `waiting` flag set if and only if it is in the sequence. -/
def waitListHolds (s : WaitList) (l : List Nat) : Prop :=
  waitSeq s.waitNext s.waitHead l ∧ l.Nodup ∧ s.waitTail = l.getLastD 0 ∧
    ∀ x, x ≠ 0 → (s.waiting x = true ↔ x ∈ l)

/-- The queue operation that the spec names for `monitorAppendWait`: append at the end. -/
def fifoAppend (l : List Nat) (t : Nat) : List Nat := l ++ [t]

/-- The queue operation that the spec names for `monitorPollWait`: the first thread (null for
the empty queue) and the queue without it. -/
def fifoPoll : List Nat → Nat × List Nat
  | [] => (0, [])
  | x :: rest => (x, rest)

/-- The queue operation that the spec names for `monitorRemoveWait`: remove `t` from whatever
position it holds. -/
def fifoRemove (l : List Nat) (t : Nat) : List Nat := l.erase t

/-! ## Fields -/

/-- The flag `ACC_VOLATILE` of the class-file format. -/
def ACC_VOLATILE : Nat := 0x40

/-- Assignment to the cell `cast<T>(o, offset)` of object memory; object memory is given by
the values of its typed cells. -/
def setCell (h : Nat → Nat → Int) (o offset : Nat) (v : Int) : Nat → Nat → Int :=
  fun p q => if p = o ∧ q = offset then v else h p q

/-- The function `pushField(t, target, field)` for a field with the given code and offset. -/
def pushField (m : Machine) (h : Nat → Nat → Int) (t : Thread) (target code offset : Nat) :
    Outcome Unit :=
  if code = ByteField ∨ code = BooleanField then
    pushInt m t (toUnsigned (toInt8 (toUnsigned (h target offset))))
  else if code = CharField ∨ code = ShortField then
    pushInt m t (toUnsigned (toInt16 (toUnsigned (h target offset))))
  else if code = FloatField ∨ code = IntField then
    pushInt m t (toUnsigned (toInt (toUnsigned (h target offset))))
  else if code = DoubleField ∨ code = LongField then
    pushLong m t (toUnsigned64 (h target offset))
  else if code = ObjectField then pushObject m t (h target offset).toNat
  else .aborted t

/-- The arm `case putfield` from the `switch (fieldCode(t, field))` on, for a resolved,
non-volatile instance field with the given code and offset (the memory barriers of a volatile
field do not show in a single thread): the value and the object are popped, the value is
stored in the field's cell, converted to the cell's type, and a null object raises
null-pointer. -/
def putfield (m : Machine) (h : Nat → Nat → Int) (t : Thread) (code offset : Nat) :
    Step × (Nat → Nat → Int) :=
  if code = ByteField ∨ code = BooleanField ∨ code = CharField ∨ code = ShortField
      ∨ code = FloatField ∨ code = IntField then
    match popInt t with
    | .aborted t1 => (.aborted t1, h)
    | .done v t1 =>
      match popObject t1 with
      | .aborted t2 => (.aborted t2, h)
      | .done o t2 =>
        if o ≠ 0 then
          if code = ByteField ∨ code = BooleanField then
            (.loop t2, setCell h o offset (toInt8 v))
          else if code = CharField ∨ code = ShortField then
            (.loop t2, setCell h o offset (toInt16 v))
          else (.loop t2, setCell h o offset (toInt v))
        else
          (.throw_ { (makeNullPointerException m t2).2 with
            exception := (makeNullPointerException m t2).1 }, h)
  else if code = DoubleField ∨ code = LongField then
    match popLong t with
    | .aborted t1 => (.aborted t1, h)
    | .done v t1 =>
      match popObject t1 with
      | .aborted t2 => (.aborted t2, h)
      | .done o t2 =>
        if o ≠ 0 then (.loop t2, setCell h o offset (toInt64 v))
        else
          (.throw_ { (makeNullPointerException m t2).2 with
            exception := (makeNullPointerException m t2).1 }, h)
  else if code = ObjectField then
    match popObject t with
    | .aborted t1 => (.aborted t1, h)
    | .done v t1 =>
      match popObject t1 with
      | .aborted t2 => (.aborted t2, h)
      | .done o t2 =>
        if o ≠ 0 then (.loop t2, setCell h o offset (v : Int))
        else
          (.throw_ { (makeNullPointerException m t2).2 with
            exception := (makeNullPointerException m t2).1 }, h)
  else (.aborted t, h)

/-- The arm `case i2b`. -/
def i2b (m : Machine) (t : Thread) : Step :=
  match popInt t with
  | .aborted t1 => .aborted t1
  | .done v t1 => Step.ofOutcome (pushInt m t1 (toUnsigned (toInt8 v)))

/-- The arm `case i2c`. -/
def i2c (m : Machine) (t : Thread) : Step :=
  match popInt t with
  | .aborted t1 => .aborted t1
  | .done v t1 => Step.ofOutcome (pushInt m t1 (v % 65536))

/-- The arm `case i2s`. -/
def i2s (m : Machine) (t : Thread) : Step :=
  match popInt t with
  | .aborted t1 => .aborted t1
  | .done v t1 => Step.ofOutcome (pushInt m t1 (toUnsigned (toInt16 v)))

/-! ## Invocation -/

/-- The flag `ACC_INTERFACE` of the class-file format. -/
def ACC_INTERFACE : Nat := 0x200

/-- The flag `BootstrapFlag = 1 << 6` of `machine.h`. -/
def BootstrapFlag : Nat := 64

/-- What `invoke` and `invokeNative` call and the model does not follow: the runtime
functions declared outside the two source files (`methodVirtual`, `objectClass`,
`classVmFlags`, `classFlags`, `findInterfaceMethod`, `findVirtualMethod`, `resolveNativeMethod`,
`makeString`, the exception and box constructors, and `resolveClass` and `initClass` by their
effect on the thread), the dispatch loop `interpret` by its result and effect on the thread,
and the native call proper (`callNative`: everything `invokeNative` does once the native
method data is resolved and no exception is pending, which ends in `System::call` or in the
native function, by its return code and effect on the thread). -/
structure Calls where
  methodVirtual : Nat → Bool
  objectClass : Nat → Nat
  classVmFlags : Nat → Nat
  classFlags : Nat → Nat
  findInterfaceMethod : Nat → Nat → Nat
  findVirtualMethod : Nat → Nat → Nat
  resolveClass : Thread → Nat → Thread
  initClass : Thread → Nat → Thread
  interpret : Thread → Nat × Thread
  resolveNativeMethod : Nat → Nat
  makeLinkMessage : Nat → Nat
  makeUnsatisfiedLinkError : Nat → Nat → Nat → Nat
  callNative : Thread → Nat → Nat × Thread
  makeInt : Nat → Nat
  makeLong : Nat → Nat

/-- The inline `makeUnsatisfiedLinkError(t, message)` of `machine.h`. -/
def makeUnsatisfiedLinkError (c : Calls) (m : Machine) (t : Thread) (message : Nat) :
    Nat × Thread :=
  (c.makeUnsatisfiedLinkError message (makeTrace m t).1 0, (makeTrace m t).2)

/-- The function `resolveNativeMethodData(t, method)` as far as the thread shows it: a native
method that is not yet resolved and cannot be found leaves an unsatisfied-link error
pending. -/
def resolveNativeMethodData (c : Calls) (m : Machine) (t : Thread) (method : Nat) : Thread :=
  if m.methodCode method = 0 then
    if c.resolveNativeMethod method ≠ 0 then t
    else
      { (makeUnsatisfiedLinkError c m t (c.makeLinkMessage method)).2 with
        exception := (makeUnsatisfiedLinkError c m t (c.makeLinkMessage method)).1 }
  else t

/-- The function `invokeNative(t, method)`: the return code and the thread on return. -/
def invokeNative (c : Calls) (m : Machine) (t : Thread) (method : Nat) : Nat × Thread :=
  let t1 := resolveNativeMethodData c m t method
  if t1.exception ≠ 0 then (VoidField, t1)
  else c.callNative t1 method

/-- The code at label `invoke` of `interpret`, entered with the method in `code`. -/
def invokeLabel (c : Calls) (m : Machine) (t : Thread) : Step :=
  if m.methodFlags t.code &&& ACC_NATIVE ≠ 0 then
    if (invokeNative c m t t.code).2.exception ≠ 0 then .throw_ (invokeNative c m t t.code).2
    else .loop (invokeNative c m t t.code).2
  else
    if (checkStack m t t.code).exception ≠ 0 then .throw_ (checkStack m t t.code)
    else Step.ofOutcome (pushFrame m (checkStack m t t.code) (checkStack m t t.code).code)

/-- The function `invoke(t, method)` behind `invokeArray` and `invokeList`: the result and
the thread on return. -/
def invoke (c : Calls) (m : Machine) (t : Thread) (method : Nat) : Outcome Nat :=
  let dispatched : Outcome (Nat × Nat) :=
    if c.methodVirtual method then
      match peekObject m t (u32 (t.sp + U32 - u32 (m.methodParameterFootprint method))) with
      | .aborted t1 => .aborted t1
      | .done o t1 =>
        let class_ := c.objectClass o
        let t2 := if c.classVmFlags class_ &&& BootstrapFlag ≠ 0 then c.resolveClass t1 class_
          else t1
        if c.classFlags (m.methodClass method) &&& ACC_INTERFACE ≠ 0 then
          .done (c.findInterfaceMethod method class_, class_) t2
        else .done (c.findVirtualMethod method class_, class_) t2
    else .done (method, m.methodClass method) t
  match dispatched with
  | .aborted t1 => .aborted t1
  | .done (method1, class_) t1 =>
    let t2 := c.initClass t1 class_
    let called : Outcome Nat :=
      if m.methodFlags method1 &&& ACC_NATIVE ≠ 0 then
        let returnCode := (invokeNative c m t2 method1).1
        let t3 := (invokeNative c m t2 method1).2
        if t3.exception = 0 then
          if returnCode = ByteField ∨ returnCode = BooleanField ∨ returnCode = CharField
              ∨ returnCode = ShortField ∨ returnCode = FloatField ∨ returnCode = IntField then
            match popInt t3 with
            | .aborted t4 => .aborted t4
            | .done v t4 => .done (c.makeInt v) t4
          else if returnCode = LongField ∨ returnCode = DoubleField then
            match popLong t3 with
            | .aborted t4 => .aborted t4
            | .done v t4 => .done (c.makeLong v) t4
          else if returnCode = ObjectField then popObject t3
          else if returnCode = VoidField then .done 0 t3
          else .aborted t3
        else .done 0 t3
      else
        let t3 := checkStack m t2 method1
        if t3.exception = 0 then
          match pushFrame m t3 method1 with
          | .aborted t4 => .aborted t4
          | .done _ t4 =>
            let result := (c.interpret t4).1
            let t5 := (c.interpret t4).2
            if t5.exception = 0 then
              match popFrame m t5 with
              | .aborted t6 => .aborted t6
              | .done _ t6 => .done result t6
            else .done result t5
        else .done 0 t3
    match called with
    | .aborted t3 => .aborted t3
    | .done result t3 => if t3.exception ≠ 0 then .done 0 t3 else .done result t3

/-- A method body that makes `n` consecutive single-slot pushes. -/
def pushSlots (m : Machine) : Nat → Thread → Outcome Unit
  | 0, t => .done () t
  | n + 1, t =>
    match pushInt m t 0 with
    | .aborted t1 => .aborted t1
    | .done _ t1 => pushSlots m n t1

/-! ## Concrete machines and threads -/

/-- A 64-bit build of the machine with no methods: every accessor returns zero. -/
def machine64 : Machine where
  BytesPerWord := 8
  methodParameterFootprint := fun _ => 0
  methodFlags := fun _ => 0
  methodVmFlags := fun _ => 0
  methodCode := fun _ => 0
  methodClass := fun _ => 0
  codeMaxLocals := fun _ => 0
  codeMaxStack := fun _ => 0
  codePool := fun _ => 0
  codeExceptionHandlerTable := fun _ => none
  classLoader := fun _ => 0
  resolveClass := fun _ _ => .failed 1
  instanceOf := fun _ _ => false
  codeBody := fun _ _ => 0
  traceArray := fun _ => 0
  makeStackOverflowError := fun _ _ _ => 1
  makeNullPointerException := fun _ _ _ => 2

/-- A thread with an all-zero stack, no frame, and the given stack pointer. -/
def threadAt (sp : Nat) : Thread where
  ip := 0
  sp := sp
  frame := -1
  code := 0
  exception := 0
  classInitList := []
  stack := fun _ => 0
  pool := fun _ _ => .resolved 0
  trace := []

/-- A stack holding the given words from word 0 on, and zero beyond. -/
def stackOf (words : List Nat) : Nat → Nat :=
  fun j => words.getD j 0

/-- A 64-bit build with three bytecode methods.  Method 100 has two parameter slots, three
locals and an operand stack of two (code 200).  Method 101 has no parameters and one local
(code 201); its handler table is the single entry `{start 10, end 20, handler 50}` with catch
type 1, constant 0 of its pool being the resolved class 7, of which object 9 is an instance;
byte 14 of its body is `athrow` (0xbf).  Method 102 needs 4000 locals (code 202).  Method 103
(code 203) has a handler table whose in-range catch types are the unresolvable constant 0
(class name 70) and the resolvable constant 1 (class name 71, resolving to class 7). -/
def demoMachine : Machine where
  BytesPerWord := 8
  methodParameterFootprint := fun x => if x = 100 then 2 else 0
  methodFlags := fun _ => 0
  methodVmFlags := fun _ => 0
  methodCode := fun x =>
    if x = 100 then 200 else if x = 101 then 201 else if x = 102 then 202
    else if x = 103 then 203 else 0
  methodClass := fun _ => 7
  codeMaxLocals := fun c =>
    if c = 200 then 3 else if c = 201 then 1 else if c = 202 then 4000 else 0
  codeMaxStack := fun c => if c = 202 then 200 else 2
  codePool := fun c => c + 100
  codeExceptionHandlerTable := fun c =>
    if c = 201 then some [⟨10, 20, 50, 1⟩]
    else if c = 203 then some [⟨0, 5, 60, 1⟩, ⟨10, 20, 50, 1⟩, ⟨10, 20, 70, 2⟩]
    else none
  classLoader := fun _ => 0
  resolveClass := fun _ name => if name = 71 then .found 7 else .failed 13
  instanceOf := fun c o => c == 7 && o == 9
  codeBody := fun c i => if c = 201 ∧ i = 14 then 0xbf else 0
  traceArray := fun _ => 0
  makeStackOverflowError := fun _ _ _ => 11
  makeNullPointerException := fun _ _ _ => 12

/-- Constant pools of `demoMachine`: pool 301 (of code 201) holds the resolved class 7; pool
303 (of code 203) holds the symbolic references 70 and 71. -/
def demoPool : Nat → Nat → PoolEntry :=
  fun p i =>
    if p = 303 then (if i = 0 then .reference 70 else .reference 71)
    else .resolved 7

/-- A thread of `demoMachine` running method 101 in the frame at slot 1 (base 0, no caller),
at `ip = 14`, with the ints 41 and 42 on its operand stack. -/
def demoThread : Thread where
  ip := 14
  sp := 7
  frame := 1
  code := 201
  exception := 0
  classInitList := []
  stack := stackOf [0, 0, 0, 0, 0, 4294967295, 1, 101, 0, 0, 0, 41, 0, 42]
  pool := demoPool
  trace := []

/-- The thread `demoThread` after it has called method 100: the callee's frame is at slot 8
(base 5, caller frame 1), and the caller's saved `ip` is 14. -/
def demoCalleeThread : Thread where
  ip := 0
  sp := 12
  frame := 8
  code := 200
  exception := 0
  classInitList := []
  stack := stackOf [0, 0, 0, 0, 0, 4294967295, 1, 101, 0, 14, 0, 41, 0, 42, 0, 0,
    0, 5, 0, 1, 1, 100, 0, 0]
  pool := demoPool
  trace := []

/-- The thread `demoThread` with object 9 alone on its operand stack and three more ints above
the frame, about to execute the `athrow` at `ip = 14`. -/
def demoThrowThread : Thread where
  ip := 14
  sp := 9
  frame := 1
  code := 201
  exception := 0
  classInitList := []
  stack := stackOf [0, 0, 0, 0, 0, 4294967295, 1, 101, 0, 0, 0, 1, 0, 2, 0, 3, 1, 9]
  pool := demoPool
  trace := []

/-- The thread `demoThrowThread` at the head of the loop at `throw_`, after the `athrow` at
`ip = 14` has been fetched, the exception popped and the live `ip` saved in the frame. -/
def demoUnwindThread : Thread :=
  match popObject (fetch demoMachine demoThrowThread).2 with
  | .done e t1 =>
    pokeInt { t1 with exception := e } (u32 (toUnsigned t1.frame + FrameIpOffset)) t1.ip
  | .aborted t1 => t1

/-- A thread of `demoMachine` in a frame of method 103 at slot 1, with saved `ip = 15` and the
pending exception 9. -/
def demoHandlerThread : Thread where
  ip := 15
  sp := 5
  frame := 1
  code := 203
  exception := 9
  classInitList := []
  stack := stackOf [0, 0, 0, 0, 0, 4294967295, 1, 103, 0, 15]
  pool := demoPool
  trace := []

/-- Body of code 210: a `tableswitch` (0xaa) at address 5 followed by two padding bytes; its
operands start at address 8: default 100, low 0, high 3, jump offsets 40, 50, 60, 70. -/
def tableBody : List Nat :=
  [0, 0, 0, 0, 0xaa, 0xaa, 0xee, 0xee,
   0, 0, 0, 100,  0, 0, 0, 0,  0, 0, 0, 3,
   0, 0, 0, 40,  0, 0, 0, 50,  0, 0, 0, 60,  0, 0, 0, 70]

/-- Body of code 212: a `lookupswitch` (0xab) at address 3 with no padding; its operands start
at address 4: default 100, three pairs `-5 ↦ 40`, `10 ↦ 50`, `1000 ↦ 60`. -/
def lookupBody : List Nat :=
  [0, 0, 0, 0xab,
   0, 0, 0, 100,  0, 0, 0, 3,
   0xff, 0xff, 0xff, 0xfb,  0, 0, 0, 40,
   0, 0, 0, 10,  0, 0, 0, 50,
   0, 0, 3, 0xe8,  0, 0, 0, 60]

/-- Body of code 214: `goto -5` (0xa7 0xff 0xfb) at address 10 and `goto_w -16`
(0xc8 0xff 0xff 0xff 0xf0) at address 20. -/
def gotoBody : List Nat :=
  [0, 0, 0, 0, 0, 0, 0, 0, 0, 0, 0xa7, 0xff, 0xfb, 0, 0, 0, 0, 0, 0, 0,
   0xc8, 0xff, 0xff, 0xff, 0xf0]

/-- Body of code 215: `wide iinc 0 0xffff` at 0, `iinc 0 0xff` at 6, `wide fload 0` at 9,
`fload 0` at 13, `wide iload 0` at 15, `wide dload 0` at 19, `wide fstore 0` at 23,
`wide dstore 0` at 27, `dload 0` at 31, `fstore 0` at 33, `dstore 0` at 35. -/
def wideBody : List Nat :=
  [0xc4, 0x84, 0, 0, 0xff, 0xff,  0x84, 0, 0xff,  0xc4, 0x17, 0, 0,  0x17, 0,
   0xc4, 0x15, 0, 0,  0xc4, 0x18, 0, 0,  0xc4, 0x38, 0, 0,  0xc4, 0x39, 0, 0,
   0x18, 0,  0x38, 0,  0x39, 0]

/-- The machine `machine64` with the code bodies 210, 212, 214 and 215 above.  Code 211 holds
the operands of code 210 four bytes further on: its `tableswitch` is at address 8, followed by
three padding bytes 0x55, and its operands start at address 12.  Code 213 holds the operands of
code 212 four bytes further on: its `lookupswitch` is at address 5, followed by two padding
bytes 0x77, and its operands start at address 8. -/
def opMachine : Machine :=
  { machine64 with
    codeBody := fun c i =>
      if c = 210 then tableBody.getD i 0
      else if c = 211 then
        (if i = 8 then 0xaa else if i < 12 then 0x55 else tableBody.getD (i - 4) 0)
      else if c = 212 then lookupBody.getD i 0
      else if c = 213 then
        (if i = 5 then 0xab else if i < 8 then 0x77 else lookupBody.getD (i - 4) 0)
      else if c = 214 then gotoBody.getD i 0
      else if c = 215 then wideBody.getD i 0
      else 0 }

/-- A thread outside any frame running `code` at `ip`, its stack holding the given words and
`sp` slots. -/
def operandThread (code ip sp : Nat) (words : List Nat) : Thread where
  ip := ip
  sp := sp
  frame := -1
  code := code
  exception := 0
  classInitList := []
  stack := stackOf words
  pool := fun _ _ => .resolved 0
  trace := []

/-- A thread running `code` at `ip` in a single frame at slot 2 (base 0, no caller), whose two
locals are the slots `locals` (four words) and whose operand slots hold the words `operands`. -/
def localsThread (code ip : Nat) (locals operands : List Nat) : Thread where
  ip := ip
  sp := 6 + operands.length / 2
  frame := 2
  code := code
  exception := 0
  classInitList := []
  stack := stackOf (locals ++ [0, 0, 0, 4294967295, 1, 105, 0, 0] ++ operands)
  pool := fun _ _ => .resolved 0
  trace := []

/-- A thread of `demoMachine` with the pending exception 8, which is an instance of no class,
in a frame of method 103 at slot 8 with `ip = 15`, called from the entry frame of method 101
at slot 1 whose saved `ip` is 30. -/
def demoNestedThread : Thread where
  ip := 15
  sp := 12
  frame := 8
  code := 203
  exception := 8
  classInitList := []
  stack := stackOf [0, 0, 0, 0, 0, 4294967295, 1, 101, 0, 30, 0, 41, 0, 42, 0, 0,
    0, 5, 0, 1, 1, 103, 0, 0]
  pool := demoPool
  trace := []

/-- Body of code 216: `jsr +20` (0xa8 0x00 0x14) at address 10, whose subroutine at address 30
is `astore 1` (0x3a 0x01) followed by `ret 1` (0xa9 0x01), and `jsr_w +20`
(0xc9 0x00 0x00 0x00 0x14) at address 40. -/
def subroutineBody : List Nat :=
  [0, 0, 0, 0, 0, 0, 0, 0, 0, 0, 0xa8, 0, 0x14, 0, 0, 0, 0, 0, 0, 0,
   0, 0, 0, 0, 0, 0, 0, 0, 0, 0, 0x3a, 1, 0xa9, 1, 0, 0, 0, 0, 0, 0,
   0xc9, 0, 0, 0, 0x14]

/-- Body of code 217: `checkcast #1` (0xc0 0x00 0x01) at address 0 and `instanceof #1`
(0xc1 0x00 0x01) at address 3. -/
def typeCheckBody : List Nat := [0xc0, 0, 1, 0xc1, 0, 1]

/-- The machine `machine64` with the code bodies 216 and 217. -/
def flowMachine : Machine :=
  { machine64 with
    codeBody := fun c i =>
      if c = 216 then subroutineBody.getD i 0
      else if c = 217 then typeCheckBody.getD i 0
      else 0 }

/-- A runtime in which object 50 is an int array holding 10, 20, 30, object 51 a long array
holding `2^32 + 5` and `-1`, object 52 an object array holding the objects 9 and 0, object 53
a byte array (its class is 61) holding `-2`, and object 54 a boolean array (its class is 60)
holding 1; class 20 needs initialisation, `preInitClass` grants it and leaves the pending
exception as it is, and the initializer of class 20 is the code object 120. -/
def demoRuntime : Runtime where
  arrayLength := fun _ a =>
    if a = 50 then 3 else if a = 51 then 2 else if a = 52 then 2 else if a = 53 then 1
    else if a = 54 then 1 else 0
  arrayBody := fun _ a i =>
    if a = 50 then ([10, 20, 30] : List Int).getD i 0
    else if a = 51 then ([4294967301, -1] : List Int).getD i 0
    else if a = 52 then ([9, 0] : List Int).getD i 0
    else if a = 53 then -2
    else if a = 54 then 1
    else 0
  objectClass := fun a => if a = 54 then 60 else 61
  booleanArrayType := 60
  classVmFlags := fun c => if c = 20 then NeedInitFlag else 0
  classInitializer := fun c => c + 100
  preInitClass := fun pending c => (c == 20, pending)
  makeIndexMessage := fun _ _ => 30
  makeCastMessage := fun _ _ => 31
  makeInt := fun v => 1000 + toUnsigned v
  makeArrayIndexOutOfBoundsException := fun _ _ _ => 14
  makeClassCastException := fun _ _ _ => 15

/-- The thread `demoCalleeThread` with the int 77 on the operand stack of the callee. -/
def demoReturnThread : Thread :=
  { demoCalleeThread with
    sp := 13
    stack := stackOf [0, 0, 0, 0, 0, 4294967295, 1, 101, 0, 14, 0, 41, 0, 42, 0, 0,
      0, 5, 0, 1, 1, 100, 0, 0, 0, 77] }

/-- The machine `demoMachine` in which method 100 is a class initializer (of class 7). -/
def initMachine : Machine :=
  { demoMachine with methodVmFlags := fun x => if x = 100 then ClassInitFlag else 0 }

/-- The machine `demoMachine` in which method 100 is a synchronized instance method whose body
(code 200) starts with `aload 1; astore 0` (0x19 0x01 0x3a 0x00), and method 105 a synchronized
static method with the same footprint and code. -/
def syncMachine : Machine :=
  { demoMachine with
    methodFlags := fun x =>
      if x = 100 then ACC_SYNCHRONIZED
      else if x = 105 then ACC_SYNCHRONIZED ||| ACC_STATIC else 0
    methodParameterFootprint := fun x => if x = 100 ∨ x = 105 then 2 else 0
    methodCode := fun x => if x = 105 then 200 else demoMachine.methodCode x
    codeBody := fun c i => if c = 200 then ([0x19, 1, 0x3a, 0] : List Nat).getD i 0 else 0 }

/-- A thread in the frame of method 101 at slot 1 about to call a method with two parameters:
the receiver, object 9, and the object 10 are on its operand stack. -/
def demoCallThread : Thread where
  ip := 14
  sp := 7
  frame := 1
  code := 201
  exception := 0
  classInitList := []
  stack := stackOf [0, 0, 0, 0, 0, 4294967295, 1, 101, 0, 0, 1, 9, 1, 10]
  pool := demoPool
  trace := []

/-- The thread state after `pushFrame(method)` on `demoCallThread` and the two instructions
`aload 1; astore 0` of the body. -/
def demoStoredThread (method : Nat) : Thread :=
  match pushFrame syncMachine demoCallThread method with
  | .aborted t => t
  | .done _ t1 =>
    match aload syncMachine (fetch syncMachine t1).2 with
    | .loop t2 => (astore syncMachine (fetch syncMachine t2).2).thread
    | other => other.thread

/-! ## Fixtures of the native bridge, the wait list and the facade -/

/-- The slot `i` of the stack as a (tag, value) pair. -/
def Thread.slot (t : Thread) (i : Nat) : Nat × Nat := (t.tag i, t.value i)

/-- Body of code 218: `astore 1` (0x3a 0x01) at address 0 and `wide astore 1`
(0xc4 0x3a 0x00 0x01) at address 2. -/
def storeBody : List Nat := [0x3a, 1, 0xc4, 0x3a, 0, 1]

/-- The machine `machine64` with the code body 218. -/
def storeMachine : Machine :=
  { machine64 with codeBody := fun c i => if c = 218 then storeBody.getD i 0 else 0 }

/-- The machine `demoMachine` in which the methods 102 (whose code needs 4000 locals) and 104
take two parameter slots, and method 104 is a native method that is not yet resolved. -/
def facadeMachine : Machine :=
  { demoMachine with
    methodParameterFootprint := fun x => if x = 100 ∨ x = 102 ∨ x = 104 then 2 else 0
    methodFlags := fun x => if x = 104 then ACC_NATIVE else 0
    methodCode := fun x => if x = 104 then 0 else demoMachine.methodCode x }

/-- A runtime in which no method is virtual, class initialisation has nothing to do, no
native method can be found, and the body of every method returns at once (`interpret` returns
null leaving the thread as it is). -/
def demoCalls : Calls where
  methodVirtual := fun _ => false
  objectClass := fun _ => 7
  classVmFlags := fun _ => 0
  classFlags := fun _ => 0
  findInterfaceMethod := fun x _ => x
  findVirtualMethod := fun x _ => x
  resolveClass := fun t _ => t
  initClass := fun t _ => t
  interpret := fun t => (0, t)
  resolveNativeMethod := fun _ => 0
  makeLinkMessage := fun _ => 32
  makeUnsatisfiedLinkError := fun _ _ _ => 16
  callNative := fun t _ => (VoidField, t)
  makeInt := fun v => 1000 + v
  makeLong := fun v => 2000 + v

/-- The machine `demoMachine` with two more methods: method 110 (code 210, no parameters, no
locals), whose handler table is the single catch-all entry `{start 5, end 8, handler 40}`, and
method 111 (code 211) with the catch-all entry `{start 0, end 3, handler 40}`; and method 120
(code 220), the initializer of class 20. -/
def clinitMachine : Machine :=
  { demoMachine with
    methodParameterFootprint := fun _ => 0
    methodCode := fun x =>
      if x = 110 then 210 else if x = 111 then 211 else if x = 120 then 220 else 0
    methodClass := fun x => if x = 120 then 20 else 7
    methodVmFlags := fun x => if x = 120 then ClassInitFlag else 0
    codeMaxLocals := fun _ => 0
    codeMaxStack := fun _ => 2
    codeExceptionHandlerTable := fun c =>
      if c = 210 then some [⟨5, 8, 40, 0⟩]
      else if c = 211 then some [⟨0, 3, 40, 0⟩]
      else none }

/-- A thread of `clinitMachine` in the entry frame of `method` at slot 1 (base 0, no caller,
no operands) that has just read the two operand bytes of the instruction at address `p`. -/
def clinitThread (method p : Nat) : Thread where
  ip := p + 3
  sp := 5
  frame := 1
  code := clinitMachine.methodCode method
  exception := 0
  classInitList := []
  stack := stackOf [0, 0, 0, 0, 0, 4294967295, 1, method, 0, 0]
  pool := demoPool
  trace := []

/-- The thread `clinitThread method p` after `classInit(20, 3)` has fired and the code at
`invoke` has pushed the initializer's frame, with the exception 9 raised at address 3 of the
initializer. -/
def clinitThrowThread (method p : Nat) : Thread :=
  { (invokeLabel demoCalls clinitMachine
      (classInit demoRuntime (clinitThread method p) 20 3).2).thread with
    exception := 9
    ip := 3 }

/-- Type tags and sizes of a 64-bit build: `POINTER_TYPE` is 7, an object or array character
has field code `ObjectField`, the type tag of a field code is the code plus 10, and sizes are
padded to the word size. -/
def demoTypes : NativeTypes where
  POINTER_TYPE := 7
  fieldCode := fun c =>
    if c = 0x42 then ByteField else if c = 0x43 then CharField
    else if c = 0x44 then DoubleField else if c = 0x46 then FloatField
    else if c = 0x49 then IntField else if c = 0x4a then LongField
    else if c = 0x53 then ShortField else if c = 0x5a then BooleanField
    else if c = 0x4c ∨ c = 0x5b then ObjectField else VoidField
  fieldType := fun code => code + 10
  primitiveSize := fun code =>
    if code = ByteField ∨ code = BooleanField then 1
    else if code = CharField ∨ code = ShortField then 2
    else if code = FloatField ∨ code = IntField then 4
    else if code = DoubleField ∨ code = LongField then 8 else 0
  pad := fun n => (n + 7) / 8 * 8

/-- The parameters `int, String[][], long, Object, byte[]`; class names are abbreviated to
`a/S` and `a/O`. -/
def demoParameters : List ParameterType :=
  [⟨0, .primitive 0x49⟩, ⟨2, .object [0x61, 0x2f, 0x53]⟩, ⟨0, .primitive 0x4a⟩,
   ⟨0, .object [0x61, 0x2f, 0x4f]⟩, ⟨1, .primitive 0x42⟩]

/-- A wait list of the monitor owned by thread `owner` that holds the threads 5, 6, 7 in this
order. -/
def demoWaitList (owner : Nat) : WaitList where
  owner := owner
  waitHead := 5
  waitTail := 7
  waitNext := fun x => if x = 5 then 6 else if x = 6 then 7 else 0
  waiting := fun x => x == 5 || x == 6 || x == 7

/-- A thread with the four operand slots `(IntTag, 11)`, `(ObjectTag, 12)`, `(IntTag, 13)`,
`(ObjectTag, 14)`, the last one on top. -/
def shuffleThread : Thread :=
  operandThread 0 0 4 [0, 11, 1, 12, 0, 13, 1, 14]

/-- The machine `demoMachine` with a further method 104 (code 204, pool 304) without
parameters and locals: byte 14 of its body is `athrow` (0xbf), and its handler table is the
entry `{start 10, end 20, handler 50}` with catch type 1 followed by the catch-all entry
`{start 10, end 20, handler 70}` (catch type 0). -/
def catchMachine : Machine :=
  { demoMachine with
    methodCode := fun x => if x = 104 then 204 else demoMachine.methodCode x
    codeExceptionHandlerTable := fun c =>
      if c = 204 then some [⟨10, 20, 50, 1⟩, ⟨10, 20, 70, 0⟩]
      else demoMachine.codeExceptionHandlerTable c
    codeBody := fun c i => if c = 204 ∧ i = 14 then 0xbf else demoMachine.codeBody c i }

/-- The constant pools `demoPool` with pool 304 (of code 204), whose constant 0 is the
symbolic reference to the class name 70, which does not resolve. -/
def catchPool : Nat → Nat → PoolEntry :=
  fun p i => if p = 304 then .reference 70 else demoPool p i

/-- A thread of `catchMachine` running method 104 in the frame at slot 1 (base 0, no caller),
about to execute the `athrow` at `ip = 14` with object 9 on top of three ints. -/
def catchThrowThread : Thread :=
  { demoThrowThread with
    code := 204
    stack := stackOf [0, 0, 0, 0, 0, 4294967295, 1, 104, 0, 0, 0, 1, 0, 2, 0, 3, 1, 9]
    pool := catchPool }

/-! ## Arithmetic helpers -/

theorem capacity_le (m : Machine) : StackSizeInWords m / 2 ≤ 32768 := by
  have h : StackSizeInWords m ≤ 65536 := by
    unfold StackSizeInWords StackSizeInBytes
    exact Nat.div_le_self _ _
  omega

theorem u32_eq_self {n : Nat} (h : n < 4294967296) : u32 n = n := by
  unfold u32 U32
  omega

theorem setWord_same (s : Nat → Nat) (i v : Nat) : setWord s i v i = v := by
  simp [setWord]

theorem setWord_other (s : Nat → Nat) {i j : Nat} (v : Nat) (h : j ≠ i) :
    setWord s i v j = s j := by
  simp [setWord, h]

theorem shiftRight32_lt {v : Nat} (hv : v < 2 ^ 64) : v >>> 32 < 4294967296 := by
  rw [Nat.shiftRight_eq_div_pow]
  omega

theorem and_mask32 (v : Nat) : v &&& 0xFFFFFFFF = v % 4294967296 := by
  have h := Nat.and_pow_two_sub_one_eq_mod v 32
  simpa using h

theorem recombine (v : Nat) : ((v >>> 32) <<< 32) ||| (v % 4294967296) = v := by
  have hb : v % 4294967296 < 2 ^ 32 := by omega
  have h1 := Nat.mul_add_lt_is_or (i := 32) (b := v % 4294967296) hb (v >>> 32)
  rw [Nat.shiftLeft_eq, Nat.mul_comm, ← h1, Nat.shiftRight_eq_div_pow]
  omega

/-! ## Stack buffer lemmas -/

theorem pushInt_done (m : Machine) (t : Thread) (v : Nat)
    (h : t.sp + 1 < StackSizeInWords m / 2) :
    pushInt m t v = .done () { t with
      stack := setWord (setWord t.stack (2 * t.sp) IntTag) (2 * t.sp + 1) (v % 4294967296)
      sp := t.sp + 1 } := by
  have hc := capacity_le m
  have h1 : u32 (t.sp + 1) = t.sp + 1 := u32_eq_self (by omega)
  have h2 : u32 (t.sp * 2) = 2 * t.sp := by rw [u32_eq_self (by omega)]; omega
  have h3 : u32 (2 * t.sp + 1) = 2 * t.sp + 1 := u32_eq_self (by omega)
  have h4 : u32 v = v % 4294967296 := rfl
  simp only [pushInt, h1, h2, h3, h4, h, if_true]

theorem pushInt_aborted (m : Machine) (t : Thread) (v : Nat)
    (h1 : t.sp + 1 < 4294967296) (h : StackSizeInWords m / 2 ≤ t.sp + 1) :
    pushInt m t v = .aborted t := by
  have h1 : u32 (t.sp + 1) = t.sp + 1 := u32_eq_self h1
  have h5 : ¬ (t.sp + 1 < StackSizeInWords m / 2) := by omega
  simp only [pushInt, h1, h5, if_false]

theorem popInt_done (t : Thread) (n : Nat) (hn : n + 1 < 2147483648) (hsp : t.sp = n + 1)
    (htag : t.stack (2 * n) = IntTag) :
    popInt t = .done (t.stack (2 * n + 1) % 4294967296) { t with sp := n } := by
  have h1 : u32 (t.sp + U32 - 1) = n := by
    unfold u32 U32
    omega
  have h2 : u32 (n * 2) = 2 * n := by rw [u32_eq_self (by omega)]; omega
  have h3 : u32 (2 * n + 1) = 2 * n + 1 := u32_eq_self (by omega)
  simp only [popInt, h1, h2, h3, htag, if_true]
  rfl

theorem peekInt_done (m : Machine) (t : Thread) (n : Nat) (hn : n < StackSizeInWords m / 2)
    (htag : t.stack (2 * n) = IntTag) :
    peekInt m t n = .done (t.stack (2 * n + 1) % 4294967296) t := by
  have hc := capacity_le m
  have h2 : u32 (n * 2) = 2 * n := by rw [u32_eq_self (by omega)]; omega
  have h3 : u32 (2 * n + 1) = 2 * n + 1 := u32_eq_self (by omega)
  simp only [peekInt, hn, h2, h3, htag, if_true]
  rfl

theorem pushLong_done (m : Machine) (t : Thread) (v : Nat)
    (h : t.sp + 2 < StackSizeInWords m / 2) :
    pushLong m t v = .done () { t with
      stack := setWord (setWord (setWord (setWord t.stack (2 * t.sp) IntTag) (2 * t.sp + 1)
        ((v >>> 32) % 4294967296)) (2 * t.sp + 2) IntTag) (2 * t.sp + 3)
        ((v &&& 0xFFFFFFFF) % 4294967296)
      sp := t.sp + 2 } := by
  have e1 := pushInt_done m t (v >>> 32) (by omega)
  simp only [pushLong, e1]
  rw [pushInt_done m _ (v &&& 0xFFFFFFFF) (by simpa using h)]
  simp only [Nat.mul_add, Nat.add_assoc]

theorem peekLong_done (m : Machine) (t : Thread) (n : Nat) (hn : n + 1 < StackSizeInWords m / 2)
    (h0 : t.stack (2 * n) = IntTag) (h1 : t.stack (2 * n + 2) = IntTag) :
    peekLong m t n = .done (((t.stack (2 * n + 1) % 4294967296) <<< 32) |||
      (t.stack (2 * n + 3) % 4294967296)) t := by
  have hc := capacity_le m
  have hu : u32 (n + 1) = n + 1 := u32_eq_self (by omega)
  unfold peekLong
  rw [peekInt_done m t n (by omega) h0]
  dsimp only
  rw [hu, peekInt_done m t (n + 1) hn h1]
  rfl

theorem popLong_done (t : Thread) (n : Nat) (hn : n + 2 < 2147483648) (hsp : t.sp = n + 2)
    (h0 : t.stack (2 * n) = IntTag) (h1 : t.stack (2 * n + 2) = IntTag) :
    popLong t = .done (((t.stack (2 * n + 1) % 4294967296) <<< 32) |||
      (t.stack (2 * n + 3) % 4294967296)) { t with sp := n } := by
  unfold popLong
  rw [popInt_done t (n + 1) hn hsp h1]
  dsimp only
  rw [popInt_done { t with sp := n + 1 } n (by omega) rfl h0]
  rfl

/-! ## C1: push / pop round trip -/

/-- C1 as stated fails: with exactly two free slots (`sp = 4094` of 4096 on a 64-bit build)
`pushLong` does not complete, because the second `pushInt` requires `sp + 1 < 4096`. -/
theorem pushLong_two_free_slots_aborts :
    (threadAt 4094).sp + 2 ≤ StackSizeInWords machine64 / 2 ∧
    (pushLong machine64 (threadAt 4094) 4294967298).isDone = false := by
  decide

/-- C1 (amended): for every 64-bit `v` and every thread with `sp + 2 < StackSizeInWords / 2`,
`pushLong v` completes, stores the high 32 bits in slot `sp` and the low 32 bits in slot
`sp + 1`, both tagged `IntTag`, so that `peekLong sp` yields `v` and `popLong` returns `v` and
restores `sp`; and for every 32-bit `w` and every thread with `sp + 1 < StackSizeInWords / 2`,
`pushInt w` followed by `popInt` returns `w` and restores `sp`. -/
theorem pushLong_popLong_roundtrip (m : Machine) (t s : Thread) (v w : Nat)
    (hv : v < 2 ^ 64) (hw : w < 2 ^ 32)
    (ht : t.sp + 2 < StackSizeInWords m / 2) (hs : s.sp + 1 < StackSizeInWords m / 2) :
    (∃ t1, pushLong m t v = .done () t1 ∧ t1.sp = t.sp + 2 ∧
      t1.tag t.sp = IntTag ∧ t1.value t.sp = v >>> 32 ∧
      t1.tag (t.sp + 1) = IntTag ∧ t1.value (t.sp + 1) = v &&& 0xFFFFFFFF ∧
      peekLong m t1 t.sp = .done v t1 ∧
      popLong t1 = .done v { t1 with sp := t.sp }) ∧
    (∃ s1, pushInt m s w = .done () s1 ∧ s1.sp = s.sp + 1 ∧
      popInt s1 = .done w { s1 with sp := s.sp }) := by
  have hc := capacity_le m
  have hhi : (v >>> 32) % 4294967296 = v >>> 32 := Nat.mod_eq_of_lt (shiftRight32_lt hv)
  have hlo : (v &&& 0xFFFFFFFF) % 4294967296 = v % 4294967296 := by
    rw [and_mask32]
    omega
  have hw2 : w % 4294967296 = w := Nat.mod_eq_of_lt (by simpa using hw)
  have fin : ((v >>> 32) % 4294967296) <<< 32 ||| (v &&& 0xFFFFFFFF) % 4294967296 = v := by
    rw [hhi, hlo, recombine]
  obtain ⟨S, hS⟩ : ∃ S, S = setWord (setWord (setWord (setWord t.stack (2 * t.sp) IntTag)
      (2 * t.sp + 1) ((v >>> 32) % 4294967296)) (2 * t.sp + 2) IntTag) (2 * t.sp + 3)
      ((v &&& 0xFFFFFFFF) % 4294967296) := ⟨_, rfl⟩
  have e := pushLong_done m t v ht
  rw [← hS] at e
  have a0 : S (2 * t.sp) = IntTag := by rw [hS]; simp [setWord]
  have a1 : S (2 * t.sp + 1) = v >>> 32 := by rw [hS]; simp [setWord, hhi]
  have a2 : S (2 * t.sp + 2) = IntTag := by rw [hS]; simp [setWord]
  have a3 : S (2 * t.sp + 3) = v &&& 0xFFFFFFFF := by
    rw [hS]
    simp only [setWord, if_true, hlo]
    rw [and_mask32]
  constructor
  · refine ⟨_, e, rfl, a0, a1, a2, a3, ?_, ?_⟩
    · have p := peekLong_done m { t with stack := S, sp := t.sp + 2 } t.sp (by omega) a0 a2
      dsimp only at p
      rw [a1, a3, fin] at p
      exact p
    · have p := popLong_done { t with stack := S, sp := t.sp + 2 } t.sp (by omega) rfl a0 a2
      dsimp only at p
      rw [a1, a3, fin] at p
      exact p
  · refine ⟨_, pushInt_done m s w hs, rfl, ?_⟩
    have q := popInt_done { s with
      stack := setWord (setWord s.stack (2 * s.sp) IntTag) (2 * s.sp + 1) (w % 4294967296)
      sp := s.sp + 1 } s.sp (by omega) rfl (by simp [setWord])
    rw [q]
    simp [setWord, hw2]

/-- Witness for C1: a 64-bit value pushed on an empty 64-bit-build stack. -/
theorem pushLong_popLong_roundtrip_witness :
    (4294967298 < 2 ^ 64 ∧ 7 < 2 ^ 32 ∧
      (threadAt 0).sp + 2 < StackSizeInWords machine64 / 2 ∧
      (threadAt 5).sp + 1 < StackSizeInWords machine64 / 2) ∧
    ((∃ t1, pushLong machine64 (threadAt 0) 4294967298 = .done () t1 ∧
      t1.sp = (threadAt 0).sp + 2 ∧
      t1.tag (threadAt 0).sp = IntTag ∧ t1.value (threadAt 0).sp = 4294967298 >>> 32 ∧
      t1.tag ((threadAt 0).sp + 1) = IntTag ∧
      t1.value ((threadAt 0).sp + 1) = 4294967298 &&& 0xFFFFFFFF ∧
      peekLong machine64 t1 (threadAt 0).sp = .done 4294967298 t1 ∧
      popLong t1 = .done 4294967298 { t1 with sp := (threadAt 0).sp }) ∧
    (∃ s1, pushInt machine64 (threadAt 5) 7 = .done () s1 ∧ s1.sp = (threadAt 5).sp + 1 ∧
      popInt s1 = .done 7 { s1 with sp := (threadAt 5).sp })) :=
  ⟨by decide, pushLong_popLong_roundtrip machine64 (threadAt 0) (threadAt 5) 4294967298 7
    (by decide) (by decide) (by decide) (by decide)⟩

/-! ## Frame machine lemmas -/

theorem toUnsigned_of_nonneg {i : Int} (h0 : 0 ≤ i) (h1 : i < 4294967296) :
    (toUnsigned i : Int) = i := by
  unfold toUnsigned
  omega

theorem toInt_of_lt {n : Nat} (h : n < 2147483648) : toInt n = (n : Int) := by
  unfold toInt U32
  have : n % 4294967296 = n := Nat.mod_eq_of_lt (by omega)
  rw [this, if_pos h]

theorem toInt_toUnsigned {i : Int} (h0 : -2147483648 ≤ i) (h1 : i < 2147483648) :
    toInt (toUnsigned i) = i := by
  unfold toInt toUnsigned U32
  split_ifs <;> omega

theorem toUnsigned_natCast {n : Nat} (h : n < 4294967296) : toUnsigned (n : Int) = n := by
  unfold toUnsigned
  omega


theorem memset_bytes (m : Machine) (l p c : Nat) (hB : 0 < m.BytesPerWord)
    (hp : p ≤ l) (hd : l - p + 4 ≤ c) (hc : c ≤ StackSizeInWords m / 2) :
    u32 (u32 (u32 (l + U32 - p) * m.BytesPerWord) * 2) / m.BytesPerWord = 2 * (l - p) := by
  have h1 : StackSizeInWords m * m.BytesPerWord ≤ 65536 := by
    unfold StackSizeInWords StackSizeInBytes
    exact Nat.div_mul_le_self _ _
  have h2 : (l - p) * m.BytesPerWord * 2 ≤ StackSizeInWords m * m.BytesPerWord := by
    have : (l - p) * 2 ≤ StackSizeInWords m := by omega
    calc (l - p) * m.BytesPerWord * 2 = (l - p) * 2 * m.BytesPerWord := by ring
      _ ≤ StackSizeInWords m * m.BytesPerWord := Nat.mul_le_mul_right _ this
  have h3 : (l - p) * m.BytesPerWord ≤ (l - p) * m.BytesPerWord * 2 := by omega
  have hcap := capacity_le m
  have e1 : u32 (l + U32 - p) = l - p := by unfold u32 U32; omega
  have e2 : u32 ((l - p) * m.BytesPerWord) = (l - p) * m.BytesPerWord := u32_eq_self (by omega)
  have e3 : u32 ((l - p) * m.BytesPerWord * 2) = (l - p) * m.BytesPerWord * 2 :=
    u32_eq_self (by omega)
  rw [e1, e2, e3]
  have : (l - p) * m.BytesPerWord * 2 = 2 * (l - p) * m.BytesPerWord := by ring
  rw [this, Nat.mul_div_cancel _ hB]

@[simp] theorem pokeInt_stack (t : Thread) (i v : Nat) :
    (pokeInt t i v).stack =
      setWord (setWord t.stack (u32 (i * 2)) IntTag) (u32 (u32 (i * 2) + 1)) (u32 v) := rfl

@[simp] theorem pokeObject_stack (t : Thread) (i v : Nat) :
    (pokeObject t i v).stack =
      setWord (setWord t.stack (u32 (i * 2)) ObjectTag) (u32 (u32 (i * 2) + 1)) v := rfl

@[simp] theorem pokeInt_ip (t : Thread) (i v : Nat) : (pokeInt t i v).ip = t.ip := rfl

@[simp] theorem pokeInt_sp (t : Thread) (i v : Nat) : (pokeInt t i v).sp = t.sp := rfl

@[simp] theorem pokeInt_frame (t : Thread) (i v : Nat) : (pokeInt t i v).frame = t.frame := rfl

@[simp] theorem pokeInt_code (t : Thread) (i v : Nat) : (pokeInt t i v).code = t.code := rfl

@[simp] theorem pokeInt_exception (t : Thread) (i v : Nat) :
    (pokeInt t i v).exception = t.exception := rfl

@[simp] theorem pokeInt_classInitList (t : Thread) (i v : Nat) :
    (pokeInt t i v).classInitList = t.classInitList := rfl

@[simp] theorem pokeInt_pool (t : Thread) (i v : Nat) : (pokeInt t i v).pool = t.pool := rfl

@[simp] theorem pokeInt_trace (t : Thread) (i v : Nat) : (pokeInt t i v).trace = t.trace := rfl

@[simp] theorem pokeObject_ip (t : Thread) (i v : Nat) : (pokeObject t i v).ip = t.ip := rfl

@[simp] theorem pokeObject_sp (t : Thread) (i v : Nat) : (pokeObject t i v).sp = t.sp := rfl

@[simp] theorem pokeObject_frame (t : Thread) (i v : Nat) :
    (pokeObject t i v).frame = t.frame := rfl

@[simp] theorem pokeObject_code (t : Thread) (i v : Nat) : (pokeObject t i v).code = t.code := rfl

@[simp] theorem pokeObject_exception (t : Thread) (i v : Nat) :
    (pokeObject t i v).exception = t.exception := rfl

@[simp] theorem pokeObject_classInitList (t : Thread) (i v : Nat) :
    (pokeObject t i v).classInitList = t.classInitList := rfl

@[simp] theorem pokeObject_pool (t : Thread) (i v : Nat) : (pokeObject t i v).pool = t.pool := rfl

@[simp] theorem pokeObject_trace (t : Thread) (i v : Nat) :
    (pokeObject t i v).trace = t.trace := rfl

/-- The thread after the caller's `ip` has been saved at the head of `pushFrame`. -/
theorem savedIp_fields (t : Thread) :
    (if t.frame ≥ 0 then pokeInt t (u32 (toUnsigned t.frame + FrameIpOffset)) t.ip else t).sp
      = t.sp ∧
    (if t.frame ≥ 0 then pokeInt t (u32 (toUnsigned t.frame + FrameIpOffset)) t.ip else t).frame
      = t.frame := by
  split_ifs <;> exact ⟨rfl, rfl⟩

theorem pushFrameLayout_stack (m : Machine) (t : Thread) (method : Nat) (locals : Nat)
    (hloc : locals = if m.methodFlags method &&& ACC_NATIVE = 0
      then m.codeMaxLocals (m.methodCode method) else m.methodParameterFootprint method)
    (hB : 0 < m.BytesPerWord)
    (hpf : m.methodParameterFootprint method ≤ t.sp)
    (hL : m.methodParameterFootprint method ≤ locals)
    (hfit : t.sp - m.methodParameterFootprint method + locals + 4 ≤ StackSizeInWords m / 2)
    (j : Nat) :
    (pushFrameLayout m t method).stack j =
      if j = 2 * (t.sp - m.methodParameterFootprint method + locals + 3) + 1 then 0
      else if j = 2 * (t.sp - m.methodParameterFootprint method + locals + 3) then IntTag
      else if j = 2 * (t.sp - m.methodParameterFootprint method + locals + 2) + 1 then method
      else if j = 2 * (t.sp - m.methodParameterFootprint method + locals + 2) then ObjectTag
      else if j = 2 * (t.sp - m.methodParameterFootprint method + locals) + 1
        then t.sp - m.methodParameterFootprint method
      else if j = 2 * (t.sp - m.methodParameterFootprint method + locals) then IntTag
      else if j = 2 * (t.sp - m.methodParameterFootprint method + locals + 1) + 1
        then u32 (toUnsigned t.frame)
      else if j = 2 * (t.sp - m.methodParameterFootprint method + locals + 1) then IntTag
      else if 2 * t.sp ≤ j ∧ j < 2 * (t.sp - m.methodParameterFootprint method + locals) then 0
      else (walkStack t).stack j := by
  have hcap := capacity_le m
  have hT : (if t.frame ≥ 0 then pokeInt t (u32 (toUnsigned t.frame + FrameIpOffset)) t.ip
      else t) = { t with stack := (walkStack t).stack } := by
    unfold walkStack
    split_ifs <;> rfl
  generalize hp : m.methodParameterFootprint method = pf at *
  obtain ⟨F, hF⟩ : ∃ F, F = t.sp - pf + locals := ⟨_, rfl⟩
  have e0 : u32 pf = pf := u32_eq_self (by omega)
  have e1 : u32 (t.sp + U32 - pf) = t.sp - pf := by unfold u32 U32; omega
  have e2 : u32 (t.sp - pf + pf) = t.sp := by rw [u32_eq_self (by omega)]; omega
  have e3 : u32 (t.sp * 2) = 2 * t.sp := by rw [u32_eq_self (by omega)]; omega
  have eF : u32 (t.sp - pf + locals) = F := by rw [u32_eq_self (by omega)]; omega
  have f0 : u32 (F + 0) = F := u32_eq_self (by omega)
  have f1 : u32 (F + 1) = F + 1 := u32_eq_self (by omega)
  have f2 : u32 (F + 2) = F + 2 := u32_eq_self (by omega)
  have f3 : u32 (toUnsigned (toInt F) + 3) = F + 3 := by
    rw [toInt_of_lt (by omega), toUnsigned_natCast (by omega)]
    exact u32_eq_self (by omega)
  have g0 : u32 (F * 2) = 2 * F := by rw [u32_eq_self (by omega)]; omega
  have g1 : u32 ((F + 1) * 2) = 2 * (F + 1) := by rw [u32_eq_self (by omega)]; omega
  have g2 : u32 ((F + 2) * 2) = 2 * (F + 2) := by rw [u32_eq_self (by omega)]; omega
  have g3 : u32 ((F + 3) * 2) = 2 * (F + 3) := by rw [u32_eq_self (by omega)]; omega
  have k0 : u32 (2 * F + 1) = 2 * F + 1 := u32_eq_self (by omega)
  have k1 : u32 (2 * (F + 1) + 1) = 2 * (F + 1) + 1 := u32_eq_self (by omega)
  have k2 : u32 (2 * (F + 2) + 1) = 2 * (F + 2) + 1 := u32_eq_self (by omega)
  have k3 : u32 (2 * (F + 3) + 1) = 2 * (F + 3) + 1 := u32_eq_self (by omega)
  have z0 : u32 0 = 0 := rfl
  have zb : u32 (t.sp - pf) = t.sp - pf := u32_eq_self (by omega)
  have hloc2 : (if m.methodFlags method &&& ACC_NATIVE = 0
      then u32 (m.codeMaxLocals (m.methodCode method)) else pf) = locals := by
    rw [hloc]
    split_ifs with hn
    · rw [if_pos hn] at hloc
      rw [← hloc]
      exact u32_eq_self (by omega)
    · rfl
  unfold pushFrameLayout
  rw [hT]
  generalize (walkStack t).stack = S
  simp only [hp, e0, e1, hloc2, eF, e2, e3]
  by_cases hn : m.methodFlags method &&& ACC_NATIVE = 0
  · have hms := memset_bytes m locals pf _ hB hL (by omega) hfit
    have hr : 2 * t.sp + 2 * (locals - pf) = 2 * F := by omega
    simp only [hn, if_true, pokeInt_stack, pokeObject_stack, pokeInt_frame, pokeObject_frame,
      FrameNextOffset, FrameBaseOffset, FrameMethodOffset, FrameIpOffset,
      f0, f1, f2, f3, g0, g1, g2, g3, k0, k1, k2, k3, z0, zb,
      setWord, memsetZero, hms, hr, ← hF]
  · rw [if_neg hn] at hloc
    have hr : ¬ (2 * t.sp ≤ j ∧ j < 2 * F) := by omega
    simp only [hn, if_false, pokeInt_stack, pokeObject_stack, pokeInt_frame, pokeObject_frame,
      FrameNextOffset, FrameBaseOffset, FrameMethodOffset, FrameIpOffset,
      f0, f1, f2, f3, g0, g1, g2, g3, k0, k1, k2, k3, z0, zb,
      setWord, ← hF, hr]

theorem pushFrameLayout_fields (m : Machine) (t : Thread) (method : Nat) (locals : Nat)
    (hloc : locals = if m.methodFlags method &&& ACC_NATIVE = 0
      then m.codeMaxLocals (m.methodCode method) else m.methodParameterFootprint method)
    (hpf : m.methodParameterFootprint method ≤ t.sp)
    (hL : m.methodParameterFootprint method ≤ locals)
    (hfit : t.sp - m.methodParameterFootprint method + locals + 4 ≤ StackSizeInWords m / 2) :
    (pushFrameLayout m t method).sp = t.sp - m.methodParameterFootprint method + locals + 4 ∧
    (pushFrameLayout m t method).frame =
      ((t.sp - m.methodParameterFootprint method + locals : Nat) : Int) ∧
    (pushFrameLayout m t method).ip = 0 ∧
    (pushFrameLayout m t method).code =
      (if m.methodFlags method &&& ACC_NATIVE = 0 then m.methodCode method else t.code) ∧
    (pushFrameLayout m t method).exception = t.exception ∧
    (pushFrameLayout m t method).classInitList = t.classInitList ∧
    (pushFrameLayout m t method).pool = t.pool ∧
    (pushFrameLayout m t method).trace = t.trace := by
  have hcap := capacity_le m
  generalize hp : m.methodParameterFootprint method = pf at *
  obtain ⟨F, hF⟩ : ∃ F, F = t.sp - pf + locals := ⟨_, rfl⟩
  have e0 : u32 pf = pf := u32_eq_self (by omega)
  have e1 : u32 (t.sp + U32 - pf) = t.sp - pf := by unfold u32 U32; omega
  have f4 : u32 (F + 4) = F + 4 := u32_eq_self (by omega)
  have fu : u32 F = F := u32_eq_self (by omega)
  have hti : toInt F = (F : Int) := toInt_of_lt (by omega)
  have hloc2 : (if m.methodFlags method &&& ACC_NATIVE = 0
      then u32 (m.codeMaxLocals (m.methodCode method)) else pf) = locals := by
    rw [hloc]
    split_ifs with hn
    · rw [if_pos hn] at hloc
      rw [← hloc]
      exact u32_eq_self (by omega)
    · rfl
  have eF : u32 (t.sp - pf + locals) = F := by rw [u32_eq_self (by omega)]; omega
  have hT : (if t.frame ≥ 0 then pokeInt t (u32 (toUnsigned t.frame + FrameIpOffset)) t.ip
      else t) = { t with stack := (if t.frame ≥ 0 then
        pokeInt t (u32 (toUnsigned t.frame + FrameIpOffset)) t.ip else t).stack } := by
    split_ifs <;> rfl
  unfold pushFrameLayout
  rw [hT]
  simp only [hp, e0, e1, hloc2, eF, FrameFootprint, f4, fu, hti, ← hF]
  by_cases hn : m.methodFlags method &&& ACC_NATIVE = 0
  · simp only [hn, if_true, pokeInt_sp, pokeObject_sp, pokeInt_frame, pokeObject_frame,
      pokeInt_ip, pokeObject_ip, pokeInt_code, pokeObject_code, pokeInt_exception,
      pokeObject_exception, pokeInt_classInitList, pokeObject_classInitList, pokeInt_pool,
      pokeObject_pool, pokeInt_trace, pokeObject_trace, and_self]
  · simp only [hn, if_false, pokeInt_sp, pokeObject_sp, pokeInt_frame, pokeObject_frame,
      pokeInt_ip, pokeObject_ip, pokeInt_code, pokeObject_code, pokeInt_exception,
      pokeObject_exception, pokeInt_classInitList, pokeObject_classInitList, pokeInt_pool,
      pokeObject_pool, pokeInt_trace, pokeObject_trace, and_self]

theorem pushFrame_done (m : Machine) (t : Thread) (method : Nat)
    (hcapb : t.sp - m.methodParameterFootprint method < StackSizeInWords m / 2)
    (hpf : m.methodParameterFootprint method ≤ t.sp)
    (hsp : t.sp < 4294967296)
    (hrecv : m.methodFlags method &&& ACC_SYNCHRONIZED ≠ 0 →
      m.methodFlags method &&& ACC_STATIC = 0 →
      (pushFrameLayout m t method).stack (2 * (t.sp - m.methodParameterFootprint method))
        = ObjectTag) :
    ∃ t', pushFrame m t method = .done () t' ∧
      t'.stack = (pushFrameLayout m t method).stack ∧
      t'.sp = (pushFrameLayout m t method).sp ∧
      t'.frame = (pushFrameLayout m t method).frame ∧
      t'.ip = (pushFrameLayout m t method).ip ∧
      t'.code = (pushFrameLayout m t method).code ∧
      t'.exception = (pushFrameLayout m t method).exception ∧
      t'.classInitList = (pushFrameLayout m t method).classInitList ∧
      t'.pool = (pushFrameLayout m t method).pool := by
  have hcap := capacity_le m
  generalize hp : m.methodParameterFootprint method = pf at *
  have e0 : u32 pf = pf := u32_eq_self (by omega)
  have e1 : u32 (t.sp + U32 - pf) = t.sp - pf := by unfold u32 U32; omega
  have e2 : u32 ((t.sp - pf) * 2) = 2 * (t.sp - pf) := by rw [u32_eq_self (by omega)]; omega
  unfold pushFrame
  simp only [hp, e0, e1]
  by_cases hs : m.methodFlags method &&& ACC_SYNCHRONIZED = 0
  · rw [if_neg (not_not.mpr hs)]
    exact ⟨_, rfl, rfl, rfl, rfl, rfl, rfl, rfl, rfl, rfl⟩
  · rw [if_pos hs]
    by_cases hst : m.methodFlags method &&& ACC_STATIC = 0
    · rw [if_neg (not_not.mpr hst)]
      have htag := hrecv hs hst
      unfold peekObject
      rw [if_pos hcapb, e2, if_pos htag]
      exact ⟨_, rfl, rfl, rfl, rfl, rfl, rfl, rfl, rfl, rfl⟩
    · rw [if_pos hst]
      exact ⟨_, rfl, rfl, rfl, rfl, rfl, rfl, rfl, rfl, rfl⟩

/-- Saving the live `ip` (at the head of `pushFrame`, and in a stack walk) does not touch word
`j` when the current frame's save slot is another slot. -/
theorem savedIp_stack_other (t : Thread) (j : Nat)
    (h : 0 ≤ t.frame → t.frame < 2147483644 ∧
      (j : Int) ≠ 2 * (t.frame + 3) ∧ (j : Int) ≠ 2 * (t.frame + 3) + 1) :
    (walkStack t).stack j = t.stack j := by
  unfold walkStack
  split_ifs with hf
  · obtain ⟨h1, h2, h3⟩ := h hf
    have hu := toUnsigned_of_nonneg hf (by omega)
    have a1 : u32 (toUnsigned t.frame + 3) = toUnsigned t.frame + 3 := u32_eq_self (by omega)
    have a2 : u32 ((toUnsigned t.frame + 3) * 2) = 2 * (toUnsigned t.frame + 3) := by
      rw [u32_eq_self (by omega)]
      omega
    have a3 : u32 (2 * (toUnsigned t.frame + 3) + 1) = 2 * (toUnsigned t.frame + 3) + 1 :=
      u32_eq_self (by omega)
    simp only [pokeInt_stack, FrameIpOffset, a1, a2, a3, setWord]
    rw [if_neg (by omega), if_neg (by omega)]
  · rfl

/-- Saving the live `ip` stores `(IntTag, ip)` in slot `frame + 3`. -/
theorem savedIp_stack_slot (t : Thread) (f : Nat) (hf : t.frame = (f : Int))
    (hf2 : f < 2147483644) :
    (walkStack t).stack (2 * (f + 3)) = IntTag ∧
    (walkStack t).stack (2 * (f + 3) + 1) = u32 t.ip := by
  unfold walkStack
  have h0 : t.frame ≥ 0 := by omega
  have hu : toUnsigned t.frame = f := by rw [hf]; exact toUnsigned_natCast (by omega)
  have a1 : u32 (f + 3) = f + 3 := u32_eq_self (by omega)
  have a2 : u32 ((f + 3) * 2) = 2 * (f + 3) := by rw [u32_eq_self (by omega)]; omega
  have a3 : u32 (2 * (f + 3) + 1) = 2 * (f + 3) + 1 := u32_eq_self (by omega)
  rw [if_pos h0]
  simp only [pokeInt_stack, FrameIpOffset, hu, a1, a2, a3, setWord]
  constructor
  · rw [if_neg (by omega)]
    exact if_pos trivial
  · exact if_pos trivial

/-- Reading the words of a freshly written frame off their pointwise description. -/
theorem frame_words (f S : Nat → Nat) (F sp0 base method fr : Nat) (hsp : sp0 ≤ F)
    (h : ∀ j, f j =
      if j = 2 * (F + 3) + 1 then 0
      else if j = 2 * (F + 3) then IntTag
      else if j = 2 * (F + 2) + 1 then method
      else if j = 2 * (F + 2) then ObjectTag
      else if j = 2 * F + 1 then base
      else if j = 2 * F then IntTag
      else if j = 2 * (F + 1) + 1 then fr
      else if j = 2 * (F + 1) then IntTag
      else if 2 * sp0 ≤ j ∧ j < 2 * F then 0
      else S j) :
    f (2 * F) = IntTag ∧ f (2 * F + 1) = base ∧
    f (2 * (F + 1)) = IntTag ∧ f (2 * (F + 1) + 1) = fr ∧
    f (2 * (F + 2)) = ObjectTag ∧ f (2 * (F + 2) + 1) = method ∧
    f (2 * (F + 3)) = IntTag ∧ f (2 * (F + 3) + 1) = 0 ∧
    (∀ j, 2 * sp0 ≤ j → j < 2 * F → f j = 0) ∧
    (∀ j, j < 2 * sp0 → f j = S j) ∧
    (∀ j, 2 * (F + 4) ≤ j → f j = S j) := by
  refine ⟨?_, ?_, ?_, ?_, ?_, ?_, ?_, ?_, ?_, ?_, ?_⟩
  · rw [h]
    simp (disch := omega) only [if_pos, if_neg, if_true]
  · rw [h]
    simp (disch := omega) only [if_pos, if_neg, if_true]
  · rw [h]
    simp (disch := omega) only [if_pos, if_neg, if_true]
  · rw [h]
    simp (disch := omega) only [if_pos, if_neg, if_true]
  · rw [h]
    simp (disch := omega) only [if_pos, if_neg, if_true]
  · rw [h]
    simp (disch := omega) only [if_pos, if_neg, if_true]
  · rw [h]
    simp (disch := omega) only [if_pos, if_neg, if_true]
  · rw [h]
    simp (disch := omega) only [if_pos, if_neg, if_true]
  · intro j h1 h2
    rw [h]
    simp (disch := omega) only [if_pos, if_neg, if_true]
  · intro j h1
    rw [h]
    simp (disch := omega) only [if_pos, if_neg, if_true]
  · intro j h1
    rw [h]
    simp (disch := omega) only [if_pos, if_neg, if_true]

/-! ## C2: the frame written by `pushFrame` -/

/-- C2: for a non-native method with parameter footprint `pf` and `maxLocals = L ≥ pf`, called
with stack pointer `sp` and current frame `f` (the frame fitting into the stack, and the
receiver slot holding an object when the method is a synchronized instance method),
`pushFrame` completes with `base = sp - pf`, new frame `F = base + L`, slot `F` holding
`base`, slot `F + 1` holding `f`, slot `F + 2` holding the method with `ObjectTag`, slot
`F + 3` holding `0`, every slot in `[base + pf, base + L)` holding `(IntTag, 0)`,
`frame = F`, `sp = F + 4`, `ip = 0` and `code` the method's code. -/
theorem pushFrame_layout (m : Machine) (t : Thread) (method : Nat)
    (hB : 0 < m.BytesPerWord)
    (hnative : m.methodFlags method &&& ACC_NATIVE = 0)
    (hpf : m.methodParameterFootprint method ≤ t.sp)
    (hL : m.methodParameterFootprint method ≤ m.codeMaxLocals (m.methodCode method))
    (hfit : t.sp - m.methodParameterFootprint method + m.codeMaxLocals (m.methodCode method) + 4
      ≤ StackSizeInWords m / 2)
    (hframe : -2147483648 ≤ t.frame ∧ t.frame < 2147483648)
    (hrecv : m.methodFlags method &&& ACC_SYNCHRONIZED ≠ 0 →
      m.methodFlags method &&& ACC_STATIC = 0 →
      1 ≤ m.methodParameterFootprint method ∧
      t.tag (t.sp - m.methodParameterFootprint method) = ObjectTag ∧
      (0 ≤ t.frame → t.frame + 3 < ((t.sp - m.methodParameterFootprint method : Nat) : Int))) :
    ∃ t', pushFrame m t method = .done () t' ∧
      t'.tag (t.sp - m.methodParameterFootprint method + m.codeMaxLocals (m.methodCode method))
        = IntTag ∧
      t'.value (t.sp - m.methodParameterFootprint method + m.codeMaxLocals (m.methodCode method))
        = t.sp - m.methodParameterFootprint method ∧
      t'.tag (t.sp - m.methodParameterFootprint method + m.codeMaxLocals (m.methodCode method)
        + 1) = IntTag ∧
      toInt (t'.value (t.sp - m.methodParameterFootprint method
        + m.codeMaxLocals (m.methodCode method) + 1)) = t.frame ∧
      t'.tag (t.sp - m.methodParameterFootprint method + m.codeMaxLocals (m.methodCode method)
        + 2) = ObjectTag ∧
      t'.value (t.sp - m.methodParameterFootprint method + m.codeMaxLocals (m.methodCode method)
        + 2) = method ∧
      t'.tag (t.sp - m.methodParameterFootprint method + m.codeMaxLocals (m.methodCode method)
        + 3) = IntTag ∧
      t'.value (t.sp - m.methodParameterFootprint method + m.codeMaxLocals (m.methodCode method)
        + 3) = 0 ∧
      (∀ i, t.sp ≤ i →
        i < t.sp - m.methodParameterFootprint method + m.codeMaxLocals (m.methodCode method) →
        t'.tag i = IntTag ∧ t'.value i = 0) ∧
      t'.frame = ((t.sp - m.methodParameterFootprint method
        + m.codeMaxLocals (m.methodCode method) : Nat) : Int) ∧
      t'.sp = t.sp - m.methodParameterFootprint method + m.codeMaxLocals (m.methodCode method)
        + 4 ∧
      t'.ip = 0 ∧
      t'.code = m.methodCode method ∧
      frameBase m t' t'.frame = .done (t.sp - m.methodParameterFootprint method) t' ∧
      frameNext m t' t'.frame = .done t.frame t' ∧
      frameMethod m t' t'.frame = .done method t' ∧
      frameIp m t' t'.frame = .done 0 t' := by
  generalize hp : m.methodParameterFootprint method = pf at hpf hL hfit hrecv ⊢
  generalize hl : m.codeMaxLocals (m.methodCode method) = L at hL hfit ⊢
  have hcap := capacity_le m
  have hu : u32 (toUnsigned t.frame) = toUnsigned t.frame := by
    apply u32_eq_self
    unfold toUnsigned
    omega
  have uf : toUnsigned t.frame % 4294967296 = toUnsigned t.frame := hu
  have hti := toInt_toUnsigned hframe.1 hframe.2
  have hFu : toUnsigned ((t.sp - pf + L : Nat) : Int) = t.sp - pf + L :=
    toUnsigned_natCast (by omega)
  have x0 : u32 (t.sp - pf + L + 0) = t.sp - pf + L := u32_eq_self (by omega)
  have x1 : u32 (t.sp - pf + L + 1) = t.sp - pf + L + 1 := u32_eq_self (by omega)
  have x2 : u32 (t.sp - pf + L + 2) = t.sp - pf + L + 2 := u32_eq_self (by omega)
  have x3 : u32 (t.sp - pf + L + 3) = t.sp - pf + L + 3 := u32_eq_self (by omega)
  have y2 : u32 ((t.sp - pf + L + 2) * 2) = 2 * (t.sp - pf + L + 2) := by
    rw [u32_eq_self (by omega)]
    omega
  have ub : (t.sp - pf) % 4294967296 = t.sp - pf := Nat.mod_eq_of_lt (by omega)
  have c0 : t.sp - pf + L < StackSizeInWords m / 2 := by omega
  have c1 : t.sp - pf + L + 1 < StackSizeInWords m / 2 := by omega
  have c2 : t.sp - pf + L + 2 < StackSizeInWords m / 2 := by omega
  have c3 : t.sp - pf + L + 3 < StackSizeInWords m / 2 := by omega
  have cb : t.sp - pf < StackSizeInWords m / 2 := by omega
  have csp : t.sp < 4294967296 := by omega
  have cF : t.sp ≤ t.sp - pf + L := by omega
  have hother : m.methodFlags method &&& ACC_SYNCHRONIZED ≠ 0 →
      m.methodFlags method &&& ACC_STATIC = 0 →
      2 * (t.sp - pf) < 2 * t.sp ∧ (walkStack t).stack (2 * (t.sp - pf)) = ObjectTag := by
    intro h1 h2
    obtain ⟨r1, r2, r3⟩ := hrecv h1 h2
    refine ⟨by omega, ?_⟩
    rw [savedIp_stack_other t _ (fun h0 => ⟨by omega, by have := r3 h0; omega,
      by have := r3 h0; omega⟩)]
    exact r2
  have hlocals : ∀ i, t.sp ≤ i → i < t.sp - pf + L →
      (2 * t.sp ≤ 2 * i ∧ 2 * i < 2 * (t.sp - pf + L)) ∧
      (2 * t.sp ≤ 2 * i + 1 ∧ 2 * i + 1 < 2 * (t.sp - pf + L)) := by
    intro i h1 h2
    omega
  have hloc : L = if m.methodFlags method &&& ACC_NATIVE = 0
      then m.codeMaxLocals (m.methodCode method) else m.methodParameterFootprint method := by
    rw [if_pos hnative, hl]
  have hst := pushFrameLayout_stack m t method L hloc hB (by rw [hp]; exact hpf)
    (by rw [hp]; exact hL) (by rw [hp]; exact hfit)
  obtain ⟨l1, l2, l3, l4, -⟩ := pushFrameLayout_fields m t method L hloc (by rw [hp]; exact hpf)
    (by rw [hp]; exact hL) (by rw [hp]; exact hfit)
  rw [if_pos hnative] at l4
  rw [hp] at l1 l2
  simp only [hp] at hst
  obtain ⟨w0, w1, w2, w3, w4, w5, w6, w7, wl, wb, -⟩ :=
    frame_words _ _ (t.sp - pf + L) t.sp (t.sp - pf) method (u32 (toUnsigned t.frame)) cF hst
  have hrecv2 : m.methodFlags method &&& ACC_SYNCHRONIZED ≠ 0 →
      m.methodFlags method &&& ACC_STATIC = 0 →
      (pushFrameLayout m t method).stack (2 * (t.sp - pf)) = ObjectTag := by
    intro h1 h2
    rw [wb _ (hother h1 h2).1]
    exact (hother h1 h2).2
  obtain ⟨t', hd, s1, s2, s3, s4, s5, -⟩ :=
    pushFrame_done m t method (by rw [hp]; exact cb) (by rw [hp]; exact hpf) csp
      (by rw [hp]; exact hrecv2)
  rw [l1] at s2
  rw [l2] at s3
  rw [l3] at s4
  rw [l4] at s5
  rw [← s1] at w0 w1 w2 w3 w4 w5 w6 w7 wl
  rw [hu] at w3
  refine ⟨t', hd, w0, w1, w2, ?_, w4, w5, w6, w7, ?_, s3, s2, s4, s5, ?_, ?_, ?_, ?_⟩
  · show toInt (t'.stack (2 * (t.sp - pf + L + 1) + 1)) = t.frame
    rw [w3, hti]
  · intro i h1 h2
    exact ⟨wl _ (hlocals i h1 h2).1.1 (hlocals i h1 h2).1.2,
      wl _ (hlocals i h1 h2).2.1 (hlocals i h1 h2).2.2⟩
  · rw [s3]
    unfold frameBase
    rw [hFu, FrameBaseOffset, x0, peekInt_done m t' _ c0 w0, w1, ub]
  · rw [s3]
    unfold frameNext
    rw [hFu, FrameNextOffset, x1, peekInt_done m t' _ c1 w2]
    dsimp only
    rw [w3, uf, hti]
  · rw [s3]
    unfold frameMethod peekObject
    rw [hFu, FrameMethodOffset, x2, if_pos c2, y2, if_pos w4, w5]
  · rw [s3]
    unfold frameIp
    rw [hFu, FrameIpOffset, x3, peekInt_done m t' _ c3 w6, w7]

/-- Witness for C2: `demoThread` (sp 7, frame 1) calls method 100 (two parameters, three
locals): base 5, new frame 8, sp 12. -/
theorem pushFrame_layout_witness :
    (0 < demoMachine.BytesPerWord ∧
      demoMachine.methodFlags 100 &&& ACC_NATIVE = 0 ∧
      demoMachine.methodParameterFootprint 100 ≤ demoThread.sp ∧
      demoMachine.methodParameterFootprint 100
        ≤ demoMachine.codeMaxLocals (demoMachine.methodCode 100) ∧
      demoThread.sp - demoMachine.methodParameterFootprint 100
        + demoMachine.codeMaxLocals (demoMachine.methodCode 100) + 4
        ≤ StackSizeInWords demoMachine / 2) ∧
    ∃ t', pushFrame demoMachine demoThread 100 = .done () t' ∧
      t'.tag 8 = IntTag ∧ t'.value 8 = 5 ∧
      t'.tag 9 = IntTag ∧ toInt (t'.value 9) = 1 ∧
      t'.tag 10 = ObjectTag ∧ t'.value 10 = 100 ∧
      t'.tag 11 = IntTag ∧ t'.value 11 = 0 ∧
      (∀ i : Nat, 7 ≤ i → i < 8 → t'.tag i = IntTag ∧ t'.value i = 0) ∧
      t'.frame = 8 ∧ t'.sp = 12 ∧ t'.ip = 0 ∧ t'.code = 200 ∧
      frameBase demoMachine t' t'.frame = .done 5 t' ∧
      frameNext demoMachine t' t'.frame = .done 1 t' ∧
      frameMethod demoMachine t' t'.frame = .done 100 t' ∧
      frameIp demoMachine t' t'.frame = .done 0 t' :=
  ⟨by decide, pushFrame_layout demoMachine demoThread 100 (by decide) (by decide) (by decide)
    (by decide) (by decide) (by decide) (by decide)⟩

/-! ## C3: what `pushFrame` leaves unchanged -/

/-- C3: `pushFrame` (the new frame fitting into the stack, the current frame lying below the
parameters, and the receiver slot holding an object when the method is a synchronized instance
method) completes and leaves every slot below `base + pf = sp` unchanged, except the saved-`ip`
slot `frame + 3` of the calling frame, which receives the live `ip` when `frame ≥ 0`; when
there is no current frame no slot below `base + pf` is changed. -/
theorem pushFrame_preserves_below (m : Machine) (t : Thread) (method : Nat)
    (hB : 0 < m.BytesPerWord)
    (hpf : m.methodParameterFootprint method ≤ t.sp)
    (hL : m.methodFlags method &&& ACC_NATIVE = 0 →
      m.methodParameterFootprint method ≤ m.codeMaxLocals (m.methodCode method))
    (hfit : t.sp - m.methodParameterFootprint method +
      (if m.methodFlags method &&& ACC_NATIVE = 0
        then m.codeMaxLocals (m.methodCode method) else m.methodParameterFootprint method) + 4
      ≤ StackSizeInWords m / 2)
    (hip : t.ip < 4294967296)
    (hcur : 0 ≤ t.frame →
      t.frame + 4 ≤ ((t.sp - m.methodParameterFootprint method : Nat) : Int))
    (hrecv : m.methodFlags method &&& ACC_SYNCHRONIZED ≠ 0 →
      m.methodFlags method &&& ACC_STATIC = 0 →
      1 ≤ m.methodParameterFootprint method ∧
      t.tag (t.sp - m.methodParameterFootprint method) = ObjectTag) :
    ∃ t', pushFrame m t method = .done () t' ∧
      (∀ i, i < t.sp → (0 ≤ t.frame → (i : Int) ≠ t.frame + 3) →
        t'.tag i = t.tag i ∧ t'.value i = t.value i) ∧
      (∀ f : Nat, t.frame = (f : Int) → t'.tag (f + 3) = IntTag ∧ t'.value (f + 3) = t.ip) ∧
      (t.frame < 0 → ∀ i, i < t.sp → t'.tag i = t.tag i ∧ t'.value i = t.value i) := by
  have hL2 : m.methodParameterFootprint method ≤
      (if m.methodFlags method &&& ACC_NATIVE = 0
        then m.codeMaxLocals (m.methodCode method) else m.methodParameterFootprint method) := by
    split_ifs with hn
    · exact hL hn
    · exact le_refl _
  clear hL
  obtain ⟨locals, hloc⟩ : ∃ locals, locals = (if m.methodFlags method &&& ACC_NATIVE = 0
      then m.codeMaxLocals (m.methodCode method) else m.methodParameterFootprint method) :=
    ⟨_, rfl⟩
  rw [← hloc] at hfit hL2
  generalize hp : m.methodParameterFootprint method = pf at hpf hL2 hfit hcur hrecv ⊢
  have hL : pf ≤ locals := hL2
  have hcap := capacity_le m
  have cb : t.sp - pf < StackSizeInWords m / 2 := by omega
  have csp : t.sp < 4294967296 := by omega
  have cF : t.sp ≤ t.sp - pf + locals := by omega
  have uip : u32 t.ip = t.ip := u32_eq_self hip
  have hother : m.methodFlags method &&& ACC_SYNCHRONIZED ≠ 0 →
      m.methodFlags method &&& ACC_STATIC = 0 →
      2 * (t.sp - pf) < 2 * t.sp ∧ (walkStack t).stack (2 * (t.sp - pf)) = ObjectTag := by
    intro h1 h2
    obtain ⟨r1, r2⟩ := hrecv h1 h2
    refine ⟨by omega, ?_⟩
    rw [savedIp_stack_other t _ (fun h0 => ⟨by omega, by have := hcur h0; omega,
      by have := hcur h0; omega⟩)]
    exact r2
  have hkeep : ∀ i, i < t.sp → (0 ≤ t.frame → (i : Int) ≠ t.frame + 3) →
      (2 * i < 2 * t.sp ∧ (walkStack t).stack (2 * i) = t.stack (2 * i)) ∧
      (2 * i + 1 < 2 * t.sp ∧ (walkStack t).stack (2 * i + 1) = t.stack (2 * i + 1)) := by
    intro i h1 h2
    refine ⟨⟨by omega, ?_⟩, ⟨by omega, ?_⟩⟩
    · exact savedIp_stack_other t _ (fun h0 => ⟨by have := hcur h0; omega,
        by have := h2 h0; omega, by omega⟩)
    · exact savedIp_stack_other t _ (fun h0 => ⟨by have := hcur h0; omega,
        by omega, by have := h2 h0; omega⟩)
  have hslot : ∀ f : Nat, t.frame = (f : Int) →
      (2 * (f + 3) < 2 * t.sp ∧ (walkStack t).stack (2 * (f + 3)) = IntTag) ∧
      (2 * (f + 3) + 1 < 2 * t.sp ∧ (walkStack t).stack (2 * (f + 3) + 1) = t.ip) := by
    intro f hf
    have h4 := hcur (by omega)
    have hs := savedIp_stack_slot t f hf (by omega)
    rw [uip] at hs
    exact ⟨⟨by omega, hs.1⟩, ⟨by omega, hs.2⟩⟩
  have hst := pushFrameLayout_stack m t method locals hloc hB (by rw [hp]; exact hpf)
    (by rw [hp]; exact hL) (by rw [hp]; exact hfit)
  simp only [hp] at hst
  obtain ⟨-, -, -, -, -, -, -, -, -, wb, -⟩ :=
    frame_words _ _ (t.sp - pf + locals) t.sp (t.sp - pf) method (u32 (toUnsigned t.frame)) cF hst
  have hrecv2 : m.methodFlags method &&& ACC_SYNCHRONIZED ≠ 0 →
      m.methodFlags method &&& ACC_STATIC = 0 →
      (pushFrameLayout m t method).stack (2 * (t.sp - pf)) = ObjectTag := by
    intro h1 h2
    rw [wb _ (hother h1 h2).1]
    exact (hother h1 h2).2
  obtain ⟨t', hd, s1, -⟩ :=
    pushFrame_done m t method (by rw [hp]; exact cb) (by rw [hp]; exact hpf) csp
      (by rw [hp]; exact hrecv2)
  rw [← s1] at wb
  have hmain : ∀ i, i < t.sp → (0 ≤ t.frame → (i : Int) ≠ t.frame + 3) →
      t'.tag i = t.tag i ∧ t'.value i = t.value i := by
    intro i h1 h2
    obtain ⟨⟨a1, a2⟩, ⟨a3, a4⟩⟩ := hkeep i h1 h2
    constructor
    · show t'.stack (2 * i) = t.stack (2 * i)
      rw [wb _ a1, a2]
    · show t'.stack (2 * i + 1) = t.stack (2 * i + 1)
      rw [wb _ a3, a4]
  refine ⟨t', hd, hmain, ?_, ?_⟩
  · intro f hf
    obtain ⟨⟨a1, a2⟩, ⟨a3, a4⟩⟩ := hslot f hf
    constructor
    · show t'.stack (2 * (f + 3)) = IntTag
      rw [wb _ a1, a2]
    · show t'.stack (2 * (f + 3) + 1) = t.ip
      rw [wb _ a3, a4]
  · intro hneg i hi
    exact hmain i hi (fun h0 => absurd hneg (not_lt.mpr h0))

/-- Witness for C3: the same call leaves the slots below 7 unchanged except slot 4, the saved
`ip` of the frame at slot 1, which receives the live `ip = 14`. -/
theorem pushFrame_preserves_below_witness :
    (0 < demoMachine.BytesPerWord ∧
      demoMachine.methodParameterFootprint 100 ≤ demoThread.sp ∧
      demoThread.ip < 4294967296 ∧
      (0 ≤ demoThread.frame → demoThread.frame + 4
        ≤ ((demoThread.sp - demoMachine.methodParameterFootprint 100 : Nat) : Int))) ∧
    ∃ t', pushFrame demoMachine demoThread 100 = .done () t' ∧
      (∀ i : Nat, i < 7 → (0 ≤ demoThread.frame → (i : Int) ≠ demoThread.frame + 3) →
        t'.tag i = demoThread.tag i ∧ t'.value i = demoThread.value i) ∧
      (∀ f : Nat, demoThread.frame = (f : Int) →
        t'.tag (f + 3) = IntTag ∧ t'.value (f + 3) = 14) ∧
      (demoThread.frame < 0 → ∀ i : Nat, i < 7 →
        t'.tag i = demoThread.tag i ∧ t'.value i = demoThread.value i) :=
  ⟨by decide, pushFrame_preserves_below demoMachine demoThread 100 (by decide) (by decide)
    (by decide) (by decide) (by decide) (by decide) (by decide)⟩

/-! ## C4: `popFrame` -/

/-- A successful `peekInt` reads the same value in any thread with the same stack. -/
theorem peekInt_congr {m : Machine} {t t' : Thread} {i v : Nat}
    (h : peekInt m t i = .done v t') (t2 : Thread) (hs : t2.stack = t.stack) :
    peekInt m t2 i = .done v t2 := by
  unfold peekInt at h ⊢
  rw [hs]
  split_ifs at h ⊢ with h1 h2
  simp only [Outcome.done.injEq] at h
  rw [h.1]

/-- A successful `peekObject` reads the same value in any thread with the same stack. -/
theorem peekObject_congr {m : Machine} {t t' : Thread} {i v : Nat}
    (h : peekObject m t i = .done v t') (t2 : Thread) (hs : t2.stack = t.stack) :
    peekObject m t2 i = .done v t2 := by
  unfold peekObject at h ⊢
  rw [hs]
  split_ifs at h ⊢ with h1 h2
  simp only [Outcome.done.injEq] at h
  rw [h.1]

theorem frameNext_congr {m : Machine} {t t' : Thread} {f n : Int}
    (h : frameNext m t f = .done n t') (t2 : Thread) (hs : t2.stack = t.stack) :
    frameNext m t2 f = .done n t2 := by
  unfold frameNext at h ⊢
  cases hp : peekInt m t (u32 (toUnsigned f + FrameNextOffset)) with
  | aborted t1 => rw [hp] at h; cases h
  | done v t1 =>
    rw [hp] at h
    simp only [Outcome.done.injEq] at h
    rw [peekInt_congr hp t2 hs]
    simp only [h.1]

/-- C4: on a frame whose method is neither synchronized nor a class initializer (the frame's
method, base and next slots being readable, and so the method and saved-`ip` slots of the
caller frame when there is one), `popFrame` completes, sets `sp` to the frame's base and
`frame` to the frame's next; if the new frame is `≥ 0` it sets `code` to the code of the new
frame's method and `ip` to the new frame's saved `ip`, otherwise `code` to null and `ip` to
`0`; no stack slot (nor anything else) is modified. -/
theorem popFrame_restores (m : Machine) (t : Thread) (method b : Nat) (n : Int)
    (hmeth : frameMethod m t t.frame = .done method t)
    (hsync : m.methodFlags method &&& ACC_SYNCHRONIZED = 0)
    (hinit : m.methodVmFlags method &&& ClassInitFlag = 0)
    (hbase : frameBase m t t.frame = .done b t)
    (hnext : frameNext m t t.frame = .done n t)
    (hcaller : 0 ≤ n → ∃ method2 ip2,
      frameMethod m t n = .done method2 t ∧ frameIp m t n = .done ip2 t) :
    ∃ t', popFrame m t = .done () t' ∧ t'.sp = b ∧ t'.frame = n ∧ t'.stack = t.stack ∧
      (∀ method2 ip2, 0 ≤ n → frameMethod m t n = .done method2 t →
        frameIp m t n = .done ip2 t → t'.code = m.methodCode method2 ∧ t'.ip = ip2) ∧
      (n < 0 → t'.code = 0 ∧ t'.ip = 0) ∧
      t'.exception = t.exception ∧ t'.classInitList = t.classInitList ∧
      t'.pool = t.pool ∧ t'.trace = t.trace := by
  have e1 : popFrameRelease m t method = .done () t := by
    unfold popFrameRelease
    rw [if_neg (not_not.mpr hsync)]
  have e2 : popFrameClassInit m t method = .done () t := by
    unfold popFrameClassInit
    rw [if_neg (not_not.mpr hinit)]
  have e3 : frameNext m { t with sp := b } t.frame = .done n { t with sp := b } :=
    frameNext_congr hnext _ rfl
  unfold popFrame
  rw [hmeth]
  dsimp only
  rw [e1]
  dsimp only
  rw [e2]
  dsimp only
  unfold popFrameRestore
  rw [hbase]
  dsimp only
  rw [e3]
  dsimp only
  by_cases hn : 0 ≤ n
  · obtain ⟨method2, ip2, c1, c2⟩ := hcaller hn
    have e4 : frameMethod m { t with sp := b, frame := n } n
        = .done method2 { t with sp := b, frame := n } := peekObject_congr c1 _ rfl
    have e5 : frameIp m { t with sp := b, frame := n, code := m.methodCode method2 } n
        = .done ip2 { t with sp := b, frame := n, code := m.methodCode method2 } :=
      peekInt_congr c2 _ rfl
    rw [if_pos hn, e4]
    dsimp only
    rw [e5]
    refine ⟨_, rfl, rfl, rfl, rfl, ?_, ?_, rfl, rfl, rfl, rfl⟩
    · intro method3 ip3 _ d1 d2
      rw [c1] at d1
      rw [c2] at d2
      simp only [Outcome.done.injEq] at d1 d2
      exact ⟨by rw [d1.1], d2.1⟩
    · intro hneg
      omega
  · rw [if_neg hn]
    refine ⟨_, rfl, rfl, rfl, rfl, ?_, ?_, rfl, rfl, rfl, rfl⟩
    · intro method3 ip3 h0
      exact absurd h0 hn
    · intro _
      exact ⟨rfl, rfl⟩

/-- Witness for C4: the frame of method 100 at slot 8 is popped back into the frame of method
101 at slot 1, whose saved `ip` is 14. -/
theorem popFrame_restores_witness :
    (frameMethod demoMachine demoCalleeThread demoCalleeThread.frame
        = .done 100 demoCalleeThread ∧
      demoMachine.methodFlags 100 &&& ACC_SYNCHRONIZED = 0 ∧
      demoMachine.methodVmFlags 100 &&& ClassInitFlag = 0 ∧
      frameBase demoMachine demoCalleeThread demoCalleeThread.frame
        = .done 5 demoCalleeThread ∧
      frameNext demoMachine demoCalleeThread demoCalleeThread.frame
        = .done 1 demoCalleeThread ∧
      frameMethod demoMachine demoCalleeThread 1 = .done 101 demoCalleeThread ∧
      frameIp demoMachine demoCalleeThread 1 = .done 14 demoCalleeThread) ∧
    ∃ t', popFrame demoMachine demoCalleeThread = .done () t' ∧ t'.sp = 5 ∧ t'.frame = 1 ∧
      t'.stack = demoCalleeThread.stack ∧
      (∀ method2 ip2, (0 : Int) ≤ 1 →
        frameMethod demoMachine demoCalleeThread 1 = .done method2 demoCalleeThread →
        frameIp demoMachine demoCalleeThread 1 = .done ip2 demoCalleeThread →
        t'.code = demoMachine.methodCode method2 ∧ t'.ip = ip2) ∧
      ((1 : Int) < 0 → t'.code = 0 ∧ t'.ip = 0) ∧
      t'.exception = demoCalleeThread.exception ∧
      t'.classInitList = demoCalleeThread.classInitList ∧
      t'.pool = demoCalleeThread.pool ∧ t'.trace = demoCalleeThread.trace :=
  ⟨⟨rfl, by decide, by decide, rfl, rfl, rfl, rfl⟩,
    popFrame_restores demoMachine demoCalleeThread 100 5 1 rfl (by decide) (by decide) rfl rfl
      (fun _ => ⟨101, 14, rfl, rfl⟩)⟩

/-! ## C5: `checkStack` -/

/-- C5 as stated fails: when `checkStack` rejects a call made from a frame, constructing the
stack-overflow error captures a stack trace, and the stack walk stores the live `ip` in the
current frame's save slot: slot 4 of `demoThread` changes from 0 to 14. -/
theorem checkStack_flushes_ip :
    demoThread.sp + demoMachine.methodParameterFootprint 102
      + demoMachine.codeMaxLocals (demoMachine.methodCode 102) + 4
      + demoMachine.codeMaxStack (demoMachine.methodCode 102) > StackSizeInWords demoMachine / 2 ∧
    (checkStack demoMachine demoThread 102).exception = 11 ∧
    demoThread.value 4 = 0 ∧
    (checkStack demoMachine demoThread 102).value 4 = 14 := by
  decide

/-- C5 (amended): `checkStack(method)` sets the pending exception to a stack-overflow error if
and only if `sp + pf + maxLocals + 4 + maxStack > StackSizeInWords / 2`; it never changes
`sp`, `frame` or `ip`; when it does not signal it changes nothing at all; when it signals, the
only stack slot that can change is the saved-`ip` slot `frame + 3` of the current frame
(`frame ≥ 0`), which receives the live `ip`. -/
theorem checkStack_effect (m : Machine) (t : Thread) (method : Nat)
    (hsum : t.sp + m.methodParameterFootprint method + m.codeMaxLocals (m.methodCode method)
      + 4 + m.codeMaxStack (m.methodCode method) < 4294967296)
    (hframe : t.frame < 2147483644) :
    (checkStack m t method).exception =
      (if t.sp + m.methodParameterFootprint method + m.codeMaxLocals (m.methodCode method)
          + 4 + m.codeMaxStack (m.methodCode method) > StackSizeInWords m / 2
        then (makeStackOverflowError m t).1 else t.exception) ∧
    (¬ (t.sp + m.methodParameterFootprint method + m.codeMaxLocals (m.methodCode method)
          + 4 + m.codeMaxStack (m.methodCode method) > StackSizeInWords m / 2) →
      checkStack m t method = t) ∧
    (checkStack m t method).sp = t.sp ∧
    (checkStack m t method).frame = t.frame ∧
    (checkStack m t method).ip = t.ip ∧
    (∀ i : Nat, (0 ≤ t.frame → (i : Int) ≠ t.frame + 3) →
      (checkStack m t method).tag i = t.tag i ∧ (checkStack m t method).value i = t.value i) ∧
    (t.sp + m.methodParameterFootprint method + m.codeMaxLocals (m.methodCode method)
          + 4 + m.codeMaxStack (m.methodCode method) > StackSizeInWords m / 2 →
      ∀ f : Nat, t.frame = (f : Int) →
        (checkStack m t method).tag (f + 3) = IntTag ∧
        (checkStack m t method).value (f + 3) = u32 t.ip) := by
  have e : u32 (u32 (u32 (u32 (t.sp + m.methodParameterFootprint method)
      + m.codeMaxLocals (m.methodCode method)) + FrameFootprint)
      + m.codeMaxStack (m.methodCode method)) =
      t.sp + m.methodParameterFootprint method + m.codeMaxLocals (m.methodCode method)
      + 4 + m.codeMaxStack (m.methodCode method) := by
    unfold u32 U32 FrameFootprint
    omega
  have hw : ∀ i : Nat, (0 ≤ t.frame → (i : Int) ≠ t.frame + 3) →
      (walkStack t).stack (2 * i) = t.stack (2 * i) ∧
      (walkStack t).stack (2 * i + 1) = t.stack (2 * i + 1) := by
    intro i hi
    exact ⟨savedIp_stack_other t _ (fun h0 => ⟨hframe, by have := hi h0; omega, by omega⟩),
      savedIp_stack_other t _ (fun h0 => ⟨hframe, by omega, by have := hi h0; omega⟩)⟩
  have hs : ∀ f : Nat, t.frame = (f : Int) →
      (walkStack t).stack (2 * (f + 3)) = IntTag ∧
      (walkStack t).stack (2 * (f + 3) + 1) = u32 t.ip := by
    intro f hf
    exact savedIp_stack_slot t f hf (by omega)
  have hfields : (walkStack t).sp = t.sp ∧ (walkStack t).frame = t.frame ∧
      (walkStack t).ip = t.ip := by
    unfold walkStack
    split_ifs <;> exact ⟨rfl, rfl, rfl⟩
  unfold checkStack
  rw [e]
  by_cases hov : t.sp + m.methodParameterFootprint method
      + m.codeMaxLocals (m.methodCode method) + 4 + m.codeMaxStack (m.methodCode method)
      > StackSizeInWords m / 2
  · rw [if_pos hov, if_pos hov]
    refine ⟨rfl, fun h => absurd hov h, hfields.1, hfields.2.1, hfields.2.2, ?_, ?_⟩
    · intro i hi
      exact hw i hi
    · intro _ f hf
      exact hs f hf
  · rw [if_neg hov, if_neg hov]
    refine ⟨rfl, fun _ => rfl, rfl, rfl, rfl, fun _ _ => ⟨rfl, rfl⟩, fun h => absurd h hov⟩

/-- Witness for C5: `demoThread` about to call method 102, which needs 4000 locals. -/
theorem checkStack_effect_witness :
    (demoThread.sp + demoMachine.methodParameterFootprint 102
        + demoMachine.codeMaxLocals (demoMachine.methodCode 102)
        + 4 + demoMachine.codeMaxStack (demoMachine.methodCode 102) < 4294967296 ∧
      demoThread.frame < 2147483644) ∧
    ((checkStack demoMachine demoThread 102).exception =
      (if demoThread.sp + demoMachine.methodParameterFootprint 102
          + demoMachine.codeMaxLocals (demoMachine.methodCode 102)
          + 4 + demoMachine.codeMaxStack (demoMachine.methodCode 102)
          > StackSizeInWords demoMachine / 2
        then (makeStackOverflowError demoMachine demoThread).1 else demoThread.exception) ∧
    (¬ (demoThread.sp + demoMachine.methodParameterFootprint 102
          + demoMachine.codeMaxLocals (demoMachine.methodCode 102)
          + 4 + demoMachine.codeMaxStack (demoMachine.methodCode 102)
          > StackSizeInWords demoMachine / 2) →
      checkStack demoMachine demoThread 102 = demoThread) ∧
    (checkStack demoMachine demoThread 102).sp = demoThread.sp ∧
    (checkStack demoMachine demoThread 102).frame = demoThread.frame ∧
    (checkStack demoMachine demoThread 102).ip = demoThread.ip ∧
    (∀ i : Nat, (0 ≤ demoThread.frame → (i : Int) ≠ demoThread.frame + 3) →
      (checkStack demoMachine demoThread 102).tag i = demoThread.tag i ∧
      (checkStack demoMachine demoThread 102).value i = demoThread.value i) ∧
    (demoThread.sp + demoMachine.methodParameterFootprint 102
          + demoMachine.codeMaxLocals (demoMachine.methodCode 102)
          + 4 + demoMachine.codeMaxStack (demoMachine.methodCode 102)
          > StackSizeInWords demoMachine / 2 →
      ∀ f : Nat, demoThread.frame = (f : Int) →
        (checkStack demoMachine demoThread 102).tag (f + 3) = IntTag ∧
        (checkStack demoMachine demoThread 102).value (f + 3) = u32 demoThread.ip)) :=
  ⟨by decide, checkStack_effect demoMachine demoThread 102 (by decide) (by decide)⟩

/-! ## C6: when a push succeeds -/

/-- C6 as stated fails: with `sp = 4095` of 4096 slots, `sp + 1 ≤ StackSizeInWords / 2` holds
but `pushInt` and `pushObject` abort on their assertion `sp + 1 < StackSizeInWords / 2`. -/
theorem push_into_last_slot_aborts :
    (threadAt 4095).sp + 1 ≤ StackSizeInWords machine64 / 2 ∧
    (pushInt machine64 (threadAt 4095) 7).isDone = false ∧
    (pushObject machine64 (threadAt 4095) 7).isDone = false := by
  decide

/-- C6 (amended): a push of `k` slots (`k = 1` for `pushInt`, `pushObject`, `pushFloat`;
`k = 2` for `pushLong`, `pushDouble`) succeeds if and only if `sp + k < StackSizeInWords / 2`;
it fails exactly when `sp + k ≥ StackSizeInWords / 2`. -/
theorem push_succeeds_iff (m : Machine) (t : Thread) (v o : Nat)
    (hsp : t.sp + 2 < 4294967296) :
    ((pushInt m t v).isDone = true ↔ t.sp + 1 < StackSizeInWords m / 2) ∧
    ((pushObject m t o).isDone = true ↔ t.sp + 1 < StackSizeInWords m / 2) ∧
    ((pushFloat m t v).isDone = true ↔ t.sp + 1 < StackSizeInWords m / 2) ∧
    ((pushLong m t v).isDone = true ↔ t.sp + 2 < StackSizeInWords m / 2) ∧
    ((pushDouble m t v).isDone = true ↔ t.sp + 2 < StackSizeInWords m / 2) := by
  have hc := capacity_le m
  have h1 : u32 (t.sp + 1) = t.sp + 1 := u32_eq_self (by omega)
  have h2 : u32 (t.sp + 1 + 1) = t.sp + 2 := u32_eq_self (by omega)
  have hInt : ∀ w, ((pushInt m t w).isDone = true ↔ t.sp + 1 < StackSizeInWords m / 2) := by
    intro w
    unfold pushInt
    rw [h1]
    split_ifs with h
    · exact ⟨fun _ => h, fun _ => rfl⟩
    · exact ⟨fun hd => absurd hd Bool.false_ne_true, fun hlt => absurd hlt h⟩
  have hLong : ∀ w, ((pushLong m t w).isDone = true ↔ t.sp + 2 < StackSizeInWords m / 2) := by
    intro w
    by_cases h : t.sp + 1 < StackSizeInWords m / 2
    · unfold pushLong
      rw [pushInt_done m t _ h]
      dsimp only
      unfold pushInt
      dsimp only
      rw [h2]
      split_ifs with h'
      · exact ⟨fun _ => h', fun _ => rfl⟩
      · exact ⟨fun hd => absurd hd Bool.false_ne_true, fun hlt => absurd hlt h'⟩
    · unfold pushLong
      rw [pushInt_aborted m t _ (by omega) (by omega)]
      exact ⟨fun hd => absurd hd Bool.false_ne_true, fun hlt => absurd (Nat.lt_of_succ_lt hlt) h⟩
  refine ⟨hInt v, ?_, hInt v, hLong v, hLong v⟩
  unfold pushObject
  rw [h1]
  split_ifs with h
  · exact ⟨fun _ => h, fun _ => rfl⟩
  · exact ⟨fun hd => absurd hd Bool.false_ne_true, fun hlt => absurd hlt h⟩

/-- Witness for C6: pushes onto `threadAt 4093`, which has three free slots. -/
theorem push_succeeds_iff_witness :
    (threadAt 4093).sp + 2 < 4294967296 ∧
    (((pushInt machine64 (threadAt 4093) 7).isDone = true ↔
        (threadAt 4093).sp + 1 < StackSizeInWords machine64 / 2) ∧
    ((pushObject machine64 (threadAt 4093) 9).isDone = true ↔
        (threadAt 4093).sp + 1 < StackSizeInWords machine64 / 2) ∧
    ((pushFloat machine64 (threadAt 4093) 7).isDone = true ↔
        (threadAt 4093).sp + 1 < StackSizeInWords machine64 / 2) ∧
    ((pushLong machine64 (threadAt 4093) 7).isDone = true ↔
        (threadAt 4093).sp + 2 < StackSizeInWords machine64 / 2) ∧
    ((pushDouble machine64 (threadAt 4093) 7).isDone = true ↔
        (threadAt 4093).sp + 2 < StackSizeInWords machine64 / 2)) :=
  ⟨by decide, push_succeeds_iff machine64 (threadAt 4093) 7 9 (by decide)⟩

/-! ## C7: a failing `pushLong` -/

/-- C7 as stated fails: with exactly two free slots `pushLong` fails at its second `pushInt`,
after the high word has been stored in slot `sp` and `sp` has advanced. -/
theorem pushLong_half_written :
    (pushLong machine64 (threadAt 4094) 4294967298).isDone = false ∧
    (threadAt 4094).sp = 4094 ∧
    (pushLong machine64 (threadAt 4094) 4294967298).thread.sp = 4095 ∧
    (threadAt 4094).value 4094 = 0 ∧
    (pushLong machine64 (threadAt 4094) 4294967298).thread.value 4094 = 1 := by
  decide

/-- C7 (amended): a `pushLong(v)` that fails at its first `pushInt`
(`sp + 1 ≥ StackSizeInWords / 2`) leaves the thread unchanged; the only other failure is at
the second `pushInt`, with exactly two free slots (`sp + 2 = StackSizeInWords / 2`), and then
the high word has been stored in slot `sp`, `sp` has advanced by one, and nothing else has
changed. -/
theorem pushLong_failure (m : Machine) (t : Thread) (v : Nat)
    (hsp : t.sp + 2 < 4294967296)
    (hfail : (pushLong m t v).isDone = false) :
    (StackSizeInWords m / 2 ≤ t.sp + 1 ∧ (pushLong m t v).thread = t) ∨
    (t.sp + 2 = StackSizeInWords m / 2 ∧
      (pushLong m t v).thread.sp = t.sp + 1 ∧
      (pushLong m t v).thread.tag t.sp = IntTag ∧
      (pushLong m t v).thread.value t.sp = (v >>> 32) % 4294967296 ∧
      (∀ i, i ≠ t.sp → (pushLong m t v).thread.tag i = t.tag i ∧
        (pushLong m t v).thread.value i = t.value i) ∧
      (pushLong m t v).thread.frame = t.frame ∧
      (pushLong m t v).thread.ip = t.ip) := by
  have hc := capacity_le m
  by_cases h : t.sp + 1 < StackSizeInWords m / 2
  · right
    have hd : ¬ (t.sp + 2 < StackSizeInWords m / 2) := by
      intro h2
      rw [pushLong_done m t v h2] at hfail
      cases hfail
    have e : pushLong m t v = .aborted { t with
        stack := setWord (setWord t.stack (2 * t.sp) IntTag) (2 * t.sp + 1)
          ((v >>> 32) % 4294967296)
        sp := t.sp + 1 } := by
      unfold pushLong
      rw [pushInt_done m t _ h]
      dsimp only
      rw [pushInt_aborted m _ _ (by simpa using hsp) (by simp only []; omega)]
    rw [e]
    refine ⟨by omega, rfl, ?_, ?_, ?_, rfl, rfl⟩
    · simp [Outcome.thread, Thread.tag, setWord]
    · simp [Outcome.thread, Thread.value, setWord]
    · intro i hi
      have n1 : 2 * i ≠ 2 * t.sp := by omega
      have n2 : 2 * i ≠ 2 * t.sp + 1 := by omega
      have n3 : 2 * i + 1 ≠ 2 * t.sp := by omega
      have n4 : 2 * i + 1 ≠ 2 * t.sp + 1 := by omega
      simp [Outcome.thread, Thread.tag, Thread.value, setWord, n1, n2, n3, n4]
  · left
    refine ⟨by omega, ?_⟩
    unfold pushLong
    rw [pushInt_aborted m t _ (by omega) (by omega)]
    rfl

/-- Witness for C7: `pushLong` with exactly two free slots. -/
theorem pushLong_failure_witness :
    ((threadAt 4094).sp + 2 < 4294967296 ∧
      (pushLong machine64 (threadAt 4094) 4294967298).isDone = false) ∧
    ((StackSizeInWords machine64 / 2 ≤ (threadAt 4094).sp + 1 ∧
        (pushLong machine64 (threadAt 4094) 4294967298).thread = threadAt 4094) ∨
    ((threadAt 4094).sp + 2 = StackSizeInWords machine64 / 2 ∧
      (pushLong machine64 (threadAt 4094) 4294967298).thread.sp = (threadAt 4094).sp + 1 ∧
      (pushLong machine64 (threadAt 4094) 4294967298).thread.tag (threadAt 4094).sp = IntTag ∧
      (pushLong machine64 (threadAt 4094) 4294967298).thread.value (threadAt 4094).sp
        = (4294967298 >>> 32) % 4294967296 ∧
      (∀ i, i ≠ (threadAt 4094).sp →
        (pushLong machine64 (threadAt 4094) 4294967298).thread.tag i = (threadAt 4094).tag i ∧
        (pushLong machine64 (threadAt 4094) 4294967298).thread.value i
          = (threadAt 4094).value i) ∧
      (pushLong machine64 (threadAt 4094) 4294967298).thread.frame = (threadAt 4094).frame ∧
      (pushLong machine64 (threadAt 4094) 4294967298).thread.ip = (threadAt 4094).ip)) :=
  ⟨by decide, pushLong_failure machine64 (threadAt 4094) 4294967298 (by decide) (by decide)⟩

/-! ## C8, C9: `findExceptionHandler` -/

/-- C8: the code departs from the claim.  In the handler table of method 103, looked up at
`ip = 15` with the pending exception 9, the entry at position 1 is in range and its catch type
does not resolve, and the entry at position 2 is in range, its catch type resolves to class 7,
and the pending exception 9 is an instance of class 7; the claim makes entry 2 the result, but
`findExceptionHandler` returns null. -/
theorem findExceptionHandler_misses_later_handler :
    demoMachine.codeExceptionHandlerTable (demoMachine.methodCode 103)
      = some [⟨0, 5, 60, 1⟩, ⟨10, 20, 50, 1⟩, ⟨10, 20, 70, 2⟩] ∧
    (resolveClassInPool demoMachine { demoHandlerThread with exception := 0 } 103 0).1 = 0 ∧
    (resolveClassInPool demoMachine { demoHandlerThread with exception := 0 } 103 1).1 = 7 ∧
    demoMachine.instanceOf 7 demoHandlerThread.exception = true ∧
    (findExceptionHandler demoMachine demoHandlerThread 103 15).1 = HandlerRef.null := by
  decide

/-- C9: the code departs from the claim.  After the lookup of C8, in which the catch type of
an in-range entry failed to resolve, the thread's pending exception is no longer the exception
9 that was pending before but the resolution error 13, and it is this error that the later
entry was tested against. -/
theorem findExceptionHandler_replaces_exception :
    demoHandlerThread.exception = 9 ∧
    (findExceptionHandler demoMachine demoHandlerThread 103 15).2.exception = 13 ∧
    demoMachine.instanceOf 7 13 = false := by
  decide

/-! ## C10: resuming at a handler -/

theorem resolveClassInPool_fields (m : Machine) (t : Thread) (method index : Nat) :
    (resolveClassInPool m t method index).2.stack = t.stack ∧
    (resolveClassInPool m t method index).2.frame = t.frame ∧
    (resolveClassInPool m t method index).2.sp = t.sp ∧
    (resolveClassInPool m t method index).2.ip = t.ip ∧
    (resolveClassInPool m t method index).2.code = t.code := by
  unfold resolveClassInPool resolveClassInPoolWith
  split
  · split
    · split_ifs <;> exact ⟨rfl, rfl, rfl, rfl, rfl⟩
    · split_ifs <;> exact ⟨rfl, rfl, rfl, rfl, rfl⟩
  · exact ⟨rfl, rfl, rfl, rfl, rfl⟩

theorem findExceptionHandlerLoop_fields (m : Machine) (method ip : Nat)
    (table : List ExceptionHandler) :
    ∀ (i : Nat) (t : Thread),
      (findExceptionHandlerLoop m method ip table i t).2.stack = t.stack ∧
      (findExceptionHandlerLoop m method ip table i t).2.frame = t.frame ∧
      (findExceptionHandlerLoop m method ip table i t).2.sp = t.sp ∧
      (findExceptionHandlerLoop m method ip table i t).2.ip = t.ip ∧
      (findExceptionHandlerLoop m method ip table i t).2.code = t.code := by
  induction table with
  | nil =>
    intro i t
    exact ⟨rfl, rfl, rfl, rfl, rfl⟩
  | cons eh rest ih =>
    intro i t
    have hr := resolveClassInPool_fields m { t with exception := 0 } method
      (u32 (eh.catchType - 1))
    unfold findExceptionHandlerLoop
    dsimp only
    split_ifs with h1 h2 h3 h4
    · exact hr
    · obtain ⟨a1, a2, a3, a4, a5⟩ := ih (i + 1)
        { (resolveClassInPool m { t with exception := 0 } method
          (u32 (eh.catchType - 1))).2 with exception := t.exception }
      exact ⟨a1.trans hr.1, a2.trans hr.2.1, a3.trans hr.2.2.1, a4.trans hr.2.2.2.1,
        a5.trans hr.2.2.2.2⟩
    · obtain ⟨a1, a2, a3, a4, a5⟩ := ih (i + 1)
        (resolveClassInPool m { t with exception := 0 } method (u32 (eh.catchType - 1))).2
      exact ⟨a1.trans hr.1, a2.trans hr.2.1, a3.trans hr.2.2.1, a4.trans hr.2.2.2.1,
        a5.trans hr.2.2.2.2⟩
    · exact ⟨rfl, rfl, rfl, rfl, rfl⟩
    · exact ih (i + 1) t

theorem findExceptionHandlerInFrame_fields (m : Machine) (t t1 : Thread) (frame : Int)
    (r : HandlerRef) (h : findExceptionHandlerInFrame m t frame = .done r t1) :
    t1.stack = t.stack ∧ t1.frame = t.frame ∧ t1.sp = t.sp ∧ t1.ip = t.ip ∧
    t1.code = t.code := by
  unfold findExceptionHandlerInFrame at h
  unfold frameMethod peekObject at h
  split_ifs at h with c1 c2
  dsimp only at h
  unfold frameIp peekInt at h
  split_ifs at h with c3 c4
  dsimp only at h
  simp only [Outcome.done.injEq] at h
  rw [← h.2]
  unfold findExceptionHandler
  split
  · exact findExceptionHandlerLoop_fields m _ _ _ 0 t
  · exact ⟨rfl, rfl, rfl, rfl, rfl⟩

/-- One iteration of the loop at `throw_` in which the lookup in the current frame `F` (at or
above the entry frame `base`) finds a handler and leaves the thread `t1`: the dispatch loop is
resumed with `sp = F + 4 + 1`, whatever `sp` was, slot `F + 4` holds the exception that is
pending in `t1` with `ObjectTag`, `ip` is the handler's `handlerPc`, `frame = F`, the pending
exception is cleared, and no other slot has changed. -/
theorem throwLoop_resumes (m : Machine) (base : Int) (fuel : Nat) (t t1 : Thread)
    (F i : Nat) (eh : ExceptionHandler)
    (hF : t.frame = (F : Int)) (hbase : base ≤ t.frame)
    (hfit : F + 5 < StackSizeInWords m / 2)
    (hfind : findExceptionHandlerInFrame m t t.frame = .done (.entry i eh) t1) :
    ∃ t', throwLoop m base (fuel + 1) t = .resume t' ∧
      t'.sp = F + 4 + 1 ∧
      t'.tag (F + 4) = ObjectTag ∧ t'.value (F + 4) = t1.exception ∧
      t'.ip = eh.ip ∧ t'.frame = (F : Int) ∧ t'.exception = 0 ∧
      (∀ j, j ≠ F + 4 → t'.tag j = t.tag j ∧ t'.value j = t.value j) := by
  have hc := capacity_le m
  obtain ⟨f1, f2, -, -, -⟩ := findExceptionHandlerInFrame_fields m t t1 t.frame _ hfind
  have hu : toUnsigned t1.frame = F := by
    rw [f2, hF]
    exact toUnsigned_natCast (by omega)
  have e4 : u32 (F + 4) = F + 4 := u32_eq_self (by omega)
  have e5 : u32 (F + 4 + 1) = F + 4 + 1 := u32_eq_self (by omega)
  have e6 : u32 ((F + 4) * 2) = 2 * (F + 4) := by rw [u32_eq_self (by omega)]; omega
  have e7 : u32 (2 * (F + 4) + 1) = 2 * (F + 4) + 1 := u32_eq_self (by omega)
  have hlt : F + 4 + 1 < StackSizeInWords m / 2 := hfit
  unfold throwLoop
  rw [if_pos hbase, hfind]
  dsimp only
  unfold pushObject
  dsimp only
  rw [hu, FrameFootprint, e4, e5, if_pos hlt, e6, e7]
  dsimp only
  refine ⟨_, rfl, rfl, ?_, ?_, rfl, ?_, rfl, ?_⟩
  · simp [Thread.tag, setWord]
  · simp [Thread.value, setWord]
  · show t1.frame = (F : Int)
    rw [f2, hF]
  · intro j hj
    have n1 : 2 * j ≠ 2 * (F + 4) := by omega
    have n2 : 2 * j ≠ 2 * (F + 4) + 1 := by omega
    have n3 : 2 * j + 1 ≠ 2 * (F + 4) := by omega
    have n4 : 2 * j + 1 ≠ 2 * (F + 4) + 1 := by omega
    simp [Thread.tag, Thread.value, setWord, n1, n2, n3, n4, f1]

/-- C10 fails in the code for the exception that is pushed.  Method 104 throws object 9 with
`athrow` at PC 14; its handler table is `{start 10, end 20, handler 50}` with a catch type
that does not resolve (the resolution fails with error 13), followed by the catch-all entry
`{start 10, end 20, handler 70}`.  The lookup skips the first entry and matches the second,
and the dispatcher resumes at PC 70 with the operand area trimmed (`sp = 1 + 4 + 1`, although
four operands were on the stack), `frame = 1` and the pending exception cleared, as the claim
says; but slot `1 + 4` holds the resolution error 13 with `ObjectTag`, not the thrown
exception 9.  In the claim's own scenario (method 101, handler `{start 10, end 20,
handler 50}` with a resolved catch type) the dispatcher resumes at PC 50 with the thrown
object 9 in slot 5. -/
theorem throw_pushes_resolution_error :
    (fetch catchMachine catchThrowThread).1 = 0xbf ∧
    (fetch catchMachine catchThrowThread).2.ip = 15 ∧
    catchThrowThread.frame = 1 ∧ catchThrowThread.sp = 9 ∧
    catchThrowThread.tag 8 = ObjectTag ∧ catchThrowThread.value 8 = 9 ∧
    catchMachine.codeExceptionHandlerTable (catchMachine.methodCode 104)
      = some [⟨10, 20, 50, 1⟩, ⟨10, 20, 70, 0⟩] ∧
    catchThrowThread.pool (catchMachine.codePool (catchMachine.methodCode 104)) 0
      = .reference 70 ∧
    catchMachine.resolveClass 0 70 = .failed 13 ∧
    (athrow catchMachine 1 1 (fetch catchMachine catchThrowThread).2).isResume = true ∧
    (athrow catchMachine 1 1 (fetch catchMachine catchThrowThread).2).thread.ip = 70 ∧
    (athrow catchMachine 1 1 (fetch catchMachine catchThrowThread).2).thread.sp = 6 ∧
    (athrow catchMachine 1 1 (fetch catchMachine catchThrowThread).2).thread.frame = 1 ∧
    (athrow catchMachine 1 1 (fetch catchMachine catchThrowThread).2).thread.exception = 0 ∧
    (athrow catchMachine 1 1 (fetch catchMachine catchThrowThread).2).thread.tag 5
      = ObjectTag ∧
    (athrow catchMachine 1 1 (fetch catchMachine catchThrowThread).2).thread.value 5 = 13 ∧
    (fetch demoMachine demoThrowThread).1 = 0xbf ∧
    (athrow demoMachine 1 1 (fetch demoMachine demoThrowThread).2).isResume = true ∧
    (athrow demoMachine 1 1 (fetch demoMachine demoThrowThread).2).thread.ip = 50 ∧
    (athrow demoMachine 1 1 (fetch demoMachine demoThrowThread).2).thread.sp = 6 ∧
    (athrow demoMachine 1 1 (fetch demoMachine demoThrowThread).2).thread.frame = 1 ∧
    (athrow demoMachine 1 1 (fetch demoMachine demoThrowThread).2).thread.exception = 0 ∧
    (athrow demoMachine 1 1 (fetch demoMachine demoThrowThread).2).thread.tag 5
      = ObjectTag ∧
    (athrow demoMachine 1 1 (fetch demoMachine demoThrowThread).2).thread.value 5 = 9 := by
  decide

/-! ## C11: leaving `interpret` with the exception pending -/

/-- C11: the code departs from the claim.  `demoNestedThread` is unwound from the frame of
method 103 at slot 8 down to the entry frame at slot 1, and no handler matches in either frame:
the thrown exception 8 is not an instance of class 7, the one class a catch type resolves to,
and the saved `ip` 30 of the entry frame is outside its handler's range.  The code at `throw_`
returns null with both frames popped (`frame` is the entry frame's next, `-1`, and `sp` its
base, `0`), but the pending exception is the resolution error 13 left behind by the handler
lookup in method 103, not the thrown exception 8.  Unwound from the frame of method 101 alone,
whose catch type is already resolved, the same exception is still pending on return. -/
theorem throw_returns_with_other_exception :
    demoNestedThread.exception = 8 ∧
    demoMachine.instanceOf 7 8 = false ∧
    demoNestedThread.value (1 + FrameNextOffset) = 4294967295 ∧
    toInt 4294967295 = -1 ∧
    demoNestedThread.value (1 + FrameBaseOffset) = 0 ∧
    (throw_ demoMachine 1 3 demoNestedThread).isReturnNull = true ∧
    (throw_ demoMachine 1 3 demoNestedThread).thread.frame = -1 ∧
    (throw_ demoMachine 1 3 demoNestedThread).thread.sp = 0 ∧
    (throw_ demoMachine 1 3 demoNestedThread).thread.exception = 13 ∧
    (throw_ demoMachine 1 2 { demoUnwindThread with exception := 8 }).isReturnNull = true ∧
    (throw_ demoMachine 1 2 { demoUnwindThread with exception := 8 }).thread.frame = -1 ∧
    (throw_ demoMachine 1 2 { demoUnwindThread with exception := 8 }).thread.sp = 0 ∧
    (throw_ demoMachine 1 2 { demoUnwindThread with exception := 8 }).thread.exception = 8 := by
  decide

/-! ## Switch lemmas -/

/-- The operands of a switch start at the smallest multiple of 4 above the opcode address. -/
theorem alignIp_eq (b : Nat) (hb : b + 4 < 4294967296) : alignIp (b + 1) = 4 * (b / 4 + 1) := by
  unfold alignIp u32 U32
  omega

theorem codeReadInt32_snd (m : Machine) (code ip : Nat) :
    (codeReadInt32 m code ip).2 = u32 (ip + 4) := rfl

theorem toUnsigned_toInt_add (b : Nat) (off : Int) (hb : b < 4294967296) :
    toUnsigned (toInt b + off) = toUnsigned ((b : Int) + off) := by
  unfold toUnsigned toInt U32
  split_ifs <;> omega

theorem toInt_mod (n : Nat) : toInt (n % 4294967296) = toInt n := by
  unfold toInt U32
  rw [Nat.mod_mod]

theorem toInt_lt (x : Nat) : toInt x < 2147483648 := by
  unfold toInt U32
  split_ifs <;> omega

theorem wrap32_of_range {i : Int} (h0 : -2147483648 ≤ i) (h1 : i < 2147483648) :
    wrap32 i = i := by
  unfold wrap32
  exact toInt_toUnsigned h0 h1

theorem tableswitch_index (A : Nat) (j : Int) (h0 : 0 ≤ j) :
    u32 (A + 12 + toUnsigned (j * 4)) = u32 (A + 12 + 4 * j.toNat) := by
  unfold u32 U32 toUnsigned
  omega

/-- The arm `tableswitch` with its opcode at address `b` and an int in the top slot `s`. -/
theorem tableswitch_step (m : Machine) (t : Thread) (b s A : Nat)
    (hip : t.ip = b + 1) (hA : A = 4 * (b / 4 + 1)) (hfit : A + 12 < 4294967296)
    (hs : s + 1 < 2147483648) (hsp : t.sp = s + 1) (htag : t.tag s = IntTag) :
    tableswitch m t =
      if toInt (t.value s) ≥ toInt (codeReadInt32 m t.code (A + 4)).1
          ∧ toInt (t.value s) ≤ toInt (codeReadInt32 m t.code (A + 8)).1 then
        Step.loop { t with
          ip := toUnsigned ((b : Int) + toInt (codeReadInt32 m t.code (u32 (A + 12 + 4 *
            (toInt (t.value s) - toInt (codeReadInt32 m t.code (A + 4)).1).toNat))).1)
          sp := s }
      else
        Step.loop { t with
          ip := toUnsigned ((b : Int) + toInt (codeReadInt32 m t.code A).1)
          sp := s } := by
  have hb : b + 4 < 4294967296 := by omega
  have e0 : alignIp (b + 1) = A := by rw [hA]; exact alignIp_eq b hb
  have e1 : u32 (A + 4) = A + 4 := u32_eq_self (by omega)
  have e2 : u32 (A + 4 + 4) = A + 8 := u32_eq_self (by omega)
  have e3 : u32 (A + 8 + 4) = A + 12 := u32_eq_self (by omega)
  have e4 : u32 (b + 1 + U32 - 1) = b := by unfold u32 U32; omega
  have hpop := popInt_done { t with ip := A + 12 } s hs hsp htag
  have hk : toInt (t.stack (2 * s + 1) % 4294967296) = toInt (t.value s) := toInt_mod _
  unfold tableswitch
  simp only [hip, e0, e4, codeReadInt32_snd, e1, e2, e3]
  rw [hpop]
  dsimp only
  rw [hk]
  by_cases hin : toInt (t.value s) ≥ toInt (codeReadInt32 m t.code (A + 4)).1
      ∧ toInt (t.value s) ≤ toInt (codeReadInt32 m t.code (A + 8)).1
  · rw [if_pos hin, if_pos hin, tableswitch_index A _ (by omega),
      toUnsigned_toInt_add b _ (by omega)]
  · rw [if_neg hin, if_neg hin, toUnsigned_toInt_add b _ (by omega)]

/-- The arm `lookupswitch` with its opcode at address `b` and an int in the top slot `s`. -/
theorem lookupswitch_step (m : Machine) (fuel : Nat) (t : Thread) (b s A : Nat)
    (hip : t.ip = b + 1) (hA : A = 4 * (b / 4 + 1)) (hfit : A + 8 < 4294967296)
    (hs : s + 1 < 2147483648) (hsp : t.sp = s + 1) (htag : t.tag s = IntTag) :
    lookupswitch m fuel t =
      match lookupswitchLoop m t.code (A + 8) (toInt (t.value s)) fuel 0
        (toInt (codeReadInt32 m t.code (A + 4)).1) with
      | .jump offset => Step.loop { t with ip := toUnsigned ((b : Int) + offset), sp := s }
      | .fallThrough =>
        Step.loop { t with
          ip := toUnsigned ((b : Int) + toInt (codeReadInt32 m t.code A).1)
          sp := s }
      | .outOfFuel => Step.outOfFuel { t with ip := A + 8, sp := s } := by
  have hb : b + 4 < 4294967296 := by omega
  have e0 : alignIp (b + 1) = A := by rw [hA]; exact alignIp_eq b hb
  have e1 : u32 (A + 4) = A + 4 := u32_eq_self (by omega)
  have e2 : u32 (A + 4 + 4) = A + 8 := u32_eq_self (by omega)
  have e4 : u32 (b + 1 + U32 - 1) = b := by unfold u32 U32; omega
  have hpop := popInt_done { t with ip := A + 8 } s hs hsp htag
  have hk : toInt (t.stack (2 * s + 1) % 4294967296) = toInt (t.value s) := toInt_mod _
  unfold lookupswitch
  simp only [hip, e0, e4, codeReadInt32_snd, e1, e2]
  rw [hpop]
  dsimp only
  rw [hk]
  cases lookupswitchLoop m t.code (A + 8) (toInt (t.value s)) fuel 0
      (toInt (codeReadInt32 m t.code (A + 4)).1) with
  | jump offset =>
    dsimp only
    rw [toUnsigned_toInt_add b _ (by omega)]
  | fallThrough =>
    dsimp only
    rw [toUnsigned_toInt_add b _ (by omega)]
  | outOfFuel => rfl

/-- One iteration of the binary search on a non-empty window `[bottom, top)`. -/
theorem lookupswitchLoop_step (m : Machine) (code ip : Nat) (key : Int) (fuel bottom top : Nat)
    (h1 : bottom < top) (h2 : top < 2147483648) :
    lookupswitchLoop m code ip key (fuel + 1) (bottom : Int) (top : Int) =
      if key < toInt (codeReadInt32 m code (u32 (ip + 8 * (bottom + (top - bottom) / 2)))).1 then
        lookupswitchLoop m code ip key fuel (bottom : Int)
          ((bottom + (top - bottom) / 2 : Nat) : Int)
      else if key > toInt (codeReadInt32 m code
          (u32 (ip + 8 * (bottom + (top - bottom) / 2)))).1 then
        lookupswitchLoop m code ip key fuel ((bottom + (top - bottom) / 2 + 1 : Nat) : Int)
          (top : Int)
      else .jump (toInt (codeReadInt32 m code
        (u32 (ip + 8 * (bottom + (top - bottom) / 2) + 4))).1) := by
  have hs : wrap32 ((top : Int) - (bottom : Int)) = ((top - bottom : Nat) : Int) := by
    rw [wrap32_of_range (by omega) (by omega)]
    omega
  have hne : ((top - bottom : Nat) : Int) ≠ 0 := by omega
  have hd : Int.tdiv ((top - bottom : Nat) : Int) 2 = (((top - bottom) / 2 : Nat) : Int) := by
    rw [Int.tdiv_eq_ediv (by omega) (by omega)]
    omega
  have hm : wrap32 ((bottom : Int) + (((top - bottom) / 2 : Nat) : Int))
      = ((bottom + (top - bottom) / 2 : Nat) : Int) := by
    rw [wrap32_of_range (by omega) (by omega)]
    omega
  have hi : u32 (ip + toUnsigned (((bottom + (top - bottom) / 2 : Nat) : Int) * 8))
      = u32 (ip + 8 * (bottom + (top - bottom) / 2)) := by
    unfold u32 U32 toUnsigned
    omega
  have hi4 : u32 (u32 (ip + 8 * (bottom + (top - bottom) / 2)) + 4)
      = u32 (ip + 8 * (bottom + (top - bottom) / 2) + 4) := by
    unfold u32 U32
    omega
  have hp : wrap32 (((bottom + (top - bottom) / 2 : Nat) : Int) + 1)
      = ((bottom + (top - bottom) / 2 + 1 : Nat) : Int) := by
    rw [wrap32_of_range (by omega) (by omega)]
    omega
  rw [lookupswitchLoop]
  simp only [hs, hne, hd, hm, hi, codeReadInt32_snd, hi4, hp, ne_eq, not_false_eq_true, if_true]

/-- The binary search finds a key that is in the table. -/
theorem lookupswitchLoop_found (m : Machine) (code ip : Nat) (key : Int) (n i : Nat)
    (hn : n < 2147483648)
    (hsorted : ∀ a c : Nat, a < c → c < n →
      toInt (codeReadInt32 m code (u32 (ip + 8 * a))).1
        < toInt (codeReadInt32 m code (u32 (ip + 8 * c))).1)
    (hkey : key = toInt (codeReadInt32 m code (u32 (ip + 8 * i))).1) :
    ∀ (fuel bottom top : Nat), bottom ≤ i → i < top → top ≤ n → top - bottom < fuel →
      lookupswitchLoop m code ip key fuel (bottom : Int) (top : Int)
        = .jump (toInt (codeReadInt32 m code (u32 (ip + 8 * i + 4))).1) := by
  intro fuel
  induction fuel with
  | zero =>
    intro bottom top _ _ _ hf
    omega
  | succ fuel ih =>
    intro bottom top hb ht htn hf
    rw [lookupswitchLoop_step m code ip key fuel bottom top (by omega) (by omega)]
    have hmid1 : bottom ≤ bottom + (top - bottom) / 2 := by omega
    have hmid2 : bottom + (top - bottom) / 2 < top := by omega
    rcases Nat.lt_trichotomy i (bottom + (top - bottom) / 2) with hlt | heq | hgt
    · have hk := hsorted i (bottom + (top - bottom) / 2) hlt (by omega)
      rw [← hkey] at hk
      rw [if_pos hk]
      exact ih bottom (bottom + (top - bottom) / 2) hb hlt (by omega) (by omega)
    · rw [← heq, ← hkey, if_neg (lt_irrefl key), if_neg (lt_irrefl key)]
    · have hk := hsorted (bottom + (top - bottom) / 2) i hgt (by omega)
      rw [← hkey] at hk
      rw [if_neg (not_lt.mpr (le_of_lt hk)), if_pos hk]
      exact ih (bottom + (top - bottom) / 2 + 1) top (by omega) ht htn (by omega)

/-- The binary search leaves the loop when the key is not in the table. -/
theorem lookupswitchLoop_absent (m : Machine) (code ip : Nat) (key : Int) (n : Nat)
    (hn : n < 2147483648)
    (habsent : ∀ i : Nat, i < n → key ≠ toInt (codeReadInt32 m code (u32 (ip + 8 * i))).1) :
    ∀ (fuel bottom top : Nat), bottom ≤ top → top ≤ n → top - bottom < fuel →
      lookupswitchLoop m code ip key fuel (bottom : Int) (top : Int) = .fallThrough := by
  intro fuel
  induction fuel with
  | zero =>
    intro bottom top _ _ hf
    omega
  | succ fuel ih =>
    intro bottom top hb htn hf
    rcases Nat.eq_or_lt_of_le hb with heq | hlt
    · rw [lookupswitchLoop, heq]
      simp [wrap32, toInt, toUnsigned, U32]
    · rw [lookupswitchLoop_step m code ip key fuel bottom top hlt (by omega)]
      have hne := habsent (bottom + (top - bottom) / 2) (by omega)
      split_ifs with c1 c2
      · exact ih bottom (bottom + (top - bottom) / 2) (by omega) (by omega) (by omega)
      · exact ih (bottom + (top - bottom) / 2 + 1) top (by omega) htn (by omega)
      · exact absurd (le_antisymm (not_lt.mp c2) (not_lt.mp c1)) hne


/-- With an iteration bound above the width of the window the binary search does not run out
of iterations. -/
theorem lookupswitchLoop_terminates (m : Machine) (code ip : Nat) (key : Int) :
    ∀ (fuel bottom top : Nat), bottom ≤ top → top < 2147483648 → top - bottom < fuel →
      lookupswitchLoop m code ip key fuel (bottom : Int) (top : Int) ≠ .outOfFuel := by
  intro fuel
  induction fuel with
  | zero =>
    intro bottom top _ _ hf
    omega
  | succ fuel ih =>
    intro bottom top hb htn hf
    rcases Nat.eq_or_lt_of_le hb with heq | hlt
    · rw [lookupswitchLoop, heq]
      simp [wrap32, toInt, toUnsigned, U32]
    · rw [lookupswitchLoop_step m code ip key fuel bottom top hlt htn]
      split_ifs with c1 c2
      · exact ih bottom (bottom + (top - bottom) / 2) (by omega) (by omega) (by omega)
      · exact ih (bottom + (top - bottom) / 2 + 1) top (by omega) htn (by omega)
      · exact fun h => Lookup.noConfusion h

/-- Two code bodies that hold the same bytes from `x` and from `y` on give the same operand. -/
theorem codeReadInt32_congr (m m' : Machine) (code code' x y : Nat)
    (hx : x + 4 ≤ 4294967296) (hy : y + 4 ≤ 4294967296)
    (h : ∀ i : Nat, i < 4 → codeByte m code (x + i) = codeByte m' code' (y + i)) :
    (codeReadInt32 m code x).1 = (codeReadInt32 m' code' y).1 := by
  have a1 : u32 (x + 1) = x + 1 := u32_eq_self (by omega)
  have a2 : u32 (x + 2) = x + 2 := u32_eq_self (by omega)
  have a3 : u32 (x + 3) = x + 3 := u32_eq_self (by omega)
  have b1 : u32 (y + 1) = y + 1 := u32_eq_self (by omega)
  have b2 : u32 (y + 2) = y + 2 := u32_eq_self (by omega)
  have b3 : u32 (y + 3) = y + 3 := u32_eq_self (by omega)
  have h0 := h 0 (by omega)
  have h1 := h 1 (by omega)
  have h2 := h 2 (by omega)
  have h3 := h 3 (by omega)
  simp only [Nat.add_zero] at h0
  simp only [codeReadInt32, a1, a2, a3, b1, b2, b3, h0, h1, h2, h3]

/-- The binary search over two tables that hold the same pairs takes the same course. -/
theorem lookupswitchLoop_congr (m m' : Machine) (code code' ip ip' : Nat) (key : Int) (n : Nat)
    (hn : n < 2147483648)
    (hkeys : ∀ i : Nat, i < n →
      (codeReadInt32 m code (u32 (ip + 8 * i))).1
        = (codeReadInt32 m' code' (u32 (ip' + 8 * i))).1)
    (hoffsets : ∀ i : Nat, i < n →
      (codeReadInt32 m code (u32 (ip + 8 * i + 4))).1
        = (codeReadInt32 m' code' (u32 (ip' + 8 * i + 4))).1) :
    ∀ (fuel bottom top : Nat), bottom ≤ top → top ≤ n →
      lookupswitchLoop m code ip key fuel (bottom : Int) (top : Int)
        = lookupswitchLoop m' code' ip' key fuel (bottom : Int) (top : Int) := by
  intro fuel
  induction fuel with
  | zero =>
    intro bottom top _ _
    rfl
  | succ fuel ih =>
    intro bottom top hb htn
    rcases Nat.eq_or_lt_of_le hb with heq | hlt
    · rw [lookupswitchLoop, lookupswitchLoop, heq]
      simp [wrap32, toInt, toUnsigned, U32]
    · rw [lookupswitchLoop_step m code ip key fuel bottom top hlt (by omega),
        lookupswitchLoop_step m' code' ip' key fuel bottom top hlt (by omega),
        hkeys (bottom + (top - bottom) / 2) (by omega),
        hoffsets (bottom + (top - bottom) / 2) (by omega),
        ih bottom (bottom + (top - bottom) / 2) (by omega) (by omega),
        ih (bottom + (top - bottom) / 2 + 1) top (by omega) htn]

/-! ## C12: `tableswitch` -/

/-- C12: `tableswitch` with its opcode at address `b`, its operands `default_`, `low`, `high`
and the jump offsets starting at the aligned address `A`, executed with the int `key` on top
of the operand stack (slot `s`), pops exactly that slot and sets `ip` to `b + offset[key - low]`
when `low ≤ key ≤ high` in the signed comparison, and to `b + default_` otherwise, the sum
being an `unsigned` (hence equal to the integer sum whenever that is an address). -/
theorem tableswitch_selects (m : Machine) (t : Thread) (b s A : Nat) (key default_ low high : Int)
    (hip : t.ip = b + 1) (hA : A = 4 * (b / 4 + 1)) (hfit : A + 12 < 4294967296)
    (hs : s + 1 < 2147483648) (hsp : t.sp = s + 1) (htag : t.tag s = IntTag)
    (hkey : key = toInt (t.value s))
    (hdefault : default_ = toInt (codeReadInt32 m t.code A).1)
    (hlow : low = toInt (codeReadInt32 m t.code (A + 4)).1)
    (hhigh : high = toInt (codeReadInt32 m t.code (A + 8)).1) :
    ∃ target : Int,
      tableswitch m t = .loop { t with ip := toUnsigned ((b : Int) + target), sp := s } ∧
      (low ≤ key → key ≤ high →
        target = toInt (codeReadInt32 m t.code (u32 (A + 12 + 4 * (key - low).toNat))).1) ∧
      (¬ (low ≤ key ∧ key ≤ high) → target = default_) ∧
      (0 ≤ (b : Int) + target → (b : Int) + target < 4294967296 →
        ((toUnsigned ((b : Int) + target) : Nat) : Int) = (b : Int) + target) := by
  have hstep := tableswitch_step m t b s A hip hA hfit hs hsp htag
  rw [← hkey, ← hlow, ← hhigh, ← hdefault] at hstep
  by_cases hin : key ≥ low ∧ key ≤ high
  · refine ⟨toInt (codeReadInt32 m t.code (u32 (A + 12 + 4 * (key - low).toNat))).1,
      ?_, ?_, ?_, ?_⟩
    · rw [hstep, if_pos hin]
    · intro _ _
      rfl
    · intro h
      exact absurd ⟨hin.1, hin.2⟩ h
    · intro h0 h1
      exact toUnsigned_of_nonneg h0 h1
  · refine ⟨default_, ?_, ?_, ?_, ?_⟩
    · rw [hstep, if_neg hin]
    · intro h1 h2
      exact absurd ⟨h1, h2⟩ hin
    · intro _
      rfl
    · intro h0 h1
      exact toUnsigned_of_nonneg h0 h1

/-- Witness for C12 (scenario S4): in code 210 the `tableswitch` at address 5 has low 0, high 3,
jump offsets 40, 50, 60, 70 and default 100; the key 2 branches to `5 + 60` and the key 4 to
`5 + 100`. -/
theorem tableswitch_selects_witness :
    ((operandThread 210 6 1 [0, 2]).ip = 5 + 1 ∧ 8 = 4 * (5 / 4 + 1) ∧ 8 + 12 < 4294967296 ∧
      0 + 1 < 2147483648 ∧ (operandThread 210 6 1 [0, 2]).sp = 0 + 1 ∧
      (operandThread 210 6 1 [0, 2]).tag 0 = IntTag ∧
      (2 : Int) = toInt ((operandThread 210 6 1 [0, 2]).value 0) ∧
      (100 : Int) = toInt (codeReadInt32 opMachine (operandThread 210 6 1 [0, 2]).code 8).1 ∧
      (0 : Int) = toInt (codeReadInt32 opMachine (operandThread 210 6 1 [0, 2]).code (8 + 4)).1 ∧
      (3 : Int) = toInt (codeReadInt32 opMachine (operandThread 210 6 1 [0, 2]).code (8 + 8)).1) ∧
    (∃ target : Int,
      tableswitch opMachine (operandThread 210 6 1 [0, 2])
        = .loop { operandThread 210 6 1 [0, 2] with
            ip := toUnsigned (((5 : Nat) : Int) + target), sp := 0 } ∧
      ((0 : Int) ≤ 2 → (2 : Int) ≤ 3 →
        target = toInt (codeReadInt32 opMachine (operandThread 210 6 1 [0, 2]).code
          (u32 (8 + 12 + 4 * ((2 : Int) - 0).toNat))).1) ∧
      (¬ ((0 : Int) ≤ 2 ∧ (2 : Int) ≤ 3) → target = 100) ∧
      (0 ≤ ((5 : Nat) : Int) + target → ((5 : Nat) : Int) + target < 4294967296 →
        ((toUnsigned (((5 : Nat) : Int) + target) : Nat) : Int) = ((5 : Nat) : Int) + target)) ∧
    ((fetch opMachine (operandThread 210 5 1 [0, 2])).1 = 0xaa ∧
      toInt (codeReadInt32 opMachine 210 (8 + 12 + 4 * 2)).1 = 60 ∧
      (tableswitch opMachine (fetch opMachine (operandThread 210 5 1 [0, 2])).2).isLoop = true ∧
      (tableswitch opMachine (fetch opMachine (operandThread 210 5 1 [0, 2])).2).thread.ip
        = 5 + 60 ∧
      (tableswitch opMachine (fetch opMachine (operandThread 210 5 1 [0, 2])).2).thread.sp = 0 ∧
      (tableswitch opMachine (fetch opMachine (operandThread 210 5 1 [0, 4])).2).thread.ip
        = 5 + 100 ∧
      (tableswitch opMachine (fetch opMachine (operandThread 210 5 1 [0, 4])).2).thread.sp = 0) :=
  ⟨⟨rfl, by decide, by decide, by decide, rfl, by decide, by decide, by decide, by decide,
      by decide⟩,
    tableswitch_selects opMachine (operandThread 210 6 1 [0, 2]) 5 0 8 2 100 0 3 rfl (by decide)
      (by decide) (by decide) rfl (by decide) (by decide) (by decide) (by decide) (by decide),
    by decide⟩

/-! ## C13: alignment of the switch operands -/

/-- C13: the operands of `tableswitch` and `lookupswitch` are read from `alignIp`, the smallest
multiple of 4 above the opcode address `b`, so that 0 to 3 bytes are skipped, and the branch
target is relative to `b`.  Hence two placements of a switch, at `b` in one code body and at
`b'` in another, whose operand blocks hold the same `L` bytes from their aligned addresses `A`
and `A'` on, select the same offset for the same key, whatever the number of padding bytes of
either and whatever these bytes and all other bytes of the two bodies are.  `second` and `third`
are the second and third operand words: `low` and `high` of a `tableswitch`, whose jump table is
to lie within the block, and the pair count of a `lookupswitch`, whose pairs are to. -/
theorem switch_alignment (m m' : Machine) (t t' : Thread) (b b' s s' A A' L fuel : Nat)
    (second third : Int)
    (hip : t.ip = b + 1) (hip' : t'.ip = b' + 1)
    (hA : A = 4 * (b / 4 + 1)) (hA' : A' = 4 * (b' / 4 + 1))
    (hL : 12 ≤ L) (hfit : A + L < 4294967296) (hfit' : A' + L < 4294967296)
    (hsame : ∀ k : Nat, k < L → codeByte m t.code (A + k) = codeByte m' t'.code (A' + k))
    (hs : s + 1 < 2147483648) (hsp : t.sp = s + 1) (htag : t.tag s = IntTag)
    (hs' : s' + 1 < 2147483648) (hsp' : t'.sp = s' + 1) (htag' : t'.tag s' = IntTag)
    (hval : t'.value s' = t.value s)
    (hsecond : second = toInt (codeReadInt32 m t.code (A + 4)).1)
    (hthird : third = toInt (codeReadInt32 m t.code (A + 8)).1) :
    (alignIp t.ip = A ∧ A % 4 = 0 ∧ b < A ∧ A ≤ b + 4) ∧
    (alignIp t'.ip = A' ∧ A' % 4 = 0 ∧ b' < A' ∧ A' ≤ b' + 4) ∧
    ((second ≤ third → 12 + 4 * ((third - second).toNat + 1) ≤ L) →
      ∃ target : Int,
        tableswitch m t = .loop { t with ip := toUnsigned ((b : Int) + target), sp := s } ∧
        tableswitch m' t'
          = .loop { t' with ip := toUnsigned ((b' : Int) + target), sp := s' }) ∧
    (0 ≤ second → 8 + 8 * second.toNat ≤ L → second.toNat < fuel →
      ∃ target : Int,
        lookupswitch m fuel t = .loop { t with ip := toUnsigned ((b : Int) + target), sp := s } ∧
        lookupswitch m' fuel t'
          = .loop { t' with ip := toUnsigned ((b' : Int) + target), sp := s' }) := by
  have hrd : ∀ k : Nat, k + 4 ≤ L →
      (codeReadInt32 m t.code (A + k)).1 = (codeReadInt32 m' t'.code (A' + k)).1 := by
    intro k hk
    refine codeReadInt32_congr m m' t.code t'.code (A + k) (A' + k) (by omega) (by omega) ?_
    intro i hi
    rw [Nat.add_assoc, Nat.add_assoc]
    exact hsame (k + i) (by omega)
  have r0 := hrd 0 (by omega)
  have r4 := hrd 4 (by omega)
  have r8 := hrd 8 (by omega)
  simp only [Nat.add_zero] at r0
  have hb : b + 4 < 4294967296 := by omega
  have hb' : b' + 4 < 4294967296 := by omega
  refine ⟨⟨?_, by omega, by omega, by omega⟩, ⟨?_, by omega, by omega, by omega⟩,
    ?_, ?_⟩
  · rw [hip, hA]
    exact alignIp_eq b hb
  · rw [hip', hA']
    exact alignIp_eq b' hb'
  · intro htable
    rw [tableswitch_step m t b s A hip hA (by omega) hs hsp htag,
      tableswitch_step m' t' b' s' A' hip' hA' (by omega) hs' hsp' htag',
      hval, ← r0, ← r4, ← r8, ← hsecond, ← hthird]
    by_cases hin : toInt (t.value s) ≥ second ∧ toInt (t.value s) ≤ third
    · have hj : 12 + 4 * (toInt (t.value s) - second).toNat + 4 ≤ L := by
        have := htable (le_trans hin.1 hin.2)
        omega
      have u1 : u32 (A + 12 + 4 * (toInt (t.value s) - second).toNat)
          = A + (12 + 4 * (toInt (t.value s) - second).toNat) := by
        rw [u32_eq_self (by omega)]
        omega
      have u2 : u32 (A' + 12 + 4 * (toInt (t.value s) - second).toNat)
          = A' + (12 + 4 * (toInt (t.value s) - second).toNat) := by
        rw [u32_eq_self (by omega)]
        omega
      rw [if_pos hin, if_pos hin, u1, u2, ← hrd _ hj]
      exact ⟨_, rfl, rfl⟩
    · rw [if_neg hin, if_neg hin]
      exact ⟨_, rfl, rfl⟩
  · intro h0 hpairs hfuel
    obtain ⟨n, hn⟩ : ∃ n : Nat, second = (n : Int) := ⟨second.toNat, by omega⟩
    have hn31 : n < 2147483648 := by
      have := toInt_lt (codeReadInt32 m t.code (A + 4)).1
      omega
    have hkeys : ∀ i : Nat, i < n →
        (codeReadInt32 m t.code (u32 (A + 8 + 8 * i))).1
          = (codeReadInt32 m' t'.code (u32 (A' + 8 + 8 * i))).1 := by
      intro i hi
      have u1 : u32 (A + 8 + 8 * i) = A + (8 + 8 * i) := by
        rw [u32_eq_self (by omega)]
        omega
      have u2 : u32 (A' + 8 + 8 * i) = A' + (8 + 8 * i) := by
        rw [u32_eq_self (by omega)]
        omega
      rw [u1, u2]
      exact hrd _ (by omega)
    have hoffsets : ∀ i : Nat, i < n →
        (codeReadInt32 m t.code (u32 (A + 8 + 8 * i + 4))).1
          = (codeReadInt32 m' t'.code (u32 (A' + 8 + 8 * i + 4))).1 := by
      intro i hi
      have u1 : u32 (A + 8 + 8 * i + 4) = A + (8 + 8 * i + 4) := by
        rw [u32_eq_self (by omega)]
        omega
      have u2 : u32 (A' + 8 + 8 * i + 4) = A' + (8 + 8 * i + 4) := by
        rw [u32_eq_self (by omega)]
        omega
      rw [u1, u2]
      exact hrd _ (by omega)
    have hcongr := lookupswitchLoop_congr m m' t.code t'.code (A + 8) (A' + 8)
      (toInt (t.value s)) n hn31 hkeys hoffsets fuel 0 n (Nat.zero_le n) (le_refl n)
    have hterm := lookupswitchLoop_terminates m t.code (A + 8) (toInt (t.value s)) fuel 0 n
      (Nat.zero_le n) hn31 (by omega)
    rw [Nat.cast_zero] at hcongr hterm
    rw [lookupswitch_step m fuel t b s A hip hA (by omega) hs hsp htag,
      lookupswitch_step m' fuel t' b' s' A' hip' hA' (by omega) hs' hsp' htag',
      hval, ← r0, ← r4, ← hsecond, hn]
    rw [← hcongr]
    cases hloop : lookupswitchLoop m t.code (A + 8) (toInt (t.value s)) fuel 0 (n : Int) with
    | jump offset => exact ⟨offset, rfl, rfl⟩
    | fallThrough => exact ⟨_, rfl, rfl⟩
    | outOfFuel => exact absurd hloop hterm

/-- Witness for C13: the `tableswitch` of code 210 is at address 5, followed by two padding
bytes 0xee, and that of code 211 at address 8, followed by three padding bytes 0x55; both
operand blocks hold the same 28 bytes, and the key 2 selects the offset 60 in both.  Likewise
the `lookupswitch` of code 212 at address 3 has no padding and that of code 213 at address 5
has two padding bytes, and the key 10 selects the offset 50 in both. -/
theorem switch_alignment_witness :
    ((operandThread 210 6 1 [0, 2]).ip = 5 + 1 ∧ (operandThread 211 9 1 [0, 2]).ip = 8 + 1 ∧
      8 = 4 * (5 / 4 + 1) ∧ 12 = 4 * (8 / 4 + 1) ∧ 12 ≤ 28 ∧
      8 + 28 < 4294967296 ∧ 12 + 28 < 4294967296 ∧
      (∀ k : Nat, k < 28 →
        codeByte opMachine (operandThread 210 6 1 [0, 2]).code (8 + k)
          = codeByte opMachine (operandThread 211 9 1 [0, 2]).code (12 + k)) ∧
      0 + 1 < 2147483648 ∧ (operandThread 210 6 1 [0, 2]).sp = 0 + 1 ∧
      (operandThread 210 6 1 [0, 2]).tag 0 = IntTag ∧
      0 + 1 < 2147483648 ∧ (operandThread 211 9 1 [0, 2]).sp = 0 + 1 ∧
      (operandThread 211 9 1 [0, 2]).tag 0 = IntTag ∧
      (operandThread 211 9 1 [0, 2]).value 0 = (operandThread 210 6 1 [0, 2]).value 0 ∧
      (0 : Int) = toInt (codeReadInt32 opMachine (operandThread 210 6 1 [0, 2]).code (8 + 4)).1 ∧
      (3 : Int) = toInt (codeReadInt32 opMachine (operandThread 210 6 1 [0, 2]).code (8 + 8)).1) ∧
    ((alignIp (operandThread 210 6 1 [0, 2]).ip = 8 ∧ 8 % 4 = 0 ∧ 5 < 8 ∧ 8 ≤ 5 + 4) ∧
      (alignIp (operandThread 211 9 1 [0, 2]).ip = 12 ∧ 12 % 4 = 0 ∧ 8 < 12 ∧
        12 ≤ 8 + 4) ∧
      (((0 : Int) ≤ 3 → 12 + 4 * (((3 : Int) - 0).toNat + 1) ≤ 28) →
        ∃ target : Int,
          tableswitch opMachine (operandThread 210 6 1 [0, 2])
            = .loop { operandThread 210 6 1 [0, 2] with
                ip := toUnsigned (((5 : Nat) : Int) + target), sp := 0 } ∧
          tableswitch opMachine (operandThread 211 9 1 [0, 2])
            = .loop { operandThread 211 9 1 [0, 2] with
                ip := toUnsigned (((8 : Nat) : Int) + target), sp := 0 }) ∧
      ((0 : Int) ≤ 0 → 8 + 8 * (0 : Int).toNat ≤ 28 → (0 : Int).toNat < 1 →
        ∃ target : Int,
          lookupswitch opMachine 1 (operandThread 210 6 1 [0, 2])
            = .loop { operandThread 210 6 1 [0, 2] with
                ip := toUnsigned (((5 : Nat) : Int) + target), sp := 0 } ∧
          lookupswitch opMachine 1 (operandThread 211 9 1 [0, 2])
            = .loop { operandThread 211 9 1 [0, 2] with
                ip := toUnsigned (((8 : Nat) : Int) + target), sp := 0 })) ∧
    ((fetch opMachine (operandThread 210 5 1 [0, 2])).1 = 0xaa ∧
      (fetch opMachine (operandThread 211 8 1 [0, 2])).1 = 0xaa ∧
      codeByte opMachine 210 6 = 0xee ∧ codeByte opMachine 211 9 = 0x55 ∧
      (tableswitch opMachine (fetch opMachine (operandThread 210 5 1 [0, 2])).2).thread.ip
        = 5 + 60 ∧
      (tableswitch opMachine (fetch opMachine (operandThread 211 8 1 [0, 2])).2).thread.ip
        = 8 + 60 ∧
      (fetch opMachine (operandThread 212 3 1 [0, 10])).1 = 0xab ∧
      (fetch opMachine (operandThread 213 5 1 [0, 10])).1 = 0xab ∧
      (lookupswitch opMachine 4 (fetch opMachine (operandThread 212 3 1 [0, 10])).2).thread.ip
        = 3 + 50 ∧
      (lookupswitch opMachine 4 (fetch opMachine (operandThread 213 5 1 [0, 10])).2).thread.ip
        = 5 + 50) :=
  ⟨⟨rfl, rfl, by decide, by decide, by decide, by decide, by decide, by decide, by decide, rfl,
      by decide, by decide, rfl, by decide, by decide, by decide, by decide⟩,
    switch_alignment opMachine opMachine (operandThread 210 6 1 [0, 2])
      (operandThread 211 9 1 [0, 2]) 5 8 0 0 8 12 28 1 0 3 rfl rfl (by decide) (by decide)
      (by decide) (by decide) (by decide) (by decide) (by decide) rfl (by decide) (by decide)
      rfl (by decide) (by decide) (by decide) (by decide),
    by decide⟩

/-! ## C14: `lookupswitch` -/

/-- C14: `lookupswitch` with its opcode at address `b`, its operands `default_` and the pair
count `n ≥ 0` at the aligned address `A`, followed by `n` match/offset pairs whose keys are
strictly increasing in the signed order, executed with the int `key` on top of the operand
stack (slot `s`): with any iteration bound above `n` the binary search terminates, the arm pops
exactly that slot, and it sets `ip` to `b + offset_i` if `key` is the `i`-th match key and to
`b + default_` if `key` is none of the `n` match keys, the sum being an `unsigned` (hence equal
to the integer sum whenever that is an address). -/
theorem lookupswitch_finds (m : Machine) (t : Thread) (b s A n fuel : Nat) (key default_ : Int)
    (hip : t.ip = b + 1) (hA : A = 4 * (b / 4 + 1)) (hfit : A + 8 < 4294967296)
    (hs : s + 1 < 2147483648) (hsp : t.sp = s + 1) (htag : t.tag s = IntTag)
    (hkey : key = toInt (t.value s))
    (hdefault : default_ = toInt (codeReadInt32 m t.code A).1)
    (hcount : (n : Int) = toInt (codeReadInt32 m t.code (A + 4)).1)
    (hincreasing : ∀ c : Nat, c < n → ∀ a : Nat, a < c →
      toInt (codeReadInt32 m t.code (u32 (A + 8 + 8 * a))).1
        < toInt (codeReadInt32 m t.code (u32 (A + 8 + 8 * c))).1)
    (hfuel : n < fuel) :
    ∃ target : Int,
      lookupswitch m fuel t = .loop { t with ip := toUnsigned ((b : Int) + target), sp := s } ∧
      (∀ i : Nat, i < n → key = toInt (codeReadInt32 m t.code (u32 (A + 8 + 8 * i))).1 →
        target = toInt (codeReadInt32 m t.code (u32 (A + 8 + 8 * i + 4))).1) ∧
      ((∀ i : Nat, i < n → key ≠ toInt (codeReadInt32 m t.code (u32 (A + 8 + 8 * i))).1) →
        target = default_) ∧
      (0 ≤ (b : Int) + target → (b : Int) + target < 4294967296 →
        ((toUnsigned ((b : Int) + target) : Nat) : Int) = (b : Int) + target) := by
  have hsorted : ∀ a c : Nat, a < c → c < n →
      toInt (codeReadInt32 m t.code (u32 (A + 8 + 8 * a))).1
        < toInt (codeReadInt32 m t.code (u32 (A + 8 + 8 * c))).1 :=
    fun a c hac hc => hincreasing c hc a hac
  have hn : n < 2147483648 := by
    have := toInt_lt (codeReadInt32 m t.code (A + 4)).1
    omega
  have hstep := lookupswitch_step m fuel t b s A hip hA hfit hs hsp htag
  rw [← hkey, ← hcount, ← hdefault, ← Nat.cast_zero] at hstep
  by_cases hex : ∃ i : Nat, i < n ∧ key = toInt (codeReadInt32 m t.code (u32 (A + 8 + 8 * i))).1
  · obtain ⟨i, hi, hki⟩ := hex
    have hloop := lookupswitchLoop_found m t.code (A + 8) key n i hn hsorted hki fuel 0 n
      (Nat.zero_le i) hi (le_refl n) (by omega)
    refine ⟨toInt (codeReadInt32 m t.code (u32 (A + 8 + 8 * i + 4))).1, ?_, ?_, ?_, ?_⟩
    · rw [hstep, hloop]
    · intro j hj hkj
      rcases Nat.lt_trichotomy i j with hlt | heq | hgt
      · have := hsorted i j hlt hj
        rw [← hki, ← hkj] at this
        exact absurd this (lt_irrefl key)
      · rw [heq]
      · have := hsorted j i hgt hi
        rw [← hki, ← hkj] at this
        exact absurd this (lt_irrefl key)
    · intro hall
      exact absurd hki (hall i hi)
    · intro h0 h1
      exact toUnsigned_of_nonneg h0 h1
  · have habsent : ∀ i : Nat, i < n →
        key ≠ toInt (codeReadInt32 m t.code (u32 (A + 8 + 8 * i))).1 :=
      fun i hi hki => hex ⟨i, hi, hki⟩
    have hloop := lookupswitchLoop_absent m t.code (A + 8) key n hn habsent fuel 0 n
      (Nat.zero_le n) (le_refl n) (by omega)
    refine ⟨default_, ?_, ?_, ?_, ?_⟩
    · rw [hstep, hloop]
    · intro j hj hkj
      exact absurd hkj (habsent j hj)
    · intro _
      rfl
    · intro h0 h1
      exact toUnsigned_of_nonneg h0 h1

/-- Witness for C14: in code 212 the `lookupswitch` at address 3 has default 100 and the three
pairs `-5 ↦ 40`, `10 ↦ 50`, `1000 ↦ 60`; the key 10 branches to `3 + 50`, the key `-5` to
`3 + 40`, the key 1000 to `3 + 60` and the key 11 to `3 + 100`. -/
theorem lookupswitch_finds_witness :
    ((operandThread 212 4 1 [0, 10]).ip = 3 + 1 ∧ 4 = 4 * (3 / 4 + 1) ∧ 4 + 8 < 4294967296 ∧
      0 + 1 < 2147483648 ∧ (operandThread 212 4 1 [0, 10]).sp = 0 + 1 ∧
      (operandThread 212 4 1 [0, 10]).tag 0 = IntTag ∧
      (10 : Int) = toInt ((operandThread 212 4 1 [0, 10]).value 0) ∧
      (100 : Int) = toInt (codeReadInt32 opMachine (operandThread 212 4 1 [0, 10]).code 4).1 ∧
      ((3 : Nat) : Int)
        = toInt (codeReadInt32 opMachine (operandThread 212 4 1 [0, 10]).code (4 + 4)).1 ∧
      (∀ c : Nat, c < 3 → ∀ a : Nat, a < c →
        toInt (codeReadInt32 opMachine (operandThread 212 4 1 [0, 10]).code
            (u32 (4 + 8 + 8 * a))).1
          < toInt (codeReadInt32 opMachine (operandThread 212 4 1 [0, 10]).code
            (u32 (4 + 8 + 8 * c))).1) ∧
      3 < 4) ∧
    (∃ target : Int,
      lookupswitch opMachine 4 (operandThread 212 4 1 [0, 10])
        = .loop { operandThread 212 4 1 [0, 10] with
            ip := toUnsigned (((3 : Nat) : Int) + target), sp := 0 } ∧
      (∀ i : Nat, i < 3 →
        (10 : Int) = toInt (codeReadInt32 opMachine (operandThread 212 4 1 [0, 10]).code
          (u32 (4 + 8 + 8 * i))).1 →
        target = toInt (codeReadInt32 opMachine (operandThread 212 4 1 [0, 10]).code
          (u32 (4 + 8 + 8 * i + 4))).1) ∧
      ((∀ i : Nat, i < 3 →
          (10 : Int) ≠ toInt (codeReadInt32 opMachine (operandThread 212 4 1 [0, 10]).code
            (u32 (4 + 8 + 8 * i))).1) →
        target = 100) ∧
      (0 ≤ ((3 : Nat) : Int) + target → ((3 : Nat) : Int) + target < 4294967296 →
        ((toUnsigned (((3 : Nat) : Int) + target) : Nat) : Int) = ((3 : Nat) : Int) + target)) ∧
    ((fetch opMachine (operandThread 212 3 1 [0, 10])).1 = 0xab ∧
      toInt 4294967291 = -5 ∧
      (lookupswitch opMachine 4 (fetch opMachine (operandThread 212 3 1 [0, 10])).2).thread.ip
        = 3 + 50 ∧
      (lookupswitch opMachine 4 (fetch opMachine (operandThread 212 3 1 [0, 4294967291])).2
        ).thread.ip = 3 + 40 ∧
      (lookupswitch opMachine 4 (fetch opMachine (operandThread 212 3 1 [0, 1000])).2).thread.ip
        = 3 + 60 ∧
      (lookupswitch opMachine 4 (fetch opMachine (operandThread 212 3 1 [0, 11])).2).thread.ip
        = 3 + 100 ∧
      (lookupswitch opMachine 4 (fetch opMachine (operandThread 212 3 1 [0, 11])).2).isLoop
        = true ∧
      (lookupswitch opMachine 4 (fetch opMachine (operandThread 212 3 1 [0, 11])).2).thread.sp
        = 0) :=
  ⟨⟨rfl, by decide, by decide, by decide, rfl, by decide, by decide, by decide, by decide,
      by decide, by decide⟩,
    lookupswitch_finds opMachine (operandThread 212 4 1 [0, 10]) 3 0 4 3 4 10 100 rfl (by decide)
      (by decide) (by decide) rfl (by decide) (by decide) (by decide) (by decide) (by decide)
      (by decide),
    by decide⟩

/-! ## C15, C16, C17: division and shifts -/

/-- C15: the code departs from the claim.  With the divisor 0 on top of the operand stack and
the dividend 7 below it, `idiv`, `irem`, `ldiv` and `lrem` do not enter the unwinder and set
no pending exception: each arm evaluates the C++ quotient or remainder by zero, which has no
defined result. -/
theorem division_by_zero_not_raised :
    ((idiv machine64 (operandThread 0 0 2 [0, 7, 0, 0])).isThrow = false ∧
      (idiv machine64 (operandThread 0 0 2 [0, 7, 0, 0])).isUndefined = true ∧
      (idiv machine64 (operandThread 0 0 2 [0, 7, 0, 0])).thread.exception = 0) ∧
    ((irem machine64 (operandThread 0 0 2 [0, 7, 0, 0])).isThrow = false ∧
      (irem machine64 (operandThread 0 0 2 [0, 7, 0, 0])).isUndefined = true ∧
      (irem machine64 (operandThread 0 0 2 [0, 7, 0, 0])).thread.exception = 0) ∧
    ((ldiv_ machine64 (operandThread 0 0 4 [0, 0, 0, 7, 0, 0, 0, 0])).isThrow = false ∧
      (ldiv_ machine64 (operandThread 0 0 4 [0, 0, 0, 7, 0, 0, 0, 0])).isUndefined = true ∧
      (ldiv_ machine64 (operandThread 0 0 4 [0, 0, 0, 7, 0, 0, 0, 0])).thread.exception = 0) ∧
    ((lrem machine64 (operandThread 0 0 4 [0, 0, 0, 7, 0, 0, 0, 0])).isThrow = false ∧
      (lrem machine64 (operandThread 0 0 4 [0, 0, 0, 7, 0, 0, 0, 0])).isUndefined = true ∧
      (lrem machine64 (operandThread 0 0 4 [0, 0, 0, 7, 0, 0, 0, 0])).thread.exception = 0) := by
  decide

/-- C16: the code departs from the claim.  With the dividend `-2^31` and the divisor `-1` on
the operand stack, `idiv` and `irem` push nothing: the arms evaluate `a / b` and `a % b`, whose
quotient `2^31` is not representable, so that neither expression has a defined result.  For
the operands `-7` and `2` the arms push `-3` and `-1`. -/
theorem idiv_overflow_undefined :
    toInt 2147483648 = -2147483648 ∧ toInt 4294967295 = -1 ∧
    (idiv machine64 (operandThread 0 0 2 [0, 2147483648, 0, 4294967295])).isUndefined = true ∧
    (idiv machine64 (operandThread 0 0 2 [0, 2147483648, 0, 4294967295])).isLoop = false ∧
    (irem machine64 (operandThread 0 0 2 [0, 2147483648, 0, 4294967295])).isUndefined = true ∧
    (irem machine64 (operandThread 0 0 2 [0, 2147483648, 0, 4294967295])).isLoop = false ∧
    toInt 4294967289 = -7 ∧
    toInt ((idiv machine64 (operandThread 0 0 2 [0, 4294967289, 0, 2])).thread.value 0) = -3 ∧
    toInt ((irem machine64 (operandThread 0 0 2 [0, 4294967289, 0, 2])).thread.value 0) = -1 := by
  decide

/-- C17: the code departs from the claim.  With the shift counts 32 and 33 the arms `ishl`,
`ishr` and `iushr` push nothing: they evaluate `a << b` and `a >> b` with the count as popped,
not reduced to its low five bits, and a shift of a 32-bit operand by 32 or more has no defined
result.  With the count 31 `ishl` pushes `5 << 31` truncated to 32 bits. -/
theorem shift_count_not_masked :
    (ishl machine64 (operandThread 0 0 2 [0, 5, 0, 32])).isUndefined = true ∧
    (ishl machine64 (operandThread 0 0 2 [0, 5, 0, 32])).isLoop = false ∧
    (ishl machine64 (operandThread 0 0 2 [0, 5, 0, 33])).isUndefined = true ∧
    (ishr machine64 (operandThread 0 0 2 [0, 5, 0, 32])).isUndefined = true ∧
    (iushr machine64 (operandThread 0 0 2 [0, 5, 0, 32])).isUndefined = true ∧
    (ishl machine64 (operandThread 0 0 2 [0, 5, 0, 31])).isLoop = true ∧
    (ishl machine64 (operandThread 0 0 2 [0, 5, 0, 31])).thread.value 0 = 2147483648 := by
  decide

/-! ## C18, C19: the `wide` forms -/

/-- C18: the code departs from the claim.  In code 215 the sequences `wide fload 0`,
`wide dload 0`, `wide fstore 0` and `wide dstore 0` all end in `abort(t)`, in threads in which
the unprefixed `fload 0`, `dload 0`, `fstore 0` and `dstore 0` complete; `wide iload 0`
completes and leaves `ip` four bytes after the `wide` byte. -/
theorem wide_float_forms_abort :
    ((fetch opMachine (localsThread 215 9 [0, 5, 0, 0] [])).1 = op_wide ∧
      codeByte opMachine 215 10 = op_fload ∧
      (wide opMachine (fetch opMachine (localsThread 215 9 [0, 5, 0, 0] [])).2).isAborted = true ∧
      (iload opMachine (fetch opMachine (localsThread 215 13 [0, 5, 0, 0] [])).2).isLoop = true) ∧
    (codeByte opMachine 215 20 = op_dload ∧
      (wide opMachine (fetch opMachine (localsThread 215 19 [0, 0, 0, 5] [])).2).isAborted
        = true ∧
      (lload opMachine (fetch opMachine (localsThread 215 31 [0, 0, 0, 5] [])).2).isLoop = true) ∧
    (codeByte opMachine 215 24 = op_fstore ∧
      (wide opMachine (fetch opMachine (localsThread 215 23 [0, 5, 0, 0] [0, 9])).2).isAborted
        = true ∧
      (istore opMachine (fetch opMachine (localsThread 215 33 [0, 5, 0, 0] [0, 9])).2).isLoop
        = true) ∧
    (codeByte opMachine 215 28 = op_dstore ∧
      (wide opMachine (fetch opMachine (localsThread 215 27 [0, 0, 0, 5] [0, 0, 0, 9])).2).isAborted
        = true ∧
      (lstore opMachine (fetch opMachine (localsThread 215 35 [0, 0, 0, 5] [0, 0, 0, 9])).2).isLoop
        = true) ∧
    (codeByte opMachine 215 16 = op_iload ∧
      (wide opMachine (fetch opMachine (localsThread 215 15 [0, 5, 0, 0] [])).2).isLoop = true ∧
      (wide opMachine (fetch opMachine (localsThread 215 15 [0, 5, 0, 0] [])).2).thread.ip
        = 15 + 4 ∧
      (wide opMachine (fetch opMachine (localsThread 215 15 [0, 5, 0, 0] [])).2).thread.value 6
        = 5) := by
  decide

/-- C19: the code departs from the claim.  With `5` in local 0, `wide iinc 0` with the constant
bytes `0xFF 0xFF` leaves `5 + 65535 = 65540` in the local, not `4`: the constant is held in a
`uint16_t` and added unsigned.  The unprefixed `iinc 0` with the constant byte `0xFF`, held in
an `int8_t`, leaves `4`. -/
theorem wide_iinc_adds_unsigned :
    codeByte opMachine 215 1 = op_iinc ∧
    codeByte opMachine 215 4 = 0xff ∧ codeByte opMachine 215 5 = 0xff ∧
    (localsThread 215 0 [0, 5, 0, 0] []).value 0 = 5 ∧
    (wide opMachine (fetch opMachine (localsThread 215 0 [0, 5, 0, 0] [])).2).isLoop = true ∧
    (wide opMachine (fetch opMachine (localsThread 215 0 [0, 5, 0, 0] [])).2).thread.value 0
      = 65540 ∧
    codeByte opMachine 215 6 = op_iinc ∧ codeByte opMachine 215 8 = 0xff ∧
    (iinc opMachine (fetch opMachine (localsThread 215 6 [0, 5, 0, 0] [])).2).thread.value 0
      = 4 := by
  decide

/-! ## C20: `goto` and `goto_w` -/

theorem branch_target (p k : Nat) (off : Int) (hp : p < 4294967296) (hk : k ≤ 8) :
    u32 (u32 (u32 (u32 (p + 1) + k) + U32 - (k + 1)) + toUnsigned off)
      = toUnsigned ((p : Int) + off) := by
  unfold u32 U32 toUnsigned
  omega

/-- C20: `goto`, whose opcode byte is at address `p`, sets `ip` to `p + off` for the signed
16-bit operand `off` that follows the opcode, and `goto_w` to `p + off` for its signed 32-bit
operand, the sum being an `unsigned` (reduced modulo `2^32`, hence equal to `p + off` whenever
that is an address, also for negative `off`); nothing else in the thread changes, in particular
neither `sp` nor any stack slot. -/
theorem goto_branches (m : Machine) (t : Thread) (p : Nat) (hp : t.ip = p)
    (hfit : p + 1 < 4294967296) :
    goto_ m (fetch m t).2
      = .loop { t with
          ip := toUnsigned ((p : Int) + toInt16 (codeReadInt16 m t.code (p + 1)).1) } ∧
    goto_w m (fetch m t).2
      = .loop { t with ip := toUnsigned ((p : Int) + toInt (codeReadInt32 m t.code (p + 1)).1) } ∧
    (∀ off : Int, 0 ≤ (p : Int) + off → (p : Int) + off < 4294967296 →
      ((toUnsigned ((p : Int) + off) : Nat) : Int) = (p : Int) + off) ∧
    (goto_ m (fetch m t).2).thread.sp = t.sp ∧ (goto_ m (fetch m t).2).thread.stack = t.stack ∧
    (goto_w m (fetch m t).2).thread.sp = t.sp ∧
    (goto_w m (fetch m t).2).thread.stack = t.stack := by
  have e1 : u32 (p + 1) = p + 1 := u32_eq_self hfit
  have g1 := branch_target p 2 (toInt16 (codeReadInt16 m t.code (p + 1)).1) (by omega) (by omega)
  have g2 := branch_target p 4 (toInt (codeReadInt32 m t.code (p + 1)).1) (by omega) (by omega)
  have h1 : goto_ m (fetch m t).2 = .loop { t with
      ip := toUnsigned ((p : Int) + toInt16 (codeReadInt16 m t.code (p + 1)).1) } := by
    rw [← g1]
    simp only [goto_, fetch, codeReadInt16, hp, e1]
  have h2 : goto_w m (fetch m t).2 = .loop { t with
      ip := toUnsigned ((p : Int) + toInt (codeReadInt32 m t.code (p + 1)).1) } := by
    rw [← g2]
    simp only [goto_w, fetch, codeReadInt32, hp, e1]
  refine ⟨h1, h2, ?_, ?_, ?_, ?_, ?_⟩
  · intro off h0 h3
    exact toUnsigned_of_nonneg h0 h3
  · rw [h1]; rfl
  · rw [h1]; rfl
  · rw [h2]; rfl
  · rw [h2]; rfl

/-- Witness for C20: in code 214 the `goto` at address 10 with operand bytes `0xff 0xfb`
(`-5`) branches back to address 5, and the `goto_w` at address 20 with operand `-16` to
address 4. -/
theorem goto_branches_witness :
    ((operandThread 214 10 1 [0, 7]).ip = 10 ∧ 10 + 1 < 4294967296) ∧
    (goto_ opMachine (fetch opMachine (operandThread 214 10 1 [0, 7])).2
      = .loop { operandThread 214 10 1 [0, 7] with
          ip := toUnsigned (((10 : Nat) : Int) + toInt16 (codeReadInt16 opMachine
            (operandThread 214 10 1 [0, 7]).code (10 + 1)).1) } ∧
    goto_w opMachine (fetch opMachine (operandThread 214 10 1 [0, 7])).2
      = .loop { operandThread 214 10 1 [0, 7] with
          ip := toUnsigned (((10 : Nat) : Int) + toInt (codeReadInt32 opMachine
            (operandThread 214 10 1 [0, 7]).code (10 + 1)).1) } ∧
    (∀ off : Int, 0 ≤ ((10 : Nat) : Int) + off → ((10 : Nat) : Int) + off < 4294967296 →
      ((toUnsigned (((10 : Nat) : Int) + off) : Nat) : Int) = ((10 : Nat) : Int) + off) ∧
    (goto_ opMachine (fetch opMachine (operandThread 214 10 1 [0, 7])).2).thread.sp
      = (operandThread 214 10 1 [0, 7]).sp ∧
    (goto_ opMachine (fetch opMachine (operandThread 214 10 1 [0, 7])).2).thread.stack
      = (operandThread 214 10 1 [0, 7]).stack ∧
    (goto_w opMachine (fetch opMachine (operandThread 214 10 1 [0, 7])).2).thread.sp
      = (operandThread 214 10 1 [0, 7]).sp ∧
    (goto_w opMachine (fetch opMachine (operandThread 214 10 1 [0, 7])).2).thread.stack
      = (operandThread 214 10 1 [0, 7]).stack) ∧
    ((fetch opMachine (operandThread 214 10 1 [0, 7])).1 = 0xa7 ∧
      toInt16 (codeReadInt16 opMachine 214 11).1 = -5 ∧
      (goto_ opMachine (fetch opMachine (operandThread 214 10 1 [0, 7])).2).thread.ip = 5 ∧
      (fetch opMachine (operandThread 214 20 1 [0, 7])).1 = 0xc8 ∧
      toInt (codeReadInt32 opMachine 214 21).1 = -16 ∧
      (goto_w opMachine (fetch opMachine (operandThread 214 20 1 [0, 7])).2).thread.ip = 4) :=
  ⟨⟨rfl, by decide⟩,
    goto_branches opMachine (operandThread 214 10 1 [0, 7]) 10 rfl (by decide),
    by decide⟩

/-! ## C21: `jsr`, `astore` and `ret` -/

/-- The frame's base, read through `frameBase`, when the base slot holds an int. -/
theorem frameBase_done (m : Machine) (t : Thread) (f : Nat) (hframe : t.frame = (f : Int))
    (hf : f < StackSizeInWords m / 2) (htag : t.tag f = IntTag) :
    frameBase m t t.frame = .done (t.value f % 4294967296) t := by
  have hcap := capacity_le m
  have hu : toUnsigned (f : Int) = f := toUnsigned_natCast (by omega)
  have e1 : u32 (f + FrameBaseOffset) = f := by
    unfold FrameBaseOffset
    exact u32_eq_self (by omega)
  unfold frameBase
  rw [hframe, hu, e1, peekInt_done m t f hf htag]
  rfl

/-- The push of a return address `v` by `jsr` and `jsr_w`. -/
theorem pushInt_slot (m : Machine) (t : Thread) (v : Nat) (hv : v < 4294967296)
    (hroom : t.sp + 1 < StackSizeInWords m / 2) :
    ∃ t1, pushInt m t v = .done () t1 ∧ t1.sp = t.sp + 1 ∧ t1.tag t.sp = IntTag ∧
      t1.value t.sp = v ∧
      (∀ i, i < t.sp → t1.tag i = t.tag i ∧ t1.value i = t.value i) ∧
      t1.frame = t.frame ∧ t1.code = t.code ∧ t1.ip = t.ip ∧ t1.exception = t.exception := by
  refine ⟨_, pushInt_done m t v hroom, rfl, ?_, ?_, ?_, rfl, rfl, rfl, rfl⟩
  · show setWord _ _ _ _ = _
    rw [setWord_other _ _ (by omega), setWord_same]
  · show setWord _ _ _ _ = _
    rw [setWord_same, Nat.mod_eq_of_lt hv]
  · intro i hi
    constructor
    · show setWord _ _ _ _ = _
      rw [setWord_other _ _ (by omega), setWord_other _ _ (by omega)]
      rfl
    · show setWord _ _ _ _ = _
      rw [setWord_other _ _ (by omega), setWord_other _ _ (by omega)]
      rfl

/-- C21: `jsr`, whose opcode byte is at address `p`, pushes the address `p + 3` of the
following instruction as an int-tagged slot and sets `ip` to `p + off` for its signed 16-bit
operand `off` (the sum being an `unsigned`); `jsr_w` pushes `p + 5` and branches by its signed
32-bit operand.  When a slot holding such a return address `v` is on top of the stack,
`astore k` moves it, tag and value, into local `k`; and whenever local `k` holds `v` with
`IntTag`, `ret k` sets `ip` to `v`, so that execution resumes at `p + 3` (for `jsr_w`:
`p + 5`).  Here `f` is the frame of the subroutine and `b` its base, local `k` lying below
the frame slots. -/
theorem jsr_ret_resumes (m : Machine) (t : Thread) (p k f b : Nat)
    (hip : t.ip = p) (hp : p + 5 < 4294967296)
    (hroom : t.sp + 1 < StackSizeInWords m / 2)
    (hlocal : b + k < f) (hf : f < t.sp) :
    (∃ t1, jsr m (fetch m t).2 = .loop t1 ∧ t1.sp = t.sp + 1 ∧
      t1.tag t.sp = IntTag ∧ t1.value t.sp = p + 3 ∧
      t1.ip = toUnsigned ((p : Int) + toInt16 ((codeReadInt16 m t.code (p + 1)).1 % 65536)) ∧
      (∀ i, i < t.sp → t1.tag i = t.tag i ∧ t1.value i = t.value i) ∧
      t1.frame = t.frame ∧ t1.code = t.code) ∧
    (∃ t1, jsr_w m (fetch m t).2 = .loop t1 ∧ t1.sp = t.sp + 1 ∧
      t1.tag t.sp = IntTag ∧ t1.value t.sp = p + 5 ∧
      t1.ip = toUnsigned ((p : Int)
        + toInt ((codeReadInt32 m t.code (p + 1)).1 % 4294967296)) ∧
      (∀ i, i < t.sp → t1.tag i = t.tag i ∧ t1.value i = t.value i) ∧
      t1.frame = t.frame ∧ t1.code = t.code) ∧
    (∀ (u : Thread) (v : Nat), u.sp = t.sp + 1 → u.frame = (f : Int) →
      u.tag f = IntTag → u.value f = b → u.tag t.sp = IntTag → u.value t.sp = v →
      codeByte m u.code u.ip = k →
      ∃ u1, astore m u = .loop u1 ∧ u1.sp = t.sp ∧
        u1.tag (b + k) = IntTag ∧ u1.value (b + k) = v ∧
        u1.frame = (f : Int) ∧ u1.tag f = IntTag ∧ u1.value f = b) ∧
    (∀ (w : Thread) (v : Nat), v < 4294967296 → w.frame = (f : Int) →
      w.tag f = IntTag → w.value f = b → w.tag (b + k) = IntTag → w.value (b + k) = v →
      codeByte m w.code w.ip = k →
      ret m w = .loop { w with ip := v }) := by
  have hcap := capacity_le m
  have e1 : u32 (p + 1) = p + 1 := u32_eq_self (by omega)
  have hb32 : b % 4294967296 = b := Nat.mod_eq_of_lt (by omega)
  have hbk : u32 (b + k) = b + k := u32_eq_self (by omega)
  refine ⟨?_, ?_, ?_, ?_⟩
  · have e3 : u32 (p + 1 + 2) = p + 3 := u32_eq_self (by omega)
    obtain ⟨t1, h1, h2, h3, h4, h5, h6, h7, h8, -⟩ :=
      pushInt_slot m { t with ip := p + 3 } (p + 3) (by omega) hroom
    have g := branch_target p 2 (toInt16 ((codeReadInt16 m t.code (p + 1)).1 % 65536))
      (by omega) (by omega)
    rw [e1, e3] at g
    refine ⟨{ t1 with ip := toUnsigned ((p : Int)
      + toInt16 ((codeReadInt16 m t.code (p + 1)).1 % 65536)) }, ?_, h2, h3, h4, rfl, h5, h6, h7⟩
    unfold jsr
    simp only [fetch, codeReadInt16, hip, e1, e3]
    simp only [codeReadInt16, e1] at g
    rw [h1]
    dsimp only
    rw [h8]
    dsimp only
    rw [g]
  · have e3 : u32 (p + 1 + 4) = p + 5 := u32_eq_self (by omega)
    obtain ⟨t1, h1, h2, h3, h4, h5, h6, h7, h8, -⟩ :=
      pushInt_slot m { t with ip := p + 5 } (p + 5) (by omega) hroom
    have g := branch_target p 4 (toInt ((codeReadInt32 m t.code (p + 1)).1 % 4294967296))
      (by omega) (by omega)
    rw [e1, e3] at g
    refine ⟨{ t1 with ip := toUnsigned ((p : Int)
      + toInt ((codeReadInt32 m t.code (p + 1)).1 % 4294967296)) }, ?_, h2, h3, h4, rfl, h5,
      h6, h7⟩
    unfold jsr_w
    simp only [fetch, codeReadInt32, hip, e1, e3]
    simp only [codeReadInt32, e1] at g
    rw [h1]
    dsimp only
    rw [h8]
    dsimp only
    rw [g]
  · intro u v hsp hfr htag hval htop hv hcode
    have hfb := frameBase_done m { u with ip := u32 (u.ip + 1) } f hfr (by omega) htag
    have hval2 : Thread.value { u with ip := u32 (u.ip + 1) } f = b := hval
    rw [hval2, hb32] at hfb
    have s1 : u32 (u.sp + U32 - 1) = t.sp := by
      rw [hsp]
      unfold u32 U32
      omega
    have s2 : u32 (t.sp * 2) = 2 * t.sp := by rw [u32_eq_self (by omega)]; omega
    have s3 : u32 ((b + k) * 2) = 2 * (b + k) := by rw [u32_eq_self (by omega)]; omega
    have htop2 : u.stack (2 * t.sp) = IntTag := htop
    have hv2 : u.stack (2 * t.sp + 1) = v := hv
    have htag2 : u.stack (2 * f) = IntTag := htag
    have hval3 : u.stack (2 * f + 1) = b := hval
    have hst : astore m u = .loop { u with
        ip := u32 (u.ip + 1)
        sp := t.sp
        stack := setWord (setWord u.stack (2 * (b + k)) (u.stack (2 * t.sp)))
          (2 * (b + k) + 1) (u.stack (2 * t.sp + 1)) } := by
      unfold astore store
      rw [hcode, hfb]
      dsimp only
      rw [hbk, s1, s2, s3]
      rfl
    refine ⟨_, hst, rfl, ?_, ?_, hfr, ?_, ?_⟩
    · show setWord _ _ _ _ = _
      rw [setWord_other _ _ (by omega), setWord_same, htop2]
    · show setWord _ _ _ _ = _
      rw [setWord_same, hv2]
    · show setWord _ _ _ _ = _
      rw [setWord_other _ _ (by omega), setWord_other _ _ (by omega), htag2]
    · show setWord _ _ _ _ = _
      rw [setWord_other _ _ (by omega), setWord_other _ _ (by omega), hval3]
  · intro w v hv hfr htag hval hltag hlval hcode
    have hfb := frameBase_done m w f hfr (by omega) htag
    rw [hval, hb32] at hfb
    unfold ret localInt
    rw [hcode, hfb]
    dsimp only
    rw [hbk, peekInt_done m w (b + k) (by omega) hltag]
    dsimp only
    have : w.stack (2 * (b + k) + 1) = v := hlval
    rw [this, Nat.mod_eq_of_lt hv]

/-- Witness for C21: in code 216 the `jsr +20` at address 10 pushes 13 and branches to 30,
where `astore 1` puts 13 into local 1 and `ret 1` at address 32 resumes at 13; the `jsr_w +20`
at address 40 pushes 45 and branches to 60. -/
theorem jsr_ret_resumes_witness :
    ((localsThread 216 10 [0, 0, 0, 0] []).ip = 10 ∧
      (localsThread 216 10 [0, 0, 0, 0] []).frame = ((2 : Nat) : Int) ∧
      (localsThread 216 10 [0, 0, 0, 0] []).sp + 1 < StackSizeInWords flowMachine / 2 ∧
      2 < (localsThread 216 10 [0, 0, 0, 0] []).sp ∧
      (fetch flowMachine (localsThread 216 10 [0, 0, 0, 0] [])).1 = 0xa8 ∧
      toInt16 ((codeReadInt16 flowMachine 216 11).1 % 65536) = 20 ∧
      (jsr flowMachine (fetch flowMachine (localsThread 216 10 [0, 0, 0, 0] [])).2).thread.ip
        = 30 ∧
      (fetch flowMachine (jsr flowMachine
        (fetch flowMachine (localsThread 216 10 [0, 0, 0, 0] [])).2).thread).1 = 0x3a ∧
      (fetch flowMachine (localsThread 216 32 [0, 0, 0, 13] [])).1 = 0xa9 ∧
      (ret flowMachine (fetch flowMachine (localsThread 216 32 [0, 0, 0, 13] [])).2).thread.ip
        = 13 ∧
      (fetch flowMachine (localsThread 216 40 [0, 0, 0, 0] [])).1 = 0xc9 ∧
      (jsr_w flowMachine (fetch flowMachine (localsThread 216 40 [0, 0, 0, 0] [])).2).thread.ip
        = 60 ∧
      (jsr_w flowMachine
        (fetch flowMachine (localsThread 216 40 [0, 0, 0, 0] [])).2).thread.value 6 = 45) ∧
    ((∃ t1, jsr flowMachine (fetch flowMachine (localsThread 216 10 [0, 0, 0, 0] [])).2
        = .loop t1 ∧ t1.sp = (localsThread 216 10 [0, 0, 0, 0] []).sp + 1 ∧
      t1.tag (localsThread 216 10 [0, 0, 0, 0] []).sp = IntTag ∧
      t1.value (localsThread 216 10 [0, 0, 0, 0] []).sp = 10 + 3 ∧
      t1.ip = toUnsigned (((10 : Nat) : Int) + toInt16 ((codeReadInt16 flowMachine
        (localsThread 216 10 [0, 0, 0, 0] []).code (10 + 1)).1 % 65536)) ∧
      (∀ i, i < (localsThread 216 10 [0, 0, 0, 0] []).sp →
        t1.tag i = (localsThread 216 10 [0, 0, 0, 0] []).tag i ∧
        t1.value i = (localsThread 216 10 [0, 0, 0, 0] []).value i) ∧
      t1.frame = (localsThread 216 10 [0, 0, 0, 0] []).frame ∧
      t1.code = (localsThread 216 10 [0, 0, 0, 0] []).code) ∧
    (∃ t1, jsr_w flowMachine (fetch flowMachine (localsThread 216 10 [0, 0, 0, 0] [])).2
        = .loop t1 ∧ t1.sp = (localsThread 216 10 [0, 0, 0, 0] []).sp + 1 ∧
      t1.tag (localsThread 216 10 [0, 0, 0, 0] []).sp = IntTag ∧
      t1.value (localsThread 216 10 [0, 0, 0, 0] []).sp = 10 + 5 ∧
      t1.ip = toUnsigned (((10 : Nat) : Int) + toInt ((codeReadInt32 flowMachine
        (localsThread 216 10 [0, 0, 0, 0] []).code (10 + 1)).1 % 4294967296)) ∧
      (∀ i, i < (localsThread 216 10 [0, 0, 0, 0] []).sp →
        t1.tag i = (localsThread 216 10 [0, 0, 0, 0] []).tag i ∧
        t1.value i = (localsThread 216 10 [0, 0, 0, 0] []).value i) ∧
      t1.frame = (localsThread 216 10 [0, 0, 0, 0] []).frame ∧
      t1.code = (localsThread 216 10 [0, 0, 0, 0] []).code) ∧
    (∀ (u : Thread) (v : Nat), u.sp = (localsThread 216 10 [0, 0, 0, 0] []).sp + 1 →
      u.frame = ((2 : Nat) : Int) →
      u.tag 2 = IntTag → u.value 2 = 0 →
      u.tag (localsThread 216 10 [0, 0, 0, 0] []).sp = IntTag →
      u.value (localsThread 216 10 [0, 0, 0, 0] []).sp = v →
      codeByte flowMachine u.code u.ip = 1 →
      ∃ u1, astore flowMachine u = .loop u1 ∧
        u1.sp = (localsThread 216 10 [0, 0, 0, 0] []).sp ∧
        u1.tag (0 + 1) = IntTag ∧ u1.value (0 + 1) = v ∧
        u1.frame = ((2 : Nat) : Int) ∧ u1.tag 2 = IntTag ∧ u1.value 2 = 0) ∧
    (∀ (w : Thread) (v : Nat), v < 4294967296 → w.frame = ((2 : Nat) : Int) →
      w.tag 2 = IntTag → w.value 2 = 0 → w.tag (0 + 1) = IntTag → w.value (0 + 1) = v →
      codeByte flowMachine w.code w.ip = 1 →
      ret flowMachine w = .loop { w with ip := v })) :=
  ⟨by decide,
    jsr_ret_resumes flowMachine (localsThread 216 10 [0, 0, 0, 0] []) 10 1 2 0 rfl (by decide)
      (by decide) (by decide) (by decide)⟩

/-! ## C22: array loads -/

theorem popObject_done (t : Thread) (n : Nat) (hn : n + 1 < 2147483648) (hsp : t.sp = n + 1)
    (htag : t.stack (2 * n) = ObjectTag) :
    popObject t = .done (t.stack (2 * n + 1)) { t with sp := n } := by
  have h1 : u32 (t.sp + U32 - 1) = n := by
    unfold u32 U32
    omega
  have h2 : u32 (n * 2) = 2 * n := by rw [u32_eq_self (by omega)]; omega
  have h3 : u32 (2 * n + 1) = 2 * n + 1 := u32_eq_self (by omega)
  simp only [popObject, h1, h2, h3, htag, if_true]

theorem pushObject_done (m : Machine) (t : Thread) (o : Nat)
    (h : t.sp + 1 < StackSizeInWords m / 2) :
    pushObject m t o = .done () { t with
      stack := setWord (setWord t.stack (2 * t.sp) ObjectTag) (2 * t.sp + 1) o
      sp := t.sp + 1 } := by
  have hc := capacity_le m
  have h1 : u32 (t.sp + 1) = t.sp + 1 := u32_eq_self (by omega)
  have h2 : u32 (t.sp * 2) = 2 * t.sp := by rw [u32_eq_self (by omega)]; omega
  have h3 : u32 (2 * t.sp + 1) = 2 * t.sp + 1 := u32_eq_self (by omega)
  simp only [pushObject, h1, h2, h3, h, if_true]

/-- A stack walk changes neither `sp` nor the pending exception. -/
theorem walkStack_sp (t : Thread) : (walkStack t).sp = t.sp := by
  unfold walkStack
  split_ifs <;> rfl

/-- The body of an array-load arm once its two operands are popped. -/
theorem arrayLoad_step (r : Runtime) (m : Machine) (t : Thread) (kindOf : Nat → ArrayKind)
    (n a : Nat) (i : Int) (hsp : t.sp = n + 2) (hcap : t.sp < StackSizeInWords m / 2)
    (hindex : t.tag (n + 1) = IntTag) (harray : t.tag n = ObjectTag)
    (ha : t.value n = a) (hi : toInt (t.value (n + 1)) = i) :
    arrayLoad r m t kindOf =
      if a ≠ 0 then
        if i ≥ 0 ∧ i.toNat < r.arrayLength (kindOf a) a then
          Step.ofOutcome (pushElement m { t with sp := n } (kindOf a)
            (r.arrayBody (kindOf a) a i.toNat))
        else
          .throw_ { (makeArrayIndexOutOfBoundsException r m { t with sp := n }
              (r.makeIndexMessage i (r.arrayLength (kindOf a) a))).2 with
            exception := (makeArrayIndexOutOfBoundsException r m { t with sp := n }
              (r.makeIndexMessage i (r.arrayLength (kindOf a) a))).1 }
      else
        .throw_ { (makeNullPointerException m { t with sp := n }).2 with
          exception := (makeNullPointerException m { t with sp := n }).1 } := by
  have hcap2 := capacity_le m
  have hpi := popInt_done t (n + 1) (by omega) hsp hindex
  have hpo := popObject_done { t with sp := n + 1 } n (by omega) rfl harray
  have ha2 : t.stack (2 * n + 1) = a := ha
  have hi2 : toInt (t.stack (2 * (n + 1) + 1) % 4294967296) = i := by
    rw [toInt_mod]
    exact hi
  unfold arrayLoad
  rw [hpi]
  dsimp only
  rw [hpo]
  dsimp only
  rw [ha2, hi2]

/-- C22: each of the array-load arms `aaload`, `baload`, `caload`, `daload`, `faload`,
`iaload`, `laload` and `saload` (listed with the array type it reads; `baload` reads a boolean
or a byte array according to the class of the array), executed with the array reference `a`
in slot `sp - 2` and the int index `i` in slot `sp - 1`: if `a` is null it raises
null-pointer, whatever `i` is; if `0 ≤ i < length(a)` it pushes element `i` (as an object for
`aaload`, as a long in two slots for `daload` and `laload`, as an int for the others) and
raises nothing; for every other `i`, in particular `i = -1` and `i = length(a)`, it raises
array-index-out-of-bounds and pushes nothing; so that for a non-null array the arm goes on
with a pushed element if and only if `0 ≤ i < length(a)`.  In all cases both operands have
been popped: the exception is raised with `sp` two lower, and the element is pushed onto the
stack without the operands. -/
theorem array_load_checks_index (r : Runtime) (m : Machine) (t : Thread) (n a : Nat)
    (i : Int)
    (hsp : t.sp = n + 2) (hcap : t.sp < StackSizeInWords m / 2)
    (hindex : t.tag (n + 1) = IntTag) (harray : t.tag n = ObjectTag)
    (ha : t.value n = a) (hi : toInt (t.value (n + 1)) = i) :
    ∀ arm : Step × ArrayKind,
      arm ∈ [(aaload r m t, ArrayKind.object),
        (baload r m t,
          if r.objectClass a = r.booleanArrayType then ArrayKind.boolean else ArrayKind.byte),
        (caload r m t, ArrayKind.char), (daload r m t, ArrayKind.double),
        (faload r m t, ArrayKind.float), (iaload r m t, ArrayKind.int),
        (laload r m t, ArrayKind.long), (saload r m t, ArrayKind.short)] →
      (a = 0 →
        ∃ t', arm.1 = .throw_ t' ∧ t'.sp = n ∧
          t'.exception = (makeNullPointerException m { t with sp := n }).1) ∧
      (a ≠ 0 → 0 ≤ i → i < (r.arrayLength arm.2 a : Int) →
        ∃ t', arm.1 = .loop t' ∧
          pushElement m { t with sp := n } arm.2 (r.arrayBody arm.2 a i.toNat)
            = .done () t' ∧
          t'.exception = t.exception ∧
          (arm.2 = .object →
            t'.sp = n + 1 ∧ t'.tag n = ObjectTag ∧
            t'.value n = (r.arrayBody arm.2 a i.toNat).toNat) ∧
          (arm.2 = .long ∨ arm.2 = .double →
            t'.sp = n + 2 ∧ t'.tag n = IntTag ∧ t'.tag (n + 1) = IntTag ∧
            t'.value n = toUnsigned64 (r.arrayBody arm.2 a i.toNat) >>> 32 ∧
            t'.value (n + 1) = toUnsigned64 (r.arrayBody arm.2 a i.toNat) % 4294967296) ∧
          (arm.2 ≠ .object → arm.2 ≠ .long → arm.2 ≠ .double →
            t'.sp = n + 1 ∧ t'.tag n = IntTag ∧
            t'.value n = toUnsigned (r.arrayBody arm.2 a i.toNat))) ∧
      (a ≠ 0 → (i < 0 ∨ (r.arrayLength arm.2 a : Int) ≤ i) →
        ∃ t', arm.1 = .throw_ t' ∧ t'.sp = n ∧
          t'.exception = (makeArrayIndexOutOfBoundsException r m { t with sp := n }
            (r.makeIndexMessage i (r.arrayLength arm.2 a))).1) ∧
      (a ≠ 0 →
        (arm.1.isLoop = true ↔ (0 ≤ i ∧ i < (r.arrayLength arm.2 a : Int)))) := by
  intro arm harm
  obtain ⟨kindOf, h1, h2⟩ : ∃ kindOf : Nat → ArrayKind,
      arm.1 = arrayLoad r m t kindOf ∧ arm.2 = kindOf a := by
    simp only [List.mem_cons, List.mem_singleton, List.not_mem_nil, or_false] at harm
    rcases harm with h | h | h | h | h | h | h | h <;> subst h
    · exact ⟨fun _ => .object, rfl, rfl⟩
    · exact ⟨fun array =>
        if r.objectClass array = r.booleanArrayType then .boolean else .byte, rfl, rfl⟩
    · exact ⟨fun _ => .char, rfl, rfl⟩
    · exact ⟨fun _ => .double, rfl, rfl⟩
    · exact ⟨fun _ => .float, rfl, rfl⟩
    · exact ⟨fun _ => .int, rfl, rfl⟩
    · exact ⟨fun _ => .long, rfl, rfl⟩
    · exact ⟨fun _ => .short, rfl, rfl⟩
  obtain ⟨step, kind⟩ := arm
  dsimp only at h1 h2 ⊢
  subst h1 h2
  have hstep := arrayLoad_step r m t kindOf n a i hsp hcap hindex harray ha hi
  have hcap2 := capacity_le m
  have hsp1 : n + 1 < StackSizeInWords m / 2 := by omega
  have hsp2 : n + 2 < StackSizeInWords m / 2 := by omega
  refine ⟨?_, ?_, ?_, ?_⟩
  · intro h0
    rw [hstep, if_neg (not_not.mpr h0)]
    refine ⟨_, rfl, ?_, rfl⟩
    show (walkStack _).sp = n
    rw [walkStack_sp]
  · intro hne h0 h1
    have hcond : i ≥ 0 ∧ i.toNat < r.arrayLength (kindOf a) a := ⟨h0, by omega⟩
    rw [hstep, if_pos hne, if_pos hcond]
    generalize r.arrayBody (kindOf a) a i.toNat = e
    have hu : toUnsigned e % 4294967296 = toUnsigned e := by
      unfold toUnsigned
      omega
    have h64 : toUnsigned64 e < 2 ^ 64 := by
      unfold toUnsigned64
      omega
    have hhi : (toUnsigned64 e >>> 32) % 4294967296 = toUnsigned64 e >>> 32 :=
      Nat.mod_eq_of_lt (shiftRight32_lt h64)
    have hlo : (toUnsigned64 e &&& 0xFFFFFFFF) % 4294967296 = toUnsigned64 e % 4294967296 := by
      rw [and_mask32]
      omega
    have eI : pushInt m { t with sp := n } (toUnsigned e) = .done () { t with
        stack := setWord (setWord t.stack (2 * n) IntTag) (2 * n + 1)
          (toUnsigned e % 4294967296)
        sp := n + 1 } := pushInt_done m { t with sp := n } (toUnsigned e) hsp1
    have eO : pushObject m { t with sp := n } e.toNat = .done () { t with
        stack := setWord (setWord t.stack (2 * n) ObjectTag) (2 * n + 1) e.toNat
        sp := n + 1 } := pushObject_done m { t with sp := n } e.toNat hsp1
    have eL : pushLong m { t with sp := n } (toUnsigned64 e) = .done () { t with
        stack := setWord (setWord (setWord (setWord t.stack (2 * n) IntTag) (2 * n + 1)
          ((toUnsigned64 e >>> 32) % 4294967296)) (2 * n + 2) IntTag) (2 * n + 3)
          ((toUnsigned64 e &&& 0xFFFFFFFF) % 4294967296)
        sp := n + 2 } := pushLong_done m { t with sp := n } (toUnsigned64 e) hsp2
    by_cases kO : kindOf a = .object
    · have hp : pushElement m { t with sp := n } (kindOf a) e
          = pushObject m { t with sp := n } e.toNat := by
        rw [kO]
        rfl
      rw [hp, eO]
      refine ⟨_, rfl, rfl, rfl, ?_, ?_, ?_⟩
      · intro _
        refine ⟨rfl, ?_, ?_⟩
        · show setWord _ _ _ _ = _
          rw [setWord_other _ _ (by omega), setWord_same]
        · show setWord _ _ _ _ = _
          rw [setWord_same]
      · intro h
        rcases h with h | h <;> rw [kO] at h <;> cases h
      · intro h
        exact absurd kO h
    · by_cases kL : kindOf a = .long ∨ kindOf a = .double
      · have hp : pushElement m { t with sp := n } (kindOf a) e
            = pushLong m { t with sp := n } (toUnsigned64 e) := by
          rcases kL with h | h <;> rw [h] <;> rfl
        rw [hp, eL]
        refine ⟨_, rfl, rfl, rfl, ?_, ?_, ?_⟩
        · intro h
          exact absurd h kO
        · intro _
          refine ⟨rfl, ?_, ?_, ?_, ?_⟩
          · show setWord _ _ _ _ = _
            rw [setWord_other _ _ (by omega), setWord_other _ _ (by omega),
              setWord_other _ _ (by omega), setWord_same]
          · show setWord _ _ _ _ = _
            rw [setWord_other _ _ (by omega), show 2 * (n + 1) = 2 * n + 2 by omega,
              setWord_same]
          · show setWord _ _ _ _ = _
            rw [setWord_other _ _ (by omega), setWord_other _ _ (by omega), setWord_same, hhi]
          · show setWord _ _ _ _ = _
            rw [show 2 * (n + 1) + 1 = 2 * n + 3 by omega, setWord_same, hlo]
        · intro _ h1 h2
          rcases kL with h | h
          · exact absurd h h1
          · exact absurd h h2
      · have hp : pushElement m { t with sp := n } (kindOf a) e
            = pushInt m { t with sp := n } (toUnsigned e) := by
          have k1 : kindOf a ≠ .long := fun h => kL (Or.inl h)
          have k2 : kindOf a ≠ .double := fun h => kL (Or.inr h)
          cases hk : kindOf a <;> first
            | rfl
            | exact absurd hk kO
            | exact absurd hk k1
            | exact absurd hk k2
        rw [hp, eI]
        refine ⟨_, rfl, rfl, rfl, ?_, ?_, ?_⟩
        · intro h
          exact absurd h kO
        · intro h
          exact absurd h kL
        · intro _ _ _
          refine ⟨rfl, ?_, ?_⟩
          · show setWord _ _ _ _ = _
            rw [setWord_other _ _ (by omega), setWord_same]
          · show setWord _ _ _ _ = _
            rw [setWord_same, hu]
  · intro hne hout
    have hcond : ¬ (i ≥ 0 ∧ i.toNat < r.arrayLength (kindOf a) a) := by omega
    rw [hstep, if_pos hne, if_neg hcond]
    refine ⟨_, rfl, ?_, rfl⟩
    show (walkStack _).sp = n
    rw [walkStack_sp]
  · intro hne
    rw [hstep, if_pos hne]
    by_cases hcond : i ≥ 0 ∧ i.toNat < r.arrayLength (kindOf a) a
    · rw [if_pos hcond]
      have hr : 0 ≤ i ∧ i < (r.arrayLength (kindOf a) a : Int) := by omega
      refine ⟨fun _ => hr, fun _ => ?_⟩
      generalize r.arrayBody (kindOf a) a i.toNat = e
      have eI := pushInt_done m { t with sp := n } (toUnsigned e) hsp1
      have eO := pushObject_done m { t with sp := n } e.toNat hsp1
      have eL := pushLong_done m { t with sp := n } (toUnsigned64 e) hsp2
      cases hk : kindOf a <;> simp only [pushElement, eI, eO, eL] <;> rfl
    · rw [if_neg hcond]
      have hr : ¬ (0 ≤ i ∧ i < (r.arrayLength (kindOf a) a : Int)) := by omega
      refine ⟨fun h => ?_, fun h => absurd h hr⟩
      exact absurd h Bool.false_ne_true

/-- Witness for C22: `iaload` on the int array 50 (holding 10, 20, 30) at index 1 pushes 20;
at index 3 (its length) and at index -1 it raises array-index-out-of-bounds (14), and on a
null array null-pointer (2), each time with both operands popped; `laload` pushes the long
`2^32 + 5` in two slots, `aaload` the object 9, and `baload` the byte -2; `caload`, `daload`,
`faload` and `saload` push the element at index 1 and raise array-index-out-of-bounds at
index 3 and null-pointer on a null array. -/
theorem array_load_checks_index_witness :
    ((operandThread 0 0 2 [1, 50, 0, 1]).sp = 0 + 2 ∧
      (operandThread 0 0 2 [1, 50, 0, 1]).sp < StackSizeInWords machine64 / 2 ∧
      (operandThread 0 0 2 [1, 50, 0, 1]).tag (0 + 1) = IntTag ∧
      (operandThread 0 0 2 [1, 50, 0, 1]).tag 0 = ObjectTag ∧
      (operandThread 0 0 2 [1, 50, 0, 1]).value 0 = 50 ∧
      toInt ((operandThread 0 0 2 [1, 50, 0, 1]).value (0 + 1)) = 1) ∧
    ((iaload demoRuntime machine64 (operandThread 0 0 2 [1, 50, 0, 1])).isLoop = true ∧
      (iaload demoRuntime machine64 (operandThread 0 0 2 [1, 50, 0, 1])).thread.sp = 1 ∧
      (iaload demoRuntime machine64 (operandThread 0 0 2 [1, 50, 0, 1])).thread.value 0 = 20 ∧
      (iaload demoRuntime machine64 (operandThread 0 0 2 [1, 50, 0, 3])).isThrow = true ∧
      (iaload demoRuntime machine64 (operandThread 0 0 2 [1, 50, 0, 3])).thread.exception
        = 14 ∧
      (iaload demoRuntime machine64 (operandThread 0 0 2 [1, 50, 0, 3])).thread.sp = 0 ∧
      toInt 4294967295 = -1 ∧
      (iaload demoRuntime machine64
        (operandThread 0 0 2 [1, 50, 0, 4294967295])).thread.exception = 14 ∧
      (iaload demoRuntime machine64 (operandThread 0 0 2 [1, 0, 0, 1])).isThrow = true ∧
      (iaload demoRuntime machine64 (operandThread 0 0 2 [1, 0, 0, 1])).thread.exception
        = 2 ∧
      (iaload demoRuntime machine64 (operandThread 0 0 2 [1, 0, 0, 1])).thread.sp = 0 ∧
      (laload demoRuntime machine64 (operandThread 0 0 2 [1, 51, 0, 0])).thread.sp = 2 ∧
      (laload demoRuntime machine64 (operandThread 0 0 2 [1, 51, 0, 0])).thread.value 0 = 1 ∧
      (laload demoRuntime machine64 (operandThread 0 0 2 [1, 51, 0, 0])).thread.value 1 = 5 ∧
      (aaload demoRuntime machine64 (operandThread 0 0 2 [1, 52, 0, 0])).thread.tag 0
        = ObjectTag ∧
      (aaload demoRuntime machine64 (operandThread 0 0 2 [1, 52, 0, 0])).thread.value 0 = 9 ∧
      (baload demoRuntime machine64 (operandThread 0 0 2 [1, 53, 0, 0])).thread.value 0
        = 4294967294) ∧
    ((caload demoRuntime machine64 (operandThread 0 0 2 [1, 50, 0, 1])).isLoop = true ∧
      (caload demoRuntime machine64 (operandThread 0 0 2 [1, 50, 0, 1])).thread.sp = 1 ∧
      (caload demoRuntime machine64 (operandThread 0 0 2 [1, 50, 0, 1])).thread.value 0 = 20 ∧
      (caload demoRuntime machine64 (operandThread 0 0 2 [1, 50, 0, 3])).isThrow = true ∧
      (caload demoRuntime machine64 (operandThread 0 0 2 [1, 50, 0, 3])).thread.exception
        = 14 ∧
      (caload demoRuntime machine64 (operandThread 0 0 2 [1, 0, 0, 1])).thread.exception
        = 2 ∧
      (daload demoRuntime machine64 (operandThread 0 0 2 [1, 51, 0, 0])).isLoop = true ∧
      (daload demoRuntime machine64 (operandThread 0 0 2 [1, 51, 0, 0])).thread.sp = 2 ∧
      (daload demoRuntime machine64 (operandThread 0 0 2 [1, 51, 0, 0])).thread.value 1 = 5 ∧
      (daload demoRuntime machine64 (operandThread 0 0 2 [1, 51, 0, 2])).isThrow = true ∧
      (daload demoRuntime machine64 (operandThread 0 0 2 [1, 51, 0, 2])).thread.sp = 0 ∧
      (daload demoRuntime machine64 (operandThread 0 0 2 [1, 0, 0, 0])).thread.exception
        = 2 ∧
      (faload demoRuntime machine64 (operandThread 0 0 2 [1, 50, 0, 2])).isLoop = true ∧
      (faload demoRuntime machine64 (operandThread 0 0 2 [1, 50, 0, 2])).thread.value 0 = 30 ∧
      (faload demoRuntime machine64
        (operandThread 0 0 2 [1, 50, 0, 4294967295])).thread.exception = 14 ∧
      (faload demoRuntime machine64 (operandThread 0 0 2 [1, 0, 0, 2])).isThrow = true ∧
      (saload demoRuntime machine64 (operandThread 0 0 2 [1, 50, 0, 0])).isLoop = true ∧
      (saload demoRuntime machine64 (operandThread 0 0 2 [1, 50, 0, 0])).thread.value 0 = 10 ∧
      (saload demoRuntime machine64 (operandThread 0 0 2 [1, 50, 0, 3])).thread.exception
        = 14 ∧
      (saload demoRuntime machine64 (operandThread 0 0 2 [1, 50, 0, 3])).thread.sp = 0 ∧
      (saload demoRuntime machine64 (operandThread 0 0 2 [1, 0, 0, 0])).isThrow = true) ∧
    ((50 = 0 →
      ∃ t', iaload demoRuntime machine64 (operandThread 0 0 2 [1, 50, 0, 1]) = .throw_ t' ∧
        t'.sp = 0 ∧
        t'.exception = (makeNullPointerException machine64
          { operandThread 0 0 2 [1, 50, 0, 1] with sp := 0 }).1) ∧
    (50 ≠ 0 → (0 : Int) ≤ 1 → (1 : Int) < (demoRuntime.arrayLength .int 50 : Int) →
      ∃ t', iaload demoRuntime machine64 (operandThread 0 0 2 [1, 50, 0, 1]) = .loop t' ∧
        pushElement machine64 { operandThread 0 0 2 [1, 50, 0, 1] with sp := 0 } .int
          (demoRuntime.arrayBody .int 50 (1 : Int).toNat) = .done () t' ∧
        t'.exception = (operandThread 0 0 2 [1, 50, 0, 1]).exception ∧
        (ArrayKind.int = .object →
          t'.sp = 0 + 1 ∧ t'.tag 0 = ObjectTag ∧
          t'.value 0 = (demoRuntime.arrayBody .int 50 (1 : Int).toNat).toNat) ∧
        (ArrayKind.int = .long ∨ ArrayKind.int = .double →
          t'.sp = 0 + 2 ∧ t'.tag 0 = IntTag ∧ t'.tag (0 + 1) = IntTag ∧
          t'.value 0 = toUnsigned64 (demoRuntime.arrayBody .int 50 (1 : Int).toNat) >>> 32 ∧
          t'.value (0 + 1)
            = toUnsigned64 (demoRuntime.arrayBody .int 50 (1 : Int).toNat) % 4294967296) ∧
        (ArrayKind.int ≠ .object → ArrayKind.int ≠ .long → ArrayKind.int ≠ .double →
          t'.sp = 0 + 1 ∧ t'.tag 0 = IntTag ∧
          t'.value 0 = toUnsigned (demoRuntime.arrayBody .int 50 (1 : Int).toNat))) ∧
    (50 ≠ 0 → ((1 : Int) < 0 ∨ (demoRuntime.arrayLength .int 50 : Int) ≤ 1) →
      ∃ t', iaload demoRuntime machine64 (operandThread 0 0 2 [1, 50, 0, 1]) = .throw_ t' ∧
        t'.sp = 0 ∧
        t'.exception = (makeArrayIndexOutOfBoundsException demoRuntime machine64
          { operandThread 0 0 2 [1, 50, 0, 1] with sp := 0 }
          (demoRuntime.makeIndexMessage 1 (demoRuntime.arrayLength .int 50))).1) ∧
    (50 ≠ 0 →
      ((iaload demoRuntime machine64 (operandThread 0 0 2 [1, 50, 0, 1])).isLoop = true ↔
        ((0 : Int) ≤ 1 ∧ (1 : Int) < (demoRuntime.arrayLength .int 50 : Int))))) :=
  ⟨by decide, by decide, by decide,
    array_load_checks_index demoRuntime machine64 (operandThread 0 0 2 [1, 50, 0, 1])
      0 50 1 rfl (by decide) rfl rfl rfl (by decide)
      (iaload demoRuntime machine64 (operandThread 0 0 2 [1, 50, 0, 1]), ArrayKind.int)
      (by simp)⟩

/-! ## C23: `checkcast` and `instanceof` on null -/

theorem peekObject_done (m : Machine) (t : Thread) (n : Nat) (hn : n < StackSizeInWords m / 2)
    (htag : t.stack (2 * n) = ObjectTag) :
    peekObject m t n = .done (t.stack (2 * n + 1)) t := by
  have hc := capacity_le m
  have h2 : u32 (n * 2) = 2 * n := by rw [u32_eq_self (by omega)]; omega
  simp only [peekObject, hn, h2, htag, if_true]

/-- C23: with a null reference on top of the operand stack (slot `n`, `sp = n + 1`),
`checkcast`, whose opcode byte is at address `p`, goes on to the next instruction at `p + 3`
and changes nothing else: the stack (null still on top), `sp`, the pending exception and the
constant pool, into which a resolved class would have been written, are as before; and
`instanceof` goes on at `p + 3` with the null replaced by the int 0, and changes nothing else
either.  The outcome does not depend on the class named by the operand. -/
theorem null_passes_checkcast (r : Runtime) (m : Machine) (t : Thread) (p n : Nat)
    (hip : t.ip = p) (hp : p + 3 < 4294967296)
    (hsp : t.sp = n + 1) (hcap : t.sp < StackSizeInWords m / 2)
    (htag : t.tag n = ObjectTag) (hnull : t.value n = 0) :
    checkcast r m (fetch m t).2 = .loop { t with ip := p + 3 } ∧
    (∃ t', instanceof m (fetch m t).2 = .loop t' ∧ t'.ip = p + 3 ∧ t'.sp = t.sp ∧
      t'.tag n = IntTag ∧ t'.value n = 0 ∧
      (∀ i, i < n → t'.tag i = t.tag i ∧ t'.value i = t.value i) ∧
      t'.exception = t.exception ∧ t'.pool = t.pool ∧ t'.frame = t.frame ∧
      t'.code = t.code ∧ t'.classInitList = t.classInitList ∧ t'.trace = t.trace) := by
  have hcap2 := capacity_le m
  have e1 : u32 (p + 1) = p + 1 := u32_eq_self (by omega)
  have e2 : u32 (p + 1 + 2) = p + 3 := u32_eq_self (by omega)
  have e3 : u32 (t.sp + U32 - 1) = n := by
    unfold u32 U32
    omega
  have hv : t.stack (2 * n + 1) = 0 := hnull
  have hpk : peekObject m { t with ip := p + 3 } n = .done 0 { t with ip := p + 3 } := by
    rw [peekObject_done m { t with ip := p + 3 } n (by omega) htag]
    show Outcome.done (t.stack (2 * n + 1)) _ = _
    rw [hv]
  constructor
  · unfold checkcast
    simp only [fetch, codeReadInt16, hip, e1, e2, e3]
    rw [hpk]
    rfl
  · have hpop : popObject { t with ip := p + 3 } = .done 0 { t with ip := p + 3, sp := n } := by
      rw [popObject_done { t with ip := p + 3 } n (by omega) hsp htag]
      show Outcome.done (t.stack (2 * n + 1)) _ = _
      rw [hv]
    have hpush : pushInt m { t with ip := p + 3, sp := n } 0 = .done () { t with
        ip := p + 3
        stack := setWord (setWord t.stack (2 * n) IntTag) (2 * n + 1) (0 % 4294967296)
        sp := n + 1 } :=
      pushInt_done m { t with ip := p + 3, sp := n } 0 (by show n + 1 < _; omega)
    have hres : instanceof m (fetch m t).2 = .loop { t with
        ip := p + 3
        stack := setWord (setWord t.stack (2 * n) IntTag) (2 * n + 1) (0 % 4294967296)
        sp := n + 1 } := by
      unfold instanceof
      simp only [fetch, codeReadInt16, hip, e1, e2, e3]
      rw [hpk]
      dsimp only
      rw [if_neg (by simp), hpop]
      dsimp only
      rw [hpush]
      rfl
    refine ⟨_, hres, rfl, hsp.symm, ?_, ?_, ?_, rfl, rfl, rfl, rfl, rfl, rfl⟩
    · show setWord _ _ _ _ = _
      rw [setWord_other _ _ (by omega), setWord_same]
    · show setWord _ _ _ _ = _
      rw [setWord_same]
    · intro i hi
      constructor
      · show setWord _ _ _ _ = _
        rw [setWord_other _ _ (by omega), setWord_other _ _ (by omega)]
        rfl
      · show setWord _ _ _ _ = _
        rw [setWord_other _ _ (by omega), setWord_other _ _ (by omega)]
        rfl

/-- Witness for C23: in code 217 the `checkcast #1` at address 0 and the `instanceof #1` at
address 3, each with null alone on the stack. -/
theorem null_passes_checkcast_witness :
    ((operandThread 217 0 1 [1, 0]).ip = 0 ∧ 0 + 3 < 4294967296 ∧
      (operandThread 217 0 1 [1, 0]).sp = 0 + 1 ∧
      (operandThread 217 0 1 [1, 0]).sp < StackSizeInWords flowMachine / 2 ∧
      (operandThread 217 0 1 [1, 0]).tag 0 = ObjectTag ∧
      (operandThread 217 0 1 [1, 0]).value 0 = 0) ∧
    ((fetch flowMachine (operandThread 217 0 1 [1, 0])).1 = 0xc0 ∧
      (fetch flowMachine (operandThread 217 3 1 [1, 0])).1 = 0xc1 ∧
      (checkcast demoRuntime flowMachine
        (fetch flowMachine (operandThread 217 0 1 [1, 0])).2).isLoop = true ∧
      (checkcast demoRuntime flowMachine
        (fetch flowMachine (operandThread 217 0 1 [1, 0])).2).thread.tag 0 = ObjectTag ∧
      (instanceof flowMachine (fetch flowMachine (operandThread 217 3 1 [1, 0])).2).thread.ip
        = 6 ∧
      (instanceof flowMachine (fetch flowMachine (operandThread 217 3 1 [1, 0])).2).thread.tag 0
        = IntTag ∧
      (instanceof flowMachine (fetch flowMachine (operandThread 217 3 1 [1, 0])).2).thread.sp
        = 1) ∧
    (checkcast demoRuntime flowMachine (fetch flowMachine (operandThread 217 0 1 [1, 0])).2
        = .loop { operandThread 217 0 1 [1, 0] with ip := 0 + 3 } ∧
    (∃ t', instanceof flowMachine (fetch flowMachine (operandThread 217 0 1 [1, 0])).2
        = .loop t' ∧ t'.ip = 0 + 3 ∧ t'.sp = (operandThread 217 0 1 [1, 0]).sp ∧
      t'.tag 0 = IntTag ∧ t'.value 0 = 0 ∧
      (∀ i, i < 0 → t'.tag i = (operandThread 217 0 1 [1, 0]).tag i ∧
        t'.value i = (operandThread 217 0 1 [1, 0]).value i) ∧
      t'.exception = (operandThread 217 0 1 [1, 0]).exception ∧
      t'.pool = (operandThread 217 0 1 [1, 0]).pool ∧
      t'.frame = (operandThread 217 0 1 [1, 0]).frame ∧
      t'.code = (operandThread 217 0 1 [1, 0]).code ∧
      t'.classInitList = (operandThread 217 0 1 [1, 0]).classInitList ∧
      t'.trace = (operandThread 217 0 1 [1, 0]).trace)) :=
  ⟨by decide, by decide,
    null_passes_checkcast demoRuntime flowMachine (operandThread 217 0 1 [1, 0]) 0 0 rfl
      (by decide) rfl (by decide) rfl rfl⟩

/-! ## `popFrame` in general -/

/-- The monitor release at the head of `popFrame`: only the trace changes, by at most one
`release`. -/
theorem popFrameRelease_done (m : Machine) (t : Thread) (method b : Nat)
    (hbase : frameBase m t t.frame = .done b t)
    (hrecv : m.methodFlags method &&& ACC_SYNCHRONIZED ≠ 0 →
      m.methodFlags method &&& ACC_STATIC = 0 → ∃ o, peekObject m t b = .done o t) :
    ∃ tr, popFrameRelease m t method = .done () { t with trace := tr } ∧
      (m.methodFlags method &&& ACC_SYNCHRONIZED = 0 → tr = t.trace) ∧
      (m.methodFlags method &&& ACC_SYNCHRONIZED ≠ 0 →
        m.methodFlags method &&& ACC_STATIC ≠ 0 →
        tr = Event.release (m.methodClass method) :: t.trace) ∧
      (m.methodFlags method &&& ACC_SYNCHRONIZED ≠ 0 →
        m.methodFlags method &&& ACC_STATIC = 0 →
        ∃ o, peekObject m t b = .done o t ∧ tr = Event.release o :: t.trace) := by
  unfold popFrameRelease
  by_cases hs : m.methodFlags method &&& ACC_SYNCHRONIZED = 0
  · rw [if_neg (not_not.mpr hs)]
    exact ⟨t.trace, rfl, fun _ => rfl, fun h => absurd hs h, fun h => absurd hs h⟩
  · rw [if_pos hs]
    by_cases hst : m.methodFlags method &&& ACC_STATIC = 0
    · rw [if_neg (not_not.mpr hst), hbase]
      obtain ⟨o, ho⟩ := hrecv hs hst
      dsimp only
      rw [ho]
      exact ⟨Event.release o :: t.trace, rfl, fun h => absurd h hs, fun _ h => absurd hst h,
        fun _ _ => ⟨o, rfl, rfl⟩⟩
    · rw [if_pos hst]
      exact ⟨Event.release (m.methodClass method) :: t.trace, rfl, fun h => absurd h hs,
        fun _ _ => rfl, fun _ h => absurd h hst⟩

/-- The tail of `popFrame` on a thread `s` that has the stack and the frame of `t`. -/
theorem popFrameRestore_of (m : Machine) (t s : Thread) (b : Nat) (n : Int)
    (hs : s.stack = t.stack) (hf : s.frame = t.frame)
    (hbase : frameBase m t t.frame = .done b t)
    (hnext : frameNext m t t.frame = .done n t)
    (hcaller : 0 ≤ n → ∃ method2 ip2,
      frameMethod m t n = .done method2 t ∧ frameIp m t n = .done ip2 t) :
    ∃ t', popFrameRestore m s = .done () t' ∧ t'.sp = b ∧ t'.frame = n ∧
      t'.stack = t.stack ∧
      (∀ method2 ip2, 0 ≤ n → frameMethod m t n = .done method2 t →
        frameIp m t n = .done ip2 t → t'.code = m.methodCode method2 ∧ t'.ip = ip2) ∧
      (n < 0 → t'.code = 0 ∧ t'.ip = 0) ∧
      t'.exception = s.exception ∧ t'.classInitList = s.classInitList ∧
      t'.pool = s.pool ∧ t'.trace = s.trace := by
  have e0 : frameBase m s s.frame = .done b s := by
    rw [hf]
    exact peekInt_congr hbase s hs
  have e3 : frameNext m { s with sp := b } s.frame = .done n { s with sp := b } := by
    rw [hf]
    exact frameNext_congr hnext _ hs
  unfold popFrameRestore
  rw [e0]
  dsimp only
  rw [e3]
  dsimp only
  by_cases hn : 0 ≤ n
  · obtain ⟨method2, ip2, c1, c2⟩ := hcaller hn
    have e4 : frameMethod m { s with sp := b, frame := n } n
        = .done method2 { s with sp := b, frame := n } := peekObject_congr c1 _ hs
    have e5 : frameIp m { s with sp := b, frame := n, code := m.methodCode method2 } n
        = .done ip2 { s with sp := b, frame := n, code := m.methodCode method2 } :=
      peekInt_congr c2 _ hs
    rw [if_pos hn, e4]
    dsimp only
    rw [e5]
    refine ⟨_, rfl, rfl, rfl, hs, ?_, ?_, rfl, rfl, rfl, rfl⟩
    · intro method3 ip3 _ d1 d2
      rw [c1] at d1
      rw [c2] at d2
      simp only [Outcome.done.injEq] at d1 d2
      exact ⟨by rw [d1.1], d2.1⟩
    · intro hneg
      omega
  · rw [if_neg hn]
    refine ⟨_, rfl, rfl, rfl, hs, ?_, ?_, rfl, rfl, rfl, rfl⟩
    · intro method3 ip3 h0
      exact absurd h0 hn
    · intro _
      exact ⟨rfl, rfl⟩

/-- The function `popFrame` once the frame's method is read and the monitor released. -/
theorem popFrame_phases (m : Machine) (t : Thread) (method : Nat) (tr : List Event)
    (hmeth : frameMethod m t t.frame = .done method t)
    (hrel : popFrameRelease m t method = .done () { t with trace := tr }) :
    popFrame m t =
      match popFrameClassInit m { t with trace := tr } method with
      | .aborted t3 => .aborted t3
      | .done _ t3 => popFrameRestore m t3 := by
  unfold popFrame
  rw [hmeth]
  dsimp only
  rw [hrel]

/-- The function `popFrame` completes on a readable frame whose class-init list, if the
method is a class initializer, is empty or headed by the method's class. -/
theorem popFrame_done (m : Machine) (t : Thread) (method b : Nat) (n : Int)
    (hmeth : frameMethod m t t.frame = .done method t)
    (hbase : frameBase m t t.frame = .done b t)
    (hnext : frameNext m t t.frame = .done n t)
    (hcaller : 0 ≤ n → ∃ method2 ip2,
      frameMethod m t n = .done method2 t ∧ frameIp m t n = .done ip2 t)
    (hrecv : m.methodFlags method &&& ACC_SYNCHRONIZED ≠ 0 →
      m.methodFlags method &&& ACC_STATIC = 0 → ∃ o, peekObject m t b = .done o t)
    (hinit : m.methodVmFlags method &&& ClassInitFlag ≠ 0 →
      ∀ c rest, t.classInitList = c :: rest → c = m.methodClass method) :
    ∃ t', popFrame m t = .done () t' ∧ t'.sp = b ∧ t'.frame = n ∧ t'.stack = t.stack ∧
      (∀ method2 ip2, 0 ≤ n → frameMethod m t n = .done method2 t →
        frameIp m t n = .done ip2 t → t'.code = m.methodCode method2 ∧ t'.ip = ip2) ∧
      (n < 0 → t'.code = 0 ∧ t'.ip = 0) ∧
      t'.exception = t.exception ∧ t'.pool = t.pool := by
  obtain ⟨tr, hrel, -, -, -⟩ := popFrameRelease_done m t method b hbase hrecv
  rw [popFrame_phases m t method tr hmeth hrel]
  have hci : ∃ s, popFrameClassInit m { t with trace := tr } method = .done () s ∧
      s.stack = t.stack ∧ s.frame = t.frame ∧ s.exception = t.exception ∧
      s.pool = t.pool := by
    unfold popFrameClassInit
    by_cases hflag : m.methodVmFlags method &&& ClassInitFlag = 0
    · rw [if_neg (not_not.mpr hflag)]
      exact ⟨_, rfl, rfl, rfl, rfl, rfl⟩
    · rw [if_pos hflag]
      cases hl : t.classInitList with
      | nil =>
        simp only [hl]
        exact ⟨_, rfl, rfl, rfl, rfl, rfl⟩
      | cons c rest =>
        have hc := hinit hflag c rest hl
        simp only [hl]
        rw [if_pos hc]
        exact ⟨_, rfl, rfl, rfl, rfl, rfl⟩
  obtain ⟨s, hs1, hs2, hs3, hs4, hs5⟩ := hci
  rw [hs1]
  dsimp only
  obtain ⟨t', r1, r2, r3, r4, r5, r6, r7, -, r9, -⟩ :=
    popFrameRestore_of m t s b n hs2 hs3 hbase hnext hcaller
  exact ⟨t', r1, r2, r3, r4, r5, r6, by rw [r7, hs4], by rw [r9, hs5]⟩

/-! ## C24: `ireturn` -/

theorem toUnsigned_toInt (v : Nat) : toUnsigned (toInt v) = v % 4294967296 := by
  unfold toUnsigned toInt U32
  split_ifs <;> omega

/-- C24: `ireturn` with the int result in the top slot `s` of a readable frame (method, base
`b` and caller `n`; the method's monitor and class-init bookkeeping being in order, see
`popFrame`).  Executed in a frame above the entry frame `base` it pops the result, pops the
callee frame and pushes the result into the caller: afterwards `sp = b + 1`, the slot at the
callee's former base holds the result with `IntTag`, `t->frame` is the caller `n`, and `code`
and `ip` are those of the caller (its saved `ip`); the slots below `b` are untouched.
Executed in the entry frame (or below) it leaves the loop and returns the result boxed with
`makeInt`, with only the result popped and the frame still in place. -/
theorem ireturn_returns_to_caller (r : Runtime) (m : Machine) (base : Int) (t : Thread)
    (s method b : Nat) (n : Int)
    (hsp : t.sp = s + 1) (hs : s + 1 < 2147483648) (htag : t.tag s = IntTag)
    (hmeth : frameMethod m t t.frame = .done method t)
    (hbase : frameBase m t t.frame = .done b t)
    (hnext : frameNext m t t.frame = .done n t)
    (hcaller : 0 ≤ n → ∃ method2 ip2,
      frameMethod m t n = .done method2 t ∧ frameIp m t n = .done ip2 t)
    (hrecv : m.methodFlags method &&& ACC_SYNCHRONIZED ≠ 0 →
      m.methodFlags method &&& ACC_STATIC = 0 → ∃ o, peekObject m t b = .done o t)
    (hinit : m.methodVmFlags method &&& ClassInitFlag ≠ 0 →
      ∀ c rest, t.classInitList = c :: rest → c = m.methodClass method)
    (hroom : b + 1 < StackSizeInWords m / 2) :
    (base < t.frame →
      ∃ t', ireturn r m base t = .loop t' ∧ t'.sp = b + 1 ∧ t'.tag b = IntTag ∧
        t'.value b = t.value s % 4294967296 ∧ toInt (t'.value b) = toInt (t.value s) ∧
        t'.frame = n ∧
        (∀ method2 ip2, 0 ≤ n → frameMethod m t n = .done method2 t →
          frameIp m t n = .done ip2 t → t'.code = m.methodCode method2 ∧ t'.ip = ip2) ∧
        (∀ i, i < b → t'.tag i = t.tag i ∧ t'.value i = t.value i) ∧
        t'.exception = t.exception) ∧
    (t.frame ≤ base →
      ireturn r m base t = .returned (r.makeInt (toInt (t.value s))) { t with sp := s }) := by
  have hpop : popInt t = .done (t.stack (2 * s + 1) % 4294967296) { t with sp := s } :=
    popInt_done t s hs hsp htag
  have hres : toInt (t.stack (2 * s + 1) % 4294967296) = toInt (t.value s) := toInt_mod _
  constructor
  · intro habove
    have c1 : frameMethod m { t with sp := s } t.frame = .done method { t with sp := s } :=
      peekObject_congr hmeth _ rfl
    have c2 : frameBase m { t with sp := s } t.frame = .done b { t with sp := s } :=
      peekInt_congr hbase _ rfl
    have c3 : frameNext m { t with sp := s } t.frame = .done n { t with sp := s } :=
      frameNext_congr hnext _ rfl
    have c4 : 0 ≤ n → ∃ method2 ip2,
        frameMethod m { t with sp := s } n = .done method2 { t with sp := s } ∧
        frameIp m { t with sp := s } n = .done ip2 { t with sp := s } := by
      intro h0
      obtain ⟨method2, ip2, d1, d2⟩ := hcaller h0
      exact ⟨method2, ip2, peekObject_congr d1 _ rfl, peekInt_congr d2 _ rfl⟩
    have c5 : m.methodFlags method &&& ACC_SYNCHRONIZED ≠ 0 →
        m.methodFlags method &&& ACC_STATIC = 0 →
        ∃ o, peekObject m { t with sp := s } b = .done o { t with sp := s } := by
      intro h1 h2
      obtain ⟨o, ho⟩ := hrecv h1 h2
      exact ⟨o, peekObject_congr ho _ rfl⟩
    obtain ⟨t2, p1, p2, p3, p4, p5, -, p7, -⟩ :=
      popFrame_done m { t with sp := s } method b n c1 c2 c3 c4 c5 hinit
    have hpush := pushInt_done m t2 (toUnsigned (toInt (t.stack (2 * s + 1) % 4294967296)))
      (by rw [p2]; exact hroom)
    have hv : toUnsigned (toInt (t.stack (2 * s + 1) % 4294967296)) % 4294967296
        = t.stack (2 * s + 1) % 4294967296 := by
      rw [toUnsigned_toInt]
      omega
    rw [p2, hv] at hpush
    have hir : ireturn r m base t = .loop { t2 with
        stack := setWord (setWord t2.stack (2 * b) IntTag) (2 * b + 1)
          (t.stack (2 * s + 1) % 4294967296)
        sp := b + 1 } := by
      unfold ireturn
      rw [hpop]
      dsimp only
      rw [if_pos habove, p1]
      dsimp only
      rw [hpush]
    have hval : (setWord (setWord t2.stack (2 * b) IntTag) (2 * b + 1)
        (t.stack (2 * s + 1) % 4294967296)) (2 * b + 1) = t.value s % 4294967296 :=
      setWord_same _ _ _
    refine ⟨_, hir, rfl, ?_, hval, ?_, p3, ?_, ?_, p7⟩
    · show setWord _ _ _ _ = _
      rw [setWord_other _ _ (by omega), setWord_same]
    · show toInt (setWord _ _ _ _) = _
      rw [hval, toInt_mod]
    · intro method2 ip2 h0 d1 d2
      exact p5 method2 ip2 h0 (peekObject_congr d1 _ rfl) (peekInt_congr d2 _ rfl)
    · intro i hi
      constructor
      · show setWord _ _ _ _ = _
        rw [setWord_other _ _ (by omega), setWord_other _ _ (by omega), p4]
        rfl
      · show setWord _ _ _ _ = _
        rw [setWord_other _ _ (by omega), setWord_other _ _ (by omega), p4]
        rfl
  · intro hentry
    unfold ireturn
    rw [hpop]
    dsimp only
    rw [if_neg (by show ¬ (t.frame > base); omega), hres]

/-- Witness for C24: `demoReturnThread` returns 77 from the frame of method 100 at slot 8
(base 5) to its caller, the frame at slot 1 with saved `ip` 14; with the frame at slot 8 as
entry frame the same `ireturn` leaves `interpret` with the boxed 77. -/
theorem ireturn_returns_to_caller_witness :
    (demoReturnThread.sp = 12 + 1 ∧ demoReturnThread.tag 12 = IntTag ∧
      demoReturnThread.value 12 = 77 ∧ demoReturnThread.frame = 8 ∧
      5 + 1 < StackSizeInWords demoMachine / 2) ∧
    ((ireturn demoRuntime demoMachine 1 demoReturnThread).isLoop = true ∧
      (ireturn demoRuntime demoMachine 1 demoReturnThread).thread.sp = 6 ∧
      (ireturn demoRuntime demoMachine 1 demoReturnThread).thread.tag 5 = IntTag ∧
      (ireturn demoRuntime demoMachine 1 demoReturnThread).thread.value 5 = 77 ∧
      (ireturn demoRuntime demoMachine 1 demoReturnThread).thread.frame = 1 ∧
      (ireturn demoRuntime demoMachine 1 demoReturnThread).thread.ip = 14 ∧
      (ireturn demoRuntime demoMachine 1 demoReturnThread).thread.code = 201 ∧
      (ireturn demoRuntime demoMachine 8 demoReturnThread).isReturned = true ∧
      (ireturn demoRuntime demoMachine 8 demoReturnThread).result = demoRuntime.makeInt 77 ∧
      (ireturn demoRuntime demoMachine 8 demoReturnThread).thread.frame = 8 ∧
      (ireturn demoRuntime demoMachine 8 demoReturnThread).thread.sp = 12) ∧
    (((1 : Int) < demoReturnThread.frame →
      ∃ t', ireturn demoRuntime demoMachine 1 demoReturnThread = .loop t' ∧ t'.sp = 5 + 1 ∧
        t'.tag 5 = IntTag ∧
        t'.value 5 = demoReturnThread.value 12 % 4294967296 ∧
        toInt (t'.value 5) = toInt (demoReturnThread.value 12) ∧
        t'.frame = 1 ∧
        (∀ method2 ip2, (0 : Int) ≤ 1 →
          frameMethod demoMachine demoReturnThread 1 = .done method2 demoReturnThread →
          frameIp demoMachine demoReturnThread 1 = .done ip2 demoReturnThread →
          t'.code = demoMachine.methodCode method2 ∧ t'.ip = ip2) ∧
        (∀ i, i < 5 → t'.tag i = demoReturnThread.tag i ∧
          t'.value i = demoReturnThread.value i) ∧
        t'.exception = demoReturnThread.exception) ∧
    (demoReturnThread.frame ≤ 1 →
      ireturn demoRuntime demoMachine 1 demoReturnThread
        = .returned (demoRuntime.makeInt (toInt (demoReturnThread.value 12)))
          { demoReturnThread with sp := 12 })) :=
  ⟨by decide, by decide,
    ireturn_returns_to_caller demoRuntime demoMachine 1 demoReturnThread 12 100 5 1 rfl
      (by decide) rfl rfl rfl rfl (fun _ => ⟨101, 14, rfl, rfl⟩)
      (fun h => absurd rfl h) (fun h => absurd rfl h) (by decide)⟩

/-! ## C25: `classInit` -/

/-- C25: `classInit(class, n)` with `n ≤ ip`: if the class has `NeedInitFlag` set and
`preInitClass` returns true, it returns true, the class is the new head of the thread's
class-init list, `ip` is `n` lower and `code` is the class initializer; otherwise (the flag is
clear, or `preInitClass` returns false) it returns false and `ip`, `code` and the class-init
list are as before.  In both cases `sp`, `frame` and the stack are as before, and
`preInitClass` is called, and may change the pending exception, only if the flag is set. -/
theorem classInit_enters_initializer (r : Runtime) (t : Thread) (class_ n : Nat)
    (hn : n ≤ t.ip) (hip : t.ip < 4294967296) :
    (r.classVmFlags class_ &&& NeedInitFlag ≠ 0 →
      (r.preInitClass t.exception class_).1 = true →
      (classInit r t class_ n).1 = true ∧
      (classInit r t class_ n).2.classInitList = class_ :: t.classInitList ∧
      (classInit r t class_ n).2.ip = t.ip - n ∧
      (classInit r t class_ n).2.code = r.classInitializer class_) ∧
    ((r.classVmFlags class_ &&& NeedInitFlag = 0 ∨
        (r.preInitClass t.exception class_).1 = false) →
      (classInit r t class_ n).1 = false ∧
      (classInit r t class_ n).2.classInitList = t.classInitList ∧
      (classInit r t class_ n).2.ip = t.ip ∧
      (classInit r t class_ n).2.code = t.code) ∧
    (classInit r t class_ n).2.sp = t.sp ∧
    (classInit r t class_ n).2.frame = t.frame ∧
    (classInit r t class_ n).2.stack = t.stack ∧
    (r.classVmFlags class_ &&& NeedInitFlag = 0 → classInit r t class_ n = (false, t)) := by
  have e1 : u32 (t.ip + U32 - u32 n) = t.ip - n := by
    unfold u32 U32
    omega
  refine ⟨?_, ?_, ?_, ?_, ?_, ?_⟩
  · intro hflag hpre
    unfold classInit classInit2
    rw [if_pos hflag, if_pos hpre]
    exact ⟨rfl, rfl, e1, rfl⟩
  · intro h
    unfold classInit classInit2
    by_cases hflag : r.classVmFlags class_ &&& NeedInitFlag = 0
    · rw [if_neg (not_not.mpr hflag)]
      exact ⟨rfl, rfl, rfl, rfl⟩
    · have hpre : ¬ ((r.preInitClass t.exception class_).1 = true) := by
        rcases h with h | h
        · exact absurd h hflag
        · rw [h]
          exact Bool.false_ne_true
      rw [if_pos hflag, if_neg hpre]
      exact ⟨rfl, rfl, rfl, rfl⟩
  · unfold classInit classInit2
    split_ifs <;> rfl
  · unfold classInit classInit2
    split_ifs <;> rfl
  · unfold classInit classInit2
    split_ifs <;> rfl
  · intro hflag
    unfold classInit
    rw [if_neg (not_not.mpr hflag)]

/-- Witness for C25: class 20 needs initialisation and `preInitClass` grants it, so
`classInit(20, 3)` at `ip = 14` rewinds to 11 and enters the initializer 120; class 21 has the
flag clear. -/
theorem classInit_enters_initializer_witness :
    (3 ≤ demoThread.ip ∧ demoThread.ip < 4294967296) ∧
    (demoRuntime.classVmFlags 20 &&& NeedInitFlag ≠ 0 ∧
      (demoRuntime.preInitClass demoThread.exception 20).1 = true ∧
      (classInit demoRuntime demoThread 20 3).2.ip = 11 ∧
      (classInit demoRuntime demoThread 20 3).2.code = 120 ∧
      (classInit demoRuntime demoThread 20 3).2.classInitList = [20] ∧
      demoRuntime.classVmFlags 21 &&& NeedInitFlag = 0 ∧
      (classInit demoRuntime demoThread 21 3).1 = false ∧
      (classInit demoRuntime demoThread 21 3).2.ip = 14) ∧
    ((demoRuntime.classVmFlags 20 &&& NeedInitFlag ≠ 0 →
      (demoRuntime.preInitClass demoThread.exception 20).1 = true →
      (classInit demoRuntime demoThread 20 3).1 = true ∧
      (classInit demoRuntime demoThread 20 3).2.classInitList
        = 20 :: demoThread.classInitList ∧
      (classInit demoRuntime demoThread 20 3).2.ip = demoThread.ip - 3 ∧
      (classInit demoRuntime demoThread 20 3).2.code = demoRuntime.classInitializer 20) ∧
    ((demoRuntime.classVmFlags 20 &&& NeedInitFlag = 0 ∨
        (demoRuntime.preInitClass demoThread.exception 20).1 = false) →
      (classInit demoRuntime demoThread 20 3).1 = false ∧
      (classInit demoRuntime demoThread 20 3).2.classInitList = demoThread.classInitList ∧
      (classInit demoRuntime demoThread 20 3).2.ip = demoThread.ip ∧
      (classInit demoRuntime demoThread 20 3).2.code = demoThread.code) ∧
    (classInit demoRuntime demoThread 20 3).2.sp = demoThread.sp ∧
    (classInit demoRuntime demoThread 20 3).2.frame = demoThread.frame ∧
    (classInit demoRuntime demoThread 20 3).2.stack = demoThread.stack ∧
    (demoRuntime.classVmFlags 20 &&& NeedInitFlag = 0 →
      classInit demoRuntime demoThread 20 3 = (false, demoThread))) :=
  ⟨by decide, by decide,
    classInit_enters_initializer demoRuntime demoThread 20 3 (by decide) (by decide)⟩

/-! ## C26: the class-init list in `popFrame` -/

/-- C26 as stated fails: when the method is a class initializer and the head of the class-init
list is a different class, `popFrame` does not complete the frame teardown; it stops at the
assertion that the head's class is the method's class.  Method 100 of `initMachine` is the
initializer of class 7 and the list is headed by class 8: `popFrame` ends in the failed
assertion with `sp` and `frame` as they were. -/
theorem popFrame_asserts_matching_head :
    initMachine.methodVmFlags 100 &&& ClassInitFlag ≠ 0 ∧
    initMachine.methodClass 100 = 7 ∧
    frameMethod initMachine { demoCalleeThread with classInitList := [8] }
      ({ demoCalleeThread with classInitList := [8] } : Thread).frame
      = .done 100 { demoCalleeThread with classInitList := [8] } ∧
    (popFrame initMachine { demoCalleeThread with classInitList := [8] }).isDone = false ∧
    (popFrame initMachine { demoCalleeThread with classInitList := [8] }).thread.sp = 12 ∧
    (popFrame initMachine { demoCalleeThread with classInitList := [8] }).thread.frame = 8 ∧
    (popFrame initMachine { demoCalleeThread with classInitList := [8] }).thread.classInitList
      = [8] := by
  refine ⟨by decide, rfl, rfl, ?_, ?_, ?_, ?_⟩ <;> decide

/-- C26 (amended): `popFrame` of a readable frame whose method is a class initializer.  If the
class-init list is empty, `popFrame` leaves it empty, runs no post-initialization hook and
completes the frame teardown.  If the head entry's class is the method's class, `popFrame`
pops the head entry, runs the post-initialization hook for the class (after the monitor
release, if any) and completes the frame teardown.  If the head entry is a different class,
`popFrame` stops at the assertion `classInitList->class_ == method->class_`: the list is
unchanged, no hook is run, and the frame is not torn down (`sp` and `frame` are
unchanged). -/
theorem popFrame_class_init (m : Machine) (t : Thread) (method b : Nat) (n : Int)
    (hclinit : m.methodVmFlags method &&& ClassInitFlag ≠ 0)
    (hmeth : frameMethod m t t.frame = .done method t)
    (hbase : frameBase m t t.frame = .done b t)
    (hnext : frameNext m t t.frame = .done n t)
    (hcaller : 0 ≤ n → ∃ method2 ip2,
      frameMethod m t n = .done method2 t ∧ frameIp m t n = .done ip2 t)
    (hrecv : m.methodFlags method &&& ACC_SYNCHRONIZED ≠ 0 →
      m.methodFlags method &&& ACC_STATIC = 0 → ∃ o, peekObject m t b = .done o t) :
    ∃ tr, popFrameRelease m t method = .done () { t with trace := tr } ∧
      (t.classInitList = [] →
        ∃ t', popFrame m t = .done () t' ∧ t'.classInitList = [] ∧ t'.trace = tr ∧
          t'.sp = b ∧ t'.frame = n) ∧
      (∀ rest, t.classInitList = m.methodClass method :: rest →
        ∃ t', popFrame m t = .done () t' ∧ t'.classInitList = rest ∧
          t'.trace = Event.postInitClass (m.methodClass method) :: tr ∧
          t'.sp = b ∧ t'.frame = n) ∧
      (∀ c rest, t.classInitList = c :: rest → c ≠ m.methodClass method →
        popFrame m t = .aborted { t with trace := tr }) := by
  obtain ⟨tr, hrel, -, -, -⟩ := popFrameRelease_done m t method b hbase hrecv
  have hph := popFrame_phases m t method tr hmeth hrel
  refine ⟨tr, hrel, ?_, ?_, ?_⟩
  · intro hl
    have hci : popFrameClassInit m { t with trace := tr } method
        = .done () { t with trace := tr } := by
      unfold popFrameClassInit
      rw [if_pos hclinit]
      simp only [hl]
    obtain ⟨t', r1, r2, r3, -, -, -, -, r8, -, r10⟩ :=
      popFrameRestore_of m t { t with trace := tr } b n rfl rfl hbase hnext hcaller
    rw [hph, hci]
    exact ⟨t', r1, by rw [r8]; exact hl, r10, r2, r3⟩
  · intro rest hl
    have hci : popFrameClassInit m { t with trace := tr } method
        = .done () (postInitClass { t with trace := tr, classInitList := rest }
          (m.methodClass method)) := by
      unfold popFrameClassInit
      rw [if_pos hclinit]
      simp only [hl]
      rw [if_pos trivial]
    obtain ⟨t', r1, r2, r3, -, -, -, -, r8, -, r10⟩ :=
      popFrameRestore_of m t (postInitClass { t with trace := tr, classInitList := rest }
        (m.methodClass method)) b n rfl rfl hbase hnext hcaller
    rw [hph, hci]
    exact ⟨t', r1, r8, r10, r2, r3⟩
  · intro c rest hl hne
    have hci : popFrameClassInit m { t with trace := tr } method
        = .aborted { t with trace := tr } := by
      unfold popFrameClassInit
      rw [if_pos hclinit]
      simp only [hl]
      rw [if_neg hne]
    rw [hph, hci]

/-- Witness for C26 (amended): the frame of the class initializer 100 (of class 7) in
`demoCalleeThread`, with the list headed by class 7, by class 8, and empty. -/
theorem popFrame_class_init_witness :
    (initMachine.methodVmFlags 100 &&& ClassInitFlag ≠ 0 ∧
      initMachine.methodClass 100 = 7) ∧
    ((popFrame initMachine { demoCalleeThread with classInitList := [7, 8] }).isDone = true ∧
      (popFrame initMachine
        { demoCalleeThread with classInitList := [7, 8] }).thread.classInitList = [8] ∧
      (popFrame initMachine { demoCalleeThread with classInitList := [7, 8] }).thread.trace
        = [Event.postInitClass 7] ∧
      (popFrame initMachine { demoCalleeThread with classInitList := [7, 8] }).thread.sp = 5 ∧
      (popFrame initMachine demoCalleeThread).isDone = true ∧
      (popFrame initMachine demoCalleeThread).thread.classInitList = [] ∧
      (popFrame initMachine demoCalleeThread).thread.trace = []) ∧
    (∃ tr, popFrameRelease initMachine { demoCalleeThread with classInitList := [7, 8] } 100
        = .done () { ({ demoCalleeThread with classInitList := [7, 8] } : Thread) with
          trace := tr } ∧
      (({ demoCalleeThread with classInitList := [7, 8] } : Thread).classInitList = [] →
        ∃ t', popFrame initMachine { demoCalleeThread with classInitList := [7, 8] }
            = .done () t' ∧ t'.classInitList = [] ∧ t'.trace = tr ∧
          t'.sp = 5 ∧ t'.frame = 1) ∧
      (∀ rest, ({ demoCalleeThread with classInitList := [7, 8] } : Thread).classInitList
          = initMachine.methodClass 100 :: rest →
        ∃ t', popFrame initMachine { demoCalleeThread with classInitList := [7, 8] }
            = .done () t' ∧ t'.classInitList = rest ∧
          t'.trace = Event.postInitClass (initMachine.methodClass 100) :: tr ∧
          t'.sp = 5 ∧ t'.frame = 1) ∧
      (∀ c rest, ({ demoCalleeThread with classInitList := [7, 8] } : Thread).classInitList
          = c :: rest → c ≠ initMachine.methodClass 100 →
        popFrame initMachine { demoCalleeThread with classInitList := [7, 8] }
          = .aborted { ({ demoCalleeThread with classInitList := [7, 8] } : Thread) with
            trace := tr })) :=
  ⟨by decide, by decide,
    popFrame_class_init initMachine { demoCalleeThread with classInitList := [7, 8] } 100 5 1
      (by decide) rfl rfl rfl (fun _ => ⟨101, 14, rfl, rfl⟩) (fun h => absurd rfl h)⟩

/-! ## C27: the monitor released by `popFrame` -/

/-- C27 fails in the code: `popFrame` releases the monitor of the object it finds in local 0
when the frame is popped, not of the receiver that `pushFrame` locked.  The synchronized
instance method 100 is called on the receiver 9 with the argument 10, and `pushFrame` acquires
the monitor of 9; the body executes `aload 1; astore 0`; `popFrame` then completes and
releases the monitor of 10, and the monitor of 9 is never released.  (For the synchronized
static method 105 both calls use the monitor of the class, 7.) -/
theorem popFrame_releases_current_local :
    syncMachine.methodFlags 100 &&& ACC_SYNCHRONIZED ≠ 0 ∧
    syncMachine.methodFlags 100 &&& ACC_STATIC = 0 ∧
    demoCallThread.tag 5 = ObjectTag ∧ demoCallThread.value 5 = 9 ∧
    (pushFrame syncMachine demoCallThread 100).isDone = true ∧
    (pushFrame syncMachine demoCallThread 100).thread.trace = [Event.acquire 9] ∧
    (fetch syncMachine (pushFrame syncMachine demoCallThread 100).thread).1 = op_aload ∧
    (aload syncMachine
      (fetch syncMachine (pushFrame syncMachine demoCallThread 100).thread).2).isLoop = true ∧
    (fetch syncMachine (aload syncMachine
      (fetch syncMachine (pushFrame syncMachine demoCallThread 100).thread).2).thread).1
      = op_astore ∧
    (astore syncMachine (fetch syncMachine (aload syncMachine
      (fetch syncMachine (pushFrame syncMachine demoCallThread 100).thread).2).thread).2).isLoop
      = true ∧
    (astore syncMachine (fetch syncMachine (aload syncMachine
      (fetch syncMachine (pushFrame syncMachine demoCallThread 100).thread).2).thread).2).thread.sp
      = (demoStoredThread 100).sp ∧
    (demoStoredThread 100).trace = [Event.acquire 9] ∧
    (demoStoredThread 100).value 5 = 10 ∧
    (popFrame syncMachine (demoStoredThread 100)).isDone = true ∧
    (popFrame syncMachine (demoStoredThread 100)).thread.trace
      = [Event.release 10, Event.acquire 9] ∧
    (popFrame syncMachine (demoStoredThread 105)).thread.trace
      = [Event.release 7, Event.acquire 7] := by
  decide

/-! ## Slots after `pushFrame` -/

/-- The stack after `pushFrame`, slot by slot: the new frame `F`, the cleared locals, and the
slots below the old `sp`, of which only the caller's saved-`ip` slot changes. -/
theorem pushFrame_slots (m : Machine) (t : Thread) (method pf locals F : Nat)
    (hp : m.methodParameterFootprint method = pf)
    (hloc : locals = if m.methodFlags method &&& ACC_NATIVE = 0
      then m.codeMaxLocals (m.methodCode method) else m.methodParameterFootprint method)
    (hF : F = t.sp - pf + locals)
    (hB : 0 < m.BytesPerWord)
    (hpf : pf ≤ t.sp) (hL : pf ≤ locals)
    (hfit : F + 4 ≤ StackSizeInWords m / 2)
    (hcur : 0 ≤ t.frame → t.frame + 4 ≤ ((t.sp - pf : Nat) : Int))
    (hrecv : m.methodFlags method &&& ACC_SYNCHRONIZED ≠ 0 →
      m.methodFlags method &&& ACC_STATIC = 0 → 1 ≤ pf ∧ t.tag (t.sp - pf) = ObjectTag) :
    ∃ t', pushFrame m t method = .done () t' ∧ t'.sp = F + 4 ∧ t'.frame = (F : Int) ∧
      t'.tag F = IntTag ∧ t'.value F = t.sp - pf ∧
      t'.tag (F + 1) = IntTag ∧ t'.value (F + 1) = u32 (toUnsigned t.frame) ∧
      t'.tag (F + 2) = ObjectTag ∧ t'.tag (F + 3) = IntTag ∧
      (∀ i, t.sp ≤ i → i < F → t'.tag i = IntTag) ∧
      (∀ i, i < t.sp → (0 ≤ t.frame → (i : Int) ≠ t.frame + 3) →
        t'.tag i = t.tag i ∧ t'.value i = t.value i) ∧
      (∀ f : Nat, t.frame = (f : Int) → t'.tag (f + 3) = IntTag) := by
  subst hF
  have hcap := capacity_le m
  have cb : t.sp - pf < StackSizeInWords m / 2 := by omega
  have csp : t.sp < 4294967296 := by omega
  have cF : t.sp ≤ t.sp - pf + locals := by omega
  have hother : m.methodFlags method &&& ACC_SYNCHRONIZED ≠ 0 →
      m.methodFlags method &&& ACC_STATIC = 0 →
      2 * (t.sp - pf) < 2 * t.sp ∧ (walkStack t).stack (2 * (t.sp - pf)) = ObjectTag := by
    intro h1 h2
    obtain ⟨r1, r2⟩ := hrecv h1 h2
    refine ⟨by omega, ?_⟩
    rw [savedIp_stack_other t _ (fun h0 => ⟨by omega, by have := hcur h0; omega,
      by have := hcur h0; omega⟩)]
    exact r2
  have hkeep : ∀ i, i < t.sp → (0 ≤ t.frame → (i : Int) ≠ t.frame + 3) →
      (2 * i < 2 * t.sp ∧ (walkStack t).stack (2 * i) = t.stack (2 * i)) ∧
      (2 * i + 1 < 2 * t.sp ∧ (walkStack t).stack (2 * i + 1) = t.stack (2 * i + 1)) := by
    intro i h1 h2
    refine ⟨⟨by omega, ?_⟩, ⟨by omega, ?_⟩⟩
    · exact savedIp_stack_other t _ (fun h0 => ⟨by have := hcur h0; omega,
        by have := h2 h0; omega, by omega⟩)
    · exact savedIp_stack_other t _ (fun h0 => ⟨by have := hcur h0; omega,
        by omega, by have := h2 h0; omega⟩)
  have hslot : ∀ f : Nat, t.frame = (f : Int) →
      2 * (f + 3) < 2 * t.sp ∧ (walkStack t).stack (2 * (f + 3)) = IntTag := by
    intro f hf
    have h4 := hcur (by omega)
    have hs := savedIp_stack_slot t f hf (by omega)
    exact ⟨by omega, hs.1⟩
  have hst := pushFrameLayout_stack m t method locals hloc hB (by rw [hp]; exact hpf)
    (by rw [hp]; exact hL) (by rw [hp]; exact hfit)
  have hfl := pushFrameLayout_fields m t method locals hloc (by rw [hp]; exact hpf)
    (by rw [hp]; exact hL) (by rw [hp]; exact hfit)
  simp only [hp] at hst hfl
  obtain ⟨w0, w1, w2, w3, w4, -, w6, -, wz, wb, -⟩ :=
    frame_words _ _ (t.sp - pf + locals) t.sp (t.sp - pf) method (u32 (toUnsigned t.frame)) cF hst
  have hrecv2 : m.methodFlags method &&& ACC_SYNCHRONIZED ≠ 0 →
      m.methodFlags method &&& ACC_STATIC = 0 →
      (pushFrameLayout m t method).stack (2 * (t.sp - pf)) = ObjectTag := by
    intro h1 h2
    rw [wb _ (hother h1 h2).1]
    exact (hother h1 h2).2
  obtain ⟨t', hd, s1, s2, s3, -⟩ :=
    pushFrame_done m t method (by rw [hp]; exact cb) (by rw [hp]; exact hpf) csp
      (by rw [hp]; exact hrecv2)
  rw [← s1] at w0 w1 w2 w3 w4 w6 wz wb
  clear hst
  refine ⟨t', hd, s2.trans hfl.1, s3.trans hfl.2.1, w0, w1, w2, w3, w4, w6, ?_, ?_, ?_⟩
  · intro i h1 h2
    show t'.stack (2 * i) = IntTag
    exact wz (2 * i) (Nat.mul_le_mul_left 2 h1)
      ((Nat.mul_lt_mul_left (by decide : 0 < 2)).mpr h2)
  · intro i h1 h2
    obtain ⟨⟨a1, a2⟩, ⟨a3, a4⟩⟩ := hkeep i h1 h2
    constructor
    · show t'.stack (2 * i) = t.stack (2 * i)
      rw [wb _ a1, a2]
    · show t'.stack (2 * i + 1) = t.stack (2 * i + 1)
      rw [wb _ a3, a4]
  · intro f hf
    obtain ⟨a1, a2⟩ := hslot f hf
    show t'.stack (2 * (f + 3)) = IntTag
    rw [wb _ a1, a2]

/-! ## C28: frame linkage -/

/-- The frame link of a well-formed frame, as `frameNext` reads it. -/
theorem frameNext_wellFormed (m : Machine) (t : Thread) (f : Nat)
    (hw : frameWellFormed t f) (hsp : t.sp ≤ StackSizeInWords m / 2) :
    frameNext m t (f : Int) = .done (toInt (t.value (f + FrameNextOffset))) t := by
  obtain ⟨-, h2, -, h4, -, -, h7⟩ := hw
  have hcap := capacity_le m
  have hu : toUnsigned (f : Int) = f := toUnsigned_natCast (by unfold FrameFootprint at h7; omega)
  have e1 : u32 (f + FrameNextOffset) = f + FrameNextOffset :=
    u32_eq_self (by unfold FrameFootprint at h7; unfold FrameNextOffset; omega)
  have hp := peekInt_done m t (f + FrameNextOffset)
    (by unfold FrameFootprint at h7; unfold FrameNextOffset; omega) h2
  unfold frameNext
  rw [hu, e1, hp]
  show Outcome.done (toInt (t.stack (2 * (f + FrameNextOffset) + 1) % 4294967296)) t = _
  rw [toInt_mod]
  rfl

/-- A chain of `n` frames starts at a frame not below `n - 1`. -/
theorem frameChain_length_le (t : Thread) :
    ∀ (n : Nat) (f : Int), frameChain t n f → (n : Int) ≤ f + 1 := by
  intro n
  induction n with
  | zero =>
    intro f h
    have hf : f = -1 := h
    omega
  | succ n ih =>
    intro f h
    obtain ⟨h0, hw, hc⟩ := h
    obtain ⟨-, -, -, -, h5, h6, -⟩ := hw
    have := ih _ hc
    unfold FrameBaseOffset at h5 h6
    omega

/-- A chain depends only on the slots up to the link slot of its first frame, and stays well
formed when `sp` grows. -/
theorem frameChain_congr (t t' : Thread) (hsp : t.sp ≤ t'.sp) :
    ∀ (n : Nat) (f : Int), frameChain t n f →
      (∀ i : Nat, (i : Int) ≤ f + 1 → t'.tag i = t.tag i ∧ t'.value i = t.value i) →
      frameChain t' n f := by
  intro n
  induction n with
  | zero =>
    intro f h _
    exact h
  | succ n ih =>
    intro f h hsame
    obtain ⟨h0, hw, hc⟩ := h
    obtain ⟨h1, h2, h3, h4, h5, h6, h7⟩ := hw
    obtain ⟨a1, a2⟩ := hsame (f.toNat + FrameBaseOffset) (by unfold FrameBaseOffset; omega)
    obtain ⟨b1, b2⟩ := hsame (f.toNat + FrameNextOffset) (by unfold FrameNextOffset; omega)
    refine ⟨h0, ⟨?_, ?_, ?_, ?_, ?_, ?_, ?_⟩, ?_⟩
    · rw [a1]; exact h1
    · rw [b1]; exact h2
    · rw [a2]; exact h3
    · rw [b2]; exact h4
    · rw [a2, b2]; exact h5
    · rw [a2]; exact h6
    · exact le_trans h7 hsp
    · rw [b2]
      refine ih _ hc ?_
      intro i hi
      refine hsame i ?_
      unfold FrameBaseOffset at h5 h6
      omega

/-- On a chain of `n` frames the loop of `MyStackWalker::count` adds `n` to its count. -/
theorem countLoop_chain (m : Machine) (t : Thread) (hsp : t.sp ≤ StackSizeInWords m / 2) :
    ∀ (n fuel : Nat) (f : Int) (c : Nat), frameChain t n f → n < fuel →
      c + n < 4294967296 → countLoop m t fuel f c = some (.done (c + n) t) := by
  intro n
  induction n with
  | zero =>
    intro fuel f c h hfuel _
    have hf : f = -1 := h
    obtain ⟨k, rfl⟩ : ∃ k, fuel = k + 1 := ⟨fuel - 1, by omega⟩
    rw [countLoop, if_neg (by omega)]
    rfl
  | succ n ih =>
    intro fuel f c h hfuel hc
    obtain ⟨h0, hw, hch⟩ := h
    obtain ⟨k, rfl⟩ : ∃ k, fuel = k + 1 := ⟨fuel - 1, by omega⟩
    have hn := frameNext_wellFormed m t f.toNat hw hsp
    rw [Int.toNat_of_nonneg h0] at hn
    rw [countLoop, if_pos h0, hn]
    dsimp only
    rw [u32_eq_self (by omega), ih k _ (c + 1) hch (by omega) (by omega)]
    congr 2
    omega

/-- C28: frame linkage is preserved by `pushFrame`.  If the chain of `n` frames from
`t->frame` is well formed (every frame `f` on it has `frameNext(f) < frameBase(f) ≤ f` and
`f + 4 ≤ sp`, and the chain ends at `-1`), the `pf` parameters lie in the operand area of the
current frame (`frame + 4 ≤ sp - pf`, unless there is no frame) and the callee has room for
them in its locals and on the stack, then `pushFrame` completes and the chain from the new
frame is well formed and has `n + 1` frames; and on either chain `MyStackWalker::count`,
with any iteration bound above the chain length, terminates with the chain length. -/
theorem pushFrame_extends_chain (m : Machine) (t : Thread) (method n : Nat)
    (hB : 0 < m.BytesPerWord)
    (hpf : m.methodParameterFootprint method ≤ t.sp)
    (hL : m.methodFlags method &&& ACC_NATIVE = 0 →
      m.methodParameterFootprint method ≤ m.codeMaxLocals (m.methodCode method))
    (hfit : t.sp - m.methodParameterFootprint method +
      (if m.methodFlags method &&& ACC_NATIVE = 0
        then m.codeMaxLocals (m.methodCode method) else m.methodParameterFootprint method) + 4
      ≤ StackSizeInWords m / 2)
    (hcur : 0 ≤ t.frame →
      t.frame + 4 ≤ ((t.sp - m.methodParameterFootprint method : Nat) : Int))
    (hrecv : m.methodFlags method &&& ACC_SYNCHRONIZED ≠ 0 →
      m.methodFlags method &&& ACC_STATIC = 0 →
      1 ≤ m.methodParameterFootprint method ∧
      t.tag (t.sp - m.methodParameterFootprint method) = ObjectTag)
    (hchain : frameChain t n t.frame) :
    ∃ t', pushFrame m t method = .done () t' ∧
      frameChain t' (n + 1) t'.frame ∧
      toInt (t'.value (t'.frame.toNat + FrameNextOffset)) = t.frame ∧
      (∀ fuel : Nat, n < fuel → stackWalkerCount m t t.frame fuel = some (.done n t)) ∧
      (∀ fuel : Nat, n + 1 < fuel →
        stackWalkerCount m t' t'.frame fuel = some (.done (n + 1) t')) := by
  have hL2 : m.methodParameterFootprint method ≤
      (if m.methodFlags method &&& ACC_NATIVE = 0
        then m.codeMaxLocals (m.methodCode method) else m.methodParameterFootprint method) := by
    split_ifs with hn
    · exact hL hn
    · exact le_refl _
  clear hL
  obtain ⟨locals, hloc⟩ : ∃ locals, locals = (if m.methodFlags method &&& ACC_NATIVE = 0
      then m.codeMaxLocals (m.methodCode method) else m.methodParameterFootprint method) :=
    ⟨_, rfl⟩
  rw [← hloc] at hfit hL2
  generalize hp : m.methodParameterFootprint method = pf at hpf hL2 hfit hcur hrecv
  have hcap := capacity_le m
  have hlen := frameChain_length_le t n t.frame hchain
  have hfr : -1 ≤ t.frame := by
    cases n with
    | zero =>
      have hf : t.frame = -1 := hchain
      omega
    | succ k =>
      have := hchain.1
      omega
  have hfr2 : t.frame < 2147483648 := by
    by_cases h0 : 0 ≤ t.frame
    · have := hcur h0
      omega
    · omega
  have hspN : t.sp ≤ StackSizeInWords m / 2 := by omega
  have hn32 : n < 4294967296 := by
    by_cases h0 : 0 ≤ t.frame
    · have := hcur h0
      omega
    · omega
  have hnext : toInt (u32 (toUnsigned t.frame)) = t.frame := by
    unfold toInt toUnsigned u32 U32
    split_ifs <;> omega
  have hnext2 : u32 (toUnsigned t.frame) < 4294967296 := by
    unfold u32 U32
    omega
  obtain ⟨t', hd, e1, e2, w0, w1, w2, w3, -, -, -, wkeep, -⟩ :=
    pushFrame_slots m t method pf locals (t.sp - pf + locals) hp hloc rfl hB hpf hL2 hfit hcur
      hrecv
  have hlink : toInt (t'.value (t'.frame.toNat + FrameNextOffset)) = t.frame := by
    rw [e2, Int.toNat_ofNat, FrameNextOffset, w3]
    exact hnext
  have hold : frameChain t' n t.frame := by
    cases n with
    | zero => exact hchain
    | succ k =>
      have h0 : 0 ≤ t.frame := hchain.1
      have h4 := hcur h0
      refine frameChain_congr t t' (by omega) (k + 1) t.frame hchain ?_
      intro i hi
      exact wkeep i (by omega) (fun _ => by omega)
  have hnew : frameChain t' (n + 1) t'.frame := by
    refine ⟨by omega, ⟨?_, ?_, ?_, ?_, ?_, ?_, ?_⟩, ?_⟩
    · rw [e2, Int.toNat_ofNat]; exact w0
    · rw [e2, Int.toNat_ofNat]; exact w2
    · rw [e2, Int.toNat_ofNat, FrameBaseOffset, Nat.add_zero, w1]; omega
    · rw [e2, Int.toNat_ofNat, FrameNextOffset, w3]; exact hnext2
    · rw [hlink, e2, Int.toNat_ofNat, FrameBaseOffset, Nat.add_zero, w1]
      by_cases h0 : 0 ≤ t.frame
      · have := hcur h0
        omega
      · omega
    · rw [e2, Int.toNat_ofNat, FrameBaseOffset, Nat.add_zero, w1]; omega
    · rw [e2, Int.toNat_ofNat, e1]; rfl
    · rw [hlink]; exact hold
  refine ⟨t', hd, hnew, hlink, ?_, ?_⟩
  · intro fuel hfuel
    have := countLoop_chain m t hspN n fuel t.frame 0 hchain hfuel (by omega)
    rw [Nat.zero_add] at this
    exact this
  · intro fuel hfuel
    have := countLoop_chain m t' (by omega) (n + 1) fuel t'.frame 0 hnew hfuel (by omega)
    rw [Nat.zero_add] at this
    exact this

/-- Witness for C28: `demoThread` runs in the single frame at slot 1; calling method 100 puts
a second frame at slot 8 on the chain. -/
theorem pushFrame_extends_chain_witness :
    (0 < demoMachine.BytesPerWord ∧
      demoMachine.methodParameterFootprint 100 ≤ demoThread.sp ∧
      (demoMachine.methodFlags 100 &&& ACC_NATIVE = 0 →
        demoMachine.methodParameterFootprint 100
          ≤ demoMachine.codeMaxLocals (demoMachine.methodCode 100)) ∧
      demoThread.sp - demoMachine.methodParameterFootprint 100 +
        (if demoMachine.methodFlags 100 &&& ACC_NATIVE = 0
          then demoMachine.codeMaxLocals (demoMachine.methodCode 100)
          else demoMachine.methodParameterFootprint 100) + 4
        ≤ StackSizeInWords demoMachine / 2 ∧
      (0 ≤ demoThread.frame → demoThread.frame + 4
        ≤ ((demoThread.sp - demoMachine.methodParameterFootprint 100 : Nat) : Int)) ∧
      frameChain demoThread 1 demoThread.frame) ∧
    ((pushFrame demoMachine demoThread 100).thread.frame = 8 ∧
      frameChain (pushFrame demoMachine demoThread 100).thread 2 8 ∧
      ¬ frameChain (pushFrame demoMachine demoThread 100).thread 1 8 ∧
      (∃ t', stackWalkerCount demoMachine (pushFrame demoMachine demoThread 100).thread 8 3
        = some (.done 2 t'))) ∧
    (∃ t', pushFrame demoMachine demoThread 100 = .done () t' ∧
      frameChain t' (1 + 1) t'.frame ∧
      toInt (t'.value (t'.frame.toNat + FrameNextOffset)) = demoThread.frame ∧
      (∀ fuel : Nat, 1 < fuel →
        stackWalkerCount demoMachine demoThread demoThread.frame fuel
          = some (.done 1 demoThread)) ∧
      (∀ fuel : Nat, 1 + 1 < fuel →
        stackWalkerCount demoMachine t' t'.frame fuel = some (.done (1 + 1) t'))) :=
  ⟨by decide, ⟨by decide, by decide, by decide, ⟨_, rfl⟩⟩,
    pushFrame_extends_chain demoMachine demoThread 100 1 (by decide) (by decide) (by decide)
      (by decide) (by decide) (fun h => absurd rfl h) (by decide)⟩

/-! ## C29: valid tags below `sp` -/

/-- Writing a valid tag into the tag word of slot `d` keeps the tags of the slots in `A`
and of slot `d` valid. -/
theorem valid_setTag (s : Nat → Nat) (A A' : Nat → Prop) (j d v : Nat) (hj : j = 2 * d)
    (h : ∀ i, A i → s (2 * i) = IntTag ∨ s (2 * i) = ObjectTag)
    (hv : v = IntTag ∨ v = ObjectTag) (hk : ∀ i, A' i → A i ∨ i = d) :
    ∀ i, A' i → setWord s j v (2 * i) = IntTag ∨ setWord s j v (2 * i) = ObjectTag := by
  intro i hi
  by_cases hid : i = d
  · rw [hj, hid, setWord_same]
    exact hv
  · rw [setWord_other _ _ (by omega)]
    rcases hk i hi with h1 | h1
    · exact h i h1
    · exact absurd h1 hid

/-- Writing a value word changes no tag. -/
theorem valid_setValue (s : Nat → Nat) (A : Nat → Prop) (j d v : Nat) (hj : j = 2 * d + 1)
    (h : ∀ i, A i → s (2 * i) = IntTag ∨ s (2 * i) = ObjectTag) :
    ∀ i, A i → setWord s j v (2 * i) = IntTag ∨ setWord s j v (2 * i) = ObjectTag := by
  intro i hi
  rw [setWord_other _ _ (by omega)]
  exact h i hi

/-- Copying `cnt` slots from slot `c` on, all in `A`, to slot `d` on keeps the tags of the
slots in `A` and of the slots written valid. -/
theorem valid_copyWords (s : Nat → Nat) (A A' : Nat → Prop) (dst src n d c cnt : Nat)
    (hdst : dst = 2 * d) (hsrc : src = 2 * c) (hn : n = 2 * cnt)
    (h : ∀ i, A i → s (2 * i) = IntTag ∨ s (2 * i) = ObjectTag)
    (hc : ∀ i, c ≤ i → i < c + cnt → A i)
    (hk : ∀ i, A' i → A i ∨ (d ≤ i ∧ i < d + cnt)) :
    ∀ i, A' i → copyWords s dst src n (2 * i) = IntTag ∨
      copyWords s dst src n (2 * i) = ObjectTag := by
  intro i hi
  unfold copyWords
  by_cases hin : d ≤ i ∧ i < d + cnt
  · rw [if_pos (by omega)]
    have e : src + (2 * i - dst) = 2 * (c + (i - d)) := by omega
    rw [e]
    exact h _ (hc _ (by omega) (by omega))
  · rw [if_neg (by omega)]
    rcases hk i hi with h1 | h1
    · exact h i h1
    · exact absurd h1 hin

/-- C29: every slot in `[0, sp)` carries a valid tag (`IntTag` or `ObjectTag`).  This holds
in a thread with `sp = 0`, and if it holds in `t` it holds after every stack-buffer and frame
operation applied to `t` within its preconditions: `pushObject`, `pushInt` and `pushLong`
(which complete when there is room), the typed pops (on operands of their type), `pokeObject`,
`pokeInt` and `pokeLong` on indices below `sp`, `store` (with an operand to store), `dup`,
`dup_x1`, `dup_x2`, `dup2`, `dup2_x1`, `dup2_x2` and `swap` (with the operands they
reshuffle), `pushFrame` (parameters in the operand area, `maxLocals ≥ pf`, room for the
frame) and `popFrame` (of a readable frame whose base is not above `sp`). -/
theorem valid_tags_preserved (m : Machine) (t : Thread) (hv : validTags t)
    (hsp : t.sp ≤ StackSizeInWords m / 2) :
    (∀ s : Thread, s.sp = 0 → validTags s) ∧
    (∀ o, t.sp + 1 < StackSizeInWords m / 2 →
      ∃ t', pushObject m t o = .done () t' ∧ validTags t') ∧
    (∀ v, t.sp + 1 < StackSizeInWords m / 2 →
      ∃ t', pushInt m t v = .done () t' ∧ validTags t') ∧
    (∀ v, t.sp + 2 < StackSizeInWords m / 2 →
      ∃ t', pushLong m t v = .done () t' ∧ validTags t') ∧
    (∀ n, t.sp = n + 1 → t.tag n = ObjectTag →
      ∃ v t', popObject t = .done v t' ∧ validTags t') ∧
    (∀ n, t.sp = n + 1 → t.tag n = IntTag →
      ∃ v t', popInt t = .done v t' ∧ validTags t') ∧
    (∀ n, t.sp = n + 2 → t.tag n = IntTag → t.tag (n + 1) = IntTag →
      ∃ v t', popLong t = .done v t' ∧ validTags t') ∧
    (∀ i v, i < t.sp → validTags (pokeObject t i v)) ∧
    (∀ i v, i < t.sp → validTags (pokeInt t i v)) ∧
    (∀ i v, i + 1 < t.sp → validTags (pokeLong t i v)) ∧
    (∀ k b, 1 ≤ t.sp → frameBase m t t.frame = .done b t →
      ∃ t', store m t k = .done () t' ∧ validTags t') ∧
    (1 ≤ t.sp → validTags (dup t).thread) ∧
    (2 ≤ t.sp → validTags (dup_x1 t).thread) ∧
    (3 ≤ t.sp → validTags (dup_x2 t).thread) ∧
    (2 ≤ t.sp → validTags (dup2 t).thread) ∧
    (3 ≤ t.sp → validTags (dup2_x1 t).thread) ∧
    (4 ≤ t.sp → validTags (dup2_x2 t).thread) ∧
    (2 ≤ t.sp → validTags (swap t).thread) ∧
    (∀ method, 0 < m.BytesPerWord →
      m.methodParameterFootprint method ≤ t.sp →
      (m.methodFlags method &&& ACC_NATIVE = 0 →
        m.methodParameterFootprint method ≤ m.codeMaxLocals (m.methodCode method)) →
      t.sp - m.methodParameterFootprint method +
        (if m.methodFlags method &&& ACC_NATIVE = 0
          then m.codeMaxLocals (m.methodCode method) else m.methodParameterFootprint method)
        + 4 ≤ StackSizeInWords m / 2 →
      (0 ≤ t.frame →
        t.frame + 4 ≤ ((t.sp - m.methodParameterFootprint method : Nat) : Int)) →
      (m.methodFlags method &&& ACC_SYNCHRONIZED ≠ 0 →
        m.methodFlags method &&& ACC_STATIC = 0 →
        1 ≤ m.methodParameterFootprint method ∧
        t.tag (t.sp - m.methodParameterFootprint method) = ObjectTag) →
      ∃ t', pushFrame m t method = .done () t' ∧ validTags t') ∧
    (∀ method b n, frameMethod m t t.frame = .done method t →
      frameBase m t t.frame = .done b t →
      frameNext m t t.frame = .done n t →
      (0 ≤ n → ∃ method2 ip2,
        frameMethod m t n = .done method2 t ∧ frameIp m t n = .done ip2 t) →
      (m.methodFlags method &&& ACC_SYNCHRONIZED ≠ 0 →
        m.methodFlags method &&& ACC_STATIC = 0 → ∃ o, peekObject m t b = .done o t) →
      (m.methodVmFlags method &&& ClassInitFlag ≠ 0 →
        ∀ c rest, t.classInitList = c :: rest → c = m.methodClass method) →
      b ≤ t.sp →
      ∃ t', popFrame m t = .done () t' ∧ validTags t') := by
  have hcap := capacity_le m
  have hw : ∀ i, (fun j => j < t.sp) i →
      t.stack (2 * i) = IntTag ∨ t.stack (2 * i) = ObjectTag := hv
  have a0 : u32 (t.sp * 2) = 2 * t.sp := by unfold u32 U32; omega
  have a1 : 1 ≤ t.sp → u32 (u32 (t.sp + U32 - 1) * 2) = 2 * (t.sp - 1) := by
    intro h
    unfold u32 U32
    omega
  have a2 : 2 ≤ t.sp → u32 (u32 (t.sp + U32 - 2) * 2) = 2 * (t.sp - 2) := by
    intro h
    unfold u32 U32
    omega
  have a3 : 3 ≤ t.sp → u32 (u32 (t.sp + U32 - 3) * 2) = 2 * (t.sp - 3) := by
    intro h
    unfold u32 U32
    omega
  have a4 : 4 ≤ t.sp → u32 (u32 (t.sp + U32 - 4) * 2) = 2 * (t.sp - 4) := by
    intro h
    unfold u32 U32
    omega
  have ap : u32 (u32 (t.sp + 1) * 2) = 2 * (t.sp + 1) := by
    unfold u32 U32
    omega
  have s1 : u32 (t.sp + 1) = t.sp + 1 := u32_eq_self (by omega)
  have s2 : u32 (t.sp + 2) = t.sp + 2 := u32_eq_self (by omega)
  refine ⟨?_, ?_, ?_, ?_, ?_, ?_, ?_, ?_, ?_, ?_, ?_, ?_, ?_, ?_, ?_, ?_, ?_, ?_, ?_, ?_⟩
  · intro s hs i hi
    rw [hs] at hi
    omega
  · intro o hroom
    refine ⟨_, pushObject_done m t o hroom, ?_⟩
    exact valid_setValue _ (fun j => j < t.sp + 1) _ t.sp o rfl
      (valid_setTag t.stack (fun j => j < t.sp) _ _ t.sp ObjectTag rfl hw (Or.inr rfl)
        (fun j hj => by omega))
  · intro v hroom
    refine ⟨_, pushInt_done m t v hroom, ?_⟩
    exact valid_setValue _ (fun j => j < t.sp + 1) _ t.sp _ rfl
      (valid_setTag t.stack (fun j => j < t.sp) _ _ t.sp IntTag rfl hw (Or.inl rfl)
        (fun j hj => by omega))
  · intro v hroom
    refine ⟨_, pushLong_done m t v hroom, ?_⟩
    exact valid_setValue _ (fun j => j < t.sp + 2) _ (t.sp + 1) _ (by omega)
      (valid_setTag _ (fun j => j < t.sp + 1) _ _ (t.sp + 1) IntTag (by omega)
        (valid_setValue _ (fun j => j < t.sp + 1) _ t.sp _ rfl
          (valid_setTag t.stack (fun j => j < t.sp) _ _ t.sp IntTag rfl hw (Or.inl rfl)
            (fun j hj => by omega)))
        (Or.inl rfl) (fun j hj => by omega))
  · intro n hn htag
    refine ⟨_, _, popObject_done t n (by omega) hn htag, ?_⟩
    intro i hi
    exact hv i (by have : i < n := hi; omega)
  · intro n hn htag
    refine ⟨_, _, popInt_done t n (by omega) hn htag, ?_⟩
    intro i hi
    exact hv i (by have : i < n := hi; omega)
  · intro n hn h0 h1
    refine ⟨_, _, popLong_done t n (by omega) hn h0
      (by rw [show 2 * n + 2 = 2 * (n + 1) by omega]; exact h1), ?_⟩
    intro i hi
    exact hv i (by have : i < n := hi; omega)
  · intro i v hi
    have e1 : u32 (i * 2) = 2 * i := by unfold u32 U32; omega
    have e2 : u32 (u32 (i * 2) + 1) = 2 * i + 1 := by unfold u32 U32; omega
    exact valid_setValue _ (fun j => j < t.sp) _ i v e2
      (valid_setTag t.stack (fun j => j < t.sp) _ _ i ObjectTag e1 hw (Or.inr rfl)
        (fun j hj => Or.inl hj))
  · intro i v hi
    have e1 : u32 (i * 2) = 2 * i := by unfold u32 U32; omega
    have e2 : u32 (u32 (i * 2) + 1) = 2 * i + 1 := by unfold u32 U32; omega
    exact valid_setValue _ (fun j => j < t.sp) _ i _ e2
      (valid_setTag t.stack (fun j => j < t.sp) _ _ i IntTag e1 hw (Or.inl rfl)
        (fun j hj => Or.inl hj))
  · intro i v hi
    have e1 : u32 (i * 2) = 2 * i := by unfold u32 U32; omega
    have e2 : u32 (u32 (i * 2) + 1) = 2 * i + 1 := by unfold u32 U32; omega
    have e3 : u32 (u32 (i + 1) * 2) = 2 * (i + 1) := by unfold u32 U32; omega
    have e4 : u32 (u32 (u32 (i + 1) * 2) + 1) = 2 * (i + 1) + 1 := by unfold u32 U32; omega
    exact valid_setValue _ (fun j => j < t.sp) _ (i + 1) _ e4
      (valid_setTag _ (fun j => j < t.sp) _ _ (i + 1) IntTag e3
        (valid_setValue _ (fun j => j < t.sp) _ i _ e2
          (valid_setTag t.stack (fun j => j < t.sp) _ _ i IntTag e1 hw (Or.inl rfl)
            (fun j hj => Or.inl hj)))
        (Or.inl rfl) (fun j hj => Or.inl hj))
  · intro k b h1 hbase
    have e1 : u32 (u32 (b + k) * 2) = 2 * (u32 (b + k) % 2147483648) := by
      unfold u32 U32
      omega
    have e2 : u32 (t.sp + U32 - 1) = t.sp - 1 := by unfold u32 U32; omega
    have e3 : u32 ((t.sp - 1) * 2) = 2 * (t.sp - 1) := by unfold u32 U32; omega
    have hst : store m t k = .done () { t with
        sp := t.sp - 1
        stack := setWord (setWord t.stack (u32 (u32 (b + k) * 2)) (t.stack (2 * (t.sp - 1))))
          (u32 (u32 (b + k) * 2) + 1) (t.stack (2 * (t.sp - 1) + 1)) } := by
      unfold store
      rw [hbase]
      dsimp only
      rw [e2, e3]
    refine ⟨_, hst, ?_⟩
    exact valid_setValue _ (fun j => j < t.sp - 1) _ (u32 (b + k) % 2147483648) _ (by rw [e1])
      (valid_setTag t.stack (fun j => j < t.sp) _ _ (u32 (b + k) % 2147483648) _ e1 hw
        (hv (t.sp - 1) (by omega)) (fun j hj => Or.inl (by omega)))
  · intro h1 i hi
    have hi' : i < t.sp + 1 := by rw [← s1]; exact hi
    exact valid_copyWords t.stack (fun j => j < t.sp) (fun j => j < t.sp + 1)
      (u32 (t.sp * 2)) (u32 (u32 (t.sp + U32 - 1) * 2)) 2 t.sp (t.sp - 1) 1 a0 (a1 h1) rfl hw
      (fun j _ _ => by omega) (fun j hj => by omega) i hi'
  · intro h2
    unfold validTags dup_x1
    dsimp only [Step.thread, Thread.tag]
    rw [s1]
    have v1 := valid_copyWords t.stack (fun j => j < t.sp) (fun j => j < t.sp + 1)
      (u32 (t.sp * 2)) (u32 (u32 (t.sp + U32 - 1) * 2)) 2 t.sp (t.sp - 1) 1 a0
      (a1 (by omega)) rfl hw (fun j _ _ => by omega) (fun j hj => by omega)
    have v2 := valid_copyWords _ (fun j => j < t.sp + 1) (fun j => j < t.sp + 1)
      (u32 (u32 (t.sp + U32 - 1) * 2)) (u32 (u32 (t.sp + U32 - 2) * 2)) 2
      (t.sp - 1) (t.sp - 2) 1 (a1 (by omega)) (a2 h2) rfl v1
      (fun j _ _ => by omega) (fun j hj => Or.inl hj)
    exact valid_copyWords _ (fun j => j < t.sp + 1) (fun j => j < t.sp + 1)
      (u32 (u32 (t.sp + U32 - 2) * 2)) (u32 (t.sp * 2)) 2 (t.sp - 2) t.sp 1
      (a2 h2) a0 rfl v2 (fun j _ _ => by omega) (fun j hj => Or.inl hj)
  · intro h3
    unfold validTags dup_x2
    dsimp only [Step.thread, Thread.tag]
    rw [s1]
    have v1 := valid_copyWords t.stack (fun j => j < t.sp) (fun j => j < t.sp + 1)
      (u32 (t.sp * 2)) (u32 (u32 (t.sp + U32 - 1) * 2)) 2 t.sp (t.sp - 1) 1 a0
      (a1 (by omega)) rfl hw (fun j _ _ => by omega) (fun j hj => by omega)
    have v2 := valid_copyWords _ (fun j => j < t.sp + 1) (fun j => j < t.sp + 1)
      (u32 (u32 (t.sp + U32 - 1) * 2)) (u32 (u32 (t.sp + U32 - 2) * 2)) 2
      (t.sp - 1) (t.sp - 2) 1 (a1 (by omega)) (a2 (by omega)) rfl v1
      (fun j _ _ => by omega) (fun j hj => Or.inl hj)
    have v3 := valid_copyWords _ (fun j => j < t.sp + 1) (fun j => j < t.sp + 1)
      (u32 (u32 (t.sp + U32 - 2) * 2)) (u32 (u32 (t.sp + U32 - 3) * 2)) 2
      (t.sp - 2) (t.sp - 3) 1 (a2 (by omega)) (a3 h3) rfl v2
      (fun j _ _ => by omega) (fun j hj => Or.inl hj)
    exact valid_copyWords _ (fun j => j < t.sp + 1) (fun j => j < t.sp + 1)
      (u32 (u32 (t.sp + U32 - 3) * 2)) (u32 (t.sp * 2)) 2 (t.sp - 3) t.sp 1
      (a3 h3) a0 rfl v3 (fun j _ _ => by omega) (fun j hj => Or.inl hj)
  · intro h2 i hi
    have hi' : i < t.sp + 2 := by rw [← s2]; exact hi
    exact valid_copyWords t.stack (fun j => j < t.sp) (fun j => j < t.sp + 2)
      (u32 (t.sp * 2)) (u32 (u32 (t.sp + U32 - 2) * 2)) 4 t.sp (t.sp - 2) 2 a0 (a2 h2) rfl hw
      (fun j _ _ => by omega) (fun j hj => by omega) i hi'
  · intro h3
    unfold validTags dup2_x1
    dsimp only [Step.thread, Thread.tag]
    rw [s2]
    have v1 := valid_copyWords t.stack (fun j => j < t.sp)
      (fun j => j < t.sp ∨ j = t.sp + 1)
      (u32 (u32 (t.sp + 1) * 2)) (u32 (u32 (t.sp + U32 - 1) * 2)) 2 (t.sp + 1) (t.sp - 1) 1 ap
      (a1 (by omega)) rfl hw (fun j _ _ => by omega) (fun j hj => by omega)
    have v2 := valid_copyWords _ (fun j => j < t.sp ∨ j = t.sp + 1) (fun j => j < t.sp + 2)
      (u32 (t.sp * 2)) (u32 (u32 (t.sp + U32 - 2) * 2)) 2 t.sp (t.sp - 2) 1 a0
      (a2 (by omega)) rfl v1 (fun j _ _ => by omega) (fun j hj => by omega)
    have v3 := valid_copyWords _ (fun j => j < t.sp + 2) (fun j => j < t.sp + 2)
      (u32 (u32 (t.sp + U32 - 1) * 2)) (u32 (u32 (t.sp + U32 - 3) * 2)) 2
      (t.sp - 1) (t.sp - 3) 1 (a1 (by omega)) (a3 h3) rfl v2
      (fun j _ _ => by omega) (fun j hj => Or.inl hj)
    exact valid_copyWords _ (fun j => j < t.sp + 2) (fun j => j < t.sp + 2)
      (u32 (u32 (t.sp + U32 - 3) * 2)) (u32 (t.sp * 2)) 4 (t.sp - 3) t.sp 2
      (a3 h3) a0 rfl v3 (fun j _ _ => by omega) (fun j hj => Or.inl hj)
  · intro h4
    unfold validTags dup2_x2
    dsimp only [Step.thread, Thread.tag]
    rw [s2]
    have v1 := valid_copyWords t.stack (fun j => j < t.sp)
      (fun j => j < t.sp ∨ j = t.sp + 1)
      (u32 (u32 (t.sp + 1) * 2)) (u32 (u32 (t.sp + U32 - 1) * 2)) 2 (t.sp + 1) (t.sp - 1) 1 ap
      (a1 (by omega)) rfl hw (fun j _ _ => by omega) (fun j hj => by omega)
    have v2 := valid_copyWords _ (fun j => j < t.sp ∨ j = t.sp + 1) (fun j => j < t.sp + 2)
      (u32 (t.sp * 2)) (u32 (u32 (t.sp + U32 - 2) * 2)) 2 t.sp (t.sp - 2) 1 a0
      (a2 (by omega)) rfl v1 (fun j _ _ => by omega) (fun j hj => by omega)
    have v3 := valid_copyWords _ (fun j => j < t.sp + 2) (fun j => j < t.sp + 2)
      (u32 (u32 (t.sp + U32 - 1) * 2)) (u32 (u32 (t.sp + U32 - 3) * 2)) 2
      (t.sp - 1) (t.sp - 3) 1 (a1 (by omega)) (a3 (by omega)) rfl v2
      (fun j _ _ => by omega) (fun j hj => Or.inl hj)
    have v4 := valid_copyWords _ (fun j => j < t.sp + 2) (fun j => j < t.sp + 2)
      (u32 (u32 (t.sp + U32 - 2) * 2)) (u32 (u32 (t.sp + U32 - 4) * 2)) 2
      (t.sp - 2) (t.sp - 4) 1 (a2 (by omega)) (a4 h4) rfl v3
      (fun j _ _ => by omega) (fun j hj => Or.inl hj)
    exact valid_copyWords _ (fun j => j < t.sp + 2) (fun j => j < t.sp + 2)
      (u32 (u32 (t.sp + U32 - 4) * 2)) (u32 (t.sp * 2)) 4 (t.sp - 4) t.sp 2
      (a4 h4) a0 rfl v4 (fun j _ _ => by omega) (fun j hj => Or.inl hj)
  · intro h2 i hi
    have hi' : i < t.sp := hi
    have v1 := valid_copyWords t.stack (fun j => j < t.sp) (fun j => j < t.sp)
      (u32 (u32 (t.sp + U32 - 1) * 2)) (u32 (u32 (t.sp + U32 - 2) * 2)) 2
      (t.sp - 1) (t.sp - 2) 1 (a1 (by omega)) (a2 h2) rfl hw
      (fun j _ _ => by omega) (fun j hj => Or.inl hj)
    have htop : t.stack (u32 (u32 (t.sp + U32 - 1) * 2)) = IntTag ∨
        t.stack (u32 (u32 (t.sp + U32 - 1) * 2)) = ObjectTag := by
      rw [a1 (by omega)]
      exact hv (t.sp - 1) (by omega)
    exact valid_setValue _ (fun j => j < t.sp) _ (t.sp - 2) _ (by rw [a2 h2])
      (valid_setTag _ (fun j => j < t.sp) _ (u32 (u32 (t.sp + U32 - 2) * 2)) (t.sp - 2) _
        (a2 h2) v1 htop (fun j hj => Or.inl hj)) i hi'
  · intro method hB hpf hL hfit hcur hrecv
    have hL2 : m.methodParameterFootprint method ≤
        (if m.methodFlags method &&& ACC_NATIVE = 0
          then m.codeMaxLocals (m.methodCode method)
          else m.methodParameterFootprint method) := by
      split_ifs with hn
      · exact hL hn
      · exact le_refl _
    obtain ⟨t', hd, e1, -, w0, -, w2, -, w4, w5, wclear, wkeep, wsaved⟩ :=
      pushFrame_slots m t method (m.methodParameterFootprint method) _ _ rfl rfl rfl hB hpf hL2
        hfit hcur hrecv
    refine ⟨t', hd, ?_⟩
    intro i hi
    rw [e1] at hi
    generalize hF : t.sp - m.methodParameterFootprint method +
      (if m.methodFlags method &&& ACC_NATIVE = 0
        then m.codeMaxLocals (m.methodCode method)
        else m.methodParameterFootprint method) = F at hi w0 w2 w4 w5 wclear
    by_cases h1 : i < t.sp
    · by_cases h2 : 0 ≤ t.frame ∧ (i : Int) = t.frame + 3
      · obtain ⟨f, hf⟩ : ∃ f : Nat, t.frame = (f : Int) := ⟨t.frame.toNat, by omega⟩
        have hi3 : i = f + 3 := by omega
        rw [hi3]
        exact Or.inl (wsaved f hf)
      · rw [(wkeep i h1 (fun h0 h3 => h2 ⟨h0, h3⟩)).1]
        exact hv i h1
    · by_cases h2 : i < F
      · exact Or.inl (wclear i (by omega) h2)
      · have h3 : i = F ∨ i = F + 1 ∨ i = F + 2 ∨ i = F + 3 := by omega
        rcases h3 with h | h | h | h <;> rw [h]
        · exact Or.inl w0
        · exact Or.inl w2
        · exact Or.inr w4
        · exact Or.inl w5
  · intro method b n hmeth hbase hnext hcaller hrecv hinit hb
    obtain ⟨t', p1, p2, -, p4, -⟩ :=
      popFrame_done m t method b n hmeth hbase hnext hcaller hrecv hinit
    refine ⟨t', p1, ?_⟩
    intro i hi
    rw [p2] at hi
    show t'.stack (2 * i) = IntTag ∨ t'.stack (2 * i) = ObjectTag
    rw [p4]
    exact hv i (by omega)

/-- Witness for C29: the operations applied to `demoCalleeThread`, whose twelve slots carry
valid tags. -/
theorem valid_tags_preserved_witness :
    (validTags demoCalleeThread ∧ demoCalleeThread.sp ≤ StackSizeInWords demoMachine / 2) ∧
    (validTags (dup demoCalleeThread).thread ∧ validTags (dup2_x2 demoCalleeThread).thread ∧
      validTags (swap demoCalleeThread).thread ∧
      validTags (pushFrame demoMachine demoThread 100).thread ∧
      validTags (popFrame demoMachine demoCalleeThread).thread ∧
      validTags (pushLong demoMachine demoCalleeThread 4294967298).thread ∧
      ¬ validTags { demoCalleeThread with stack := fun _ => 2 }) ∧
    ((∀ s : Thread, s.sp = 0 → validTags s) ∧
    (∀ o, demoCalleeThread.sp + 1 < StackSizeInWords demoMachine / 2 →
      ∃ t', pushObject demoMachine demoCalleeThread o = .done () t' ∧ validTags t') ∧
    (∀ v, demoCalleeThread.sp + 1 < StackSizeInWords demoMachine / 2 →
      ∃ t', pushInt demoMachine demoCalleeThread v = .done () t' ∧ validTags t') ∧
    (∀ v, demoCalleeThread.sp + 2 < StackSizeInWords demoMachine / 2 →
      ∃ t', pushLong demoMachine demoCalleeThread v = .done () t' ∧ validTags t') ∧
    (∀ n, demoCalleeThread.sp = n + 1 → demoCalleeThread.tag n = ObjectTag →
      ∃ v t', popObject demoCalleeThread = .done v t' ∧ validTags t') ∧
    (∀ n, demoCalleeThread.sp = n + 1 → demoCalleeThread.tag n = IntTag →
      ∃ v t', popInt demoCalleeThread = .done v t' ∧ validTags t') ∧
    (∀ n, demoCalleeThread.sp = n + 2 → demoCalleeThread.tag n = IntTag →
      demoCalleeThread.tag (n + 1) = IntTag →
      ∃ v t', popLong demoCalleeThread = .done v t' ∧ validTags t') ∧
    (∀ i v, i < demoCalleeThread.sp → validTags (pokeObject demoCalleeThread i v)) ∧
    (∀ i v, i < demoCalleeThread.sp → validTags (pokeInt demoCalleeThread i v)) ∧
    (∀ i v, i + 1 < demoCalleeThread.sp → validTags (pokeLong demoCalleeThread i v)) ∧
    (∀ k b, 1 ≤ demoCalleeThread.sp →
      frameBase demoMachine demoCalleeThread demoCalleeThread.frame
        = .done b demoCalleeThread →
      ∃ t', store demoMachine demoCalleeThread k = .done () t' ∧ validTags t') ∧
    (1 ≤ demoCalleeThread.sp → validTags (dup demoCalleeThread).thread) ∧
    (2 ≤ demoCalleeThread.sp → validTags (dup_x1 demoCalleeThread).thread) ∧
    (3 ≤ demoCalleeThread.sp → validTags (dup_x2 demoCalleeThread).thread) ∧
    (2 ≤ demoCalleeThread.sp → validTags (dup2 demoCalleeThread).thread) ∧
    (3 ≤ demoCalleeThread.sp → validTags (dup2_x1 demoCalleeThread).thread) ∧
    (4 ≤ demoCalleeThread.sp → validTags (dup2_x2 demoCalleeThread).thread) ∧
    (2 ≤ demoCalleeThread.sp → validTags (swap demoCalleeThread).thread) ∧
    (∀ method, 0 < demoMachine.BytesPerWord →
      demoMachine.methodParameterFootprint method ≤ demoCalleeThread.sp →
      (demoMachine.methodFlags method &&& ACC_NATIVE = 0 →
        demoMachine.methodParameterFootprint method
          ≤ demoMachine.codeMaxLocals (demoMachine.methodCode method)) →
      demoCalleeThread.sp - demoMachine.methodParameterFootprint method +
        (if demoMachine.methodFlags method &&& ACC_NATIVE = 0
          then demoMachine.codeMaxLocals (demoMachine.methodCode method)
          else demoMachine.methodParameterFootprint method)
        + 4 ≤ StackSizeInWords demoMachine / 2 →
      (0 ≤ demoCalleeThread.frame →
        demoCalleeThread.frame + 4
          ≤ ((demoCalleeThread.sp - demoMachine.methodParameterFootprint method : Nat) : Int)) →
      (demoMachine.methodFlags method &&& ACC_SYNCHRONIZED ≠ 0 →
        demoMachine.methodFlags method &&& ACC_STATIC = 0 →
        1 ≤ demoMachine.methodParameterFootprint method ∧
        demoCalleeThread.tag (demoCalleeThread.sp - demoMachine.methodParameterFootprint method)
          = ObjectTag) →
      ∃ t', pushFrame demoMachine demoCalleeThread method = .done () t' ∧ validTags t') ∧
    (∀ method b n,
      frameMethod demoMachine demoCalleeThread demoCalleeThread.frame
        = .done method demoCalleeThread →
      frameBase demoMachine demoCalleeThread demoCalleeThread.frame = .done b demoCalleeThread →
      frameNext demoMachine demoCalleeThread demoCalleeThread.frame = .done n demoCalleeThread →
      (0 ≤ n → ∃ method2 ip2,
        frameMethod demoMachine demoCalleeThread n = .done method2 demoCalleeThread ∧
        frameIp demoMachine demoCalleeThread n = .done ip2 demoCalleeThread) →
      (demoMachine.methodFlags method &&& ACC_SYNCHRONIZED ≠ 0 →
        demoMachine.methodFlags method &&& ACC_STATIC = 0 →
        ∃ o, peekObject demoMachine demoCalleeThread b = .done o demoCalleeThread) →
      (demoMachine.methodVmFlags method &&& ClassInitFlag ≠ 0 →
        ∀ c rest, demoCalleeThread.classInitList = c :: rest →
          c = demoMachine.methodClass method) →
      b ≤ demoCalleeThread.sp →
      ∃ t', popFrame demoMachine demoCalleeThread = .done () t' ∧ validTags t')) :=
  ⟨by decide, by decide,
    valid_tags_preserved demoMachine demoCalleeThread (by decide) (by decide)⟩

/-! ## C30: `visitObjects` -/

/-- The stack loop of `visitObjects` visits the value words of the object-tagged slots among
the first `n`, in increasing order. -/
theorem visitStack_eq (t : Thread) (n : Nat) (hn : n ≤ 2147483648) :
    visitStack t n = ((List.range n).filter (fun i => decide (t.tag i = ObjectTag))).map
      (fun i => Root.stackWord (2 * i + 1)) := by
  induction n with
  | zero => rfl
  | succ k ih =>
    have e : u32 (k * 2) = 2 * k := by
      rw [u32_eq_self (by omega)]
      omega
    rw [visitStack, ih (by omega), e, List.range_succ, List.filter_append, List.map_append]
    congr 1
    by_cases h : t.stack (2 * k) = ObjectTag
    · have h2 : t.tag k = ObjectTag := h
      rw [if_pos h]
      simp [h2]
    · have h2 : ¬ t.tag k = ObjectTag := h
      rw [if_neg h]
      simp [h2]

/-- The class-init loop of `visitObjects` visits every entry of the list, from the head on. -/
theorem visitClassInitList_eq (l : List Nat) (k : Nat) :
    visitClassInitList l k = (List.range l.length).map (fun j => Root.classInit (k + j)) := by
  induction l generalizing k with
  | nil => rfl
  | cons c rest ih =>
    rw [visitClassInitList, ih, List.length_cons, List.range_succ_eq_map, List.map_cons,
      List.map_map]
    congr 1
    apply List.map_congr_left
    intro j _
    show Root.classInit (k + 1 + j) = Root.classInit (k + (j + 1))
    congr 1
    omega

/-- C30: `visitObjects` visits exactly the following locations, in this order: the thread's
`code` register; the value word (word `2 i + 1` of the stack) of every slot `i` with
`0 ≤ i < sp` whose tag is `ObjectTag`, in increasing `i`; and the class of every entry of the
class-init list, from the head on.  Hence a stack word is visited if and only if it is the
value word of an object-tagged slot below `sp`: no slot tagged `IntTag`, no slot at index
`≥ sp` and no tag word is visited. -/
theorem visitObjects_roots (t : Thread) (hsp : t.sp ≤ 2147483648) :
    visitObjects t = Root.code ::
      (((List.range t.sp).filter (fun i => decide (t.tag i = ObjectTag))).map
          (fun i => Root.stackWord (2 * i + 1))
        ++ (List.range t.classInitList.length).map Root.classInit) ∧
    (∀ j, Root.stackWord j ∈ visitObjects t ↔
      ∃ i, i < t.sp ∧ t.tag i = ObjectTag ∧ j = 2 * i + 1) ∧
    (∀ i, t.tag i = IntTag → Root.stackWord (2 * i + 1) ∉ visitObjects t) ∧
    (∀ i, t.sp ≤ i → Root.stackWord (2 * i + 1) ∉ visitObjects t) ∧
    (∀ i, Root.stackWord (2 * i) ∉ visitObjects t) ∧
    (∀ k, Root.classInit k ∈ visitObjects t ↔ k < t.classInitList.length) := by
  have h1 : visitObjects t = Root.code ::
      (((List.range t.sp).filter (fun i => decide (t.tag i = ObjectTag))).map
          (fun i => Root.stackWord (2 * i + 1))
        ++ (List.range t.classInitList.length).map Root.classInit) := by
    unfold visitObjects
    rw [visitStack_eq t t.sp hsp, visitClassInitList_eq]
    simp only [Nat.zero_add]
  have h2 : ∀ j, Root.stackWord j ∈ visitObjects t ↔
      ∃ i, i < t.sp ∧ t.tag i = ObjectTag ∧ j = 2 * i + 1 := by
    intro j
    rw [h1]
    simp only [List.mem_cons, List.mem_append, List.mem_map, List.mem_filter, List.mem_range,
      decide_eq_true_eq, Root.stackWord.injEq, false_or, reduceCtorEq, and_false, exists_false,
      or_false]
    constructor
    · rintro ⟨i, ⟨hi, ht⟩, rfl⟩
      exact ⟨i, hi, ht, rfl⟩
    · rintro ⟨i, hi, ht, rfl⟩
      exact ⟨i, ⟨hi, ht⟩, rfl⟩
  refine ⟨h1, h2, ?_, ?_, ?_, ?_⟩
  · intro i hi hmem
    obtain ⟨i2, -, ht, he⟩ := (h2 _).mp hmem
    have : i2 = i := by omega
    rw [this, hi] at ht
    cases ht
  · intro i hi hmem
    obtain ⟨i2, hlt, -, he⟩ := (h2 _).mp hmem
    omega
  · intro i hmem
    obtain ⟨i2, -, -, he⟩ := (h2 _).mp hmem
    omega
  · intro k
    rw [h1]
    simp only [List.mem_cons, List.mem_append, List.mem_map, List.mem_filter, List.mem_range,
      Root.classInit.injEq, false_or, reduceCtorEq, and_false, exists_false, exists_eq_right]

/-- Witness for C30: in `demoCalleeThread` with two classes being initialised the visits are
`code`, the value words 7 and 21 of the object-tagged slots 3 and 10, and the two list
entries. -/
theorem visitObjects_roots_witness :
    ({ demoCalleeThread with classInitList := [7, 8] } : Thread).sp ≤ 2147483648 ∧
    visitObjects { demoCalleeThread with classInitList := [7, 8] }
      = [Root.code, Root.stackWord 7, Root.stackWord 21, Root.classInit 0, Root.classInit 1] ∧
    (visitObjects { demoCalleeThread with classInitList := [7, 8] } = Root.code ::
      (((List.range ({ demoCalleeThread with classInitList := [7, 8] } : Thread).sp).filter
          (fun i => decide (({ demoCalleeThread with classInitList := [7, 8] } : Thread).tag i
            = ObjectTag))).map (fun i => Root.stackWord (2 * i + 1))
        ++ (List.range
          ({ demoCalleeThread with classInitList := [7, 8] } : Thread).classInitList.length).map
            Root.classInit) ∧
    (∀ j, Root.stackWord j ∈ visitObjects { demoCalleeThread with classInitList := [7, 8] } ↔
      ∃ i, i < ({ demoCalleeThread with classInitList := [7, 8] } : Thread).sp ∧
        ({ demoCalleeThread with classInitList := [7, 8] } : Thread).tag i = ObjectTag ∧
        j = 2 * i + 1) ∧
    (∀ i, ({ demoCalleeThread with classInitList := [7, 8] } : Thread).tag i = IntTag →
      Root.stackWord (2 * i + 1)
        ∉ visitObjects { demoCalleeThread with classInitList := [7, 8] }) ∧
    (∀ i, ({ demoCalleeThread with classInitList := [7, 8] } : Thread).sp ≤ i →
      Root.stackWord (2 * i + 1)
        ∉ visitObjects { demoCalleeThread with classInitList := [7, 8] }) ∧
    (∀ i, Root.stackWord (2 * i)
      ∉ visitObjects { demoCalleeThread with classInitList := [7, 8] }) ∧
    (∀ k, Root.classInit k ∈ visitObjects { demoCalleeThread with classInitList := [7, 8] } ↔
      k < ({ demoCalleeThread with classInitList := [7, 8] } : Thread).classInitList.length)) :=
  ⟨by decide, by decide,
    visitObjects_roots { demoCalleeThread with classInitList := [7, 8] } (by decide)⟩

/-! ## C31: `pushReference` -/

/-- C31: `pushReference(o)` with `o` null returns the null sentinel and leaves the thread, its
`sp` and stack included, unchanged.  With `o` non-null and room for one slot it completes,
pushes `o` as an `ObjectTag` slot at the old `sp` (`sp` increases by 1), and returns the
address of the value word of that slot, word `2 * sp + 1` of the stack, which holds `o`; the
slots below and the other registers are unchanged. -/
theorem pushReference_handle (m : Machine) (t : Thread) (o : Nat)
    (hroom : t.sp + 1 < StackSizeInWords m / 2) :
    pushReference m t 0 = .done none t ∧
    (o ≠ 0 → ∃ t1, pushReference m t o = .done (some (2 * t.sp + 1)) t1 ∧
      t1.sp = t.sp + 1 ∧ t1.tag t.sp = ObjectTag ∧ t1.value t.sp = o ∧
      t1.stack (2 * t.sp + 1) = o ∧
      (∀ i, i < t.sp → t1.tag i = t.tag i ∧ t1.value i = t.value i) ∧
      t1.frame = t.frame ∧ t1.code = t.code ∧ t1.ip = t.ip ∧
      t1.exception = t.exception) := by
  have hc := capacity_le m
  constructor
  · rfl
  · intro ho
    have h1 : u32 (t.sp + 1) = t.sp + 1 := u32_eq_self (by omega)
    have h2 : u32 (u32 (t.sp + 1 + U32 - 1) * 2) + 1 = 2 * t.sp + 1 := by
      unfold u32 U32
      omega
    have e : pushReference m t o = .done (some (2 * t.sp + 1)) { t with
        stack := setWord (setWord t.stack (2 * t.sp) ObjectTag) (2 * t.sp + 1) o
        sp := t.sp + 1 } := by
      unfold pushReference
      rw [if_pos ho, h1, if_pos hroom, pushObject_done m t o hroom]
      dsimp only
      rw [h2]
    refine ⟨_, e, rfl, ?_, ?_, ?_, ?_, rfl, rfl, rfl, rfl⟩
    · show setWord _ _ _ _ = _
      rw [setWord_other _ _ (by omega), setWord_same]
    · show setWord _ _ _ _ = _
      rw [setWord_same]
    · show setWord _ _ _ _ = _
      rw [setWord_same]
    · intro i hi
      constructor
      · show setWord _ _ _ _ = _
        rw [setWord_other _ _ (by omega), setWord_other _ _ (by omega)]
        rfl
      · show setWord _ _ _ _ = _
        rw [setWord_other _ _ (by omega), setWord_other _ _ (by omega)]
        rfl

theorem pushReference_handle_witness :
    (threadAt 5).sp + 1 < StackSizeInWords machine64 / 2 ∧
    (pushReference machine64 (threadAt 5) 9).isDone = true ∧
    (pushReference machine64 (threadAt 5) 0 = .done none (threadAt 5) ∧
    ((9 : Nat) ≠ 0 → ∃ t1, pushReference machine64 (threadAt 5) 9
        = .done (some (2 * (threadAt 5).sp + 1)) t1 ∧
      t1.sp = (threadAt 5).sp + 1 ∧ t1.tag (threadAt 5).sp = ObjectTag ∧
      t1.value (threadAt 5).sp = 9 ∧
      t1.stack (2 * (threadAt 5).sp + 1) = 9 ∧
      (∀ i, i < (threadAt 5).sp →
        t1.tag i = (threadAt 5).tag i ∧ t1.value i = (threadAt 5).value i) ∧
      t1.frame = (threadAt 5).frame ∧ t1.code = (threadAt 5).code ∧
      t1.ip = (threadAt 5).ip ∧ t1.exception = (threadAt 5).exception)) :=
  ⟨by decide, by decide, pushReference_handle machine64 (threadAt 5) 9 (by decide)⟩

/-! ## C32: `makeNativeMethodData` -/

theorem skipToSemicolon_name (name rest : List Nat)
    (h : ∀ x, x ∈ name → x ≠ 0 ∧ x ≠ 0x3b) :
    skipToSemicolon (name ++ 0x3b :: rest) = 0x3b :: rest := by
  induction name with
  | nil =>
    show (if (0x3b : Nat) ≠ 0 ∧ (0x3b : Nat) ≠ 0x3b then _ else _) = _
    rw [if_neg (by decide)]
  | cons x xs ih =>
    show (if x ≠ 0 ∧ x ≠ 0x3b then skipToSemicolon (xs ++ 0x3b :: rest) else _) = _
    rw [if_pos (h x (List.mem_cons_self x xs)),
      ih (fun y hy => h y (List.mem_cons_of_mem x hy))]

theorem skipBrackets_replicate (d c : Nat) (rest : List Nat) (hc : c ≠ 0x5b) :
    skipBrackets (List.replicate d 0x5b ++ c :: rest) = c :: rest := by
  induction d with
  | zero =>
    show (if c = 0x5b then _ else _) = _
    rw [if_neg hc]
  | succ d ih =>
    show (if (0x5b : Nat) = 0x5b then skipBrackets (List.replicate d 0x5b ++ c :: rest)
      else _) = _
    rw [if_pos rfl, ih]

theorem argumentTableSize_eq_sum (a : NativeTypes) (bytesPerWord : Nat)
    (ps : List ParameterType) (size : Nat) :
    argumentTableSize a bytesPerWord ps size
      = size + (ps.map (fun p => if p.isReference then bytesPerWord
          else a.pad (a.primitiveSize (a.fieldCode p.firstChar)))).sum := by
  induction ps generalizing size with
  | nil => rfl
  | cons p ps ih =>
    show argumentTableSize a bytesPerWord ps _ = _
    rw [ih, List.map_cons, List.sum_cons]
    omega

theorem primitive_char {c : Nat} (h : c ∈ [0x42, 0x43, 0x44, 0x46, 0x49, 0x4a, 0x53, 0x5a]) :
    c ≠ 0 ∧ c ≠ 0x29 ∧ c ≠ 0x4c ∧ c ≠ 0x5b := by
  simp only [List.mem_cons, List.mem_singleton, List.not_mem_nil, or_false] at h
  omega

theorem scanParameters_parameters (a : NativeTypes) (bytesPerWord : Nat)
    (ps : List ParameterType) (tail : List Nat) :
    ∀ (fuel : Nat) (types : List Nat) (size : Nat),
    (∀ p, p ∈ ps → p.base.wellFormed) → ps.length < fuel →
    argumentTableSize a bytesPerWord ps size < 4294967296 →
    scanParameters a bytesPerWord fuel (parameterChars ps ++ 0x29 :: tail) types size
      = .done (types ++ ps.map (fun p => a.fieldType (a.fieldCode p.firstChar)))
          (argumentTableSize a bytesPerWord ps size) := by
  induction ps with
  | nil =>
    intro fuel types size _ hfuel _
    obtain ⟨f, rfl⟩ : ∃ f, fuel = f + 1 := ⟨fuel - 1, by simp at hfuel; omega⟩
    show scanParameters a bytesPerWord (f + 1) (0x29 :: tail) types size = _
    unfold scanParameters
    rw [if_neg (by decide), List.map_nil, List.append_nil]
    rfl
  | cons p ps ih =>
    intro fuel types size hwf hfuel hsize
    obtain ⟨f, rfl⟩ : ∃ f, fuel = f + 1 := ⟨fuel - 1, by simp at hfuel; omega⟩
    have hf : ps.length < f := by simp at hfuel; omega
    have hwf' : ∀ q, q ∈ ps → q.base.wellFormed :=
      fun q hq => hwf q (List.mem_cons_of_mem p hq)
    have hp := hwf p (List.mem_cons_self p ps)
    have hsz : argumentTableSize a bytesPerWord ps
        (size + (if p.isReference then bytesPerWord
          else a.pad (a.primitiveSize (a.fieldCode p.firstChar)))) < 4294967296 := hsize
    have hle := argumentTableSize_eq_sum a bytesPerWord ps
        (size + (if p.isReference then bytesPerWord
          else a.pad (a.primitiveSize (a.fieldCode p.firstChar))))
    have hu : u32 (size + (if p.isReference then bytesPerWord
          else a.pad (a.primitiveSize (a.fieldCode p.firstChar))))
        = size + (if p.isReference then bytesPerWord
          else a.pad (a.primitiveSize (a.fieldCode p.firstChar))) :=
      u32_eq_self (by omega)
    have hres : ∀ c, c = p.firstChar →
        scanParameters a bytesPerWord f (parameterChars ps ++ 0x29 :: tail)
          (types ++ [a.fieldType (a.fieldCode c)])
          (u32 (size + (if p.isReference then bytesPerWord
            else a.pad (a.primitiveSize (a.fieldCode p.firstChar)))))
        = .done (types ++ (p :: ps).map (fun p => a.fieldType (a.fieldCode p.firstChar)))
          (argumentTableSize a bytesPerWord (p :: ps) size) := by
      intro c hc
      rw [hu, ih f _ _ hwf' hf hsz, hc, List.map_cons, List.append_assoc]
      rfl
    rw [show parameterChars (p :: ps) ++ 0x29 :: tail
      = p.chars ++ (parameterChars ps ++ 0x29 :: tail) from List.append_assoc _ _ _]
    obtain ⟨dims, base⟩ := p
    cases dims with
    | zero =>
      cases base with
      | primitive c =>
        obtain ⟨c0, c1, c2, c3⟩ := primitive_char hp
        show scanParameters a bytesPerWord (f + 1)
          (c :: (parameterChars ps ++ 0x29 :: tail)) types size = _
        unfold scanParameters
        rw [if_pos ⟨c0, c1⟩, if_neg c2, if_neg c3]
        exact hres c rfl
      | object name =>
        show scanParameters a bytesPerWord (f + 1)
          (0x4c :: ((name ++ [0x3b]) ++ (parameterChars ps ++ 0x29 :: tail))) types size = _
        unfold scanParameters
        rw [if_pos (by decide), if_pos rfl]
        have hs : skipToSemicolon
            (0x4c :: ((name ++ [0x3b]) ++ (parameterChars ps ++ 0x29 :: tail)))
            = 0x3b :: (parameterChars ps ++ 0x29 :: tail) := by
          show (if (0x4c : Nat) ≠ 0 ∧ (0x4c : Nat) ≠ 0x3b then _ else _) = _
          rw [if_pos (by decide), List.append_assoc]
          exact skipToSemicolon_name name _ hp
        rw [hs]
        exact hres 0x4c rfl
    | succ d =>
      have hchars : ParameterType.chars ⟨d + 1, base⟩ ++ (parameterChars ps ++ 0x29 :: tail)
          = 0x5b :: (List.replicate d 0x5b ++ (base.chars ++
              (parameterChars ps ++ 0x29 :: tail))) := by
        unfold ParameterType.chars
        rw [List.replicate_succ, List.cons_append, List.cons_append, List.append_assoc]
      show scanParameters a bytesPerWord (f + 1)
        (ParameterType.chars ⟨d + 1, base⟩ ++ (parameterChars ps ++ 0x29 :: tail))
        types size = _
      rw [hchars]
      unfold scanParameters
      rw [if_pos (by decide), if_neg (by decide), if_pos rfl]
      cases base with
      | primitive c =>
        obtain ⟨c0, c1, c2, c3⟩ := primitive_char hp
        have hs : skipBrackets (0x5b :: (List.replicate d 0x5b ++
            ((BaseType.primitive c).chars ++ (parameterChars ps ++ 0x29 :: tail))))
            = c :: (parameterChars ps ++ 0x29 :: tail) := by
          show (if (0x5b : Nat) = 0x5b then _ else _) = _
          rw [if_pos rfl]
          exact skipBrackets_replicate d c _ c3
        rw [hs]
        dsimp only
        rw [if_neg c2]
        exact hres 0x5b rfl
      | object name =>
        have hs : skipBrackets (0x5b :: (List.replicate d 0x5b ++
            ((BaseType.object name).chars ++ (parameterChars ps ++ 0x29 :: tail))))
            = 0x4c :: (name ++ 0x3b :: (parameterChars ps ++ 0x29 :: tail)) := by
          show (if (0x5b : Nat) = 0x5b then _ else _) = _
          rw [if_pos rfl]
          have := skipBrackets_replicate d 0x4c
            (name ++ 0x3b :: (parameterChars ps ++ 0x29 :: tail)) (by decide)
          rw [← this]
          unfold BaseType.chars
          simp only [List.cons_append, List.append_assoc, List.nil_append]
        rw [hs]
        dsimp only
        rw [if_pos rfl]
        have hs2 : skipToSemicolon
            (0x4c :: (name ++ 0x3b :: (parameterChars ps ++ 0x29 :: tail)))
            = 0x3b :: (parameterChars ps ++ 0x29 :: tail) := by
          show (if (0x4c : Nat) ≠ 0 ∧ (0x4c : Nat) ≠ 0x3b then _ else _) = _
          rw [if_pos (by decide)]
          exact skipToSemicolon_name name _ hp
        rw [hs2]
        exact hres 0x5b rfl

/-- C32: for a well-formed method descriptor `(<parameters>)<return>` with the parameters
`ps` (`n` of them; an object type `L...;` or an array type of any depth, arrays of objects
included, being one parameter), `makeNativeMethodData` completes and writes exactly `n + 2`
parameter-type tags: `POINTER_TYPE`, `POINTER_TYPE`, then for each parameter in declaration
order the tag `fieldType(fieldCode(c))` of its first character `c`; and it sets the
argument-table size to `2 * BytesPerWord` plus `BytesPerWord` for each object or array
parameter plus `pad(primitiveSize)` for each primitive parameter (the size being an
`unsigned`). -/
theorem makeNativeMethodData_tags (a : NativeTypes) (m : Machine)
    (ps : List ParameterType) (ret : List Nat) (fuel : Nat)
    (hwf : ∀ p, p ∈ ps → p.base.wellFormed) (hfuel : ps.length < fuel)
    (hsize : argumentTableSize a m.BytesPerWord ps (m.BytesPerWord * 2) < 4294967296) :
    ∃ types size, makeNativeMethodData a m fuel (descriptor ps ret) = .done types size ∧
      types.length = ps.length + 2 ∧
      types = a.POINTER_TYPE :: a.POINTER_TYPE ::
        ps.map (fun p => a.fieldType (a.fieldCode p.firstChar)) ∧
      size = argumentTableSize a m.BytesPerWord ps (2 * m.BytesPerWord) ∧
      size = 2 * m.BytesPerWord +
        (ps.map (fun p => if p.isReference then m.BytesPerWord
          else a.pad (a.primitiveSize (a.fieldCode p.firstChar)))).sum := by
  have hle := argumentTableSize_eq_sum a m.BytesPerWord ps (m.BytesPerWord * 2)
  have hu : u32 (m.BytesPerWord * 2) = m.BytesPerWord * 2 := u32_eq_self (by omega)
  have e : makeNativeMethodData a m fuel (descriptor ps ret)
      = .done ([a.POINTER_TYPE, a.POINTER_TYPE]
          ++ ps.map (fun p => a.fieldType (a.fieldCode p.firstChar)))
        (argumentTableSize a m.BytesPerWord ps (m.BytesPerWord * 2)) := by
    show scanParameters a m.BytesPerWord fuel (parameterChars ps ++ 0x29 :: ret) _ _ = _
    rw [hu]
    exact scanParameters_parameters a m.BytesPerWord ps ret fuel _ _ hwf hfuel hsize
  refine ⟨_, _, e, ?_, rfl, ?_, ?_⟩
  · simp only [List.length_append, List.length_map, List.length_cons, List.length_nil]
    omega
  · rw [Nat.mul_comm]
  · rw [hle, Nat.mul_comm]

theorem makeNativeMethodData_tags_witness :
    ((∀ p, p ∈ demoParameters → p.base.wellFormed) ∧ demoParameters.length < 10 ∧
      argumentTableSize demoTypes machine64.BytesPerWord demoParameters
        (machine64.BytesPerWord * 2) < 4294967296) ∧
    descriptor demoParameters [0x56]
      = [0x28, 0x49, 0x5b, 0x5b, 0x4c, 0x61, 0x2f, 0x53, 0x3b, 0x4a, 0x4c, 0x61, 0x2f, 0x4f,
          0x3b, 0x5b, 0x42, 0x29, 0x56] ∧
    makeNativeMethodData demoTypes machine64 10 (descriptor demoParameters [0x56])
      = .done [7, 7, 15, 19, 16, 19, 19] 56 ∧
    (∃ types size,
      makeNativeMethodData demoTypes machine64 10 (descriptor demoParameters [0x56])
        = .done types size ∧
      types.length = demoParameters.length + 2 ∧
      types = demoTypes.POINTER_TYPE :: demoTypes.POINTER_TYPE ::
        demoParameters.map (fun p => demoTypes.fieldType (demoTypes.fieldCode p.firstChar)) ∧
      size = argumentTableSize demoTypes machine64.BytesPerWord demoParameters
        (2 * machine64.BytesPerWord) ∧
      size = 2 * machine64.BytesPerWord +
        (demoParameters.map (fun p => if p.isReference then machine64.BytesPerWord
          else demoTypes.pad (demoTypes.primitiveSize
            (demoTypes.fieldCode p.firstChar)))).sum) :=
  ⟨⟨by decide, by decide, by decide⟩, by decide, by decide,
    makeNativeMethodData_tags demoTypes machine64 demoParameters [0x56] 10
      (by decide) (by decide) (by decide)⟩

/-! ## C33: `pushResult` -/

theorem toUnsigned_lt (i : Int) : toUnsigned i < 4294967296 := by
  unfold toUnsigned
  omega

theorem pushInt_value (m : Machine) (t : Thread) (v : Nat)
    (hroom : t.sp + 1 < StackSizeInWords m / 2) :
    ∃ t1, pushInt m t v = .done () t1 ∧ t1.sp = t.sp + 1 ∧ t1.tag t.sp = IntTag ∧
      t1.value t.sp = v % 4294967296 ∧
      (∀ i, i < t.sp → t1.tag i = t.tag i ∧ t1.value i = t.value i) := by
  refine ⟨_, pushInt_done m t v hroom, rfl, ?_, ?_, ?_⟩
  · show setWord _ _ _ _ = _
    rw [setWord_other _ _ (by omega), setWord_same]
  · show setWord _ _ _ _ = _
    rw [setWord_same]
  · intro i hi
    constructor
    · show setWord _ _ _ _ = _
      rw [setWord_other _ _ (by omega), setWord_other _ _ (by omega)]
      rfl
    · show setWord _ _ _ _ = _
      rw [setWord_other _ _ (by omega), setWord_other _ _ (by omega)]
      rfl

theorem pushObject_value (m : Machine) (t : Thread) (o : Nat)
    (hroom : t.sp + 1 < StackSizeInWords m / 2) :
    ∃ t1, pushObject m t o = .done () t1 ∧ t1.sp = t.sp + 1 ∧ t1.tag t.sp = ObjectTag ∧
      t1.value t.sp = o ∧
      (∀ i, i < t.sp → t1.tag i = t.tag i ∧ t1.value i = t.value i) := by
  refine ⟨_, pushObject_done m t o hroom, rfl, ?_, ?_, ?_⟩
  · show setWord _ _ _ _ = _
    rw [setWord_other _ _ (by omega), setWord_same]
  · show setWord _ _ _ _ = _
    rw [setWord_same]
  · intro i hi
    constructor
    · show setWord _ _ _ _ = _
      rw [setWord_other _ _ (by omega), setWord_other _ _ (by omega)]
      rfl
    · show setWord _ _ _ _ = _
      rw [setWord_other _ _ (by omega), setWord_other _ _ (by omega)]
      rfl

theorem pushLong_value (m : Machine) (t : Thread) (v : Nat) (hv : v < 2 ^ 64)
    (hroom : t.sp + 2 < StackSizeInWords m / 2) :
    ∃ t1, pushLong m t v = .done () t1 ∧ t1.sp = t.sp + 2 ∧
      t1.tag t.sp = IntTag ∧ t1.value t.sp = v >>> 32 ∧
      t1.tag (t.sp + 1) = IntTag ∧ t1.value (t.sp + 1) = v % 4294967296 ∧
      (∀ i, i < t.sp → t1.tag i = t.tag i ∧ t1.value i = t.value i) := by
  have hhi : (v >>> 32) % 4294967296 = v >>> 32 := Nat.mod_eq_of_lt (shiftRight32_lt hv)
  have hlo : (v &&& 0xFFFFFFFF) % 4294967296 = v % 4294967296 := by
    rw [and_mask32, Nat.mod_mod]
  refine ⟨_, pushLong_done m t v hroom, rfl, ?_, ?_, ?_, ?_, ?_⟩
  · show setWord _ _ _ _ = _
    rw [setWord_other _ _ (by omega), setWord_other _ _ (by omega),
      setWord_other _ _ (by omega), setWord_same]
  · show setWord _ _ _ _ = _
    rw [setWord_other _ _ (by omega), setWord_other _ _ (by omega), setWord_same, hhi]
  · show setWord _ _ _ _ = _
    rw [setWord_other _ _ (by omega), show 2 * (t.sp + 1) = 2 * t.sp + 2 by omega,
      setWord_same]
  · show setWord _ _ _ _ = _
    rw [show 2 * (t.sp + 1) + 1 = 2 * t.sp + 3 by omega, setWord_same, hlo]
  · intro i hi
    constructor
    · show setWord _ _ _ _ = _
      rw [setWord_other _ _ (by omega), setWord_other _ _ (by omega),
        setWord_other _ _ (by omega), setWord_other _ _ (by omega)]
      rfl
    · show setWord _ _ _ _ = _
      rw [setWord_other _ _ (by omega), setWord_other _ _ (by omega),
        setWord_other _ _ (by omega), setWord_other _ _ (by omega)]
      rfl

/-- C33: `pushResult(returnCode, result)` with room for two slots and a 64-bit `result`.
For `byte` and `boolean` it pushes one `IntTag` slot whose value, read as an `int`, is the
low 8 bits of `result` sign-extended; for `char` the low 16 bits zero-extended; for `short`
the low 16 bits sign-extended; for `int` and `float` the low 32 bits; for `long` and `double`
two `IntTag` slots, the high 32 bits at the old `sp` and the low 32 bits above it, which
together are `result`; for an object one `ObjectTag` slot; for `void` nothing, the thread
being unchanged.  So `sp` grows by 0 for `void`, by 2 for `long` and `double` and by 1 for
the other field codes, the slots below the old `sp` being unchanged; and a return code that
is no field code aborts with the thread unchanged. -/
theorem pushResult_types_result (m : Machine) (load : Nat → Nat) (t : Thread)
    (returnCode result : Nat) (indirect : Bool)
    (hres : result < 2 ^ 64) (hroom : t.sp + 2 < StackSizeInWords m / 2) :
    (returnCode = ByteField ∨ returnCode = BooleanField →
      ∃ t1, pushResult m load t returnCode result indirect = .done () t1 ∧
        t1.sp = t.sp + 1 ∧ t1.tag t.sp = IntTag ∧
        toInt (t1.value t.sp) = toInt8 result ∧
        (∀ i, i < t.sp → t1.tag i = t.tag i ∧ t1.value i = t.value i)) ∧
    (returnCode = CharField →
      ∃ t1, pushResult m load t returnCode result indirect = .done () t1 ∧
        t1.sp = t.sp + 1 ∧ t1.tag t.sp = IntTag ∧
        t1.value t.sp = result % 65536 ∧
        (∀ i, i < t.sp → t1.tag i = t.tag i ∧ t1.value i = t.value i)) ∧
    (returnCode = ShortField →
      ∃ t1, pushResult m load t returnCode result indirect = .done () t1 ∧
        t1.sp = t.sp + 1 ∧ t1.tag t.sp = IntTag ∧
        toInt (t1.value t.sp) = toInt16 result ∧
        (∀ i, i < t.sp → t1.tag i = t.tag i ∧ t1.value i = t.value i)) ∧
    (returnCode = IntField ∨ returnCode = FloatField →
      ∃ t1, pushResult m load t returnCode result indirect = .done () t1 ∧
        t1.sp = t.sp + 1 ∧ t1.tag t.sp = IntTag ∧
        t1.value t.sp = result % 4294967296 ∧
        (∀ i, i < t.sp → t1.tag i = t.tag i ∧ t1.value i = t.value i)) ∧
    (returnCode = LongField ∨ returnCode = DoubleField →
      ∃ t1, pushResult m load t returnCode result indirect = .done () t1 ∧
        t1.sp = t.sp + 2 ∧ t1.tag t.sp = IntTag ∧ t1.tag (t.sp + 1) = IntTag ∧
        t1.value t.sp = result >>> 32 ∧ t1.value (t.sp + 1) = result % 4294967296 ∧
        (t1.value t.sp <<< 32) ||| t1.value (t.sp + 1) = result ∧
        (∀ i, i < t.sp → t1.tag i = t.tag i ∧ t1.value i = t.value i)) ∧
    (returnCode = ObjectField →
      ∃ t1, pushResult m load t returnCode result indirect = .done () t1 ∧
        t1.sp = t.sp + 1 ∧ t1.tag t.sp = ObjectTag ∧
        (indirect = false → t1.value t.sp = toWord m result) ∧
        (∀ i, i < t.sp → t1.tag i = t.tag i ∧ t1.value i = t.value i)) ∧
    (returnCode = VoidField → pushResult m load t returnCode result indirect = .done () t) ∧
    (ObjectField < returnCode →
      pushResult m load t returnCode result indirect = .aborted t) := by
  have hroom1 : t.sp + 1 < StackSizeInWords m / 2 := by omega
  have h8 : toInt (toUnsigned (toInt8 result) % 4294967296) = toInt8 result := by
    rw [toInt_mod]
    apply toInt_toUnsigned <;> (unfold toInt8; split_ifs <;> omega)
  have h16 : toInt (toUnsigned (toInt16 result) % 4294967296) = toInt16 result := by
    rw [toInt_mod]
    apply toInt_toUnsigned <;> (unfold toInt16; split_ifs <;> omega)
  have hc : result % 65536 % 4294967296 = result % 65536 := by omega
  refine ⟨?_, ?_, ?_, ?_, ?_, ?_, ?_, ?_⟩
  · intro h
    obtain ⟨t1, e, a, b, c, d⟩ := pushInt_value m t (toUnsigned (toInt8 result)) hroom1
    refine ⟨t1, ?_, a, b, ?_, d⟩
    · unfold pushResult
      rw [if_pos h, e]
    · rw [c, h8]
  · intro h
    obtain ⟨t1, e, a, b, c, d⟩ := pushInt_value m t (result % 65536) hroom1
    refine ⟨t1, ?_, a, b, ?_, d⟩
    · subst h
      unfold pushResult
      rw [if_neg (by decide), if_pos rfl, e]
    · rw [c, hc]
  · intro h
    obtain ⟨t1, e, a, b, c, d⟩ := pushInt_value m t (toUnsigned (toInt16 result)) hroom1
    refine ⟨t1, ?_, a, b, ?_, d⟩
    · subst h
      unfold pushResult
      rw [if_neg (by decide), if_neg (by decide), if_pos rfl, e]
    · rw [c, h16]
  · intro h
    obtain ⟨t1, e, a, b, c, d⟩ := pushInt_value m t result hroom1
    refine ⟨t1, ?_, a, b, c, d⟩
    unfold pushResult
    rcases h with h | h <;> subst h <;>
      rw [if_neg (by decide), if_neg (by decide), if_neg (by decide), if_pos (by decide), e]
  · intro h
    obtain ⟨t1, e, a, b, c, b', c', d⟩ := pushLong_value m t result hres hroom
    refine ⟨t1, ?_, a, b, b', c, c', ?_, d⟩
    · unfold pushResult
      rcases h with h | h <;> subst h <;>
        rw [if_neg (by decide), if_neg (by decide), if_neg (by decide), if_neg (by decide),
          if_pos (by decide), e]
    · rw [c, c', recombine]
  · intro h
    subst h
    cases indirect
    · obtain ⟨t1, e, a, b, c, d⟩ := pushObject_value m t (toWord m result) hroom1
      refine ⟨t1, ?_, a, b, fun _ => c, d⟩
      unfold pushResult
      rw [if_neg (by decide), if_neg (by decide), if_neg (by decide), if_neg (by decide),
        if_neg (by decide), if_pos rfl, if_neg (by decide), e]
    · obtain ⟨t1, e, a, b, _, d⟩ := pushObject_value m t
        (if toWord m result = 0 then 0 else load (toWord m result)) hroom1
      refine ⟨t1, ?_, a, b, fun h => absurd h (by decide), d⟩
      unfold pushResult
      rw [if_neg (by decide), if_neg (by decide), if_neg (by decide), if_neg (by decide),
        if_neg (by decide), if_pos rfl, if_pos rfl, e]
  · intro h
    subst h
    unfold pushResult
    rw [if_neg (by decide), if_neg (by decide), if_neg (by decide), if_neg (by decide),
      if_neg (by decide), if_neg (by decide), if_pos rfl]
  · intro h
    have h9 : ObjectField = 9 := rfl
    rw [h9] at h
    unfold pushResult
    rw [if_neg (by unfold ByteField BooleanField; omega),
      if_neg (by unfold CharField; omega), if_neg (by unfold ShortField; omega),
      if_neg (by unfold FloatField IntField; omega),
      if_neg (by unfold DoubleField LongField; omega),
      if_neg (by unfold ObjectField; omega), if_neg (by unfold VoidField; omega)]

theorem pushResult_types_result_witness :
    ((18446744073709551560 : Nat) < 2 ^ 64 ∧
      (threadAt 5).sp + 2 < StackSizeInWords machine64 / 2) ∧
    toInt8 18446744073709551560 = -56 ∧
    (ByteField = ByteField ∨ ByteField = BooleanField →
      ∃ t1, pushResult machine64 (fun _ => 0) (threadAt 5) ByteField 18446744073709551560
          false = .done () t1 ∧
        t1.sp = (threadAt 5).sp + 1 ∧ t1.tag (threadAt 5).sp = IntTag ∧
        toInt (t1.value (threadAt 5).sp) = toInt8 18446744073709551560 ∧
        (∀ i, i < (threadAt 5).sp →
          t1.tag i = (threadAt 5).tag i ∧ t1.value i = (threadAt 5).value i)) ∧
    (ObjectField < 10 →
      pushResult machine64 (fun _ => 0) (threadAt 5) 10 18446744073709551560 false
        = .aborted (threadAt 5)) :=
  ⟨⟨by decide, by decide⟩, by decide,
    (pushResult_types_result machine64 (fun _ => 0) (threadAt 5) ByteField
      18446744073709551560 false (by decide) (by decide)).1,
    (pushResult_types_result machine64 (fun _ => 0) (threadAt 5) 10
      18446744073709551560 false (by decide) (by decide)).2.2.2.2.2.2.2⟩

/-! ## C34: the monitor wait list -/

theorem waitSeq_congr (next next' : Nat → Nat) :
    ∀ (l : List Nat) (h : Nat), (∀ x, x ∈ l → next' x = next x) →
      waitSeq next h l → waitSeq next' h l := by
  intro l
  induction l with
  | nil => intro h _ hs; exact hs
  | cons x rest ih =>
    intro h hc hs
    have hs' : h = x ∧ x ≠ 0 ∧ waitSeq next (next x) rest := hs
    show h = x ∧ x ≠ 0 ∧ waitSeq next' (next' x) rest
    refine ⟨hs'.1, hs'.2.1, ?_⟩
    rw [hc x (List.mem_cons_self x rest)]
    exact ih _ (fun y hy => hc y (List.mem_cons_of_mem x hy)) hs'.2.2

theorem waitSeq_ne_zero (next : Nat → Nat) :
    ∀ (l : List Nat) (h : Nat), waitSeq next h l → ∀ x, x ∈ l → x ≠ 0 := by
  intro l
  induction l with
  | nil => intro h _ x hx; cases hx
  | cons y rest ih =>
    intro h hs x hx
    have hs' : h = y ∧ y ≠ 0 ∧ waitSeq next (next y) rest := hs
    rcases List.mem_cons.1 hx with e | e
    · rw [e]; exact hs'.2.1
    · exact ih _ hs'.2.2 x e

theorem waitSeq_tail (next : Nat → Nat) (q : Nat) (suf : List Nat) :
    ∀ (pre : List Nat) (h : Nat), waitSeq next h (pre ++ q :: suf) →
      waitSeq next (next q) suf := by
  intro pre
  induction pre with
  | nil =>
    intro h hs
    have hs' : h = q ∧ q ≠ 0 ∧ waitSeq next (next q) suf := hs
    exact hs'.2.2
  | cons p pre ih =>
    intro h hs
    have hs' : h = p ∧ p ≠ 0 ∧ waitSeq next (next p) (pre ++ q :: suf) := hs
    exact ih _ hs'.2.2

theorem waitSeq_head (next : Nat → Nat) (h x : Nat) (rest : List Nat)
    (hs : waitSeq next h (x :: rest)) : h = x ∧ x ≠ 0 ∧ waitSeq next (next x) rest := hs

theorem waitSeq_snoc (next : Nat → Nat) (q t : Nat) (ht : t ≠ 0)
    (hnext : next t = 0) :
    ∀ (pre : List Nat) (h : Nat), waitSeq next h (pre ++ [q]) → (pre ++ [q]).Nodup →
      t ∉ pre ++ [q] → waitSeq (setWaitNext next q t) h ((pre ++ [q]) ++ [t]) := by
  intro pre
  induction pre with
  | nil =>
    intro h hs _ hnot
    have hs' : h = q ∧ q ≠ 0 ∧ waitSeq next (next q) [] := hs
    have htq : t ≠ q := fun e => hnot (by rw [e]; exact List.mem_singleton_self q)
    show h = q ∧ q ≠ 0 ∧ (setWaitNext next q t q = t ∧ t ≠ 0 ∧ setWaitNext next q t t = 0)
    refine ⟨hs'.1, hs'.2.1, ?_, ht, ?_⟩
    · unfold setWaitNext
      rw [if_pos rfl]
    · unfold setWaitNext
      rw [if_neg htq, hnext]
  | cons p pre ih =>
    intro h hs hnd hnot
    have hs' : h = p ∧ p ≠ 0 ∧ waitSeq next (next p) (pre ++ [q]) := hs
    have hnd' : p ∉ pre ++ [q] ∧ (pre ++ [q]).Nodup := List.nodup_cons.1 hnd
    have hpq : p ≠ q := fun e => hnd'.1 (by rw [e]; simp)
    show h = p ∧ p ≠ 0 ∧ waitSeq (setWaitNext next q t) (setWaitNext next q t p)
      ((pre ++ [q]) ++ [t])
    refine ⟨hs'.1, hs'.2.1, ?_⟩
    have e : setWaitNext next q t p = next p := by
      unfold setWaitNext
      rw [if_neg hpq]
    rw [e]
    exact ih _ hs'.2.2 hnd'.2 (fun hm => hnot (List.mem_cons_of_mem p hm))

theorem waitSeq_unlink (next : Nat → Nat) (q t : Nat) (rest : List Nat) :
    ∀ (pre : List Nat) (h : Nat), waitSeq next h (pre ++ q :: t :: rest) →
      (pre ++ q :: t :: rest).Nodup →
      waitSeq (setWaitNext (setWaitNext next q (next t)) t 0) h (pre ++ q :: rest) := by
  intro pre
  induction pre with
  | nil =>
    intro h hs hnd
    have hs' : h = q ∧ q ≠ 0 ∧ waitSeq next (next q) (t :: rest) := hs
    have hs2 : next q = t ∧ t ≠ 0 ∧ waitSeq next (next t) rest := hs'.2.2
    have hnd1 : q ∉ t :: rest ∧ (t :: rest).Nodup := List.nodup_cons.1 hnd
    have hnd2 : t ∉ rest ∧ rest.Nodup := List.nodup_cons.1 hnd1.2
    have hqt : q ≠ t := fun e => hnd1.1 (by rw [e]; exact List.mem_cons_self t rest)
    show h = q ∧ q ≠ 0 ∧ waitSeq _ (setWaitNext (setWaitNext next q (next t)) t 0 q) rest
    refine ⟨hs'.1, hs'.2.1, ?_⟩
    have e : setWaitNext (setWaitNext next q (next t)) t 0 q = next t := by
      unfold setWaitNext
      rw [if_neg hqt, if_pos rfl]
    rw [e]
    apply waitSeq_congr next _ rest _ _ hs2.2.2
    intro x hx
    have hxt : x ≠ t := fun e => hnd2.1 (by rw [← e]; exact hx)
    have hxq : x ≠ q := fun e => hnd1.1 (by rw [← e]; exact List.mem_cons_of_mem t hx)
    unfold setWaitNext
    rw [if_neg hxt, if_neg hxq]
  | cons p pre ih =>
    intro h hs hnd
    have hs' : h = p ∧ p ≠ 0 ∧ waitSeq next (next p) (pre ++ q :: t :: rest) := hs
    have hnd' : p ∉ pre ++ q :: t :: rest ∧ (pre ++ q :: t :: rest).Nodup :=
      List.nodup_cons.1 hnd
    have hpq : p ≠ q := fun e => hnd'.1 (by rw [e]; simp)
    have hpt : p ≠ t := fun e => hnd'.1 (by rw [e]; simp)
    show h = p ∧ p ≠ 0 ∧ waitSeq _ (setWaitNext (setWaitNext next q (next t)) t 0 p)
      (pre ++ q :: rest)
    refine ⟨hs'.1, hs'.2.1, ?_⟩
    have e : setWaitNext (setWaitNext next q (next t)) t 0 p = next p := by
      unfold setWaitNext
      rw [if_neg hpt, if_neg hpq]
    rw [e]
    exact ih _ hs'.2.2 hnd'.2

theorem getLastD_append_cons (q d : Nat) (rest : List Nat) :
    ∀ pre : List Nat, (pre ++ q :: rest).getLastD d = rest.getLastD q := by
  intro pre
  induction pre generalizing d with
  | nil => exact List.getLastD_cons d q rest
  | cons p pre ih =>
    rw [List.cons_append, List.getLastD_cons]
    exact ih p

theorem getLastD_mem (rest : List Nat) (hne : rest ≠ []) :
    ∀ q : Nat, rest.getLastD q ∈ rest ∧ ∀ d, rest.getLastD d = rest.getLastD q := by
  induction rest with
  | nil => exact absurd rfl hne
  | cons x rest ih =>
    intro q
    rw [List.getLastD_cons]
    constructor
    · by_cases hr : rest = []
      · subst hr
        exact List.mem_cons_self _ _
      · exact List.mem_cons_of_mem x (ih hr x).1
    · intro d
      rw [List.getLastD_cons]

theorem appendWait_holds (s : WaitList) (l : List Nat) (t : Nat)
    (hinv : waitListHolds s l) (howner : s.owner = t) (ht : t ≠ 0) (hnot : t ∉ l)
    (hnext : s.waitNext t = 0) :
    ∃ s1, monitorAppendWait s t = .done () s1 ∧ waitListHolds s1 (l ++ [t]) ∧
      s1.owner = s.owner ∧
      ((∀ x, x ∉ l → s.waitNext x = 0) → ∀ x, x ∉ l ++ [t] → s1.waitNext x = 0) := by
  obtain ⟨hseq, hnd, htail, hw⟩ := hinv
  have hwt : s.waiting t = false := by
    cases h : s.waiting t
    · rfl
    · exact absurd ((hw t ht).1 h) hnot
  have hwait : ∀ x, x ≠ 0 → (setWaiting s.waiting t true x = true ↔ x ∈ l ++ [t]) := by
    intro x hx
    unfold setWaiting
    by_cases hxt : x = t
    · rw [if_pos hxt, hxt]
      simp
    · rw [if_neg hxt, hw x hx]
      simp [hxt]
  have hnd' : (l ++ [t]).Nodup :=
    List.nodup_append.2 ⟨hnd, List.nodup_singleton t, by
      intro x hx hx'
      rw [List.mem_singleton.1 hx'] at hx
      exact hnot hx⟩
  rcases List.eq_nil_or_concat l with hl | ⟨L, q, hl⟩
  · subst hl
    have htail0 : s.waitTail = 0 := htail
    have hhead : s.waitHead = 0 := hseq
    refine ⟨{ s with waiting := setWaiting s.waiting t true, waitHead := t, waitTail := t },
      ?_, ⟨?_, hnd', ?_, hwait⟩, rfl, ?_⟩
    · unfold monitorAppendWait
      rw [if_neg (fun h => h howner), if_neg (by rw [hwt]; decide),
        if_neg (fun h => h hnext)]
      dsimp only
      rw [if_neg (fun h => h htail0)]
    · show t = t ∧ t ≠ 0 ∧ s.waitNext t = 0
      exact ⟨rfl, ht, hnext⟩
    · rfl
    · intro hidle x hx
      exact hidle x (List.not_mem_nil x)
  · rw [List.concat_eq_append] at hl
    subst hl
    have hq : q ≠ 0 := waitSeq_ne_zero _ _ _ hseq q (by simp)
    have htailq : s.waitTail = q := by rw [htail, List.getLastD_concat]
    refine ⟨{ s with waiting := setWaiting s.waiting t true
                     waitNext := setWaitNext s.waitNext s.waitTail t
                     waitTail := t },
      ?_, ⟨?_, hnd', ?_, hwait⟩, rfl, ?_⟩
    · unfold monitorAppendWait
      rw [if_neg (fun h => h howner), if_neg (by rw [hwt]; decide),
        if_neg (fun h => h hnext)]
      dsimp only
      rw [if_pos (by rw [htailq]; exact hq)]
    · show waitSeq (setWaitNext s.waitNext s.waitTail t) s.waitHead ((L ++ [q]) ++ [t])
      rw [htailq]
      exact waitSeq_snoc s.waitNext q t ht hnext L _ hseq hnd hnot
    · show t = ((L ++ [q]) ++ [t]).getLastD 0
      rw [List.getLastD_concat]
    · intro hidle x hx
      have hxl : x ∉ L ++ [q] := fun h => hx (List.mem_append_left _ h)
      have hxq : x ≠ q := fun e => hxl (by rw [e]; simp)
      show setWaitNext s.waitNext s.waitTail t x = 0
      unfold setWaitNext
      rw [htailq, if_neg hxq]
      exact hidle x hxl

theorem pollWait_holds (s : WaitList) (l : List Nat) (t : Nat)
    (hinv : waitListHolds s l) (howner : s.owner = t) :
    ∃ s1, monitorPollWait s t = .done (fifoPoll l).1 s1 ∧
      waitListHolds s1 (fifoPoll l).2 ∧ s1.owner = s.owner ∧
      ((∀ x, x ∉ l → s.waitNext x = 0) → ∀ x, x ∉ (fifoPoll l).2 → s1.waitNext x = 0) := by
  obtain ⟨hseq, hnd, htail, hw⟩ := hinv
  cases l with
  | nil =>
    have htail0 : s.waitTail = 0 := htail
    have hhead : s.waitHead = 0 := hseq
    refine ⟨s, ?_, ⟨hseq, hnd, htail, hw⟩, rfl, fun hidle => hidle⟩
    unfold monitorPollWait
    rw [if_neg (fun h => h howner), if_neg (fun h => h hhead), if_neg (fun h => h htail0)]
    rfl
  | cons x rest =>
    obtain ⟨hhead, hx, hrest⟩ := waitSeq_head _ _ _ _ hseq
    have hnd' : x ∉ rest ∧ rest.Nodup := List.nodup_cons.1 hnd
    have htl : s.waitTail = rest.getLastD x := by rw [htail, List.getLastD_cons]
    have hseq' : waitSeq (setWaitNext s.waitNext x 0) (s.waitNext x) rest := by
      apply waitSeq_congr s.waitNext _ rest _ _ hrest
      intro y hy
      have hyx : y ≠ x := fun e => hnd'.1 (by rw [← e]; exact hy)
      unfold setWaitNext
      rw [if_neg hyx]
    have hwait : ∀ y, y ≠ 0 → (setWaiting s.waiting x false y = true ↔ y ∈ rest) := by
      intro y hy
      unfold setWaiting
      by_cases hyx : y = x
      · rw [if_pos hyx, hyx]
        simp [hnd'.1]
      · rw [if_neg hyx, hw y hy]
        simp [hyx]
    have hidle' : (∀ y, y ∉ x :: rest → s.waitNext y = 0) →
        ∀ y, y ∉ rest → setWaitNext s.waitNext x 0 y = 0 := by
      intro hidle y hy
      unfold setWaitNext
      by_cases hyx : y = x
      · rw [if_pos hyx]
      · rw [if_neg hyx]
        exact hidle y (fun h => (List.mem_cons.1 h).elim hyx hy)
    by_cases hr : rest = []
    · subst hr
      have htx : s.waitTail = x := htl
      refine ⟨{ s with waitHead := s.waitNext x
                       waiting := setWaiting s.waiting x false
                       waitNext := setWaitNext s.waitNext x 0
                       waitTail := 0 },
        ?_, ⟨hseq', List.nodup_nil, rfl, hwait⟩, rfl, hidle'⟩
      unfold monitorPollWait
      rw [if_neg (fun h => h howner), if_pos (by rw [hhead]; exact hx)]
      dsimp only
      rw [if_pos (by rw [hhead, htx]), hhead]
      rfl
    · obtain ⟨hmem, hd⟩ := getLastD_mem rest hr x
      have hne : x ≠ s.waitTail := by
        rw [htl]
        intro e
        exact hnd'.1 (by rw [e]; exact hmem)
      refine ⟨{ s with waitHead := s.waitNext x
                       waiting := setWaiting s.waiting x false
                       waitNext := setWaitNext s.waitNext x 0 },
        ?_, ⟨hseq', hnd'.2, ?_, hwait⟩, rfl, hidle'⟩
      · unfold monitorPollWait
        rw [if_neg (fun h => h howner), if_pos (by rw [hhead]; exact hx)]
        dsimp only
        rw [if_neg (by rw [hhead]; exact hne), hhead]
        rfl
      · show s.waitTail = rest.getLastD 0
        rw [htl, hd 0]

theorem erase_parts (l : List Nat) (t : Nat) (w : Nat → Bool) (hnd : l.Nodup)
    (hw : ∀ x, x ≠ 0 → (w x = true ↔ x ∈ l)) :
    (l.erase t).Nodup ∧ ∀ y, y ≠ 0 → (setWaiting w t false y = true ↔ y ∈ l.erase t) := by
  refine ⟨hnd.erase t, ?_⟩
  intro y hy
  unfold setWaiting
  rw [List.Nodup.mem_erase_iff hnd]
  by_cases hyt : y = t
  · rw [if_pos hyt]
    simp [hyt]
  · rw [if_neg hyt, hw y hy]
    simp [hyt]

theorem erase_mid (pre rest : List Nat) (q t : Nat) (h1 : t ∉ pre) (h2 : t ≠ q) :
    (pre ++ q :: t :: rest).erase t = pre ++ q :: rest := by
  rw [List.erase_append_right _ h1, List.erase_cons_tail (by simpa using Ne.symm h2),
    List.erase_cons_head]

theorem removeWait_head (s : WaitList) (t : Nat) (rest : List Nat) (fuel : Nat)
    (hinv : waitListHolds s (t :: rest)) :
    ∃ s1, monitorRemoveWaitLoop t (fuel + 1) s 0 s.waitHead = .done () s1 ∧
      waitListHolds s1 ((t :: rest).erase t) ∧ s1.owner = s.owner ∧
      ((∀ x, x ∉ t :: rest → s.waitNext x = 0) →
        ∀ x, x ∉ (t :: rest).erase t → s1.waitNext x = 0) := by
  obtain ⟨hseq, hnd, htail, hw⟩ := hinv
  obtain ⟨hhead, ht, hrest⟩ := waitSeq_head _ _ _ _ hseq
  have hnd' : t ∉ rest ∧ rest.Nodup := List.nodup_cons.1 hnd
  have htl : s.waitTail = rest.getLastD t := by rw [htail, List.getLastD_cons]
  obtain ⟨hnd2, hwait⟩ := erase_parts _ t _ hnd hw
  have he : (t :: rest).erase t = rest := List.erase_cons_head t rest
  have hseq' : waitSeq (setWaitNext s.waitNext t 0) (s.waitNext t) rest := by
    apply waitSeq_congr s.waitNext _ rest _ _ hrest
    intro y hy
    have hyx : y ≠ t := fun e => hnd'.1 (by rw [← e]; exact hy)
    unfold setWaitNext
    rw [if_neg hyx]
  have hidle' : (∀ y, y ∉ t :: rest → s.waitNext y = 0) →
      ∀ y, y ∉ (t :: rest).erase t → setWaitNext s.waitNext t 0 y = 0 := by
    intro hidle y hy
    rw [he] at hy
    unfold setWaitNext
    by_cases hyx : y = t
    · rw [if_pos hyx]
    · rw [if_neg hyx]
      exact hidle y (fun h => (List.mem_cons.1 h).elim hyx hy)
  by_cases hr : rest = []
  · subst hr
    have htx : s.waitTail = t := htl
    have hn0 : s.waitNext t = 0 := hrest
    refine ⟨{ s with waitHead := s.waitNext t
                     waitTail := 0
                     waitNext := setWaitNext s.waitNext t 0
                     waiting := setWaiting s.waiting t false },
      ?_, ⟨?_, hnd2, ?_, hwait⟩, rfl, hidle'⟩
    · unfold monitorRemoveWaitLoop
      rw [if_pos (by rw [hhead]; exact ht), if_pos hhead.symm]
      dsimp only
      rw [if_pos hhead.symm]
      dsimp only
      rw [if_pos htx.symm, if_neg (fun h => h hn0)]
    · rw [he]
      exact hseq'
    · rw [he]
      rfl
  · obtain ⟨hmem, hd⟩ := getLastD_mem rest hr t
    have hne : t ≠ s.waitTail := by
      rw [htl]
      intro e
      exact hnd'.1 (by rw [e]; exact hmem)
    refine ⟨{ s with waitHead := s.waitNext t
                     waitNext := setWaitNext s.waitNext t 0
                     waiting := setWaiting s.waiting t false },
      ?_, ⟨?_, hnd2, ?_, hwait⟩, rfl, hidle'⟩
    · unfold monitorRemoveWaitLoop
      rw [if_pos (by rw [hhead]; exact ht), if_pos hhead.symm]
      dsimp only
      rw [if_pos hhead.symm]
      dsimp only
      rw [if_neg hne]
    · rw [he]
      exact hseq'
    · rw [he]
      show s.waitTail = rest.getLastD 0
      rw [htl, hd 0]

theorem removeWait_mid (s : WaitList) (t q : Nat) (pre rest : List Nat) (fuel : Nat)
    (hinv : waitListHolds s (pre ++ q :: t :: rest)) :
    ∃ s1, monitorRemoveWaitLoop t (fuel + 1) s q t = .done () s1 ∧
      waitListHolds s1 ((pre ++ q :: t :: rest).erase t) ∧ s1.owner = s.owner ∧
      ((∀ x, x ∉ pre ++ q :: t :: rest → s.waitNext x = 0) →
        ∀ x, x ∉ (pre ++ q :: t :: rest).erase t → s1.waitNext x = 0) := by
  obtain ⟨hseq, hnd, htail, hw⟩ := hinv
  obtain ⟨hnd2, hwait⟩ := erase_parts _ t _ hnd hw
  have hnd3 : pre.Nodup ∧ (q :: t :: rest).Nodup ∧ pre.Disjoint (q :: t :: rest) :=
    List.nodup_append.1 hnd
  have hnd4 : q ∉ t :: rest ∧ (t :: rest).Nodup := List.nodup_cons.1 hnd3.2.1
  have hnd5 : t ∉ rest ∧ rest.Nodup := List.nodup_cons.1 hnd4.2
  have htpre : t ∉ pre := fun h => hnd3.2.2 h (by simp)
  have htq : t ≠ q := fun e => hnd4.1 (by rw [← e]; exact List.mem_cons_self t rest)
  have he : (pre ++ q :: t :: rest).erase t = pre ++ q :: rest := erase_mid pre rest q t htpre htq
  have ht : t ≠ 0 := waitSeq_ne_zero _ _ _ hseq t (by simp)
  have hhead : t ≠ s.waitHead := by
    intro e
    cases pre with
    | nil =>
      have := (waitSeq_head _ _ _ _ hseq).1
      exact htq (e.trans this)
    | cons p pre =>
      have := (waitSeq_head _ _ _ _ hseq).1
      exact htpre (by rw [e, this]; exact List.mem_cons_self p pre)
  have hqt : waitSeq s.waitNext (s.waitNext q) (t :: rest) := waitSeq_tail _ _ _ _ _ hseq
  obtain ⟨_, _, hrest⟩ := waitSeq_head _ _ _ _ hqt
  have htl : s.waitTail = rest.getLastD t := by
    rw [htail, getLastD_append_cons, List.getLastD_cons]
  have hseq' : waitSeq (setWaitNext (setWaitNext s.waitNext q (s.waitNext t)) t 0)
      s.waitHead (pre ++ q :: rest) := waitSeq_unlink s.waitNext q t rest pre _ hseq hnd
  have hidle' : (∀ y, y ∉ pre ++ q :: t :: rest → s.waitNext y = 0) →
      ∀ y, y ∉ (pre ++ q :: t :: rest).erase t →
        setWaitNext (setWaitNext s.waitNext q (s.waitNext t)) t 0 y = 0 := by
    intro hidle y hy
    unfold setWaitNext
    by_cases hyt : y = t
    · rw [if_pos hyt]
    · have hyl : y ∉ pre ++ q :: t :: rest :=
        fun h => hy ((List.mem_erase_of_ne hyt).2 h)
      have hyq : y ≠ q := fun e => hyl (by rw [e]; simp)
      rw [if_neg hyt, if_neg hyq]
      exact hidle y hyl
  by_cases hr : rest = []
  · subst hr
    have htx : s.waitTail = t := htl
    have hn0 : s.waitNext t = 0 := hrest
    refine ⟨{ s with waitNext := setWaitNext (setWaitNext s.waitNext q (s.waitNext t)) t 0
                     waitTail := q
                     waiting := setWaiting s.waiting t false },
      ?_, ⟨?_, hnd2, ?_, hwait⟩, rfl, hidle'⟩
    · unfold monitorRemoveWaitLoop
      rw [if_pos ht, if_pos rfl]
      dsimp only
      rw [if_neg hhead]
      dsimp only
      rw [if_pos htx.symm]
      have e : setWaitNext s.waitNext q (s.waitNext t) t = 0 := by
        unfold setWaitNext
        rw [if_neg htq, hn0]
      rw [if_neg (fun h => h e)]
    · rw [he]
      exact hseq'
    · rw [he]
      show q = (pre ++ [q]).getLastD 0
      rw [List.getLastD_concat]
  · obtain ⟨hmem, hd⟩ := getLastD_mem rest hr t
    have hne : t ≠ s.waitTail := by
      rw [htl]
      intro e
      exact hnd5.1 (by rw [e]; exact hmem)
    refine ⟨{ s with waitNext := setWaitNext (setWaitNext s.waitNext q (s.waitNext t)) t 0
                     waiting := setWaiting s.waiting t false },
      ?_, ⟨?_, hnd2, ?_, hwait⟩, rfl, hidle'⟩
    · unfold monitorRemoveWaitLoop
      rw [if_pos ht, if_pos rfl]
      dsimp only
      rw [if_neg hhead]
      dsimp only
      rw [if_neg hne]
    · rw [he]
      exact hseq'
    · rw [he]
      show s.waitTail = (pre ++ q :: rest).getLastD 0
      rw [htl, getLastD_append_cons, hd q]

theorem removeWait_walk (s : WaitList) (l : List Nat) (t : Nat)
    (hinv : waitListHolds s l) :
    ∀ (suf pre : List Nat) (q fuel : Nat), l = pre ++ q :: suf → t ∉ pre → t ≠ q →
      suf.length < fuel →
      (t ∈ suf → ∃ s1, monitorRemoveWaitLoop t fuel s q (s.waitNext q) = .done () s1 ∧
        waitListHolds s1 (l.erase t) ∧ s1.owner = s.owner ∧
        ((∀ x, x ∉ l → s.waitNext x = 0) → ∀ x, x ∉ l.erase t → s1.waitNext x = 0)) ∧
      (t ∉ suf → monitorRemoveWaitLoop t fuel s q (s.waitNext q) = .aborted) := by
  intro suf
  induction suf with
  | nil =>
    intro pre q fuel hl _ _ hfuel
    obtain ⟨f, rfl⟩ : ∃ f, fuel = f + 1 := ⟨fuel - 1, by simp at hfuel; omega⟩
    have hq0 : s.waitNext q = 0 := by
      have h := hinv.1
      rw [hl] at h
      exact waitSeq_tail _ _ _ _ _ h
    refine ⟨fun h => absurd h (List.not_mem_nil t), fun _ => ?_⟩
    unfold monitorRemoveWaitLoop
    rw [if_neg (fun h => h hq0)]
  | cons x rest ih =>
    intro pre q fuel hl hpre hq hfuel
    obtain ⟨f, rfl⟩ : ∃ f, fuel = f + 1 := ⟨fuel - 1, by simp at hfuel; omega⟩
    have hf : rest.length < f := by simp at hfuel; omega
    have hqx : waitSeq s.waitNext (s.waitNext q) (x :: rest) := by
      have h := hinv.1
      rw [hl] at h
      exact waitSeq_tail _ _ _ _ _ h
    obtain ⟨hnx, hx, _⟩ := waitSeq_head _ _ _ _ hqx
    by_cases htx : t = x
    · subst htx
      refine ⟨fun _ => ?_, fun h => absurd (List.mem_cons_self t rest) h⟩
      rw [hnx, hl]
      rw [hl] at hinv
      exact removeWait_mid s t q pre rest f hinv
    · have hl' : l = (pre ++ [q]) ++ x :: rest := by
        rw [hl, List.append_assoc]
        rfl
      have hpre' : t ∉ pre ++ [q] := by
        intro h
        rcases List.mem_append.1 h with h | h
        · exact hpre h
        · exact hq (List.mem_singleton.1 h)
      have hstep : monitorRemoveWaitLoop t (f + 1) s q (s.waitNext q)
          = monitorRemoveWaitLoop t f s x (s.waitNext x) := by
        rw [hnx]
        show (if x ≠ 0 then _ else _) = _
        rw [if_pos hx, if_neg htx]
      rw [hstep]
      obtain ⟨h1, h2⟩ := ih (pre ++ [q]) x f hl' hpre' htx hf
      refine ⟨fun h => h1 ((List.mem_cons.1 h).resolve_left htx), fun h => h2 ?_⟩
      exact fun hm => h (List.mem_cons_of_mem x hm)

theorem demoWaitList_holds (owner : Nat) : waitListHolds (demoWaitList owner) [5, 6, 7] := by
  have hseq : waitSeq (fun x => if x = 5 then 6 else if x = 6 then 7 else 0) 5 [5, 6, 7] := by
    decide
  refine ⟨hseq, by decide, rfl, ?_⟩
  intro x _
  show ((x == 5 || x == 6 || x == 7) = true) ↔ x ∈ [5, 6, 7]
  simp [or_assoc]

/-- C34: the monitor wait list refines a FIFO queue.  Let the wait list `s` hold the queue
`l` (`l` is the sequence reachable from `waitHead` through `waitNext`, without repetition,
`waitTail` is its last element, and a thread's `waiting` flag is set iff it is in `l`), and
let the calling thread `t` own the monitor.  Then `waitTail` is null iff `l` is empty and the
last element's `waitNext` is null.  `monitorAppendWait(t)`, for `t` not in the queue and with
`waitNext` null, completes and the list holds `l` with `t` appended at the end; for `t` in
the queue it aborts.  `monitorPollWait` completes, returns the first thread of `l` (null for
the empty queue) and the list holds the rest.  `monitorRemoveWait(t)` completes iff `t` is in
`l`, and then the list holds `l` without `t`; otherwise it aborts.  Each operation leaves the
owner as it is and keeps `waitNext` null for the threads outside the queue. -/
theorem waitList_refines_fifo (s : WaitList) (l : List Nat) (t : Nat)
    (hinv : waitListHolds s l) (howner : s.owner = t) (ht : t ≠ 0) :
    (s.waitTail = 0 ↔ l = []) ∧
    (l ≠ [] → s.waitTail ∈ l ∧ s.waitNext s.waitTail = 0) ∧
    (t ∉ l → s.waitNext t = 0 →
      ∃ s1, monitorAppendWait s t = .done () s1 ∧ waitListHolds s1 (fifoAppend l t) ∧
        s1.owner = s.owner ∧
        ((∀ x, x ∉ l → s.waitNext x = 0) → ∀ x, x ∉ fifoAppend l t → s1.waitNext x = 0)) ∧
    (t ∈ l → monitorAppendWait s t = .aborted) ∧
    (∃ s1, monitorPollWait s t = .done (fifoPoll l).1 s1 ∧
      waitListHolds s1 (fifoPoll l).2 ∧ s1.owner = s.owner ∧
      ((∀ x, x ∉ l → s.waitNext x = 0) → ∀ x, x ∉ (fifoPoll l).2 → s1.waitNext x = 0)) ∧
    (∀ fuel, l.length < fuel →
      (t ∈ l → ∃ s1, monitorRemoveWait fuel s t = .done () s1 ∧
        waitListHolds s1 (fifoRemove l t) ∧ s1.owner = s.owner ∧
        ((∀ x, x ∉ l → s.waitNext x = 0) → ∀ x, x ∉ fifoRemove l t → s1.waitNext x = 0)) ∧
      (t ∉ l → monitorRemoveWait fuel s t = .aborted)) := by
  refine ⟨?_, ?_, ?_, ?_, ?_, ?_⟩
  · obtain ⟨hseq, _, htail, _⟩ := hinv
    rcases List.eq_nil_or_concat l with hl | ⟨L, q, hl⟩
    · subst hl
      exact ⟨fun _ => rfl, fun _ => htail⟩
    · rw [List.concat_eq_append] at hl
      subst hl
      have hq : q ≠ 0 := waitSeq_ne_zero _ _ _ hseq q (by simp)
      rw [htail, List.getLastD_concat]
      exact ⟨fun h => absurd h hq, fun h => absurd h (by simp)⟩
  · intro hne
    obtain ⟨hseq, _, htail, _⟩ := hinv
    rcases List.eq_nil_or_concat l with hl | ⟨L, q, hl⟩
    · exact absurd hl hne
    · rw [List.concat_eq_append] at hl
      subst hl
      rw [htail, List.getLastD_concat]
      refine ⟨by simp, ?_⟩
      exact waitSeq_tail _ _ _ _ _ hseq
  · intro hnot hnext
    exact appendWait_holds s l t hinv howner ht hnot hnext
  · intro hmem
    have hw : s.waiting t = true := (hinv.2.2.2 t ht).2 hmem
    unfold monitorAppendWait
    rw [if_neg (fun h => h howner), if_pos hw]
  · exact pollWait_holds s l t hinv howner
  · intro fuel hfuel
    obtain ⟨f, rfl⟩ : ∃ f, fuel = f + 1 := ⟨fuel - 1, by omega⟩
    have e : monitorRemoveWait (f + 1) s t = monitorRemoveWaitLoop t (f + 1) s 0 s.waitHead := by
      unfold monitorRemoveWait
      rw [if_neg (fun h => h howner)]
    rw [e]
    cases l with
    | nil =>
      have hhead : s.waitHead = 0 := hinv.1
      refine ⟨fun h => absurd h (List.not_mem_nil t), fun _ => ?_⟩
      unfold monitorRemoveWaitLoop
      rw [if_neg (fun h => h hhead)]
    | cons x rest =>
      obtain ⟨hhead, hx, _⟩ := waitSeq_head _ _ _ _ hinv.1
      by_cases htx : t = x
      · subst htx
        exact ⟨fun _ => removeWait_head s t rest f hinv,
          fun h => absurd (List.mem_cons_self t rest) h⟩
      · have hf : rest.length < f := by simp at hfuel; omega
        have hstep : monitorRemoveWaitLoop t (f + 1) s 0 s.waitHead
            = monitorRemoveWaitLoop t f s x (s.waitNext x) := by
          rw [hhead]
          show (if x ≠ 0 then _ else _) = _
          rw [if_pos hx, if_neg htx]
        rw [hstep]
        obtain ⟨h1, h2⟩ := removeWait_walk s (x :: rest) t hinv rest [] x f rfl
          (List.not_mem_nil t) htx hf
        refine ⟨fun h => h1 ((List.mem_cons.1 h).resolve_left htx), fun h => h2 ?_⟩
        exact fun hm => h (List.mem_cons_of_mem x hm)

theorem waitList_refines_fifo_witness :
    (demoWaitList 1).owner = 1 ∧ (1 : Nat) ≠ 0 ∧ (demoWaitList 6).owner = 6 ∧
    (6 : Nat) ≠ 0 ∧ (1 : Nat) ∉ [5, 6, 7] ∧ (demoWaitList 1).waitNext 1 = 0 ∧
    (6 : Nat) ∈ [5, 6, 7] ∧
    (∃ s1, monitorAppendWait (demoWaitList 1) 1 = .done () s1 ∧
      waitListHolds s1 [5, 6, 7, 1]) ∧
    (∃ s1, monitorPollWait (demoWaitList 1) 1 = .done 5 s1 ∧ waitListHolds s1 [6, 7]) ∧
    (∃ s1, monitorRemoveWait 4 (demoWaitList 6) 6 = .done () s1 ∧
      waitListHolds s1 [5, 7]) ∧
    monitorRemoveWait 4 (demoWaitList 1) 1 = .aborted :=
  ⟨rfl, by decide, rfl, by decide, by decide, by decide, by decide,
    ((waitList_refines_fifo (demoWaitList 1) [5, 6, 7] 1 (demoWaitList_holds 1) rfl
      (by decide)).2.2.1 (by decide) (by decide)).imp fun _ h => ⟨h.1, h.2.1⟩,
    (waitList_refines_fifo (demoWaitList 1) [5, 6, 7] 1 (demoWaitList_holds 1) rfl
      (by decide)).2.2.2.2.1.imp fun _ h => ⟨h.1, h.2.1⟩,
    (((waitList_refines_fifo (demoWaitList 6) [5, 6, 7] 6 (demoWaitList_holds 6) rfl
      (by decide)).2.2.2.2.2 4 (by decide)).1 (by decide)).imp fun _ h => ⟨h.1, h.2.1⟩,
    ((waitList_refines_fifo (demoWaitList 1) [5, 6, 7] 1 (demoWaitList_holds 1) rfl
      (by decide)).2.2.2.2.2 4 (by decide)).2 (by decide)⟩

/-! ## C35: the stack opcodes -/

/-- The slot `i` of a word map. -/
theorem slot_copy1 (s : Nat → Nat) (d c i : Nat) :
    (copyWords s (2 * d) (2 * c) 2 (2 * i), copyWords s (2 * d) (2 * c) 2 (2 * i + 1))
      = if i = d then (s (2 * c), s (2 * c + 1)) else (s (2 * i), s (2 * i + 1)) := by
  unfold copyWords
  by_cases h : i = d
  · subst h
    rw [if_pos rfl, if_pos (by omega), if_pos (by omega)]
    rw [show 2 * c + (2 * i - 2 * i) = 2 * c by omega,
      show 2 * c + (2 * i + 1 - 2 * i) = 2 * c + 1 by omega]
  · rw [if_neg h, if_neg (by omega), if_neg (by omega)]

theorem slot_copy2 (s : Nat → Nat) (d c i : Nat) :
    (copyWords s (2 * d) (2 * c) 4 (2 * i), copyWords s (2 * d) (2 * c) 4 (2 * i + 1))
      = if i = d then (s (2 * c), s (2 * c + 1))
        else if i = d + 1 then (s (2 * (c + 1)), s (2 * (c + 1) + 1))
        else (s (2 * i), s (2 * i + 1)) := by
  unfold copyWords
  by_cases h : i = d
  · subst h
    rw [if_pos rfl, if_pos (by omega), if_pos (by omega)]
    rw [show 2 * c + (2 * i - 2 * i) = 2 * c by omega,
      show 2 * c + (2 * i + 1 - 2 * i) = 2 * c + 1 by omega]
  · by_cases h1 : i = d + 1
    · subst h1
      rw [if_neg h, if_pos rfl, if_pos (by omega), if_pos (by omega)]
      rw [show 2 * c + (2 * (d + 1) - 2 * d) = 2 * (c + 1) by omega,
        show 2 * c + (2 * (d + 1) + 1 - 2 * d) = 2 * (c + 1) + 1 by omega]
    · rw [if_neg h, if_neg h1, if_neg (by omega), if_neg (by omega)]

theorem slot_set (s : Nat → Nat) (d a b i : Nat) :
    (setWord (setWord s (2 * d) a) (2 * d + 1) b (2 * i),
      setWord (setWord s (2 * d) a) (2 * d + 1) b (2 * i + 1))
      = if i = d then (a, b) else (s (2 * i), s (2 * i + 1)) := by
  by_cases h : i = d
  · subst h
    rw [if_pos rfl, setWord_other _ _ (by omega), setWord_same, setWord_same]
  · rw [if_neg h, setWord_other _ _ (by omega), setWord_other _ _ (by omega),
      setWord_other _ _ (by omega), setWord_other _ _ (by omega)]

theorem dup_x1_eq (t : Thread) (n : Nat) (hn : n + 4 < 2147483648) (hsp : t.sp = n + 2) :
    dup_x1 t = .loop { t with
      stack := copyWords (copyWords (copyWords t.stack (2 * (n + 2)) (2 * (n + 1)) 2)
        (2 * (n + 1)) (2 * n) 2) (2 * n) (2 * (n + 2)) 2
      sp := n + 3 } := by
  have e0 : u32 (t.sp * 2) = 2 * (n + 2) := by unfold u32 U32; omega
  have e1 : u32 (u32 (t.sp + U32 - 1) * 2) = 2 * (n + 1) := by unfold u32 U32; omega
  have e2 : u32 (u32 (t.sp + U32 - 2) * 2) = 2 * n := by unfold u32 U32; omega
  have e3 : u32 (t.sp + 1) = n + 3 := by unfold u32 U32; omega
  unfold dup_x1
  dsimp only
  rw [e0, e1, e2, e3]

theorem dup_x2_eq (t : Thread) (n : Nat) (hn : n + 5 < 2147483648) (hsp : t.sp = n + 3) :
    dup_x2 t = .loop { t with
      stack := copyWords (copyWords (copyWords (copyWords t.stack
        (2 * (n + 3)) (2 * (n + 2)) 2) (2 * (n + 2)) (2 * (n + 1)) 2)
        (2 * (n + 1)) (2 * n) 2) (2 * n) (2 * (n + 3)) 2
      sp := n + 4 } := by
  have e0 : u32 (t.sp * 2) = 2 * (n + 3) := by unfold u32 U32; omega
  have e1 : u32 (u32 (t.sp + U32 - 1) * 2) = 2 * (n + 2) := by unfold u32 U32; omega
  have e2 : u32 (u32 (t.sp + U32 - 2) * 2) = 2 * (n + 1) := by unfold u32 U32; omega
  have e3 : u32 (u32 (t.sp + U32 - 3) * 2) = 2 * n := by unfold u32 U32; omega
  have e4 : u32 (t.sp + 1) = n + 4 := by unfold u32 U32; omega
  unfold dup_x2
  dsimp only
  rw [e0, e1, e2, e3, e4]

theorem dup2_x1_eq (t : Thread) (n : Nat) (hn : n + 6 < 2147483648) (hsp : t.sp = n + 3) :
    dup2_x1 t = .loop { t with
      stack := copyWords (copyWords (copyWords (copyWords t.stack
        (2 * (n + 4)) (2 * (n + 2)) 2) (2 * (n + 3)) (2 * (n + 1)) 2)
        (2 * (n + 2)) (2 * n) 2) (2 * n) (2 * (n + 3)) 4
      sp := n + 5 } := by
  have e0 : u32 (t.sp * 2) = 2 * (n + 3) := by unfold u32 U32; omega
  have e1 : u32 (u32 (t.sp + U32 - 1) * 2) = 2 * (n + 2) := by unfold u32 U32; omega
  have e2 : u32 (u32 (t.sp + U32 - 2) * 2) = 2 * (n + 1) := by unfold u32 U32; omega
  have e3 : u32 (u32 (t.sp + U32 - 3) * 2) = 2 * n := by unfold u32 U32; omega
  have e4 : u32 (u32 (t.sp + 1) * 2) = 2 * (n + 4) := by unfold u32 U32; omega
  have e5 : u32 (t.sp + 2) = n + 5 := by unfold u32 U32; omega
  unfold dup2_x1
  dsimp only
  rw [e0, e1, e2, e3, e4, e5]

theorem dup2_x2_eq (t : Thread) (n : Nat) (hn : n + 7 < 2147483648) (hsp : t.sp = n + 4) :
    dup2_x2 t = .loop { t with
      stack := copyWords (copyWords (copyWords (copyWords (copyWords t.stack
        (2 * (n + 5)) (2 * (n + 3)) 2) (2 * (n + 4)) (2 * (n + 2)) 2)
        (2 * (n + 3)) (2 * (n + 1)) 2) (2 * (n + 2)) (2 * n) 2) (2 * n) (2 * (n + 4)) 4
      sp := n + 6 } := by
  have e0 : u32 (t.sp * 2) = 2 * (n + 4) := by unfold u32 U32; omega
  have e1 : u32 (u32 (t.sp + U32 - 1) * 2) = 2 * (n + 3) := by unfold u32 U32; omega
  have e2 : u32 (u32 (t.sp + U32 - 2) * 2) = 2 * (n + 2) := by unfold u32 U32; omega
  have e3 : u32 (u32 (t.sp + U32 - 3) * 2) = 2 * (n + 1) := by unfold u32 U32; omega
  have e3' : u32 (u32 (t.sp + U32 - 4) * 2) = 2 * n := by unfold u32 U32; omega
  have e4 : u32 (u32 (t.sp + 1) * 2) = 2 * (n + 5) := by unfold u32 U32; omega
  have e5 : u32 (t.sp + 2) = n + 6 := by unfold u32 U32; omega
  unfold dup2_x2
  dsimp only
  rw [e0, e1, e2, e3, e3', e4, e5]

theorem swap_eq (t : Thread) (n : Nat) (hn : n + 3 < 2147483648) (hsp : t.sp = n + 2) :
    swap t = .loop { t with
      stack := setWord (setWord (copyWords t.stack (2 * (n + 1)) (2 * n) 2) (2 * n)
        (t.stack (2 * (n + 1)))) (2 * n + 1) (t.stack (2 * (n + 1) + 1)) } := by
  have e1 : u32 (u32 (t.sp + U32 - 1) * 2) = 2 * (n + 1) := by unfold u32 U32; omega
  have e2 : u32 (u32 (t.sp + U32 - 2) * 2) = 2 * n := by unfold u32 U32; omega
  unfold swap
  dsimp only
  rw [e1, e2]

theorem words_ext (f g : Nat → Nat)
    (h : ∀ i, (f (2 * i), f (2 * i + 1)) = (g (2 * i), g (2 * i + 1))) : f = g := by
  funext j
  rcases Nat.even_or_odd' j with ⟨k, hk | hk⟩
  · rw [hk]
    exact (Prod.mk.inj (h k)).1
  · rw [hk]
    exact (Prod.mk.inj (h k)).2

/-- C35: the stack opcodes move whole (tag, value) slots and change nothing but the stack
and `sp`.  With `v1` the top slot (at `sp - 1`), `v2` the slot below it, and so on:
`dup_x1` turns `.., v2, v1` into `.., v1, v2, v1`; `dup_x2` turns `.., v3, v2, v1` into
`.., v1, v3, v2, v1`; `dup2_x1` turns `.., v3, v2, v1` into `.., v2, v1, v3, v2, v1`;
`dup2_x2` turns `.., v4, v3, v2, v1` into `.., v2, v1, v4, v3, v2, v1`; `swap` exchanges the
top two slots, leaves `sp` as it is, and applied twice gives back the thread.  In each case
the arm goes on with the dispatch loop, every slot other than the listed ones is unchanged,
and so are the registers other than `sp`. -/
theorem stack_opcodes_reshuffle (t : Thread) (n : Nat) (hn : n + 7 < 2147483648) :
    (t.sp = n + 2 →
      (dup_x1 t).isLoop = true ∧ (dup_x1 t).thread.sp = n + 3 ∧
      (dup_x1 t).thread.slot n = t.slot (n + 1) ∧
      (dup_x1 t).thread.slot (n + 1) = t.slot n ∧
      (dup_x1 t).thread.slot (n + 2) = t.slot (n + 1) ∧
      (∀ i, i < n ∨ n + 2 < i → (dup_x1 t).thread.slot i = t.slot i) ∧
      { (dup_x1 t).thread with stack := t.stack, sp := t.sp } = t) ∧
    (t.sp = n + 3 →
      (dup_x2 t).isLoop = true ∧ (dup_x2 t).thread.sp = n + 4 ∧
      (dup_x2 t).thread.slot n = t.slot (n + 2) ∧
      (dup_x2 t).thread.slot (n + 1) = t.slot n ∧
      (dup_x2 t).thread.slot (n + 2) = t.slot (n + 1) ∧
      (dup_x2 t).thread.slot (n + 3) = t.slot (n + 2) ∧
      (∀ i, i < n ∨ n + 3 < i → (dup_x2 t).thread.slot i = t.slot i) ∧
      { (dup_x2 t).thread with stack := t.stack, sp := t.sp } = t) ∧
    (t.sp = n + 3 →
      (dup2_x1 t).isLoop = true ∧ (dup2_x1 t).thread.sp = n + 5 ∧
      (dup2_x1 t).thread.slot n = t.slot (n + 1) ∧
      (dup2_x1 t).thread.slot (n + 1) = t.slot (n + 2) ∧
      (dup2_x1 t).thread.slot (n + 2) = t.slot n ∧
      (dup2_x1 t).thread.slot (n + 3) = t.slot (n + 1) ∧
      (dup2_x1 t).thread.slot (n + 4) = t.slot (n + 2) ∧
      (∀ i, i < n ∨ n + 4 < i → (dup2_x1 t).thread.slot i = t.slot i) ∧
      { (dup2_x1 t).thread with stack := t.stack, sp := t.sp } = t) ∧
    (t.sp = n + 4 →
      (dup2_x2 t).isLoop = true ∧ (dup2_x2 t).thread.sp = n + 6 ∧
      (dup2_x2 t).thread.slot n = t.slot (n + 2) ∧
      (dup2_x2 t).thread.slot (n + 1) = t.slot (n + 3) ∧
      (dup2_x2 t).thread.slot (n + 2) = t.slot n ∧
      (dup2_x2 t).thread.slot (n + 3) = t.slot (n + 1) ∧
      (dup2_x2 t).thread.slot (n + 4) = t.slot (n + 2) ∧
      (dup2_x2 t).thread.slot (n + 5) = t.slot (n + 3) ∧
      (∀ i, i < n ∨ n + 5 < i → (dup2_x2 t).thread.slot i = t.slot i) ∧
      { (dup2_x2 t).thread with stack := t.stack, sp := t.sp } = t) ∧
    (t.sp = n + 2 →
      (swap t).isLoop = true ∧ (swap t).thread.sp = n + 2 ∧
      (swap t).thread.slot n = t.slot (n + 1) ∧
      (swap t).thread.slot (n + 1) = t.slot n ∧
      (∀ i, i < n ∨ n + 1 < i → (swap t).thread.slot i = t.slot i) ∧
      { (swap t).thread with stack := t.stack } = t ∧
      swap (swap t).thread = .loop t) := by
  refine ⟨?_, ?_, ?_, ?_, ?_⟩
  · intro hsp
    rw [dup_x1_eq t n (by omega) hsp]
    refine ⟨rfl, rfl, ?_, ?_, ?_, ?_, ?_⟩
    · show (copyWords _ _ _ _ _, copyWords _ _ _ _ _) = _
      simp (disch := omega) only [slot_copy1, if_pos, if_neg]
      rfl
    · show (copyWords _ _ _ _ _, copyWords _ _ _ _ _) = _
      simp (disch := omega) only [slot_copy1, if_pos, if_neg]
      rfl
    · show (copyWords _ _ _ _ _, copyWords _ _ _ _ _) = _
      simp (disch := omega) only [slot_copy1, if_pos, if_neg]
      rfl
    · intro i hi
      show (copyWords _ _ _ _ _, copyWords _ _ _ _ _) = _
      simp (disch := omega) only [slot_copy1, if_pos, if_neg]
      rfl
    · simp only [Step.thread, ← hsp]
  · intro hsp
    rw [dup_x2_eq t n (by omega) hsp]
    refine ⟨rfl, rfl, ?_, ?_, ?_, ?_, ?_, ?_⟩
    · show (copyWords _ _ _ _ _, copyWords _ _ _ _ _) = _
      simp (disch := omega) only [slot_copy1, if_pos, if_neg]
      rfl
    · show (copyWords _ _ _ _ _, copyWords _ _ _ _ _) = _
      simp (disch := omega) only [slot_copy1, if_pos, if_neg]
      rfl
    · show (copyWords _ _ _ _ _, copyWords _ _ _ _ _) = _
      simp (disch := omega) only [slot_copy1, if_pos, if_neg]
      rfl
    · show (copyWords _ _ _ _ _, copyWords _ _ _ _ _) = _
      simp (disch := omega) only [slot_copy1, if_pos, if_neg]
      rfl
    · intro i hi
      show (copyWords _ _ _ _ _, copyWords _ _ _ _ _) = _
      simp (disch := omega) only [slot_copy1, if_pos, if_neg]
      rfl
    · simp only [Step.thread, ← hsp]
  · intro hsp
    rw [dup2_x1_eq t n (by omega) hsp]
    refine ⟨rfl, rfl, ?_, ?_, ?_, ?_, ?_, ?_, ?_⟩
    · show (copyWords _ _ _ _ _, copyWords _ _ _ _ _) = _
      simp (disch := omega) only [slot_copy1, slot_copy2, if_pos, if_neg]
      rfl
    · show (copyWords _ _ _ _ _, copyWords _ _ _ _ _) = _
      simp (disch := omega) only [slot_copy1, slot_copy2, if_pos, if_neg]
      rfl
    · show (copyWords _ _ _ _ _, copyWords _ _ _ _ _) = _
      simp (disch := omega) only [slot_copy1, slot_copy2, if_pos, if_neg]
      rfl
    · show (copyWords _ _ _ _ _, copyWords _ _ _ _ _) = _
      simp (disch := omega) only [slot_copy1, slot_copy2, if_pos, if_neg]
      rfl
    · show (copyWords _ _ _ _ _, copyWords _ _ _ _ _) = _
      simp (disch := omega) only [slot_copy1, slot_copy2, if_pos, if_neg]
      rfl
    · intro i hi
      show (copyWords _ _ _ _ _, copyWords _ _ _ _ _) = _
      simp (disch := omega) only [slot_copy1, slot_copy2, if_pos, if_neg]
      rfl
    · simp only [Step.thread, ← hsp]
  · intro hsp
    rw [dup2_x2_eq t n (by omega) hsp]
    refine ⟨rfl, rfl, ?_, ?_, ?_, ?_, ?_, ?_, ?_, ?_⟩
    · show (copyWords _ _ _ _ _, copyWords _ _ _ _ _) = _
      simp (disch := omega) only [slot_copy1, slot_copy2, if_pos, if_neg]
      rfl
    · show (copyWords _ _ _ _ _, copyWords _ _ _ _ _) = _
      simp (disch := omega) only [slot_copy1, slot_copy2, if_pos, if_neg]
      rfl
    · show (copyWords _ _ _ _ _, copyWords _ _ _ _ _) = _
      simp (disch := omega) only [slot_copy1, slot_copy2, if_pos, if_neg]
      rfl
    · show (copyWords _ _ _ _ _, copyWords _ _ _ _ _) = _
      simp (disch := omega) only [slot_copy1, slot_copy2, if_pos, if_neg]
      rfl
    · show (copyWords _ _ _ _ _, copyWords _ _ _ _ _) = _
      simp (disch := omega) only [slot_copy1, slot_copy2, if_pos, if_neg]
      rfl
    · show (copyWords _ _ _ _ _, copyWords _ _ _ _ _) = _
      simp (disch := omega) only [slot_copy1, slot_copy2, if_pos, if_neg]
      rfl
    · intro i hi
      show (copyWords _ _ _ _ _, copyWords _ _ _ _ _) = _
      simp (disch := omega) only [slot_copy1, slot_copy2, if_pos, if_neg]
      rfl
    · simp only [Step.thread, ← hsp]
  · intro hsp
    have e := swap_eq t n (by omega) hsp
    have e' := swap_eq (swap t).thread n (by omega) (by rw [e]; exact hsp)
    have hinv : swap (swap t).thread = .loop t := by
      rw [e', e]
      dsimp only [Step.thread]
      congr 1
      have hs : setWord (setWord (copyWords
          (setWord (setWord (copyWords t.stack (2 * (n + 1)) (2 * n) 2) (2 * n)
            (t.stack (2 * (n + 1)))) (2 * n + 1) (t.stack (2 * (n + 1) + 1)))
          (2 * (n + 1)) (2 * n) 2) (2 * n)
          (setWord (setWord (copyWords t.stack (2 * (n + 1)) (2 * n) 2) (2 * n)
            (t.stack (2 * (n + 1)))) (2 * n + 1) (t.stack (2 * (n + 1) + 1)) (2 * (n + 1))))
          (2 * n + 1)
          (setWord (setWord (copyWords t.stack (2 * (n + 1)) (2 * n) 2) (2 * n)
            (t.stack (2 * (n + 1)))) (2 * n + 1) (t.stack (2 * (n + 1) + 1))
            (2 * (n + 1) + 1)) = t.stack := by
        apply words_ext
        intro i
        by_cases h0 : i = n
        · subst h0
          simp (disch := omega) only [slot_set, slot_copy1, if_pos, if_neg, if_true, if_false]
        · by_cases h1 : i = n + 1
          · subst h1
            simp (disch := omega) only [slot_set, slot_copy1, if_pos, if_neg, if_true,
              if_false]
          · simp (disch := omega) only [slot_set, slot_copy1, if_pos, if_neg, if_true,
              if_false]
      rw [hs]
    rw [e] at hinv ⊢
    refine ⟨rfl, hsp, ?_, ?_, ?_, rfl, hinv⟩
    · show (setWord _ _ _ _, setWord _ _ _ _) = _
      simp (disch := omega) only [slot_set, slot_copy1, if_pos, if_neg]
      rfl
    · show (setWord _ _ _ _, setWord _ _ _ _) = _
      simp (disch := omega) only [slot_set, slot_copy1, if_pos, if_neg]
      rfl
    · intro i hi
      show (setWord _ _ _ _, setWord _ _ _ _) = _
      simp (disch := omega) only [slot_set, slot_copy1, if_pos, if_neg]
      rfl

theorem stack_opcodes_reshuffle_witness :
    ((2 : Nat) + 7 < 2147483648 ∧ shuffleThread.sp = 2 + 2 ∧ shuffleThread.sp = 1 + 3 ∧
      shuffleThread.sp = 0 + 4) ∧
    (shuffleThread.slot 2 = (0, 13) ∧ shuffleThread.slot 3 = (1, 14)) ∧
    (dup_x1 shuffleThread).thread.slot 2 = shuffleThread.slot (2 + 1) ∧
    (dup_x1 shuffleThread).thread.slot (2 + 1) = shuffleThread.slot 2 ∧
    (dup_x1 shuffleThread).thread.slot (2 + 2) = shuffleThread.slot (2 + 1) ∧
    (dup_x2 shuffleThread).thread.slot 1 = shuffleThread.slot (1 + 2) ∧
    (dup2_x1 shuffleThread).thread.slot 1 = shuffleThread.slot (1 + 1) ∧
    (dup2_x1 shuffleThread).thread.slot (1 + 1) = shuffleThread.slot (1 + 2) ∧
    (dup2_x2 shuffleThread).thread.slot 0 = shuffleThread.slot (0 + 2) ∧
    (dup2_x2 shuffleThread).thread.slot (0 + 1) = shuffleThread.slot (0 + 3) ∧
    (swap shuffleThread).thread.slot 2 = shuffleThread.slot (2 + 1) ∧
    swap (swap shuffleThread).thread = .loop shuffleThread :=
  ⟨⟨by decide, by decide, by decide, by decide⟩, ⟨by decide, by decide⟩,
    ((stack_opcodes_reshuffle shuffleThread 2 (by decide)).1 (by decide)).2.2.1,
    ((stack_opcodes_reshuffle shuffleThread 2 (by decide)).1 (by decide)).2.2.2.1,
    ((stack_opcodes_reshuffle shuffleThread 2 (by decide)).1 (by decide)).2.2.2.2.1,
    ((stack_opcodes_reshuffle shuffleThread 1 (by decide)).2.1 (by decide)).2.2.1,
    ((stack_opcodes_reshuffle shuffleThread 1 (by decide)).2.2.1 (by decide)).2.2.1,
    ((stack_opcodes_reshuffle shuffleThread 1 (by decide)).2.2.1 (by decide)).2.2.2.1,
    ((stack_opcodes_reshuffle shuffleThread 0 (by decide)).2.2.2.1 (by decide)).2.2.1,
    ((stack_opcodes_reshuffle shuffleThread 0 (by decide)).2.2.2.1 (by decide)).2.2.2.1,
    ((stack_opcodes_reshuffle shuffleThread 2 (by decide)).2.2.2.2 (by decide)).2.2.1,
    ((stack_opcodes_reshuffle shuffleThread 2 (by decide)).2.2.2.2 (by decide)).2.2.2.2.2.2⟩

/-! ## C36: the facade `invoke` -/

/-- C36 fails in the code: when `checkStack` signals stack-overflow, or a native method
cannot be resolved, `invoke` returns with the arguments still on the stack.  `demoCallThread`
has pushed the two argument slots of the call (`sp` was 5 before, and is 7).  Method 102 needs
more stack than there is: `invoke` returns null with the stack-overflow error 11 pending, the
frame unchanged and `sp = 7`.  The native method 104 cannot be found: `invoke` returns null
with the unsatisfied-link error 16 pending and `sp = 7`.  (Method 100 is called and returns:
`sp = 5` and the frame is as before.) -/
theorem invoke_leaves_arguments :
    demoCallThread.sp = 7 ∧ demoCallThread.frame = 1 ∧
    facadeMachine.methodParameterFootprint 102 = 2 ∧
    (invoke demoCalls facadeMachine demoCallThread 102).isDone = true ∧
    (invoke demoCalls facadeMachine demoCallThread 102).thread.exception = 11 ∧
    (invoke demoCalls facadeMachine demoCallThread 102).thread.frame = 1 ∧
    (invoke demoCalls facadeMachine demoCallThread 102).thread.sp = 7 ∧
    facadeMachine.methodParameterFootprint 104 = 2 ∧
    facadeMachine.methodFlags 104 &&& ACC_NATIVE ≠ 0 ∧
    (invoke demoCalls facadeMachine demoCallThread 104).isDone = true ∧
    (invoke demoCalls facadeMachine demoCallThread 104).thread.exception = 16 ∧
    (invoke demoCalls facadeMachine demoCallThread 104).thread.frame = 1 ∧
    (invoke demoCalls facadeMachine demoCallThread 104).thread.sp = 7 ∧
    (invoke demoCalls facadeMachine demoCallThread 100).isDone = true ∧
    (invoke demoCalls facadeMachine demoCallThread 100).thread.exception = 0 ∧
    (invoke demoCalls facadeMachine demoCallThread 100).thread.frame = 1 ∧
    (invoke demoCalls facadeMachine demoCallThread 100).thread.sp = 5 := by
  decide

/-! ## C37: `checkStack` and the callee's operand stack -/

/-- C37 fails in the code for a method without parameters: `checkStack` accepts a call that
fills the stack exactly (`sp + pf + maxLocals + 4 + maxStack = StackSizeInWords / 2`), and a
push requires `sp + 1 < StackSizeInWords / 2`.  Method 101 has no parameters, one local and
`maxStack = 2`; at `sp = 4089` of 4096 `checkStack` does not signal, `pushFrame` leaves
`sp = 4094`, the first push of the body succeeds and the second fails its assertion. -/
theorem checkStack_admits_full_stack :
    demoMachine.methodParameterFootprint 101 = 0 ∧
    demoMachine.codeMaxLocals (demoMachine.methodCode 101) = 1 ∧
    demoMachine.codeMaxStack (demoMachine.methodCode 101) = 2 ∧
    StackSizeInWords demoMachine / 2 = 4096 ∧
    (checkStack demoMachine (threadAt 4089) 101).exception = 0 ∧
    (pushFrame demoMachine (checkStack demoMachine (threadAt 4089) 101) 101).isDone = true ∧
    (pushFrame demoMachine (checkStack demoMachine (threadAt 4089) 101) 101).thread.sp
      = 4094 ∧
    (pushSlots demoMachine 1
      (pushFrame demoMachine (checkStack demoMachine (threadAt 4089) 101) 101).thread).isDone
      = true ∧
    (pushSlots demoMachine 2
      (pushFrame demoMachine (checkStack demoMachine (threadAt 4089) 101) 101).thread).isDone
      = false ∧
    (checkStack demoMachine (threadAt 4090) 101).exception ≠ 0 := by
  decide

/-! ## C38: `wide astore` -/

/-- C38 fails in the code: `wide astore` pops its operand with `popObject`, which asserts an
`ObjectTag`, where `astore` copies the slot whatever its tag.  With the return address 13
(`IntTag`) on top of the stack, `astore 1` stores it in local 1 and pops it, and
`wide astore 1` stops at the assertion.  With the object 9 on top both store it in local 1 and
leave the same stack and `sp`. -/
theorem wide_astore_rejects_return_address :
    (fetch storeMachine (localsThread 218 0 [0, 0, 0, 0] [0, 13])).1 = op_astore ∧
    (astore storeMachine
      (fetch storeMachine (localsThread 218 0 [0, 0, 0, 0] [0, 13])).2).isLoop = true ∧
    (astore storeMachine
      (fetch storeMachine (localsThread 218 0 [0, 0, 0, 0] [0, 13])).2).thread.tag 1
      = IntTag ∧
    (astore storeMachine
      (fetch storeMachine (localsThread 218 0 [0, 0, 0, 0] [0, 13])).2).thread.value 1 = 13 ∧
    (astore storeMachine
      (fetch storeMachine (localsThread 218 0 [0, 0, 0, 0] [0, 13])).2).thread.sp = 6 ∧
    (fetch storeMachine (localsThread 218 2 [0, 0, 0, 0] [0, 13])).1 = op_wide ∧
    codeByte storeMachine 218 3 = op_astore ∧
    (codeReadInt16 storeMachine 218 4).1 = 1 ∧
    (wide storeMachine
      (fetch storeMachine (localsThread 218 2 [0, 0, 0, 0] [0, 13])).2).isAborted = true ∧
    (wide storeMachine
      (fetch storeMachine (localsThread 218 2 [0, 0, 0, 0] [1, 9])).2).isLoop = true ∧
    (astore storeMachine
      (fetch storeMachine (localsThread 218 0 [0, 0, 0, 0] [1, 9])).2).isLoop = true ∧
    (wide storeMachine
      (fetch storeMachine (localsThread 218 2 [0, 0, 0, 0] [1, 9])).2).thread.sp
      = (astore storeMachine
        (fetch storeMachine (localsThread 218 0 [0, 0, 0, 0] [1, 9])).2).thread.sp ∧
    (∀ j, j < 20 →
      (wide storeMachine
        (fetch storeMachine (localsThread 218 2 [0, 0, 0, 0] [1, 9])).2).thread.stack j
      = (astore storeMachine
        (fetch storeMachine (localsThread 218 0 [0, 0, 0, 0] [1, 9])).2).thread.stack j) := by
  decide

/-! ## C39: `char` fields -/

/-- C39 fails in the code for `char` fields: `pushField` reads a `char` field as `int16_t`,
as it does a `short` field, so that a character with bit 15 set is pushed sign-extended.
`putfield` of 65535 into the `char` field at offset 16 of object 9 followed by `pushField` on
the same field pushes 4294967295 (`-1`), where `i2c` of 65535 pushes 65535; the character 65
is pushed as 65 by both.  For a `short` field the pushed value is that of `i2s`. -/
theorem char_field_load_sign_extends :
    (putfield machine64 (fun _ _ => 0) (operandThread 0 0 2 [1, 9, 0, 65535])
      CharField 16).1.isLoop = true ∧
    (putfield machine64 (fun _ _ => 0) (operandThread 0 0 2 [1, 9, 0, 65535])
      CharField 16).1.thread.sp = 0 ∧
    (pushField machine64
      (putfield machine64 (fun _ _ => 0) (operandThread 0 0 2 [1, 9, 0, 65535])
        CharField 16).2
      (putfield machine64 (fun _ _ => 0) (operandThread 0 0 2 [1, 9, 0, 65535])
        CharField 16).1.thread 9 CharField 16).isDone = true ∧
    (pushField machine64
      (putfield machine64 (fun _ _ => 0) (operandThread 0 0 2 [1, 9, 0, 65535])
        CharField 16).2
      (putfield machine64 (fun _ _ => 0) (operandThread 0 0 2 [1, 9, 0, 65535])
        CharField 16).1.thread 9 CharField 16).thread.value 0 = 4294967295 ∧
    (i2c machine64 (operandThread 0 0 1 [0, 65535])).isLoop = true ∧
    (i2c machine64 (operandThread 0 0 1 [0, 65535])).thread.value 0 = 65535 ∧
    (pushField machine64
      (putfield machine64 (fun _ _ => 0) (operandThread 0 0 2 [1, 9, 0, 65])
        CharField 16).2
      (putfield machine64 (fun _ _ => 0) (operandThread 0 0 2 [1, 9, 0, 65])
        CharField 16).1.thread 9 CharField 16).thread.value 0 = 65 ∧
    (i2c machine64 (operandThread 0 0 1 [0, 65])).thread.value 0 = 65 ∧
    (pushField machine64
      (putfield machine64 (fun _ _ => 0) (operandThread 0 0 2 [1, 9, 0, 65535])
        ShortField 16).2
      (putfield machine64 (fun _ _ => 0) (operandThread 0 0 2 [1, 9, 0, 65535])
        ShortField 16).1.thread 9 ShortField 16).thread.value 0 = 4294967295 ∧
    (i2s machine64 (operandThread 0 0 1 [0, 65535])).thread.value 0 = 4294967295 := by
  decide

/-! ## C40: an exception escaping a class initializer -/

/-- C40 fails in the code: `classInit(class, 3)` rewinds `ip` to the address `p` of the
triggering instruction, `pushFrame` saves this `ip` in the triggering frame, and the range
test of `findExceptionHandler` is made on `ip - 1`, the address before the instruction.  The
instruction at `p = 5` of method 110 is covered by the catch-all handler `{start 5, end 8}`;
`classInit(20, 3)` fires, the initializer's frame is pushed with 5 saved in the triggering
frame, and the exception 9 raised in the initializer is not caught there: the handler lookup
for the triggering frame finds nothing and `interpret` returns null with the exception
pending.  The same holds at `p = 0` in method 111 (handler `{start 0, end 3}`), where
`ip - 1` wraps around.  Had the saved `ip` been that of an ordinary call (8), the handler
would have been found. -/
theorem initializer_exception_misses_handler :
    (classInit demoRuntime (clinitThread 110 5) 20 3).1 = true ∧
    (classInit demoRuntime (clinitThread 110 5) 20 3).2.ip = 5 ∧
    (invokeLabel demoCalls clinitMachine
      (classInit demoRuntime (clinitThread 110 5) 20 3).2).isLoop = true ∧
    (clinitThrowThread 110 5).frame = 5 ∧
    (clinitThrowThread 110 5).value 4 = 5 ∧
    clinitMachine.codeExceptionHandlerTable (clinitMachine.methodCode 110)
      = some [⟨5, 8, 40, 0⟩] ∧
    (throw_ clinitMachine 1 5 (clinitThrowThread 110 5)).isReturnNull = true ∧
    (throw_ clinitMachine 1 5 (clinitThrowThread 110 5)).thread.exception = 9 ∧
    (findExceptionHandler clinitMachine (clinitThrowThread 110 5) 110 5).1 = .null ∧
    (findExceptionHandler clinitMachine (clinitThrowThread 110 5) 110 8).1
      = .entry 0 ⟨5, 8, 40, 0⟩ ∧
    (classInit demoRuntime (clinitThread 111 0) 20 3).2.ip = 0 ∧
    (clinitThrowThread 111 0).value 4 = 0 ∧
    clinitMachine.codeExceptionHandlerTable (clinitMachine.methodCode 111)
      = some [⟨0, 3, 40, 0⟩] ∧
    (throw_ clinitMachine 1 5 (clinitThrowThread 111 0)).isReturnNull = true ∧
    (findExceptionHandler clinitMachine (clinitThrowThread 111 0) 111 0).1 = .null := by
  decide

end Avian
